import Mathlib

/-!
# MAC-POSTS multiclass DTA core

A shallow embedding of `src/src/minami/multiclass.cpp` (multiclass CTM link,
point-queue link, origin / destination / junction nodes, origin release,
vehicle factory) and of `Dta_Api::get_link_tt` of
`src/src/pybinder/src/dta_api.cpp`, and theorems about them.

Conventions of the embedding

* `TFlt` (a wrapped `double`) is the field `ℚ`: arithmetic is exact. The
  perceived densities of a cell, which `update_perceived_density` computes
  with divisors that can be 0, are in addition followed as values of IEEE 754
  (a number, an infinity or a NaN) in the section on the CTM link in that
  arithmetic.
* `TInt` (a wrapped `int`) is `Int`. The count of the vehicle factory, which
  grows with every vehicle made, is kept in the 32 bits of an `int`
  (`TInt_wrap`); the other counts stay far from the machine bounds.
* A `std::deque` / `std::vector` is a `List`; `front()` is the head,
  `push_back` appends at the tail. The `std::unordered_map` of the
  point-queue link is the list of its entries in the order of iteration.
* A pointer to a link, an origin or a destination is the `Nat` identifier of
  the object it points to, `NULL` is `none`; pointer equality is equality of
  identifiers.
* A node holds its links by value; a link is assumed to occur once in the
  arrays of one node. The links of a node are CTM links (the junction casts
  its links to `MNM_Dlink_Ctm_Multiclass`).
* A function that can call `exit(-1)`, or whose behaviour is not defined
  (`front()` of an empty deque, an index outside a vector, a null
  dereference) returns an `Outcome`.
* The random source is a stream of draws with a read position.
-/

namespace MacPosts

/-! ## Outcomes and the random source -/

/-- How a call of the simulator ends. -/
inductive Outcome (σ : Type) where
  /-- The call returned, leaving state `s`. -/
  | returned (s : σ)
  /-- The call ran `exit(-1)`; `s` is the state at that moment. -/
  | aborted (s : σ)
  /-- The call reached behaviour C++ leaves undefined, or computed with a NaN,
  a value the rational model of `TFlt` does not have. -/
  | undefined
  /-- The loop was still running when the fuel of the model ran out. -/
  | out_of_fuel

/-- Applies `f` to the state an outcome carries. -/
def Outcome.map {σ τ : Type} (f : σ → τ) : Outcome σ → Outcome τ
  | .returned s => .returned (f s)
  | .aborted s => .aborted (f s)
  | .undefined => .undefined
  | .out_of_fuel => .out_of_fuel

/-- The random source: the draws it will give, and how many were taken. -/
structure Rng where
  stream : Nat → ℚ
  pos : Nat

/-- Modelled from the spec: `MNM_Ults::rand_flt` (its file is not part of the
sources), the single random source of the simulation: it gives the next draw
of the stream. -/
def MNM_Ults.rand_flt (g : Rng) : ℚ × Rng :=
  (g.stream g.pos, { g with pos := g.pos + 1 })

/-- Modelled from the spec: `MNM_Ults::min` (not part of the sources), the
smaller of two numbers. -/
def MNM_Ults.min (a b : ℚ) : ℚ := if b < a then b else a

/-- Modelled from the spec: `MNM_Ults::divide` (not part of the sources), the
quotient "guarded against division by zero": 0 when the divisor is 0. -/
def MNM_Ults.divide (a b : ℚ) : ℚ := if b = 0 then 0 else a / b

/-- The conversion `TInt(x)` of a `TFlt`: truncation toward zero. -/
def TInt_of_TFlt (x : ℚ) : Int := if 0 ≤ x then ⌊x⌋ else ⌈x⌉

/-- The element `v[i]` of a vector for a `TInt` index; `none` outside it. -/
def vec_at {α : Type} (v : List α) (i : Int) : Option α :=
  if 0 ≤ i then v[i.toNat]? else none

/-- The vector `v` with `v[i]` replaced. -/
def vec_set {α : Type} (v : List α) (i : Int) (a : α) : List α :=
  if 0 ≤ i then v.set i.toNat a else v

/-! ## Vehicles and cumulative curves -/

/-- The routing type of a vehicle. -/
inductive Vehicle_type where
  | MNM_TYPE_ADAPTIVE
  | MNM_TYPE_STATIC
  deriving DecidableEq

/-- A vehicle: `MNM_Veh_Multiclass` with the fields of its base class. -/
structure MNM_Veh_Multiclass where
  m_veh_ID : Int
  /-- Class 0 is a private car, any other value (1) a truck. -/
  m_class : Int
  m_start_time : Int
  m_type : Vehicle_type
  m_current_link : Option Nat
  m_next_link : Option Nat
  m_dest : Option Nat
  m_origin : Option Nat
  deriving DecidableEq

/-- The call `has_next_link()`. -/
def MNM_Veh_Multiclass.has_next_link (v : MNM_Veh_Multiclass) : Bool :=
  v.m_next_link.isSome

/-- The call `set_current_link(link)`. -/
def MNM_Veh_Multiclass.set_current_link (v : MNM_Veh_Multiclass) (link : Option Nat) :
    MNM_Veh_Multiclass :=
  { v with m_current_link := link }

/-- A cumulative count curve: its records `(time, count)` in the order added. -/
structure MNM_Cumulative_Curve where
  m_recorder : List (ℚ × ℚ)
  deriving DecidableEq

/-- Modelled from the spec: `MNM_Cumulative_Curve::add_record` (not part of
the sources) appends a record to the "append-only time-indexed stream". -/
def MNM_Cumulative_Curve.add_record (c : MNM_Cumulative_Curve) (r : ℚ × ℚ) :
    MNM_Cumulative_Curve :=
  { m_recorder := c.m_recorder ++ [r] }

/-- Modelled from the spec: `MNM_Cumulative_Curve::add_increment` (not part of
the sources), the `N(t) += increment` of the spec: it appends the record
`(t, last count + increment)`. -/
def MNM_Cumulative_Curve.add_increment (c : MNM_Cumulative_Curve) (r : ℚ × ℚ) :
    MNM_Cumulative_Curve :=
  match c.m_recorder.getLast? with
  | none => c.add_record r
  | some best => c.add_record (r.1, r.2 + best.2)

/-- The curve after `install_cumulative_curve_multiclass`: the record (0, 0). -/
def MNM_Cumulative_Curve.installed : MNM_Cumulative_Curve :=
  { m_recorder := [(0, 0)] }

/-- The guarded call `if (curve != NULL) curve -> add_increment(r)`. -/
def add_increment_if_installed (curve : Option MNM_Cumulative_Curve) (r : ℚ × ℚ) :
    Option MNM_Cumulative_Curve :=
  curve.map (fun c => c.add_increment r)

/-! ## The CTM cell and the CTM link -/

/-- The cell of a CTM link, `Ctm_Cell_Multiclass`. -/
structure Ctm_Cell_Multiclass where
  m_cell_length : ℚ
  m_unit_time : ℚ
  m_flow_scalar : ℚ
  m_hold_cap_car : ℚ
  m_hold_cap_truck : ℚ
  m_critical_density_car : ℚ
  m_critical_density_truck : ℚ
  m_rho_1_N : ℚ
  m_flow_cap_car : ℚ
  m_flow_cap_truck : ℚ
  m_ffs_car : ℚ
  m_ffs_truck : ℚ
  m_wave_speed_car : ℚ
  m_wave_speed_truck : ℚ
  m_volume_car : Int
  m_volume_truck : Int
  m_out_veh_car : Int
  m_out_veh_truck : Int
  m_veh_queue_car : List MNM_Veh_Multiclass
  m_veh_queue_truck : List MNM_Veh_Multiclass
  m_perceived_density_car : ℚ
  m_perceived_density_truck : ℚ
  m_space_fraction_car : ℚ
  m_space_fraction_truck : ℚ
  deriving DecidableEq

/-- The link `MNM_Dlink_Ctm_Multiclass` with the fields of its base class. -/
structure MNM_Dlink_Ctm_Multiclass where
  m_link_ID : Nat
  m_number_of_lane : Int
  m_length : ℚ
  m_lane_hold_cap_car : ℚ
  m_lane_hold_cap_truck : ℚ
  m_lane_flow_cap_car : ℚ
  m_lane_flow_cap_truck : ℚ
  m_lane_critical_density_car : ℚ
  m_lane_critical_density_truck : ℚ
  m_lane_rho_1_N : ℚ
  m_ffs_car : ℚ
  m_ffs_truck : ℚ
  m_wave_speed_car : ℚ
  m_wave_speed_truck : ℚ
  m_veh_convert_factor : ℚ
  m_flow_scalar : ℚ
  m_num_cells : Int
  m_cell_array : List Ctm_Cell_Multiclass
  m_incoming_array : List MNM_Veh_Multiclass
  m_finished_array : List MNM_Veh_Multiclass
  m_N_in_car : Option MNM_Cumulative_Curve
  m_N_out_car : Option MNM_Cumulative_Curve
  m_N_in_truck : Option MNM_Cumulative_Curve
  m_N_out_truck : Option MNM_Cumulative_Curve
  deriving DecidableEq

/-- The function `Ctm_Cell_Multiclass::get_perceived_demand`. -/
def Ctm_Cell_Multiclass.get_perceived_demand (c : Ctm_Cell_Multiclass) (veh_type : Int) : ℚ :=
  if veh_type = 0 then
    min c.m_flow_cap_car (c.m_ffs_car * c.m_perceived_density_car) * c.m_unit_time
  else
    min c.m_flow_cap_truck (c.m_ffs_truck * c.m_perceived_density_truck) * c.m_unit_time

/-- The function `Ctm_Cell_Multiclass::get_perceived_supply`. -/
def Ctm_Cell_Multiclass.get_perceived_supply (c : Ctm_Cell_Multiclass) (veh_type : Int) : ℚ :=
  let _tmp :=
    if veh_type = 0 then
      min c.m_flow_cap_car (c.m_wave_speed_car * (c.m_hold_cap_car - c.m_perceived_density_car))
    else
      min c.m_flow_cap_truck
        (c.m_wave_speed_truck * (c.m_hold_cap_truck - c.m_perceived_density_truck))
  max 0 _tmp * c.m_unit_time

/-- The loop of `update_out_veh` over the cells `i`, `i + 1`, ... (`n` of them
left): it sets the out counts of cell `i` from its demand and the supply of
cell `i + 1`. `round` is `MNM_Ults::round`, which is not part of the sources. -/
def update_out_veh_loop (round : ℚ → Int) (m_flow_scalar : ℚ) :
    Nat → Nat → List Ctm_Cell_Multiclass → Option (List Ctm_Cell_Multiclass)
  | 0, _, cells => some cells
  | n + 1, i, cells =>
    match cells[i]?, cells[i + 1]? with
    | some ci, some cj =>
      let _demand_car := ci.get_perceived_demand 0
      let _supply_car := cj.get_perceived_supply 0
      let _temp_out_flux_car := ci.m_space_fraction_car * MNM_Ults.min _demand_car _supply_car
      let _demand_truck := ci.get_perceived_demand 1
      let _supply_truck := cj.get_perceived_supply 1
      let _temp_out_flux_truck :=
        ci.m_space_fraction_truck * MNM_Ults.min _demand_truck _supply_truck
      update_out_veh_loop round m_flow_scalar n (i + 1)
        (cells.set i
          { ci with
            m_out_veh_car := round (_temp_out_flux_car * m_flow_scalar)
            m_out_veh_truck := round (_temp_out_flux_truck * m_flow_scalar) })
    | _, _ => none

/-- The function `MNM_Dlink_Ctm_Multiclass::update_out_veh`; `none` when a
cell it indexes does not exist. -/
def MNM_Dlink_Ctm_Multiclass.update_out_veh (round : ℚ → Int) (l : MNM_Dlink_Ctm_Multiclass) :
    Option MNM_Dlink_Ctm_Multiclass :=
  let cells1 :=
    if l.m_num_cells > 1 then
      update_out_veh_loop round l.m_flow_scalar (l.m_num_cells - 1).toNat 0 l.m_cell_array
    else some l.m_cell_array
  match cells1 with
  | none => none
  | some cells =>
    match vec_at cells (l.m_num_cells - 1) with
    | none => none
    | some c =>
      some { l with
        m_cell_array := vec_set cells (l.m_num_cells - 1)
          { c with
            m_out_veh_car := (c.m_veh_queue_car.length : Int)
            m_out_veh_truck := (c.m_veh_queue_truck.length : Int) } }

/-- The block of `move_last_cell` that takes the front car of the last cell
and pushes it to `finished_array`: `front()` of an empty queue is undefined,
a vehicle without next link ends the run with `exit(-1)`. -/
def move_last_cell_car (c : Ctm_Cell_Multiclass) (finished : List MNM_Veh_Multiclass) :
    Outcome (Ctm_Cell_Multiclass × List MNM_Veh_Multiclass) :=
  match c.m_veh_queue_car with
  | [] => .undefined
  | _veh :: rest =>
    if _veh.has_next_link then
      .returned ({ c with m_veh_queue_car := rest }, finished ++ [_veh])
    else
      .aborted ({ c with m_veh_queue_car := rest }, finished)

/-- The same block for the front truck of the last cell. -/
def move_last_cell_truck (c : Ctm_Cell_Multiclass) (finished : List MNM_Veh_Multiclass) :
    Outcome (Ctm_Cell_Multiclass × List MNM_Veh_Multiclass) :=
  match c.m_veh_queue_truck with
  | [] => .undefined
  | _veh :: rest =>
    if _veh.has_next_link then
      .returned ({ c with m_veh_queue_truck := rest }, finished ++ [_veh])
    else
      .aborted ({ c with m_veh_queue_truck := rest }, finished)

/-- The `while` loop of `move_last_cell`. The two counters and `_pstar` are
the values read before the loop: no statement of the loop assigns them. The
state is the last cell, `finished_array` and the random source. -/
def move_last_cell_loop (_num_veh_tomove_car _num_veh_tomove_truck : Int) (_pstar : ℚ) :
    Nat → Ctm_Cell_Multiclass × List MNM_Veh_Multiclass × Rng →
      Outcome (Ctm_Cell_Multiclass × List MNM_Veh_Multiclass × Rng)
  | 0, _ => .out_of_fuel
  | fuel + 1, (c, finished, g) =>
    if _num_veh_tomove_car > 0 ∨ _num_veh_tomove_truck > 0 then
      let (_r, g1) := MNM_Ults.rand_flt g
      let moved :=
        if _r < _pstar then
          if _num_veh_tomove_car > 0 then move_last_cell_car c finished
          else move_last_cell_truck c finished
        else
          if _num_veh_tomove_truck > 0 then move_last_cell_truck c finished
          else move_last_cell_car c finished
      match moved with
      | .returned (c1, finished1) =>
        move_last_cell_loop _num_veh_tomove_car _num_veh_tomove_truck _pstar fuel
          (c1, finished1, g1)
      | .aborted (c1, finished1) => .aborted (c1, finished1, g1)
      | .undefined => .undefined
      | .out_of_fuel => .out_of_fuel
    else .returned (c, finished, g)

/-- The function `MNM_Dlink_Ctm_Multiclass::move_last_cell`, run for at most
`fuel` iterations of its loop. -/
def MNM_Dlink_Ctm_Multiclass.move_last_cell (fuel : Nat) (l : MNM_Dlink_Ctm_Multiclass)
    (g : Rng) : Outcome (MNM_Dlink_Ctm_Multiclass × Rng) :=
  match vec_at l.m_cell_array (l.m_num_cells - 1) with
  | none => .undefined
  | some c =>
    let _num_veh_tomove_car := c.m_out_veh_car
    let _num_veh_tomove_truck := c.m_out_veh_truck
    let _pstar : ℚ :=
      (_num_veh_tomove_car : ℚ) / ((_num_veh_tomove_car + _num_veh_tomove_truck : Int) : ℚ)
    (move_last_cell_loop _num_veh_tomove_car _num_veh_tomove_truck _pstar fuel
        (c, l.m_finished_array, g)).map
      (fun s =>
        ({ l with
            m_cell_array := vec_set l.m_cell_array (l.m_num_cells - 1) s.1
            m_finished_array := s.2.1 }, s.2.2))

/-- The function `MNM_Dlink_Ctm_Multiclass::get_link_supply`; `none` when the
link has no cell 0. -/
def MNM_Dlink_Ctm_Multiclass.get_link_supply (l : MNM_Dlink_Ctm_Multiclass) : Option ℚ :=
  match l.m_cell_array with
  | [] => none
  | c0 :: _ =>
    let _real_volume_both :=
      ((c0.m_volume_truck : ℚ) * l.m_veh_convert_factor + (c0.m_volume_car : ℚ))
        / l.m_flow_scalar
    let _density := _real_volume_both / c0.m_cell_length
    let _tmp := min c0.m_flow_cap_car (l.m_wave_speed_car * (c0.m_hold_cap_car - _density))
    some (max 0 _tmp * c0.m_unit_time)

/-- The `for` loop of `clear_incoming_array`: `i` is the loop counter, the
first list is `m_incoming_array`, whose size the loop test reads again at
every iteration, the other two are the queues of cell 0. -/
def clear_incoming_array_loop :
    Nat → List MNM_Veh_Multiclass → List MNM_Veh_Multiclass → List MNM_Veh_Multiclass →
      List MNM_Veh_Multiclass × List MNM_Veh_Multiclass × List MNM_Veh_Multiclass
  | _, [], queue_car, queue_truck => ([], queue_car, queue_truck)
  | i, _veh :: rest, queue_car, queue_truck =>
    if i < (_veh :: rest).length then
      if _veh.m_class = 0 then
        clear_incoming_array_loop (i + 1) rest (queue_car ++ [_veh]) queue_truck
      else
        clear_incoming_array_loop (i + 1) rest queue_car (queue_truck ++ [_veh])
    else (_veh :: rest, queue_car, queue_truck)

/-- The function `MNM_Dlink_Ctm_Multiclass::clear_incoming_array`. -/
def MNM_Dlink_Ctm_Multiclass.clear_incoming_array (l : MNM_Dlink_Ctm_Multiclass) :
    Outcome MNM_Dlink_Ctm_Multiclass :=
  match l.get_link_supply, l.m_cell_array with
  | some supply, c0 :: cells =>
    if supply * l.m_flow_scalar < (l.m_incoming_array.length : ℚ) then .aborted l
    else
      let s := clear_incoming_array_loop 0 l.m_incoming_array c0.m_veh_queue_car
        c0.m_veh_queue_truck
      .returned { l with
        m_incoming_array := s.1
        m_cell_array :=
          { c0 with
            m_veh_queue_car := s.2.1
            m_veh_queue_truck := s.2.2
            m_volume_car := (s.2.1.length : Int)
            m_volume_truck := (s.2.2.length : Int) } :: cells }
  | _, _ => .undefined

/-! ## The origin node -/

/-- The origin node `MNM_DMOND_Multiclass` with the fields of its base class.
`m_out_volume` maps a link pointer to a `TInt`: the code assigns it
`TInt(...)` values and reads it through `TFlt(...)`. -/
structure MNM_DMOND_Multiclass where
  m_node_ID : Nat
  m_flow_scalar : ℚ
  m_in_veh_queue : List MNM_Veh_Multiclass
  m_out_link_array : List MNM_Dlink_Ctm_Multiclass
  m_out_volume : Option Nat → Int

/-- The link of `links` that the pointer `p` points to. -/
def find_link (links : List MNM_Dlink_Ctm_Multiclass) (p : Nat) :
    Option MNM_Dlink_Ctm_Multiclass :=
  links.find? (fun l => l.m_link_ID = p)

/-- First loop of `MNM_DMOND_Multiclass::evolve`: `m_out_volume[_link] = 0`
for every out-link. -/
def DMOND_reset_out_volume (links : List MNM_Dlink_Ctm_Multiclass) (vol : Option Nat → Int) :
    Option Nat → Int :=
  links.foldl (fun v l => Function.update v (some l.m_link_ID) 0) vol

/-- The "compute out flow" loop of `MNM_DMOND_Multiclass::evolve` over the
queued vehicles. A car adds 1 to the volume of its next link, a truck adds
the `m_veh_convert_factor` of its next link, converted to `int` by `+=`. A
truck whose next link is null dereferences a null pointer. The entry of a
link outside `m_out_link_array` is never read by `evolve`; the model leaves
it alone when a truck is bound for such a link. -/
def DMOND_compute_out_volume (links : List MNM_Dlink_Ctm_Multiclass) :
    List MNM_Veh_Multiclass → (Option Nat → Int) → Option (Option Nat → Int)
  | [], vol => some vol
  | _veh :: rest, vol =>
    if _veh.m_class = 0 then
      DMOND_compute_out_volume links rest
        (Function.update vol _veh.m_next_link (vol _veh.m_next_link + 1))
    else
      match _veh.m_next_link with
      | none => none
      | some p =>
        match find_link links p with
        | some _link =>
          DMOND_compute_out_volume links rest
            (Function.update vol (some p)
              (vol (some p) + TInt_of_TFlt _link.m_veh_convert_factor))
        | none => DMOND_compute_out_volume links rest vol

/-- The loop of `MNM_DMOND_Multiclass::evolve` that caps the volume of every
out-link at `TInt(get_link_supply() * m_flow_scalar)`. -/
def DMOND_cap_out_volume (m_flow_scalar : ℚ) :
    List MNM_Dlink_Ctm_Multiclass → (Option Nat → Int) → Option (Option Nat → Int)
  | [], vol => some vol
  | _link :: rest, vol =>
    match _link.get_link_supply with
    | none => none
    | some supply =>
      if supply * m_flow_scalar < ((vol (some _link.m_link_ID) : Int) : ℚ) then
        DMOND_cap_out_volume m_flow_scalar rest
          (Function.update vol (some _link.m_link_ID) (TInt_of_TFlt (supply * m_flow_scalar)))
      else DMOND_cap_out_volume m_flow_scalar rest vol

/-- State of the inner `while` loop of the "move vehicle" part of
`MNM_DMOND_Multiclass::evolve` for one out-link. -/
structure DMOND_scan where
  /-- The queued vehicles the iterator has passed and left in the queue. -/
  passed : List MNM_Veh_Multiclass
  /-- The queued vehicles from the iterator on. -/
  ahead : List MNM_Veh_Multiclass
  /-- The entry `m_out_volume[_link]`. -/
  out_volume : Int
  /-- The array `_link -> m_incoming_array`. -/
  incoming : List MNM_Veh_Multiclass
  moved_car : Int
  moved_truck : Int

/-- The inner `while` loop of the "move vehicle" part of
`MNM_DMOND_Multiclass::evolve` for the out-link `_link`, by recursion on the
vehicles from the iterator on. -/
def DMOND_move_loop (_link : MNM_Dlink_Ctm_Multiclass) (passed : List MNM_Veh_Multiclass)
    (out_volume : Int) (incoming : List MNM_Veh_Multiclass) (moved_car moved_truck : Int) :
    List MNM_Veh_Multiclass → DMOND_scan
  | [] =>
    { passed := passed, ahead := [], out_volume := out_volume, incoming := incoming,
      moved_car := moved_car, moved_truck := moved_truck }
  | _veh :: rest =>
    if out_volume > 0 then
      if _veh.m_next_link = some _link.m_link_ID then
        if _veh.m_class = 0 then
          DMOND_move_loop _link passed (out_volume - 1)
            (incoming ++ [_veh.set_current_link (some _link.m_link_ID)])
            (moved_car + 1) moved_truck rest
        else
          DMOND_move_loop _link passed
            (out_volume - TInt_of_TFlt _link.m_veh_convert_factor)
            (incoming ++ [_veh.set_current_link (some _link.m_link_ID)])
            moved_car (moved_truck + 1) rest
      else
        DMOND_move_loop _link (passed ++ [_veh]) out_volume incoming moved_car moved_truck rest
    else
      { passed := passed, ahead := _veh :: rest, out_volume := out_volume,
        incoming := incoming, moved_car := moved_car, moved_truck := moved_truck }

/-- The "move vehicle" loop of `MNM_DMOND_Multiclass::evolve` over the
out-links: `done` are the out-links already handled, the list argument the
ones still to handle. -/
def DMOND_move_links (timestamp : Int) (m_flow_scalar : ℚ) :
    List MNM_Dlink_Ctm_Multiclass → List MNM_Veh_Multiclass → (Option Nat → Int) →
      List MNM_Dlink_Ctm_Multiclass →
      List MNM_Dlink_Ctm_Multiclass × List MNM_Veh_Multiclass × (Option Nat → Int)
  | done, queue, vol, [] => (done, queue, vol)
  | done, queue, vol, _link :: rest =>
    let s := DMOND_move_loop _link [] (vol (some _link.m_link_ID)) _link.m_incoming_array 0 0 queue
    let _link1 : MNM_Dlink_Ctm_Multiclass :=
      { _link with
        m_incoming_array := s.incoming
        m_N_in_car := add_increment_if_installed _link.m_N_in_car
          (((timestamp + 1 : Int) : ℚ), (s.moved_car : ℚ) / m_flow_scalar)
        m_N_in_truck := add_increment_if_installed _link.m_N_in_truck
          (((timestamp + 1 : Int) : ℚ), (s.moved_truck : ℚ) / m_flow_scalar) }
    DMOND_move_links timestamp m_flow_scalar (done ++ [_link1]) (s.passed ++ s.ahead)
      (Function.update vol (some _link.m_link_ID) s.out_volume) rest

/-- The function `MNM_DMOND_Multiclass::evolve`; `none` when its behaviour is
undefined (a truck without next link, an out-link without cell 0). -/
def MNM_DMOND_Multiclass.evolve (n : MNM_DMOND_Multiclass) (timestamp : Int) :
    Option MNM_DMOND_Multiclass :=
  let vol0 := DMOND_reset_out_volume n.m_out_link_array n.m_out_volume
  match DMOND_compute_out_volume n.m_out_link_array n.m_in_veh_queue vol0 with
  | none => none
  | some vol1 =>
    match DMOND_cap_out_volume n.m_flow_scalar n.m_out_link_array vol1 with
    | none => none
    | some vol2 =>
      let s := DMOND_move_links timestamp n.m_flow_scalar [] n.m_in_veh_queue vol2
        n.m_out_link_array
      some { n with m_out_link_array := s.1, m_in_veh_queue := s.2.1, m_out_volume := s.2.2 }

/-! ## The destination node -/

/-- The destination node `MNM_DMDND_Multiclass` with the fields of its base
class. -/
structure MNM_DMDND_Multiclass where
  m_node_ID : Nat
  m_flow_scalar : ℚ
  m_in_link_array : List MNM_Dlink_Ctm_Multiclass
  m_out_veh_queue : List MNM_Veh_Multiclass

/-- State of the inner loop of `MNM_DMDND_Multiclass::evolve`. -/
structure DMDND_scan where
  finished : List MNM_Veh_Multiclass
  out_veh_queue : List MNM_Veh_Multiclass
  moved_car : Int
  moved_truck : Int

/-- The inner loop of `MNM_DMDND_Multiclass::evolve`, `for (j = 0; j < _size;
++j)`, with the number of iterations left as first argument. -/
def DMDND_drain : Nat → DMDND_scan → Outcome DMDND_scan
  | 0, s => .returned s
  | k + 1, s =>
    match s.finished with
    | [] => .undefined
    | _veh :: rest =>
      if _veh.m_next_link ≠ none then .aborted s
      else if _veh.m_class = 0 then
        DMDND_drain k
          { finished := rest, out_veh_queue := s.out_veh_queue ++ [_veh.set_current_link none],
            moved_car := s.moved_car + 1, moved_truck := s.moved_truck }
      else
        DMDND_drain k
          { finished := rest, out_veh_queue := s.out_veh_queue ++ [_veh.set_current_link none],
            moved_car := s.moved_car, moved_truck := s.moved_truck + 1 }

/-- The outer loop of `MNM_DMDND_Multiclass::evolve` over the in-links: `done`
are the in-links already drained, the last list the ones still to drain. The
state of an outcome is (the in-link array, `m_out_veh_queue`). -/
def DMDND_evolve_links (timestamp : Int) (m_flow_scalar : ℚ) :
    List MNM_Dlink_Ctm_Multiclass → List MNM_Veh_Multiclass → List MNM_Dlink_Ctm_Multiclass →
      Outcome (List MNM_Dlink_Ctm_Multiclass × List MNM_Veh_Multiclass)
  | done, queue, [] => .returned (done, queue)
  | done, queue, _link :: rest =>
    match DMDND_drain _link.m_finished_array.length
        { finished := _link.m_finished_array, out_veh_queue := queue,
          moved_car := 0, moved_truck := 0 } with
    | .returned s =>
      let _link1 : MNM_Dlink_Ctm_Multiclass :=
        { _link with
          m_finished_array := s.finished
          m_N_out_car := add_increment_if_installed _link.m_N_out_car
            (((timestamp + 1 : Int) : ℚ), (s.moved_car : ℚ) / m_flow_scalar)
          m_N_out_truck := add_increment_if_installed _link.m_N_out_truck
            (((timestamp + 1 : Int) : ℚ), (s.moved_truck : ℚ) / m_flow_scalar) }
      DMDND_evolve_links timestamp m_flow_scalar (done ++ [_link1]) s.out_veh_queue rest
    | .aborted s =>
      .aborted (done ++ { _link with m_finished_array := s.finished } :: rest, s.out_veh_queue)
    | .undefined => .undefined
    | .out_of_fuel => .out_of_fuel

/-- The function `MNM_DMDND_Multiclass::evolve`. -/
def MNM_DMDND_Multiclass.evolve (n : MNM_DMDND_Multiclass) (timestamp : Int) :
    Outcome MNM_DMDND_Multiclass :=
  (DMDND_evolve_links timestamp n.m_flow_scalar [] n.m_out_veh_queue n.m_in_link_array).map
    (fun s => { n with m_in_link_array := s.1, m_out_veh_queue := s.2 })

/-! ## The junction node -/

/-- The in-out node `MNM_Dnode_Inout_Multiclass` with the fields of its base
class. The five arrays are indexed `i * |out| + j` (`m_supply` by `j`). -/
structure MNM_Dnode_Inout_Multiclass where
  m_node_ID : Nat
  m_flow_scalar : ℚ
  m_in_link_array : List MNM_Dlink_Ctm_Multiclass
  m_out_link_array : List MNM_Dlink_Ctm_Multiclass
  m_demand : Nat → ℚ
  m_supply : Nat → ℚ
  m_veh_flow : Nat → ℚ
  m_veh_moved_car : Nat → ℚ
  m_veh_moved_truck : Nat → ℚ

/-- The function `MNM_Dnode_Inout_Multiclass::prepare_loading`: the five
arrays are allocated and filled with zeros. -/
def MNM_Dnode_Inout_Multiclass.prepare_loading (n : MNM_Dnode_Inout_Multiclass) :
    MNM_Dnode_Inout_Multiclass :=
  { n with
    m_demand := fun _ => 0
    m_supply := fun _ => 0
    m_veh_flow := fun _ => 0
    m_veh_moved_car := fun _ => 0
    m_veh_moved_truck := fun _ => 0 }

/-- The first inner loop of `prepare_supplyANDdemand`: every finished vehicle
of an in-link must have its next link in `m_out_link_array`. The error branch
prints `get_next_link() -> m_link_ID()` before `exit(-1)`, a null dereference
when the next link is null. The state is not touched, so the outcome carries
none. -/
def check_next_links (out_links : List MNM_Dlink_Ctm_Multiclass) :
    List MNM_Veh_Multiclass → Outcome Unit
  | [] => .returned ()
  | _veh :: rest =>
    match _veh.m_next_link with
    | none => .undefined
    | some p =>
      if out_links.any (fun o => o.m_link_ID = p) then check_next_links out_links rest
      else .aborted ()

/-- The innermost loop of `prepare_supplyANDdemand`: the car-equivalent count
of the finished vehicles of `_in_link` bound for `_out_link`. -/
def equiv_count (_in_link _out_link : MNM_Dlink_Ctm_Multiclass) : ℚ :=
  _in_link.m_finished_array.foldl
    (fun _equiv_count _veh =>
      if _veh.m_next_link = some _out_link.m_link_ID then
        if _veh.m_class = 0 then _equiv_count + 1
        else _equiv_count + _in_link.m_veh_convert_factor
      else _equiv_count)
    0

/-- The loop over `j` of the demand part of `prepare_supplyANDdemand` for the
in-link of index `i`; the out-links left start at index `j`. -/
def prepare_demand_row (m_flow_scalar : ℚ) (_offset i : Nat)
    (_in_link : MNM_Dlink_Ctm_Multiclass) :
    Nat → List MNM_Dlink_Ctm_Multiclass → (Nat → ℚ) → (Nat → ℚ)
  | _, [], demand => demand
  | j, _out_link :: rest, demand =>
    prepare_demand_row m_flow_scalar _offset i _in_link (j + 1) rest
      (Function.update demand (_offset * i + j) (equiv_count _in_link _out_link / m_flow_scalar))

/-- The loop over `i` of the demand part of `prepare_supplyANDdemand`; the
in-links left start at index `i`. The outcome carries `m_demand`. -/
def prepare_demand (m_flow_scalar : ℚ) (out_links : List MNM_Dlink_Ctm_Multiclass) :
    Nat → List MNM_Dlink_Ctm_Multiclass → (Nat → ℚ) → Outcome (Nat → ℚ)
  | _, [], demand => .returned demand
  | i, _in_link :: rest, demand =>
    match check_next_links out_links _in_link.m_finished_array with
    | .returned _ =>
      prepare_demand m_flow_scalar out_links (i + 1) rest
        (prepare_demand_row m_flow_scalar out_links.length i _in_link 0 out_links demand)
    | .aborted _ => .aborted demand
    | .undefined => .undefined
    | .out_of_fuel => .out_of_fuel

/-- The supply loop of `prepare_supplyANDdemand`; the out-links left start at
index `j`. `none` when an out-link has no cell 0. -/
def prepare_supply : Nat → List MNM_Dlink_Ctm_Multiclass → (Nat → ℚ) → Option (Nat → ℚ)
  | _, [], supply => some supply
  | j, _out_link :: rest, supply =>
    match _out_link.get_link_supply with
    | none => none
    | some s => prepare_supply (j + 1) rest (Function.update supply j s)

/-- The function `MNM_Dnode_Inout_Multiclass::prepare_supplyANDdemand`. -/
def MNM_Dnode_Inout_Multiclass.prepare_supplyANDdemand (n : MNM_Dnode_Inout_Multiclass) :
    Outcome MNM_Dnode_Inout_Multiclass :=
  match prepare_demand n.m_flow_scalar n.m_out_link_array 0 n.m_in_link_array n.m_demand with
  | .returned demand =>
    match prepare_supply 0 n.m_out_link_array n.m_supply with
    | some supply => .returned { n with m_demand := demand, m_supply := supply }
    | none => .undefined
  | .aborted demand => .aborted { n with m_demand := demand }
  | .undefined => .undefined
  | .out_of_fuel => .out_of_fuel

/-- The body of the loop over `j` of `MNM_Dnode_FWJ_Multiclass::compute_flow`:
the flows into the out-link of index `j`. -/
def compute_flow_column (num_in _offset j : Nat) (demand supply veh_flow : Nat → ℚ) : Nat → ℚ :=
  let _sum_in_flow : ℚ :=
    (List.range num_in).foldl (fun acc i => acc + demand (i * _offset + j)) 0
  (List.range num_in).foldl
    (fun flow i =>
      let _portion := MNM_Ults.divide (demand (i * _offset + j)) _sum_in_flow
      Function.update flow (i * _offset + j)
        (MNM_Ults.min (demand (i * _offset + j)) (_portion * supply j)))
    veh_flow

/-- The function `MNM_Dnode_FWJ_Multiclass::compute_flow`. -/
def MNM_Dnode_FWJ_Multiclass.compute_flow (n : MNM_Dnode_Inout_Multiclass) :
    MNM_Dnode_Inout_Multiclass :=
  { n with
    m_veh_flow :=
      (List.range n.m_out_link_array.length).foldl
        (fun flow j =>
          compute_flow_column n.m_in_link_array.length n.m_out_link_array.length j
            n.m_demand n.m_supply flow)
        n.m_veh_flow }

/-- The function `MNM_Dnode_GRJ_Multiclass::compute_flow`, which does nothing. -/
def MNM_Dnode_GRJ_Multiclass.compute_flow (n : MNM_Dnode_Inout_Multiclass) :
    MNM_Dnode_Inout_Multiclass := n

/-- State of the `while` loop of `move_vehicle` for one pair (in-link `i`,
out-link `j`). -/
structure move_scan where
  /-- The finished vehicles of the in-link before the iterator. -/
  passed : List MNM_Veh_Multiclass
  /-- The finished vehicles of the in-link from the iterator on. -/
  ahead : List MNM_Veh_Multiclass
  to_move : ℚ
  /-- The array `_out_link -> m_incoming_array`. -/
  incoming : List MNM_Veh_Multiclass
  veh_moved_car : Nat → ℚ
  veh_moved_truck : Nat → ℚ
  rng : Rng

/-- The statements of `move_vehicle` that move the vehicle under the iterator
(the head of `ahead`, which the caller passes as `_veh` with the vehicles
after it) to the out-link and erase it from the finished array; `k` is the
index `i * _offset + j`. `to_move` is left as it is. -/
def move_scan.move_one (s : move_scan) (out_id k : Nat) (_veh : MNM_Veh_Multiclass)
    (rest : List MNM_Veh_Multiclass) (g : Rng) : move_scan :=
  { s with
    ahead := rest
    incoming := s.incoming ++ [_veh.set_current_link (some out_id)]
    veh_moved_car :=
      if _veh.m_class = 0 then Function.update s.veh_moved_car k (s.veh_moved_car k + 1)
      else s.veh_moved_car
    veh_moved_truck :=
      if _veh.m_class = 0 then s.veh_moved_truck
      else Function.update s.veh_moved_truck k (s.veh_moved_truck k + 1)
    rng := g }

/-- The `while` loop of `move_vehicle` for the in-link with convert factor
`vcf` and the out-link `out_id`, run for at most `fuel` iterations; `none`
when the fuel runs out. -/
def move_vehicle_scan (out_id : Nat) (vcf : ℚ) (k : Nat) : Nat → move_scan → Option move_scan
  | 0, _ => none
  | fuel + 1, s =>
    match s.ahead with
    | [] => some s
    | _veh :: rest =>
      if s.to_move > 0 then
        if _veh.m_next_link = some out_id then
          let _equiv_num : ℚ := if _veh.m_class = 0 then 1 else vcf
          if s.to_move < _equiv_num then
            let (_r, g1) := MNM_Ults.rand_flt s.rng
            if _r ≤ s.to_move / _equiv_num then
              move_vehicle_scan out_id vcf k fuel
                { s.move_one out_id k _veh rest g1 with to_move := s.to_move - _equiv_num }
            else
              move_vehicle_scan out_id vcf k fuel
                { s with to_move := s.to_move - _equiv_num, rng := g1 }
          else
            move_vehicle_scan out_id vcf k fuel
              { s.move_one out_id k _veh rest s.rng with to_move := s.to_move - _equiv_num }
        else
          move_vehicle_scan out_id vcf k fuel
            { s with passed := s.passed ++ [_veh], ahead := rest }
      else some s

/-- What the loops of `move_vehicle` carry: the in-links, the two counters of
moved vehicles and the random source. -/
structure move_state where
  in_links : List MNM_Dlink_Ctm_Multiclass
  veh_moved_car : Nat → ℚ
  veh_moved_truck : Nat → ℚ
  rng : Rng

/-- The loop over `i` of `move_vehicle` for the out-link `_out_link` of index
`j`; `seen` are the in-links already scanned, the last list the ones left,
from index `i` on. The outcome carries the state and the incoming array of
the out-link. After a scan a positive `to_move` ends the run with `exit(-1)`.
Every scan gets more fuel than it can use: an iteration that does not move
the iterator makes `to_move` negative. -/
def move_vehicle_in_links (m_flow_scalar : ℚ) (veh_flow : Nat → ℚ) (_offset j out_id : Nat) :
    Nat → List MNM_Dlink_Ctm_Multiclass → List MNM_Dlink_Ctm_Multiclass →
      List MNM_Veh_Multiclass → (Nat → ℚ) → (Nat → ℚ) → Rng →
      Outcome (move_state × List MNM_Veh_Multiclass)
  | _, seen, [], incoming, car, trk, g =>
    .returned ({ in_links := seen, veh_moved_car := car, veh_moved_truck := trk, rng := g },
      incoming)
  | i, seen, _in_link :: rest, incoming, car, trk, g =>
    match move_vehicle_scan out_id _in_link.m_veh_convert_factor (i * _offset + j)
        (2 * _in_link.m_finished_array.length + 2)
        { passed := [], ahead := _in_link.m_finished_array,
          to_move := veh_flow (i * _offset + j) * m_flow_scalar,
          incoming := incoming, veh_moved_car := car, veh_moved_truck := trk, rng := g } with
    | none => .out_of_fuel
    | some s =>
      let _in_link1 : MNM_Dlink_Ctm_Multiclass :=
        { _in_link with m_finished_array := s.passed ++ s.ahead }
      if s.to_move > 0 then
        .aborted ({ in_links := seen ++ _in_link1 :: rest, veh_moved_car := s.veh_moved_car,
                    veh_moved_truck := s.veh_moved_truck, rng := s.rng }, s.incoming)
      else
        move_vehicle_in_links m_flow_scalar veh_flow _offset j out_id (i + 1)
          (seen ++ [_in_link1]) rest s.incoming s.veh_moved_car s.veh_moved_truck s.rng

/-- The loop over `j` of `move_vehicle`; `done` are the out-links already
served, the last list the ones left, from index `j` on. `shuffle` is
`random_shuffle`, which is not part of the sources. The outcome carries the
state and the out-link array. -/
def move_vehicle_out_links (shuffle : Rng → List MNM_Veh_Multiclass → List MNM_Veh_Multiclass × Rng)
    (m_flow_scalar : ℚ) (veh_flow : Nat → ℚ) (_offset : Nat) :
    Nat → List MNM_Dlink_Ctm_Multiclass → List MNM_Dlink_Ctm_Multiclass → move_state →
      Outcome (move_state × List MNM_Dlink_Ctm_Multiclass)
  | _, done, [], st => .returned (st, done)
  | j, done, _out_link :: rest, st =>
    match move_vehicle_in_links m_flow_scalar veh_flow _offset j _out_link.m_link_ID 0 []
        st.in_links _out_link.m_incoming_array st.veh_moved_car st.veh_moved_truck st.rng with
    | .returned (st1, incoming) =>
      let shuffled := shuffle st1.rng incoming
      move_vehicle_out_links shuffle m_flow_scalar veh_flow _offset (j + 1)
        (done ++ [{ _out_link with m_incoming_array := shuffled.1 }]) rest
        { st1 with rng := shuffled.2 }
    | .aborted (st1, incoming) =>
      .aborted (st1, done ++ { _out_link with m_incoming_array := incoming } :: rest)
    | .undefined => .undefined
    | .out_of_fuel => .out_of_fuel

/-- The function `MNM_Dnode_Inout_Multiclass::move_vehicle`. -/
def MNM_Dnode_Inout_Multiclass.move_vehicle
    (shuffle : Rng → List MNM_Veh_Multiclass → List MNM_Veh_Multiclass × Rng)
    (n : MNM_Dnode_Inout_Multiclass) (g : Rng) : Outcome (MNM_Dnode_Inout_Multiclass × Rng) :=
  (move_vehicle_out_links shuffle n.m_flow_scalar n.m_veh_flow n.m_out_link_array.length 0 []
      n.m_out_link_array
      { in_links := n.m_in_link_array, veh_moved_car := n.m_veh_moved_car,
        veh_moved_truck := n.m_veh_moved_truck, rng := g }).map
    (fun r =>
      ({ n with
          m_in_link_array := r.1.in_links
          m_out_link_array := r.2
          m_veh_moved_car := r.1.veh_moved_car
          m_veh_moved_truck := r.1.veh_moved_truck }, r.1.rng))

/-- The sums `_temp_sum_car += m_veh_moved_car[...]` of
`record_cumulative_curve` over the indices `ks`: the sum is a `TInt`, so every
term is converted to `int`. -/
def temp_sum (veh_moved : Nat → ℚ) (ks : List Nat) : Int :=
  ks.foldl (fun _temp_sum k => _temp_sum + TInt_of_TFlt (veh_moved k)) 0

/-- The statement `if (guard != NULL) curve -> add_increment(r)` of
`record_cumulative_curve`, where the pointer tested and the pointer used are
two fields; `none` when the curve used is null and the guard is not. -/
def add_increment_guarded (guard curve : Option MNM_Cumulative_Curve) (r : ℚ × ℚ) :
    Option (Option MNM_Cumulative_Curve) :=
  match guard, curve with
  | none, c => some c
  | some _, some c => some (some (c.add_increment r))
  | some _, none => none

/-- The first loop of `record_cumulative_curve`: the out-links, from index `j`
on, get their `N_in` increments. -/
def record_out_links (timestamp : Int) (m_flow_scalar : ℚ) (num_in _offset : Nat)
    (car trk : Nat → ℚ) :
    Nat → List MNM_Dlink_Ctm_Multiclass → Option (List MNM_Dlink_Ctm_Multiclass)
  | _, [] => some []
  | j, _out_link :: rest =>
    let ks := (List.range num_in).map (fun i => i * _offset + j)
    let _temp_sum_car := temp_sum car ks
    let _temp_sum_truck := temp_sum trk ks
    match add_increment_guarded _out_link.m_N_out_car _out_link.m_N_in_car
        (((timestamp + 1 : Int) : ℚ), (_temp_sum_car : ℚ) / m_flow_scalar) with
    | none => none
    | some n_in_car =>
      match add_increment_guarded _out_link.m_N_out_truck _out_link.m_N_in_truck
          (((timestamp + 1 : Int) : ℚ), (_temp_sum_truck : ℚ) / m_flow_scalar) with
      | none => none
      | some n_in_truck =>
        (record_out_links timestamp m_flow_scalar num_in _offset car trk (j + 1) rest).map
          (fun ls => { _out_link with m_N_in_car := n_in_car, m_N_in_truck := n_in_truck } :: ls)

/-- The second loop of `record_cumulative_curve`: the in-links, from index `i`
on, get their `N_out` increments. -/
def record_in_links (timestamp : Int) (m_flow_scalar : ℚ) (_offset : Nat)
    (car trk : Nat → ℚ) :
    Nat → List MNM_Dlink_Ctm_Multiclass → Option (List MNM_Dlink_Ctm_Multiclass)
  | _, [] => some []
  | i, _in_link :: rest =>
    let ks := (List.range _offset).map (fun j => i * _offset + j)
    let _temp_sum_car := temp_sum car ks
    let _temp_sum_truck := temp_sum trk ks
    match add_increment_guarded _in_link.m_N_in_car _in_link.m_N_out_car
        (((timestamp + 1 : Int) : ℚ), (_temp_sum_car : ℚ) / m_flow_scalar) with
    | none => none
    | some n_out_car =>
      match add_increment_guarded _in_link.m_N_in_truck _in_link.m_N_out_truck
          (((timestamp + 1 : Int) : ℚ), (_temp_sum_truck : ℚ) / m_flow_scalar) with
      | none => none
      | some n_out_truck =>
        (record_in_links timestamp m_flow_scalar _offset car trk (i + 1) rest).map
          (fun ls => { _in_link with m_N_out_car := n_out_car, m_N_out_truck := n_out_truck } :: ls)

/-- The function `MNM_Dnode_Inout_Multiclass::record_cumulative_curve`; `none`
when it calls `add_increment` on a null curve. -/
def MNM_Dnode_Inout_Multiclass.record_cumulative_curve (n : MNM_Dnode_Inout_Multiclass)
    (timestamp : Int) : Option MNM_Dnode_Inout_Multiclass :=
  match record_out_links timestamp n.m_flow_scalar n.m_in_link_array.length
      n.m_out_link_array.length n.m_veh_moved_car n.m_veh_moved_truck 0 n.m_out_link_array with
  | none => none
  | some outs =>
    match record_in_links timestamp n.m_flow_scalar n.m_out_link_array.length
        n.m_veh_moved_car n.m_veh_moved_truck 0 n.m_in_link_array with
    | none => none
    | some ins => some { n with m_out_link_array := outs, m_in_link_array := ins }

/-- The function `MNM_Dnode_Inout_Multiclass::evolve`; `compute_flow` is the
virtual function the node class supplies. -/
def MNM_Dnode_Inout_Multiclass.evolve
    (compute_flow : MNM_Dnode_Inout_Multiclass → MNM_Dnode_Inout_Multiclass)
    (shuffle : Rng → List MNM_Veh_Multiclass → List MNM_Veh_Multiclass × Rng)
    (n : MNM_Dnode_Inout_Multiclass) (g : Rng) (timestamp : Int) :
    Outcome (MNM_Dnode_Inout_Multiclass × Rng) :=
  match n.prepare_supplyANDdemand with
  | .returned n1 =>
    match (compute_flow n1).move_vehicle shuffle g with
    | .returned (n2, g2) =>
      match n2.record_cumulative_curve timestamp with
      | some n3 => .returned (n3, g2)
      | none => .undefined
    | .aborted s => .aborted s
    | .undefined => .undefined
    | .out_of_fuel => .out_of_fuel
  | .aborted n1 => .aborted (n1, g)
  | .undefined => .undefined
  | .out_of_fuel => .out_of_fuel

/-- The function `MNM_Dnode_FWJ_Multiclass::evolve` (inherited from the in-out
node, with the flow rule of the FWJ node). -/
def MNM_Dnode_FWJ_Multiclass.evolve
    (shuffle : Rng → List MNM_Veh_Multiclass → List MNM_Veh_Multiclass × Rng)
    (n : MNM_Dnode_Inout_Multiclass) (g : Rng) (timestamp : Int) :
    Outcome (MNM_Dnode_Inout_Multiclass × Rng) :=
  MNM_Dnode_Inout_Multiclass.evolve MNM_Dnode_FWJ_Multiclass.compute_flow shuffle n g timestamp

/-! ## The vehicle factory and the origin -/

/-- The value of the 32-bit `int` of a `TInt` for the sum `x` of two such
values: `x` itself from -2147483648 to 2147483647, and past these bounds the
value of that range that differs from `x` by a multiple of 2^32 (the sum of
2147483647 and 1 is -2147483648). -/
def TInt_wrap (x : Int) : Int := (x + 2147483648) % 4294967296 - 2147483648

/-- The factory `MNM_Veh_Factory_Multiclass` with the fields of its base
class; the map from identifier to vehicle is kept in insertion order. -/
structure MNM_Veh_Factory_Multiclass where
  m_num_veh : Int
  m_veh_map : List (Int × MNM_Veh_Multiclass)

/-- The function `MNM_Veh_Factory_Multiclass::make_veh_multiclass`; the
constructor of the vehicle leaves its links, origin and destination null, and
`insert` leaves a map that already holds the key as it is. The sums
`m_num_veh + 1` and `m_num_veh += 1` are sums of `int` values. `release`
calls it under the name `make_veh`. -/
def MNM_Veh_Factory_Multiclass.make_veh_multiclass (f : MNM_Veh_Factory_Multiclass)
    (timestamp : Int) (veh_type : Vehicle_type) (vehicle_cls : Int) :
    MNM_Veh_Multiclass × MNM_Veh_Factory_Multiclass :=
  let _veh : MNM_Veh_Multiclass :=
    { m_veh_ID := TInt_wrap (f.m_num_veh + 1), m_class := vehicle_cls,
      m_start_time := timestamp, m_type := veh_type, m_current_link := none,
      m_next_link := none, m_dest := none, m_origin := none }
  (_veh,
    { m_num_veh := TInt_wrap (f.m_num_veh + 1)
      m_veh_map :=
        if f.m_veh_map.any (fun e => e.1 = TInt_wrap (f.m_num_veh + 1)) then f.m_veh_map
        else f.m_veh_map ++ [(TInt_wrap (f.m_num_veh + 1), _veh)] })

/-- The origin `MNM_Origin_Multiclass` with the fields of its base class. A
demand map is the list of its entries (destination, demand array) in the
order the map iterates them. -/
structure MNM_Origin_Multiclass where
  m_Origin_ID : Nat
  m_max_assign_interval : Int
  m_current_assign_interval : Int
  m_flow_scalar : ℚ
  m_frequency : Int
  m_demand_car : List (Nat × List ℚ)
  m_demand_truck : List (Nat × List ℚ)
  m_origin_node : MNM_DMOND_Multiclass

/-- The inner loop `for (i = 0; i < _veh_to_release; ++i)` of `release`, with
the number of iterations left as first argument: a vehicle of class
`vehicle_cls` is made, gets its destination and origin and joins the queue of
the origin node. -/
def release_vehicles (current_interval : Int) (vehicle_cls : Int) (dest origin : Nat) :
    Nat → MNM_Veh_Factory_Multiclass → List MNM_Veh_Multiclass →
      MNM_Veh_Factory_Multiclass × List MNM_Veh_Multiclass
  | 0, f, queue => (f, queue)
  | k + 1, f, queue =>
    let made := f.make_veh_multiclass current_interval .MNM_TYPE_ADAPTIVE vehicle_cls
    release_vehicles current_interval vehicle_cls dest origin k made.2
      (queue ++ [{ made.1 with m_dest := some dest, m_origin := some origin }])

/-- One of the two loops of `release` over a demand map: for every entry the
number `round(demand[m_current_assign_interval] * m_flow_scalar)` of vehicles
is released. `none` when the demand array is read outside its bounds. -/
def release_class (round : ℚ → Int) (current_interval : Int) (vehicle_cls : Int)
    (origin : Nat) (m_current_assign_interval : Int) (m_flow_scalar : ℚ) :
    List (Nat × List ℚ) → MNM_Veh_Factory_Multiclass → List MNM_Veh_Multiclass →
      Option (MNM_Veh_Factory_Multiclass × List MNM_Veh_Multiclass)
  | [], f, queue => some (f, queue)
  | _demand_it :: rest, f, queue =>
    match vec_at _demand_it.2 m_current_assign_interval with
    | none => none
    | some d =>
      let _veh_to_release : Int := round (d * m_flow_scalar)
      let r := release_vehicles current_interval vehicle_cls _demand_it.1 origin
        _veh_to_release.toNat f queue
      release_class round current_interval vehicle_cls origin m_current_assign_interval
        m_flow_scalar rest r.1 r.2

/-- The function `MNM_Origin_Multiclass::release`; `round` is
`MNM_Ults::round`, which is not part of the sources. `none` when its
behaviour is undefined: a remainder by a zero `m_frequency`, a demand array
read outside its bounds. -/
def MNM_Origin_Multiclass.release (round : ℚ → Int) (o : MNM_Origin_Multiclass)
    (veh_factory : MNM_Veh_Factory_Multiclass) (current_interval : Int) :
    Option (MNM_Origin_Multiclass × MNM_Veh_Factory_Multiclass) :=
  if o.m_current_assign_interval < o.m_max_assign_interval then
    if o.m_frequency = 0 then none
    else if Int.tmod current_interval o.m_frequency = 0 then
      match release_class round current_interval 0 o.m_Origin_ID o.m_current_assign_interval
          o.m_flow_scalar o.m_demand_car veh_factory o.m_origin_node.m_in_veh_queue with
      | none => none
      | some (f1, queue1) =>
        match release_class round current_interval 1 o.m_Origin_ID o.m_current_assign_interval
            o.m_flow_scalar o.m_demand_truck f1 queue1 with
        | none => none
        | some (f2, queue2) =>
          some ({ o with
                  m_origin_node := { o.m_origin_node with m_in_veh_queue := queue2 }
                  m_current_assign_interval := o.m_current_assign_interval + 1 }, f2)
    else some (o, veh_factory)
  else some (o, veh_factory)

/-! ## The dynamics of the CTM link -/

/-- The function `Ctm_Cell_Multiclass::update_perceived_density`. It assigns
the two perceived densities of the cell; the space fractions it computes are
the local variables `_space_fraction_car` and `_space_fraction_truck`, so the
members `m_space_fraction_car` and `m_space_fraction_truck` keep their values.
Where a divisor is 0 the code computes with an infinity or a NaN, which the
rational members of the cell do not hold: the result is then `none`, and
`update_perceived_density_ieee` gives the values that the code stores. The
second test of the semi-congested regime is evaluated only when the first
holds, and its divisor is then positive. -/
def Ctm_Cell_Multiclass.update_perceived_density (c : Ctm_Cell_Multiclass) :
    Option Ctm_Cell_Multiclass :=
  if c.m_flow_scalar = 0 ∨ c.m_cell_length = 0 ∨ c.m_critical_density_car = 0 ∨
      c.m_critical_density_truck = 0 then none
  else
    let _real_volume_car : ℚ := (c.m_volume_car : ℚ) / c.m_flow_scalar
    let _real_volume_truck : ℚ := (c.m_volume_truck : ℚ) / c.m_flow_scalar
    let _density_car : ℚ := _real_volume_car / c.m_cell_length
    let _density_truck : ℚ := _real_volume_truck / c.m_cell_length
    if _density_car / c.m_critical_density_car + _density_truck / c.m_critical_density_truck ≤ 1
    then
      let _space_fraction_car := _density_car / c.m_critical_density_car
      let _space_fraction_truck := _density_truck / c.m_critical_density_truck
      some { c with
        m_perceived_density_car := _density_car + c.m_critical_density_car * _space_fraction_truck
        m_perceived_density_truck :=
          _density_truck + c.m_critical_density_truck * _space_fraction_car }
    else if _density_truck / c.m_critical_density_truck < 1 ∧
        _density_car / (1 - _density_truck / c.m_critical_density_truck) ≤ c.m_rho_1_N then
      let _space_fraction_truck := _density_truck / c.m_critical_density_truck
      let _space_fraction_car := 1 - _space_fraction_truck
      some { c with
        m_perceived_density_car := _density_car / _space_fraction_car
        m_perceived_density_truck := c.m_critical_density_truck }
    else if c.m_volume_truck = 0 then
      if _density_car = 0 then none
      else
        let _u := (c.m_hold_cap_car - _density_car) * c.m_wave_speed_car / _density_car
        if _u + c.m_wave_speed_truck = 0 then none
        else
          some { c with
            m_perceived_density_car := _density_car
            m_perceived_density_truck :=
              (c.m_hold_cap_truck * c.m_wave_speed_truck) / (_u + c.m_wave_speed_truck) }
    else
      let _tmp_car := c.m_hold_cap_car * c.m_wave_speed_car * _density_truck
      let _tmp_truck := c.m_hold_cap_truck * c.m_wave_speed_truck * _density_car
      if _tmp_truck + _tmp_car = 0 then none
      else
        let _space_fraction_car :=
          (_density_car * _density_car * (c.m_wave_speed_car - c.m_wave_speed_truck) + _tmp_truck)
            / (_tmp_truck + _tmp_car)
        let _space_fraction_truck :=
          (_density_car * _density_car * (c.m_wave_speed_truck - c.m_wave_speed_car) + _tmp_car)
            / (_tmp_truck + _tmp_car)
        if _space_fraction_car = 0 ∨ _space_fraction_truck = 0 then none
        else
          some { c with
            m_perceived_density_car := _density_car / _space_fraction_car
            m_perceived_density_truck := _density_truck / _space_fraction_truck }

/-- Modelled from the spec: `MNM_Dlink::move_veh_queue` of the base class,
which is not part of the sources: "pop `out_veh` vehicles from the head of
cell i's queue and append to cell i+1's queue". The first argument is the
number of vehicles still to move; `none` when the queue to pop is empty. -/
def move_veh_queue :
    Nat → List MNM_Veh_Multiclass → List MNM_Veh_Multiclass →
      Option (List MNM_Veh_Multiclass × List MNM_Veh_Multiclass)
  | 0, from_queue, to_queue => some (from_queue, to_queue)
  | _ + 1, [], _ => none
  | k + 1, _veh :: rest, to_queue => move_veh_queue k rest (to_queue ++ [_veh])

/-- The first loop of `MNM_Dlink_Ctm_Multiclass::evolve` ("previous cells"),
with the number of iterations left as first argument: the cars and then the
trucks that cell `i` sends on move to cell `i + 1`. A number to move that is
not positive moves nothing. -/
def evolve_move_loop : Nat → Nat → List Ctm_Cell_Multiclass → Option (List Ctm_Cell_Multiclass)
  | 0, _, cells => some cells
  | n + 1, i, cells =>
    match cells[i]?, cells[i + 1]? with
    | some ci, some cj =>
      match move_veh_queue ci.m_out_veh_car.toNat ci.m_veh_queue_car cj.m_veh_queue_car with
      | none => none
      | some car =>
        match move_veh_queue ci.m_out_veh_truck.toNat ci.m_veh_queue_truck
            cj.m_veh_queue_truck with
        | none => none
        | some trk =>
          evolve_move_loop n (i + 1)
            ((cells.set i { ci with m_veh_queue_car := car.1, m_veh_queue_truck := trk.1 }).set
              (i + 1) { cj with m_veh_queue_car := car.2, m_veh_queue_truck := trk.2 })
    | _, _ => none

/-- The "update volume" loop of `MNM_Dlink_Ctm_Multiclass::evolve` over the
cells before the last, with the number of iterations left as first argument;
`none` when a cell it indexes does not exist or a perceived density is not a
rational number. -/
def evolve_volume_loop : Nat → Nat → List Ctm_Cell_Multiclass → Option (List Ctm_Cell_Multiclass)
  | 0, _, cells => some cells
  | n + 1, i, cells =>
    match cells[i]? with
    | some ci =>
      match Ctm_Cell_Multiclass.update_perceived_density
          { ci with
            m_volume_car := (ci.m_veh_queue_car.length : Int)
            m_volume_truck := (ci.m_veh_queue_truck.length : Int) } with
      | some ci1 => evolve_volume_loop n (i + 1) (cells.set i ci1)
      | none => none
    | none => none

/-- The end of `MNM_Dlink_Ctm_Multiclass::evolve`, from "update volume" on:
the volumes and perceived densities of the cells before the last, then those
of the last cell, whose volumes add the cars (class 0) and the trucks (class
1) of `finished_array` to the lengths of its queues. `none` when a cell it
indexes does not exist or a perceived density is not a rational number. -/
def evolve_update_volume (l : MNM_Dlink_Ctm_Multiclass) : Option MNM_Dlink_Ctm_Multiclass :=
  let cells1 :=
    if l.m_num_cells > 1 then evolve_volume_loop (l.m_num_cells - 1).toNat 0 l.m_cell_array
    else some l.m_cell_array
  match cells1 with
  | none => none
  | some cells =>
    let _count_car : Int := (l.m_finished_array.countP (fun _veh => decide (_veh.m_class = 0)) : Nat)
    let _count_truck : Int :=
      (l.m_finished_array.countP (fun _veh => decide (_veh.m_class = 1)) : Nat)
    match vec_at cells (l.m_num_cells - 1) with
    | none => none
    | some c =>
      match Ctm_Cell_Multiclass.update_perceived_density
          { c with
            m_volume_car := (c.m_veh_queue_car.length : Int) + _count_car
            m_volume_truck := (c.m_veh_queue_truck.length : Int) + _count_truck } with
      | some c1 => some { l with m_cell_array := vec_set cells (l.m_num_cells - 1) c1 }
      | none => none

/-- The function `MNM_Dlink_Ctm_Multiclass::evolve` on the links whose
perceived densities are and stay rational numbers
(`MNM_Dlink_Ctm_Multiclass_ieee.evolve` is the function for every state);
`round` is `MNM_Ults::round` and `fuel` bounds the iterations of the loop of
`move_last_cell`. The time stamp is not used by the code. -/
def MNM_Dlink_Ctm_Multiclass.evolve (round : ℚ → Int) (fuel : Nat)
    (l : MNM_Dlink_Ctm_Multiclass) (g : Rng) : Outcome (MNM_Dlink_Ctm_Multiclass × Rng) :=
  match l.update_out_veh round with
  | none => .undefined
  | some l1 =>
    let cells2 :=
      if l1.m_num_cells > 1 then evolve_move_loop (l1.m_num_cells - 1).toNat 0 l1.m_cell_array
      else some l1.m_cell_array
    match cells2 with
    | none => .undefined
    | some cells =>
      match MNM_Dlink_Ctm_Multiclass.move_last_cell fuel { l1 with m_cell_array := cells } g with
      | .returned (l3, g3) =>
        match evolve_update_volume l3 with
        | some l4 => .returned (l4, g3)
        | none => .undefined
      | .aborted s => .aborted s
      | .undefined => .undefined
      | .out_of_fuel => .out_of_fuel

/-! ## The CTM link in the arithmetic of IEEE 754

Where a divisor of `update_perceived_density` is 0 the code computes with an
infinity or a NaN, stores what comes out in the perceived densities of the
cell and returns. This section follows these values: the perceived densities
of the cells are values of `TFlt_ieee`, and the functions that read or assign
them (`get_perceived_demand`, `get_perceived_supply`, `update_out_veh`,
`update_perceived_density`, `evolve`) are given for such states. The
arithmetic of the numbers stays exact. -/

/-- A value of the `double` inside a `TFlt`: a number (`num 0` is the zero
+0), the zero -0, an infinity or a NaN. -/
inductive TFlt_ieee where
  | num (q : ℚ)
  | neg_zero
  | pos_inf
  | neg_inf
  | nan
  deriving DecidableEq

/-- The sign bit of a value that is not a NaN. -/
def TFlt_ieee.negative : TFlt_ieee → Bool
  | .num q => decide (q < 0)
  | .neg_zero => true
  | .pos_inf => false
  | .neg_inf => true
  | .nan => false

/-- Whether the value is one of the two zeros. -/
def TFlt_ieee.is_zero : TFlt_ieee → Bool
  | .num q => decide (q = 0)
  | .neg_zero => true
  | _ => false

/-- Whether the value is one of the two infinities. -/
def TFlt_ieee.is_inf : TFlt_ieee → Bool
  | .pos_inf => true
  | .neg_inf => true
  | _ => false

/-- Whether the value is a NaN. -/
def TFlt_ieee.is_nan : TFlt_ieee → Bool
  | .nan => true
  | _ => false

/-- The number that a value other than an infinity or a NaN is. -/
def TFlt_ieee.value : TFlt_ieee → ℚ
  | .num q => q
  | _ => 0

/-- The number that the value is; `none` for an infinity and for a NaN. -/
def TFlt_ieee.rational? : TFlt_ieee → Option ℚ
  | .num q => some q
  | .neg_zero => some 0
  | _ => none

/-- The zero of the given sign. -/
def TFlt_ieee.zero (negative : Bool) : TFlt_ieee := if negative then .neg_zero else .num 0

/-- The infinity of the given sign. -/
def TFlt_ieee.infinity (negative : Bool) : TFlt_ieee := if negative then .neg_inf else .pos_inf

/-- The sum `a + b`: a NaN for a NaN operand and for the sum of the two
infinities; the zero -0 only for the sum of two zeros -0. -/
@[irreducible]
def TFlt_ieee.add (a b : TFlt_ieee) : TFlt_ieee :=
  if a.is_nan || b.is_nan then .nan
  else if a.is_inf then
    if b.is_inf && (a.negative != b.negative) then .nan else a
  else if b.is_inf then b
  else if a.is_zero && b.is_zero then .zero (a.negative && b.negative)
  else .num (a.value + b.value)

/-- The value `-a`. -/
def TFlt_ieee.neg : TFlt_ieee → TFlt_ieee
  | .num q => if q = 0 then .neg_zero else .num (-q)
  | .neg_zero => .num 0
  | .pos_inf => .neg_inf
  | .neg_inf => .pos_inf
  | .nan => .nan

/-- The difference `a - b`, which is `a + (-b)`. -/
def TFlt_ieee.sub (a b : TFlt_ieee) : TFlt_ieee := a.add b.neg

/-- The product `a * b`: a NaN for a NaN operand and for a zero times an
infinity; the sign of a zero or an infinity that comes out is the product of
the signs. -/
@[irreducible]
def TFlt_ieee.mul (a b : TFlt_ieee) : TFlt_ieee :=
  if a.is_nan || b.is_nan then .nan
  else if a.is_inf || b.is_inf then
    if a.is_zero || b.is_zero then .nan else .infinity (a.negative != b.negative)
  else if a.is_zero || b.is_zero then .zero (a.negative != b.negative)
  else .num (a.value * b.value)

/-- The quotient `a / b`: a NaN for a NaN operand, for 0 / 0 and for the
quotient of two infinities; an infinity for a divisor 0 otherwise; the sign of
a zero or an infinity that comes out is the product of the signs. -/
@[irreducible]
def TFlt_ieee.div (a b : TFlt_ieee) : TFlt_ieee :=
  if a.is_nan || b.is_nan then .nan
  else if a.is_inf then
    if b.is_inf then .nan else .infinity (a.negative != b.negative)
  else if b.is_inf then .zero (a.negative != b.negative)
  else if b.is_zero then
    if a.is_zero then .nan else .infinity (a.negative != b.negative)
  else if a.is_zero then .zero (a.negative != b.negative)
  else .num (a.value / b.value)

/-- The comparison `a < b`, false when an operand is a NaN; the two zeros are
equal. -/
@[irreducible]
def TFlt_ieee.lt (a b : TFlt_ieee) : Bool :=
  if a.is_nan || b.is_nan then false
  else
    match a, b with
    | _, .neg_inf => false
    | .neg_inf, _ => true
    | .pos_inf, _ => false
    | _, .pos_inf => true
    | _, _ => decide (a.value < b.value)

/-- The comparison `a <= b`, false when an operand is a NaN. -/
@[irreducible]
def TFlt_ieee.le (a b : TFlt_ieee) : Bool :=
  if a.is_nan || b.is_nan then false
  else
    match a, b with
    | .neg_inf, _ => true
    | _, .neg_inf => false
    | _, .pos_inf => true
    | .pos_inf, _ => false
    | _, _ => decide (a.value ≤ b.value)

instance : Add TFlt_ieee := ⟨TFlt_ieee.add⟩

instance : Sub TFlt_ieee := ⟨TFlt_ieee.sub⟩

instance : Mul TFlt_ieee := ⟨TFlt_ieee.mul⟩

instance : Div TFlt_ieee := ⟨TFlt_ieee.div⟩

/-- The call `std::min(a, b)`: `b` when `b < a`, else `a`. -/
def std_min (a b : TFlt_ieee) : TFlt_ieee := if b.lt a then b else a

/-- The call `std::max(a, b)`: `b` when `a < b`, else `a`. -/
def std_max (a b : TFlt_ieee) : TFlt_ieee := if a.lt b then b else a

/-- Modelled from the spec: `MNM_Ults::min` (not part of the sources), the
smaller of two values, as `MNM_Ults.min`. -/
def MNM_Ults.min_ieee (a b : TFlt_ieee) : TFlt_ieee := if b.lt a then b else a

/-- The values that `Ctm_Cell_Multiclass::update_perceived_density` assigns to
`m_perceived_density_car` and `m_perceived_density_truck`, for every state of
the cell. The members of the cell are numbers, a member 0 is the zero +0, and
`TFlt(m_volume_car)` is the number `m_volume_car`. -/
def Ctm_Cell_Multiclass.update_perceived_density_ieee (c : Ctm_Cell_Multiclass) :
    TFlt_ieee × TFlt_ieee :=
  let m_critical_density_car := TFlt_ieee.num c.m_critical_density_car
  let m_critical_density_truck := TFlt_ieee.num c.m_critical_density_truck
  let m_hold_cap_car := TFlt_ieee.num c.m_hold_cap_car
  let m_hold_cap_truck := TFlt_ieee.num c.m_hold_cap_truck
  let m_wave_speed_car := TFlt_ieee.num c.m_wave_speed_car
  let m_wave_speed_truck := TFlt_ieee.num c.m_wave_speed_truck
  let _real_volume_car := TFlt_ieee.num (c.m_volume_car : ℚ) / TFlt_ieee.num c.m_flow_scalar
  let _real_volume_truck := TFlt_ieee.num (c.m_volume_truck : ℚ) / TFlt_ieee.num c.m_flow_scalar
  let _density_car := _real_volume_car / TFlt_ieee.num c.m_cell_length
  let _density_truck := _real_volume_truck / TFlt_ieee.num c.m_cell_length
  if (_density_car / m_critical_density_car + _density_truck / m_critical_density_truck).le
      (.num 1) then
    let _space_fraction_car := _density_car / m_critical_density_car
    let _space_fraction_truck := _density_truck / m_critical_density_truck
    (_density_car + m_critical_density_car * _space_fraction_truck,
      _density_truck + m_critical_density_truck * _space_fraction_car)
  else if (_density_truck / m_critical_density_truck).lt (.num 1) &&
      (_density_car / (TFlt_ieee.num 1 - _density_truck / m_critical_density_truck)).le
        (.num c.m_rho_1_N) then
    let _space_fraction_truck := _density_truck / m_critical_density_truck
    let _space_fraction_car := TFlt_ieee.num 1 - _space_fraction_truck
    (_density_car / _space_fraction_car, m_critical_density_truck)
  else if c.m_volume_truck = 0 then
    let _u := (m_hold_cap_car - _density_car) * m_wave_speed_car / _density_car
    (_density_car, (m_hold_cap_truck * m_wave_speed_truck) / (_u + m_wave_speed_truck))
  else
    let _tmp_car := m_hold_cap_car * m_wave_speed_car * _density_truck
    let _tmp_truck := m_hold_cap_truck * m_wave_speed_truck * _density_car
    let _space_fraction_car :=
      (_density_car * _density_car * (m_wave_speed_car - m_wave_speed_truck) + _tmp_truck)
        / (_tmp_truck + _tmp_car)
    let _space_fraction_truck :=
      (_density_car * _density_car * (m_wave_speed_truck - m_wave_speed_car) + _tmp_car)
        / (_tmp_truck + _tmp_car)
    (_density_car / _space_fraction_car, _density_truck / _space_fraction_truck)

/-- The function `Ctm_Cell_Multiclass::get_perceived_demand` of a cell whose
perceived densities are `pd`. -/
def Ctm_Cell_Multiclass.get_perceived_demand_ieee (c : Ctm_Cell_Multiclass)
    (pd : TFlt_ieee × TFlt_ieee) (veh_type : Int) : TFlt_ieee :=
  if veh_type = 0 then
    std_min (.num c.m_flow_cap_car) (.num c.m_ffs_car * pd.1) * .num c.m_unit_time
  else
    std_min (.num c.m_flow_cap_truck) (.num c.m_ffs_truck * pd.2) * .num c.m_unit_time

/-- The function `Ctm_Cell_Multiclass::get_perceived_supply` of a cell whose
perceived densities are `pd`. -/
def Ctm_Cell_Multiclass.get_perceived_supply_ieee (c : Ctm_Cell_Multiclass)
    (pd : TFlt_ieee × TFlt_ieee) (veh_type : Int) : TFlt_ieee :=
  let _tmp :=
    if veh_type = 0 then
      std_min (.num c.m_flow_cap_car)
        (.num c.m_wave_speed_car * (.num c.m_hold_cap_car - pd.1))
    else
      std_min (.num c.m_flow_cap_truck)
        (.num c.m_wave_speed_truck * (.num c.m_hold_cap_truck - pd.2))
  std_max (.num 0) _tmp * .num c.m_unit_time

/-- A CTM link whose perceived densities are values of `TFlt_ieee`:
`m_perceived_density i` holds the members `m_perceived_density_car` and
`m_perceived_density_truck` of cell `i`. The members of these names of the
cells of `link` are not read. -/
structure MNM_Dlink_Ctm_Multiclass_ieee where
  link : MNM_Dlink_Ctm_Multiclass
  m_perceived_density : Nat → TFlt_ieee × TFlt_ieee

/-- The link `l` as a link with perceived densities in `TFlt_ieee`. -/
def MNM_Dlink_Ctm_Multiclass.to_ieee (l : MNM_Dlink_Ctm_Multiclass) :
    MNM_Dlink_Ctm_Multiclass_ieee :=
  { link := l
    m_perceived_density := fun i =>
      match l.m_cell_array[i]? with
      | some c => (.num c.m_perceived_density_car, .num c.m_perceived_density_truck)
      | none => (.num 0, .num 0) }

/-- The cells with the perceived densities `pd` in their members, from cell
`i` on; `none` when one of them is an infinity or a NaN. -/
def store_perceived_density (pd : Nat → TFlt_ieee × TFlt_ieee) :
    Nat → List Ctm_Cell_Multiclass → Option (List Ctm_Cell_Multiclass)
  | _, [] => some []
  | i, c :: rest =>
    match (pd i).1.rational?, (pd i).2.rational?, store_perceived_density pd (i + 1) rest with
    | some x, some y, some rest1 =>
      some ({ c with m_perceived_density_car := x, m_perceived_density_truck := y } :: rest1)
    | _, _, _ => none

/-- The link with its perceived densities in the members of its cells; `none`
when one of them is an infinity or a NaN. -/
def MNM_Dlink_Ctm_Multiclass_ieee.rational? (s : MNM_Dlink_Ctm_Multiclass_ieee) :
    Option MNM_Dlink_Ctm_Multiclass :=
  (store_perceived_density s.m_perceived_density 0 s.link.m_cell_array).map
    (fun cells => { s.link with m_cell_array := cells })

/-- The body of the loop of `update_out_veh`: cell `ci` with the out counts
that its demand and the supply of the next cell `cj` give; `pd_i` and `pd_j`
are the perceived densities of the two cells. `round` is `MNM_Ults::round`,
which is not part of the sources; the conversion of an infinity or a NaN to
the `TInt` it returns is not defined: the result is then `none`. -/
def update_out_veh_cell_ieee (round : ℚ → Int) (m_flow_scalar : ℚ)
    (ci cj : Ctm_Cell_Multiclass) (pd_i pd_j : TFlt_ieee × TFlt_ieee) :
    Option Ctm_Cell_Multiclass :=
  let _demand_car := ci.get_perceived_demand_ieee pd_i 0
  let _supply_car := cj.get_perceived_supply_ieee pd_j 0
  let _temp_out_flux_car :=
    TFlt_ieee.num ci.m_space_fraction_car * MNM_Ults.min_ieee _demand_car _supply_car
  let _demand_truck := ci.get_perceived_demand_ieee pd_i 1
  let _supply_truck := cj.get_perceived_supply_ieee pd_j 1
  let _temp_out_flux_truck :=
    TFlt_ieee.num ci.m_space_fraction_truck * MNM_Ults.min_ieee _demand_truck _supply_truck
  match (_temp_out_flux_car * TFlt_ieee.num m_flow_scalar).rational?,
      (_temp_out_flux_truck * TFlt_ieee.num m_flow_scalar).rational? with
  | some flux_car, some flux_truck =>
    some { ci with
      m_out_veh_car := round flux_car
      m_out_veh_truck := round flux_truck }
  | _, _ => none

/-- The loop of `update_out_veh` as `update_out_veh_loop`, for the perceived
densities `pd`; `none` when a cell it indexes does not exist or an out flux is
an infinity or a NaN. -/
def update_out_veh_loop_ieee (round : ℚ → Int) (m_flow_scalar : ℚ)
    (pd : Nat → TFlt_ieee × TFlt_ieee) :
    Nat → Nat → List Ctm_Cell_Multiclass → Option (List Ctm_Cell_Multiclass)
  | 0, _, cells => some cells
  | n + 1, i, cells =>
    match cells[i]?, cells[i + 1]? with
    | some ci, some cj =>
      match update_out_veh_cell_ieee round m_flow_scalar ci cj (pd i) (pd (i + 1)) with
      | some ci1 => update_out_veh_loop_ieee round m_flow_scalar pd n (i + 1) (cells.set i ci1)
      | none => none
    | _, _ => none

/-- The function `MNM_Dlink_Ctm_Multiclass::update_out_veh`; `none` when a
cell it indexes does not exist or an out flux is an infinity or a NaN. -/
def MNM_Dlink_Ctm_Multiclass_ieee.update_out_veh (round : ℚ → Int)
    (s : MNM_Dlink_Ctm_Multiclass_ieee) : Option MNM_Dlink_Ctm_Multiclass_ieee :=
  let cells1 :=
    if s.link.m_num_cells > 1 then
      update_out_veh_loop_ieee round s.link.m_flow_scalar s.m_perceived_density
        (s.link.m_num_cells - 1).toNat 0 s.link.m_cell_array
    else some s.link.m_cell_array
  match cells1 with
  | none => none
  | some cells =>
    match vec_at cells (s.link.m_num_cells - 1) with
    | none => none
    | some c =>
      some { s with
        link := { s.link with
          m_cell_array := vec_set cells (s.link.m_num_cells - 1)
            { c with
              m_out_veh_car := (c.m_veh_queue_car.length : Int)
              m_out_veh_truck := (c.m_veh_queue_truck.length : Int) } } }

/-- The "update volume" loop of `MNM_Dlink_Ctm_Multiclass::evolve` over the
cells before the last, with the number of iterations left as first argument:
each cell gets the lengths of its queues as volumes and the perceived
densities that `update_perceived_density` computes from them. `none` when a
cell it indexes does not exist. -/
def evolve_volume_loop_ieee :
    Nat → Nat → List Ctm_Cell_Multiclass × (Nat → TFlt_ieee × TFlt_ieee) →
      Option (List Ctm_Cell_Multiclass × (Nat → TFlt_ieee × TFlt_ieee))
  | 0, _, s => some s
  | n + 1, i, (cells, pd) =>
    match cells[i]? with
    | some ci =>
      let ci1 : Ctm_Cell_Multiclass :=
        { ci with
          m_volume_car := (ci.m_veh_queue_car.length : Int)
          m_volume_truck := (ci.m_veh_queue_truck.length : Int) }
      evolve_volume_loop_ieee n (i + 1)
        (cells.set i ci1, Function.update pd i ci1.update_perceived_density_ieee)
    | none => none

/-- The end of `MNM_Dlink_Ctm_Multiclass::evolve`, from "update volume" on:
the volumes and perceived densities of the cells before the last, then those
of the last cell, whose volumes add the cars (class 0) and the trucks (class
1) of `finished_array` to the lengths of its queues. `none` when a cell it
indexes does not exist. -/
def evolve_update_volume_ieee (s : MNM_Dlink_Ctm_Multiclass_ieee) :
    Option MNM_Dlink_Ctm_Multiclass_ieee :=
  let s1 :=
    if s.link.m_num_cells > 1 then
      evolve_volume_loop_ieee (s.link.m_num_cells - 1).toNat 0
        (s.link.m_cell_array, s.m_perceived_density)
    else some (s.link.m_cell_array, s.m_perceived_density)
  match s1 with
  | none => none
  | some (cells, pd) =>
    let _count_car : Int :=
      (s.link.m_finished_array.countP (fun _veh => decide (_veh.m_class = 0)) : Nat)
    let _count_truck : Int :=
      (s.link.m_finished_array.countP (fun _veh => decide (_veh.m_class = 1)) : Nat)
    match vec_at cells (s.link.m_num_cells - 1) with
    | none => none
    | some c =>
      let c1 : Ctm_Cell_Multiclass :=
        { c with
          m_volume_car := (c.m_veh_queue_car.length : Int) + _count_car
          m_volume_truck := (c.m_veh_queue_truck.length : Int) + _count_truck }
      some
        { link := { s.link with m_cell_array := vec_set cells (s.link.m_num_cells - 1) c1 }
          m_perceived_density :=
            Function.update pd (s.link.m_num_cells - 1).toNat c1.update_perceived_density_ieee }

/-- The function `MNM_Dlink_Ctm_Multiclass::evolve` for every state of the
link; `round` is `MNM_Ults::round` and `fuel` bounds the iterations of the
loop of `move_last_cell`. The time stamp is not used by the code. -/
def MNM_Dlink_Ctm_Multiclass_ieee.evolve (round : ℚ → Int) (fuel : Nat)
    (s : MNM_Dlink_Ctm_Multiclass_ieee) (g : Rng) :
    Outcome (MNM_Dlink_Ctm_Multiclass_ieee × Rng) :=
  match s.update_out_veh round with
  | none => .undefined
  | some s1 =>
    let cells2 :=
      if s1.link.m_num_cells > 1 then
        evolve_move_loop (s1.link.m_num_cells - 1).toNat 0 s1.link.m_cell_array
      else some s1.link.m_cell_array
    match cells2 with
    | none => .undefined
    | some cells =>
      match MNM_Dlink_Ctm_Multiclass.move_last_cell fuel { s1.link with m_cell_array := cells }
          g with
      | .returned (l3, g3) =>
        match evolve_update_volume_ieee { s1 with link := l3 } with
        | some s4 => .returned (s4, g3)
        | none => .undefined
      | .aborted (l3, g3) => .aborted ({ s1 with link := l3 }, g3)
      | .undefined => .undefined
      | .out_of_fuel => .out_of_fuel

/-- The function `MNM_Dlink_Ctm_Multiclass::clear_incoming_array`, which
reads no perceived density. -/
def MNM_Dlink_Ctm_Multiclass_ieee.clear_incoming_array (s : MNM_Dlink_Ctm_Multiclass_ieee) :
    Outcome MNM_Dlink_Ctm_Multiclass_ieee :=
  s.link.clear_incoming_array.map (fun l1 => { s with link := l1 })

/-- One tick of a link: `clear_incoming_array`, then `evolve`. -/
def link_tick_ieee (round : ℚ → Int) (fuel : Nat) (s : MNM_Dlink_Ctm_Multiclass_ieee)
    (g : Rng) : Outcome (MNM_Dlink_Ctm_Multiclass_ieee × Rng) :=
  match s.clear_incoming_array with
  | .returned s1 => s1.evolve round fuel g
  | .aborted s1 => .aborted (s1, g)
  | .undefined => .undefined
  | .out_of_fuel => .out_of_fuel

/-- The first `n` ticks of a link. -/
def link_ticks_ieee (round : ℚ → Int) (fuel : Nat) :
    Nat → MNM_Dlink_Ctm_Multiclass_ieee → Rng → Outcome (MNM_Dlink_Ctm_Multiclass_ieee × Rng)
  | 0, s, g => .returned (s, g)
  | n + 1, s, g =>
    match link_ticks_ieee round fuel n s g with
    | .returned (s1, g1) => link_tick_ieee round fuel s1 g1
    | .aborted s1 => .aborted s1
    | .undefined => .undefined
    | .out_of_fuel => .out_of_fuel

/-! ## The construction of the CTM link -/

/-- The constructor `Ctm_Cell_Multiclass::Ctm_Cell_Multiclass`. The members
it does not assign (the perceived densities and the space fractions) are
`TFlt` objects, which their default constructor sets to 0. -/
def Ctm_Cell_Multiclass.construct (cell_length unit_time hold_cap_car hold_cap_truck
    critical_density_car critical_density_truck rho_1_N flow_cap_car flow_cap_truck ffs_car
    ffs_truck wave_speed_car wave_speed_truck flow_scalar : ℚ) : Ctm_Cell_Multiclass :=
  { m_cell_length := cell_length, m_unit_time := unit_time, m_flow_scalar := flow_scalar,
    m_hold_cap_car := hold_cap_car, m_hold_cap_truck := hold_cap_truck,
    m_critical_density_car := critical_density_car,
    m_critical_density_truck := critical_density_truck,
    m_rho_1_N := rho_1_N, m_flow_cap_car := flow_cap_car, m_flow_cap_truck := flow_cap_truck,
    m_ffs_car := ffs_car, m_ffs_truck := ffs_truck,
    m_wave_speed_car := wave_speed_car, m_wave_speed_truck := wave_speed_truck,
    m_volume_car := 0, m_volume_truck := 0, m_out_veh_car := 0, m_out_veh_truck := 0,
    m_veh_queue_car := [], m_veh_queue_truck := [],
    m_perceived_density_car := 0, m_perceived_density_truck := 0,
    m_space_fraction_car := 0, m_space_fraction_truck := 0 }

/-- The cell that `init_cell_array` makes for the link `l`: the lane
parameters are multiplied by the number of lanes. -/
def init_cell (l : MNM_Dlink_Ctm_Multiclass) (unit_time cell_length : ℚ) : Ctm_Cell_Multiclass :=
  Ctm_Cell_Multiclass.construct cell_length unit_time
    ((l.m_number_of_lane : ℚ) * l.m_lane_hold_cap_car)
    ((l.m_number_of_lane : ℚ) * l.m_lane_hold_cap_truck)
    ((l.m_number_of_lane : ℚ) * l.m_lane_critical_density_car)
    ((l.m_number_of_lane : ℚ) * l.m_lane_critical_density_truck)
    ((l.m_number_of_lane : ℚ) * l.m_lane_rho_1_N)
    ((l.m_number_of_lane : ℚ) * l.m_lane_flow_cap_car)
    ((l.m_number_of_lane : ℚ) * l.m_lane_flow_cap_truck)
    l.m_ffs_car l.m_ffs_truck l.m_wave_speed_car l.m_wave_speed_truck l.m_flow_scalar

/-- The first loop of `init_cell_array` ("all previous cells"), with the
number of iterations left as first argument: it pushes a cell of standard
length. -/
def init_cell_array_loop (l : MNM_Dlink_Ctm_Multiclass) (unit_time std_cell_length : ℚ) :
    Nat → List Ctm_Cell_Multiclass → List Ctm_Cell_Multiclass
  | 0, cells => cells
  | k + 1, cells =>
    init_cell_array_loop l unit_time std_cell_length k
      (cells ++ [init_cell l unit_time std_cell_length])

/-- The function `MNM_Dlink_Ctm_Multiclass::init_cell_array`: the cells before
the last, then the last cell when the length of the link is positive. -/
def MNM_Dlink_Ctm_Multiclass.init_cell_array (l : MNM_Dlink_Ctm_Multiclass)
    (unit_time std_cell_length last_cell_length : ℚ) : MNM_Dlink_Ctm_Multiclass :=
  let cells := init_cell_array_loop l unit_time std_cell_length (l.m_num_cells - 1).toNat
    l.m_cell_array
  if l.m_length > 0 then
    { l with m_cell_array := cells ++ [init_cell l unit_time last_cell_length] }
  else { l with m_cell_array := cells }

/-- The check of the constructor of the link that ended the run. -/
inductive Config_error where
  /-- "lane_hold_cap can't be negative". -/
  | lane_hold_cap_negative
  /-- "lane_flow_cap can't be less than zero". -/
  | lane_flow_cap_negative
  /-- "free-flow speed can't be less than zero". -/
  | ffs_negative
  /-- "veh_convert_factor can't be less than 1". -/
  | veh_convert_factor_below_1
  /-- "flow_scalar can't be less than 1". -/
  | flow_scalar_below_1
  /-- "unit_time should be positive". -/
  | unit_time_not_positive
  /-- "Wrong private car parameters". -/
  | wrong_car_parameters
  /-- "Wrong truck parameters". -/
  | wrong_truck_parameters
  deriving DecidableEq

/-- How the constructor of a link ends. -/
inductive Construction (σ : Type) where
  /-- The object is constructed. -/
  | constructed (s : σ)
  /-- A check ran `exit(-1)`. -/
  | exited (e : Config_error)
  /-- The behaviour is not defined, or a NaN is computed. -/
  | undefined

/-- The object a construction gives, when it gives one. -/
def Construction.constructed? {σ : Type} : Construction σ → Option σ
  | .constructed s => some s
  | _ => none

/-- The statement `if (x > limit) x = limit;` by which the constructor clamps
a lane capacity. -/
def clamp_above (x limit : ℚ) : ℚ := if x > limit then limit else x

/-- The constructor `MNM_Dlink_Ctm_Multiclass::MNM_Dlink_Ctm_Multiclass` from
line 85 on, after the checks of its arguments and with the clamped lane
capacities. A free-flow speed of cars of 0 makes the quotient of line 103 an
infinity or a NaN, whose conversion to `TInt` is not defined. A free-flow
speed of trucks of 0 makes the critical density of trucks an infinity, which
no jam density exceeds, or (for a flow capacity 0) a NaN. -/
def construct_checked (ID : Nat) (number_of_lane : Int)
    (length lane_hold_cap_car lane_hold_cap_truck lane_flow_cap_car lane_flow_cap_truck
      ffs_car ffs_truck unit_time veh_convert_factor flow_scalar : ℚ) :
    Construction MNM_Dlink_Ctm_Multiclass :=
  let _std_cell_length : ℚ := ffs_car * unit_time
  if _std_cell_length = 0 then .undefined
  else
    let m_num_cells0 : Int := ⌊length / _std_cell_length⌋
    let m_num_cells : Int := if m_num_cells0 = 0 then 1 else m_num_cells0
    let _last_cell_length : ℚ := length - ((m_num_cells - 1 : Int) : ℚ) * _std_cell_length
    let m_lane_critical_density_car : ℚ := lane_flow_cap_car / ffs_car
    if lane_hold_cap_car ≤ m_lane_critical_density_car then .exited .wrong_car_parameters
    else
      let m_wave_speed_car : ℚ :=
        lane_flow_cap_car / (lane_hold_cap_car - m_lane_critical_density_car)
      if ffs_truck = 0 then
        if lane_flow_cap_truck = 0 then .undefined else .exited .wrong_truck_parameters
      else
        let m_lane_critical_density_truck : ℚ := lane_flow_cap_truck / ffs_truck
        if lane_hold_cap_truck ≤ m_lane_critical_density_truck then
          .exited .wrong_truck_parameters
        else
          let m_wave_speed_truck : ℚ :=
            lane_flow_cap_truck / (lane_hold_cap_truck - m_lane_critical_density_truck)
          let m_lane_rho_1_N : ℚ :=
            lane_hold_cap_car * (m_wave_speed_car / (ffs_truck + m_wave_speed_car))
          .constructed
            (MNM_Dlink_Ctm_Multiclass.init_cell_array
              { m_link_ID := ID, m_number_of_lane := number_of_lane, m_length := length,
                m_lane_hold_cap_car := lane_hold_cap_car,
                m_lane_hold_cap_truck := lane_hold_cap_truck,
                m_lane_flow_cap_car := lane_flow_cap_car,
                m_lane_flow_cap_truck := lane_flow_cap_truck,
                m_lane_critical_density_car := m_lane_critical_density_car,
                m_lane_critical_density_truck := m_lane_critical_density_truck,
                m_lane_rho_1_N := m_lane_rho_1_N,
                m_ffs_car := ffs_car, m_ffs_truck := ffs_truck,
                m_wave_speed_car := m_wave_speed_car,
                m_wave_speed_truck := m_wave_speed_truck,
                m_veh_convert_factor := veh_convert_factor, m_flow_scalar := flow_scalar,
                m_num_cells := m_num_cells, m_cell_array := [],
                m_incoming_array := [], m_finished_array := [],
                m_N_in_car := none, m_N_out_car := none,
                m_N_in_truck := none, m_N_out_truck := none }
              unit_time _std_cell_length _last_cell_length)

/-- The constructor `MNM_Dlink_Ctm_Multiclass::MNM_Dlink_Ctm_Multiclass`: the
checks and clamps of its arguments (lines 33 to 83), then `construct_checked`.
The constructor of the base class `MNM_Dlink` is not part of the sources; it
is modelled from the spec, which names no check on the identifier, the number
of lanes or the length: it stores them and leaves the two vehicle arrays
empty. -/
def MNM_Dlink_Ctm_Multiclass.construct (ID : Nat) (number_of_lane : Int)
    (length lane_hold_cap_car lane_hold_cap_truck lane_flow_cap_car lane_flow_cap_truck
      ffs_car ffs_truck unit_time veh_convert_factor flow_scalar : ℚ) :
    Construction MNM_Dlink_Ctm_Multiclass :=
  if lane_hold_cap_car < 0 ∨ lane_hold_cap_truck < 0 then .exited .lane_hold_cap_negative
  else if lane_flow_cap_car < 0 ∨ lane_flow_cap_truck < 0 then .exited .lane_flow_cap_negative
  else if ffs_car < 0 ∨ ffs_truck < 0 then .exited .ffs_negative
  else if veh_convert_factor < 1 then .exited .veh_convert_factor_below_1
  else if flow_scalar < 1 then .exited .flow_scalar_below_1
  else if unit_time ≤ 0 then .exited .unit_time_not_positive
  else
    construct_checked ID number_of_lane length
      (clamp_above lane_hold_cap_car (300 / 1600)) (clamp_above lane_hold_cap_truck (300 / 1600))
      (clamp_above lane_flow_cap_car (3500 / 3600))
      (clamp_above lane_flow_cap_truck (3500 / 3600))
      ffs_car ffs_truck unit_time veh_convert_factor flow_scalar

/-- The function `MNM_Dlink_Ctm_Multiclass::install_cumulative_curve_multiclass`. -/
def MNM_Dlink_Ctm_Multiclass.install_cumulative_curve_multiclass
    (l : MNM_Dlink_Ctm_Multiclass) : MNM_Dlink_Ctm_Multiclass :=
  { l with
    m_N_in_car := some (MNM_Cumulative_Curve.add_record { m_recorder := [] } (0, 0))
    m_N_out_car := some (MNM_Cumulative_Curve.add_record { m_recorder := [] } (0, 0))
    m_N_in_truck := some (MNM_Cumulative_Curve.add_record { m_recorder := [] } (0, 0))
    m_N_out_truck := some (MNM_Cumulative_Curve.add_record { m_recorder := [] } (0, 0)) }

/-! ## The query interface `Dta_Api` -/

/-- An integer array handed over by the caller, `py::array_t<int>`: its
number of dimensions and its buffer; for an array of one dimension
`shape[0]` is the length of the buffer. -/
structure py_array_int where
  ndim : Nat
  ptr : List Int

/-- How a call of the query interface ends. -/
inductive Py_call (α : Type) where
  /-- The call returned the value `a`. -/
  | returned (a : α)
  /-- The call threw `std::runtime_error`; no value is returned. -/
  | runtime_error
  /-- The call read outside a buffer. -/
  | undefined

/-- The part of `Dta_Api` that `get_link_tt` uses: the registered links and
the current loading interval of the simulation it holds. -/
structure Dta_Api where
  m_link_vec : List MNM_Dlink_Ctm_Multiclass
  m_current_loading_interval : Int

/-- The function `Dta_Api::get_cur_loading_interval`. -/
def Dta_Api.get_cur_loading_interval (a : Dta_Api) : Int := a.m_current_loading_interval

/-- The inner loop of `Dta_Api::get_link_tt` over the registered links, from
index `i` on, for the requested interval of index `t`; `l` is the number of
requested intervals. The test reads `start_prt[i]`, the entry at the index of
the link. `get_travel_time` is `MNM_DTA_GRADIENT::get_travel_time`, which is
not part of the sources. -/
def get_link_tt_links (get_travel_time : MNM_Dlink_Ctm_Multiclass → ℚ → ℚ) (a : Dta_Api)
    (start_prt : List Int) (l t : Nat) :
    Nat → List MNM_Dlink_Ctm_Multiclass → List ℚ → Py_call (List ℚ)
  | _, [], result => .returned result
  | i, link :: rest, result =>
    match start_prt[i]?, start_prt[t]? with
    | some start_i, some start_t =>
      if start_i > a.get_cur_loading_interval then .runtime_error
      else
        get_link_tt_links get_travel_time a start_prt l t (i + 1) rest
          (result.set (i * l + t) (get_travel_time link (start_t : ℚ)))
    | _, _ => .undefined

/-- The outer loop of `Dta_Api::get_link_tt` over the requested intervals,
with the number of iterations left as first argument and the index `t`. -/
def get_link_tt_intervals (get_travel_time : MNM_Dlink_Ctm_Multiclass → ℚ → ℚ) (a : Dta_Api)
    (start_prt : List Int) (l : Nat) : Nat → Nat → List ℚ → Py_call (List ℚ)
  | 0, _, result => .returned result
  | k + 1, t, result =>
    match get_link_tt_links get_travel_time a start_prt l t 0 a.m_link_vec result with
    | .returned result1 => get_link_tt_intervals get_travel_time a start_prt l k (t + 1) result1
    | .runtime_error => .runtime_error
    | .undefined => .undefined

/-- The function `Dta_Api::get_link_tt`. The result is the array of
`|m_link_vec| * l` travel times, entry `i * l + t` for link `i` and interval
`t`; the entries start as 0. -/
def Dta_Api.get_link_tt (get_travel_time : MNM_Dlink_Ctm_Multiclass → ℚ → ℚ) (a : Dta_Api)
    (start_intervals : py_array_int) : Py_call (List ℚ) :=
  if start_intervals.ndim ≠ 1 then .runtime_error
  else
    let l := start_intervals.ptr.length
    get_link_tt_intervals get_travel_time a start_intervals.ptr l l 0
      (List.replicate (a.m_link_vec.length * l) 0)

/-! ## The point-queue link -/

/-- The link `MNM_Dlink_Pq_Multiclass` with the fields of its base class.
`m_veh_queue` is the `unordered_map` from vehicle to stamp, as the list of
its entries in the order the map iterates them; a vehicle is the key of at
most one entry. -/
structure MNM_Dlink_Pq_Multiclass where
  m_link_ID : Nat
  m_number_of_lane : Int
  m_length : ℚ
  m_lane_hold_cap : ℚ
  m_lane_flow_cap : ℚ
  m_flow_scalar : ℚ
  m_hold_cap : ℚ
  m_ffs_car : ℚ
  m_max_stamp : Int
  m_veh_queue : List (MNM_Veh_Multiclass × Int)
  m_volume_car : Int
  m_volume_truck : Int
  m_unit_time : ℚ
  m_veh_convert_factor : ℚ
  m_incoming_array : List MNM_Veh_Multiclass
  m_finished_array : List MNM_Veh_Multiclass
  deriving DecidableEq

/-- The constructor `MNM_Dlink_Pq_Multiclass::MNM_Dlink_Pq_Multiclass`. No
statement of it tests an argument, and none assigns the member `m_ffs_car`
that the quotient of `m_max_stamp` reads: `m_ffs_car0` is the value that
member holds when the body starts. Where the divisor is 0 the quotient is an
infinity or a NaN, which the rational model does not have. `round` is
`MNM_Ults::round`. The constructor of the base class `MNM_Dlink` is not part
of the sources; as for the CTM link it stores the identifier, the number of
lanes and the length and leaves the two vehicle arrays empty. -/
def MNM_Dlink_Pq_Multiclass.construct (round : ℚ → Int) (m_ffs_car0 : ℚ) (ID : Nat)
    (number_of_lane : Int)
    (length lane_hold_cap_car _lane_hold_cap_truck lane_flow_cap_car _lane_flow_cap_truck
      _ffs_car _ffs_truck unit_time veh_convert_factor flow_scalar : ℚ) :
    Construction MNM_Dlink_Pq_Multiclass :=
  if m_ffs_car0 * unit_time = 0 then .undefined
  else
    .constructed
      { m_link_ID := ID, m_number_of_lane := number_of_lane, m_length := length,
        m_lane_hold_cap := lane_hold_cap_car, m_lane_flow_cap := lane_flow_cap_car,
        m_flow_scalar := flow_scalar,
        m_hold_cap := lane_hold_cap_car * (number_of_lane : ℚ) * length,
        m_ffs_car := m_ffs_car0,
        m_max_stamp := round (length / (m_ffs_car0 * unit_time)),
        m_veh_queue := [], m_volume_car := 0, m_volume_truck := 0,
        m_unit_time := unit_time, m_veh_convert_factor := veh_convert_factor,
        m_incoming_array := [], m_finished_array := [] }

/-- The function `MNM_Dlink_Pq_Multiclass::get_link_supply`. -/
def MNM_Dlink_Pq_Multiclass.get_link_supply (l : MNM_Dlink_Pq_Multiclass) : ℚ :=
  l.m_lane_flow_cap * (l.m_number_of_lane : ℚ) * l.m_unit_time

/-- The call `m_veh_queue.insert(pair(_veh, stamp))`: a map that already
holds the key is left as it is. Where the new entry comes in the order of
iteration is not specified; the model puts it last. -/
def veh_queue_insert (m_veh_queue : List (MNM_Veh_Multiclass × Int))
    (entry : MNM_Veh_Multiclass × Int) : List (MNM_Veh_Multiclass × Int) :=
  if m_veh_queue.any (fun e => e.1 = entry.1) then m_veh_queue else m_veh_queue ++ [entry]

/-- The `while` loop of `MNM_Dlink_Pq_Multiclass::clear_incoming_array` by
recursion on `m_incoming_array`; the state is `_to_be_moved`, the map and the
two volumes, the result adds what is left of `m_incoming_array`. -/
def Pq_clear_incoming_array_loop (m_veh_convert_factor : ℚ) :
    List MNM_Veh_Multiclass → ℚ → List (MNM_Veh_Multiclass × Int) → Int → Int →
      List MNM_Veh_Multiclass × List (MNM_Veh_Multiclass × Int) × Int × Int
  | [], _, m_veh_queue, m_volume_car, m_volume_truck =>
    ([], m_veh_queue, m_volume_car, m_volume_truck)
  | _veh :: rest, _to_be_moved, m_veh_queue, m_volume_car, m_volume_truck =>
    if _to_be_moved > 0 then
      if _veh.m_class = 0 then
        Pq_clear_incoming_array_loop m_veh_convert_factor rest (_to_be_moved - 1)
          (veh_queue_insert m_veh_queue (_veh, 0)) (m_volume_car + 1) m_volume_truck
      else
        Pq_clear_incoming_array_loop m_veh_convert_factor rest
          (_to_be_moved - m_veh_convert_factor)
          (veh_queue_insert m_veh_queue (_veh, 0)) m_volume_car (m_volume_truck + 1)
    else (_veh :: rest, m_veh_queue, m_volume_car, m_volume_truck)

/-- The function `MNM_Dlink_Pq_Multiclass::clear_incoming_array`. -/
def MNM_Dlink_Pq_Multiclass.clear_incoming_array (l : MNM_Dlink_Pq_Multiclass) :
    MNM_Dlink_Pq_Multiclass :=
  let s := Pq_clear_incoming_array_loop l.m_veh_convert_factor l.m_incoming_array
    (l.get_link_supply * l.m_flow_scalar) l.m_veh_queue l.m_volume_car l.m_volume_truck
  { l with
    m_incoming_array := s.1, m_veh_queue := s.2.1, m_volume_car := s.2.2.1,
    m_volume_truck := s.2.2.2 }

/-- The `while` loop of `MNM_Dlink_Pq_Multiclass::evolve` over the entries of
the map from the iterator on: the result is the entries that stay, in order,
and the vehicles pushed to `m_finished_array`, in order. An entry is erased
when its stamp is at least `m_max_stamp`; the stamp of an entry that stays
gets 1 more. -/
def Pq_evolve_loop (m_max_stamp : Int) :
    List (MNM_Veh_Multiclass × Int) →
      List (MNM_Veh_Multiclass × Int) × List MNM_Veh_Multiclass
  | [] => ([], [])
  | _que_it :: rest =>
    let r := Pq_evolve_loop m_max_stamp rest
    if _que_it.2 ≥ m_max_stamp then (r.1, _que_it.1 :: r.2)
    else ((_que_it.1, _que_it.2 + 1) :: r.1, r.2)

/-- The function `MNM_Dlink_Pq_Multiclass::evolve`; the time stamp is not
used by the code. -/
def MNM_Dlink_Pq_Multiclass.evolve (l : MNM_Dlink_Pq_Multiclass) : MNM_Dlink_Pq_Multiclass :=
  let r := Pq_evolve_loop l.m_max_stamp l.m_veh_queue
  { l with m_veh_queue := r.1, m_finished_array := l.m_finished_array ++ r.2 }

/-! ## Concrete vehicles and links used as inputs -/

/-- A private car with identifier `id` whose next link is `next`. -/
def car (id : Int) (next : Option Nat) : MNM_Veh_Multiclass :=
  { m_veh_ID := id, m_class := 0, m_start_time := 0, m_type := .MNM_TYPE_ADAPTIVE,
    m_current_link := none, m_next_link := next, m_dest := none, m_origin := none }

/-- A truck with identifier `id` whose next link is `next`. -/
def truck (id : Int) (next : Option Nat) : MNM_Veh_Multiclass :=
  { m_veh_ID := id, m_class := 1, m_start_time := 0, m_type := .MNM_TYPE_ADAPTIVE,
    m_current_link := none, m_next_link := next, m_dest := none, m_origin := none }

/-- The empty cell of a one-lane link of 100 m: jam densities 3/16 and 1/8
veh/m, flow capacities 3/10 and 1/4 veh/s, free-flow speeds 10 and 8 m/s,
`unit_time` 10 s, `flow_scalar` 1. The critical densities, wave speeds and
`rho_1_N` are the values the constructor computes from these. -/
def cell_100m : Ctm_Cell_Multiclass :=
  { m_cell_length := 100, m_unit_time := 10, m_flow_scalar := 1,
    m_hold_cap_car := 3 / 16, m_hold_cap_truck := 1 / 8,
    m_critical_density_car := 3 / 100, m_critical_density_truck := 1 / 32,
    m_rho_1_N := 15 / 416, m_flow_cap_car := 3 / 10, m_flow_cap_truck := 1 / 4,
    m_ffs_car := 10, m_ffs_truck := 8, m_wave_speed_car := 40 / 21, m_wave_speed_truck := 8 / 3,
    m_volume_car := 0, m_volume_truck := 0, m_out_veh_car := 0, m_out_veh_truck := 0,
    m_veh_queue_car := [], m_veh_queue_truck := [],
    m_perceived_density_car := 0, m_perceived_density_truck := 0,
    m_space_fraction_car := 0, m_space_fraction_truck := 0 }

/-- The empty one-cell link with identifier `id` built on `cell_100m`, with
its four cumulative curves installed; `veh_convert_factor` is 2. -/
def link_100m (id : Nat) : MNM_Dlink_Ctm_Multiclass :=
  { m_link_ID := id, m_number_of_lane := 1, m_length := 100,
    m_lane_hold_cap_car := 3 / 16, m_lane_hold_cap_truck := 1 / 8,
    m_lane_flow_cap_car := 3 / 10, m_lane_flow_cap_truck := 1 / 4,
    m_lane_critical_density_car := 3 / 100, m_lane_critical_density_truck := 1 / 32,
    m_lane_rho_1_N := 15 / 416, m_ffs_car := 10, m_ffs_truck := 8,
    m_wave_speed_car := 40 / 21, m_wave_speed_truck := 8 / 3,
    m_veh_convert_factor := 2, m_flow_scalar := 1, m_num_cells := 1,
    m_cell_array := [cell_100m], m_incoming_array := [], m_finished_array := [],
    m_N_in_car := some .installed, m_N_out_car := some .installed,
    m_N_in_truck := some .installed, m_N_out_truck := some .installed }

/-- The only cell of `link_3_cars_2_trucks`. -/
def cell_3_cars_2_trucks : Ctm_Cell_Multiclass :=
  { cell_100m with
    m_veh_queue_car := [car 1 (some 2), car 2 (some 2), car 3 (some 2)]
    m_veh_queue_truck := [truck 4 (some 2), truck 5 (some 2)]
    m_volume_car := 3
    m_volume_truck := 2 }

/-- The link `link_100m 1` whose only cell queues three cars and two trucks,
all bound for link 2, with the cell volumes that `clear_incoming_array` sets. -/
def link_3_cars_2_trucks : MNM_Dlink_Ctm_Multiclass :=
  { link_100m 1 with m_cell_array := [cell_3_cars_2_trucks] }

/-- The cell `cell_3_cars_2_trucks` with the out counts that `update_out_veh`
gives a last cell: the lengths of its queues. -/
def cell_3_cars_2_trucks_ready : Ctm_Cell_Multiclass :=
  { cell_3_cars_2_trucks with m_out_veh_car := 3, m_out_veh_truck := 2 }

/-- The link `link_3_cars_2_trucks` after `update_out_veh`. -/
def link_3_cars_2_trucks_ready : MNM_Dlink_Ctm_Multiclass :=
  { link_100m 1 with m_cell_array := [cell_3_cars_2_trucks_ready] }

/-- A last cell with one queued car, after `update_out_veh`. -/
def cell_1_car_ready : Ctm_Cell_Multiclass :=
  { cell_100m with
    m_veh_queue_car := [car 1 (some 2)], m_volume_car := 1, m_out_veh_car := 1 }

/-- The link `link_100m 1` with `cell_1_car_ready` as its cell. -/
def link_1_car_ready : MNM_Dlink_Ctm_Multiclass :=
  { link_100m 1 with m_cell_array := [cell_1_car_ready] }

/-- The empty link `link_100m 1` with the cars 1 and 2 in `incoming_array`;
its supply is 3 vehicles. -/
def link_2_incoming : MNM_Dlink_Ctm_Multiclass :=
  { link_100m 1 with m_incoming_array := [car 1 (some 2), car 2 (some 2)] }

/-- The empty link `link_100m 1` with four cars in `incoming_array`, one more
than its supply of 3 vehicles. -/
def link_4_incoming : MNM_Dlink_Ctm_Multiclass :=
  { link_100m 1 with
    m_incoming_array := [car 1 (some 2), car 2 (some 2), car 3 (some 2), car 4 (some 2)] }

/-- A one-cell link with identifier 1 whose `finished_array` holds a car and
a truck that have arrived (no next link). -/
def link_2_arrived : MNM_Dlink_Ctm_Multiclass :=
  { link_100m 1 with m_finished_array := [car 1 none, truck 2 none] }

/-- A destination node with `flow_scalar` 1 and `link_2_arrived` as its only
in-link. -/
def dest_node_2_arrived : MNM_DMDND_Multiclass :=
  { m_node_ID := 9, m_flow_scalar := 1, m_in_link_array := [link_2_arrived],
    m_out_veh_queue := [] }

/-- A destination node whose in-link holds a finished car bound for link 2. -/
def dest_node_wrong_vehicle : MNM_DMDND_Multiclass :=
  { m_node_ID := 9, m_flow_scalar := 1,
    m_in_link_array := [{ link_100m 1 with m_finished_array := [car 1 (some 2)] }],
    m_out_veh_queue := [] }

/-- An origin node with `flow_scalar` 1 whose only out-link is the empty link
`link_100m 5` (supply 3 vehicles) and whose queue holds ten cars bound for it. -/
def origin_node_10_cars : MNM_DMOND_Multiclass :=
  { m_node_ID := 0, m_flow_scalar := 1,
    m_in_veh_queue :=
      [car 1 (some 5), car 2 (some 5), car 3 (some 5), car 4 (some 5), car 5 (some 5),
        car 6 (some 5), car 7 (some 5), car 8 (some 5), car 9 (some 5), car 10 (some 5)],
    m_out_link_array := [link_100m 5],
    m_out_volume := fun _ => 0 }

/-- An origin (identifier 4) with two assignment intervals, release frequency
5 and `flow_scalar` 2: in interval 0 it has a demand of 3/2 cars and 1/2
trucks for destination 7. Its origin node is empty. -/
def origin_4 : MNM_Origin_Multiclass :=
  { m_Origin_ID := 4, m_max_assign_interval := 2, m_current_assign_interval := 0,
    m_flow_scalar := 2, m_frequency := 5,
    m_demand_car := [(7, [3 / 2, 0])], m_demand_truck := [(7, [1 / 2, 0])],
    m_origin_node :=
      { m_node_ID := 0, m_flow_scalar := 2, m_in_veh_queue := [],
        m_out_link_array := [link_100m 5], m_out_volume := fun _ => 0 } }

/-- A vehicle factory that has made no vehicle. -/
def empty_factory : MNM_Veh_Factory_Multiclass := { m_num_veh := 0, m_veh_map := [] }

/-- The state an outcome carries when the call returned. -/
def Outcome.returned? {σ : Type} : Outcome σ → Option σ
  | .returned s => some s
  | _ => none

/-- A `random_shuffle` that leaves the array in the order it has, one of the
orders a shuffle can give. -/
def shuffle_keep (g : Rng) (incoming : List MNM_Veh_Multiclass) :
    List MNM_Veh_Multiclass × Rng :=
  (incoming, g)

/-- A random source whose draws are all 0. -/
def rng_zero : Rng := { stream := fun _ => 0, pos := 0 }

/-- A junction with `flow_scalar` 1 after `prepare_loading`: its in-link 1
holds the finished car 1 bound for its out-link 2, which is empty (supply 3
vehicles). All cumulative curves are installed. -/
def junction_1_car : MNM_Dnode_Inout_Multiclass :=
  MNM_Dnode_Inout_Multiclass.prepare_loading
    { m_node_ID := 3, m_flow_scalar := 1,
      m_in_link_array := [{ link_100m 1 with m_finished_array := [car 1 (some 2)] }],
      m_out_link_array := [link_100m 2],
      m_demand := fun _ => 0, m_supply := fun _ => 0, m_veh_flow := fun _ => 0,
      m_veh_moved_car := fun _ => 0, m_veh_moved_truck := fun _ => 0 }

/-- What the theorems on concrete runs look at in a junction: per in-link its
`finished_array` and its `N_out_car` curve, per out-link its
`incoming_array` and its `N_in_car` curve. -/
def junction_view (n : MNM_Dnode_Inout_Multiclass) :
    List (List MNM_Veh_Multiclass × Option MNM_Cumulative_Curve) ×
      List (List MNM_Veh_Multiclass × Option MNM_Cumulative_Curve) :=
  (n.m_in_link_array.map (fun l => (l.m_finished_array, l.m_N_out_car)),
    n.m_out_link_array.map (fun l => (l.m_incoming_array, l.m_N_in_car)))

/-- The junction `n` after its in-links have each brought the car 2, bound
for link 2, to their `finished_array` (what the `evolve` of an in-link does
between two ticks of the node). -/
def junction_next_car (n : MNM_Dnode_Inout_Multiclass) : MNM_Dnode_Inout_Multiclass :=
  { n with
    m_in_link_array :=
      n.m_in_link_array.map (fun l => { l with m_finished_array := [car 2 (some 2)] }) }

/-- The empty two-cell link of 200 m with the lane parameters of `link_100m`
(standard cell length `10 * 10 = 100` m), with its cumulative curves
installed. -/
def link_200m : MNM_Dlink_Ctm_Multiclass :=
  { link_100m 1 with m_length := 200, m_num_cells := 2, m_cell_array := [cell_100m, cell_100m] }

/-- The link `link_200m` with the car 1, bound for link 2, in
`incoming_array`. -/
def link_200m_1_car : MNM_Dlink_Ctm_Multiclass :=
  { link_200m with m_incoming_array := [car 1 (some 2)] }

/-- One tick of a link: `clear_incoming_array` followed by `evolve`. -/
def link_tick (round : ℚ → Int) (fuel : Nat) (l : MNM_Dlink_Ctm_Multiclass) (g : Rng) :
    Outcome (MNM_Dlink_Ctm_Multiclass × Rng) :=
  match l.clear_incoming_array with
  | .returned l1 => l1.evolve round fuel g
  | .aborted l1 => .aborted (l1, g)
  | .undefined => .undefined
  | .out_of_fuel => .out_of_fuel

/-- The first `n` ticks of a link, each `clear_incoming_array` followed by
`evolve`. -/
def link_ticks (round : ℚ → Int) (fuel : Nat) :
    Nat → MNM_Dlink_Ctm_Multiclass → Rng → Outcome (MNM_Dlink_Ctm_Multiclass × Rng)
  | 0, l, g => .returned (l, g)
  | n + 1, l, g =>
    match link_ticks round fuel n l g with
    | .returned (l1, g1) => link_tick round fuel l1 g1
    | .aborted s => .aborted s
    | .undefined => .undefined
    | .out_of_fuel => .out_of_fuel

/-- Where the vehicles of a link are: per cell its two queues, then
`finished_array`. -/
def link_view (l : MNM_Dlink_Ctm_Multiclass) :
    List (List MNM_Veh_Multiclass × List MNM_Veh_Multiclass) × List MNM_Veh_Multiclass :=
  (l.m_cell_array.map (fun c => (c.m_veh_queue_car, c.m_veh_queue_truck)), l.m_finished_array)

/-- Whether an outcome is the undefined one. -/
def Outcome.is_undefined {σ : Type} : Outcome σ → Bool
  | .undefined => true
  | _ => false

/-- A rounding function standing for `MNM_Ults::round` in concrete runs. -/
def round_half_up (x : ℚ) : Int := ⌊x + 1 / 2⌋

/-- The four cumulative curves of a link: `N_in_car`, `N_out_car`,
`N_in_truck`, `N_out_truck`. -/
def link_curves (l : MNM_Dlink_Ctm_Multiclass) :
    Option MNM_Cumulative_Curve × Option MNM_Cumulative_Curve ×
      Option MNM_Cumulative_Curve × Option MNM_Cumulative_Curve :=
  (l.m_N_in_car, l.m_N_out_car, l.m_N_in_truck, l.m_N_out_truck)

/-- The curve `c1` is the curve `c`, left as it is or after one
`add_increment` of an increment that is not negative. -/
def curve_grows (c c1 : Option MNM_Cumulative_Curve) : Prop :=
  c1 = c ∨ ∃ r : ℚ × ℚ, 0 ≤ r.2 ∧ c1 = add_increment_if_installed c r

/-- Each of the four curves of a link grows. -/
def curves_grow
    (a b : Option MNM_Cumulative_Curve × Option MNM_Cumulative_Curve ×
      Option MNM_Cumulative_Curve × Option MNM_Cumulative_Curve) : Prop :=
  curve_grows a.1 b.1 ∧ curve_grows a.2.1 b.2.1 ∧ curve_grows a.2.2.1 b.2.2.1 ∧
    curve_grows a.2.2.2 b.2.2.2

/-- The counts of an installed curve do not decrease in the order recorded. -/
def curve_nondecreasing (c : Option MNM_Cumulative_Curve) : Prop :=
  ∀ x, c = some x → List.Chain' (fun a b : ℚ => a ≤ b) (x.m_recorder.map Prod.snd)

/-- The link `link_200m` with the car 1 queued in cell 0 and with a car and a
truck in `finished_array`, all bound for link 2. -/
def link_200m_3_vehicles : MNM_Dlink_Ctm_Multiclass :=
  { link_200m with
    m_cell_array := [{ cell_100m with m_veh_queue_car := [car 1 (some 2)] }, cell_100m]
    m_finished_array := [car 3 (some 2), truck 4 (some 2)] }

/-- The state an outcome carries when the run ended with `exit(-1)`. -/
def Outcome.aborted? {σ : Type} : Outcome σ → Option σ
  | .aborted s => some s
  | _ => none

/-- The junction `junction_1_car` with a finished car whose next link is
`next` in place of the car bound for link 2. -/
def junction_car_bound_for (next : Option Nat) : MNM_Dnode_Inout_Multiclass :=
  { junction_1_car with
    m_in_link_array := [{ link_100m 1 with m_finished_array := [car 1 next] }] }

/-- A `get_travel_time` that gives the start interval back, standing for
`MNM_DTA_GRADIENT::get_travel_time` in concrete runs. -/
def travel_time_stub (_link : MNM_Dlink_Ctm_Multiclass) (start_time : ℚ) : ℚ := start_time

/-- The link `link_200m` with four trucks queued in cell 0 and with a car and
a truck in `finished_array`, all bound for link 2. -/
def link_200m_4_trucks : MNM_Dlink_Ctm_Multiclass :=
  { link_200m with
    m_cell_array :=
      [{ cell_100m with
          m_veh_queue_truck :=
            [truck 5 (some 2), truck 6 (some 2), truck 7 (some 2), truck 8 (some 2)] },
        cell_100m]
    m_finished_array := [car 3 (some 2), truck 4 (some 2)] }

/-- The perceived densities `pd` are numbers, those that the cells hold in
their members `m_perceived_density_car` and `m_perceived_density_truck`. -/
def holds_perceived_density (pd : Nat → TFlt_ieee × TFlt_ieee)
    (cells : List Ctm_Cell_Multiclass) : Prop :=
  ∀ j c, cells[j]? = some c →
    (pd j).1.rational? = some c.m_perceived_density_car ∧
      (pd j).2.rational? = some c.m_perceived_density_truck

/-- The cells `cells1` are the cells `cells` with the perceived densities
`pd`, all of them numbers, in their members. -/
def perceived_density_stored (pd : Nat → TFlt_ieee × TFlt_ieee)
    (cells cells1 : List Ctm_Cell_Multiclass) : Prop :=
  cells1.length = cells.length ∧
    ∀ j c, cells[j]? = some c →
      ∃ x y, (pd j).1.rational? = some x ∧ (pd j).2.rational? = some y ∧
        cells1[j]? = some { c with m_perceived_density_car := x, m_perceived_density_truck := y }

/-- One tick of a link that a node has given the vehicles `arrivals`, as
`link_tick_arrivals`, for every state of the link. -/
def link_tick_arrivals_ieee (round : ℚ → Int) (fuel : Nat)
    (arrivals : List MNM_Veh_Multiclass) (s : MNM_Dlink_Ctm_Multiclass_ieee) (g : Rng) :
    Outcome (MNM_Dlink_Ctm_Multiclass_ieee × Rng) :=
  link_tick_ieee round fuel
    { s with link := { s.link with m_incoming_array := s.link.m_incoming_array ++ arrivals } } g

/-- The ticks of a link for the arrivals of each tick, in order, as
`link_run`, for every state of the link. -/
def link_run_ieee (round : ℚ → Int) (fuel : Nat) :
    List (List MNM_Veh_Multiclass) → MNM_Dlink_Ctm_Multiclass_ieee → Rng →
      Outcome (MNM_Dlink_Ctm_Multiclass_ieee × Rng)
  | [], s, g => .returned (s, g)
  | arrivals :: rest, s, g =>
    match link_tick_arrivals_ieee round fuel arrivals s g with
    | .returned (s1, g1) => link_run_ieee round fuel rest s1 g1
    | .aborted t => .aborted t
    | .undefined => .undefined
    | .out_of_fuel => .out_of_fuel

/-! ## The definitions of the design that the theorems compare the code with -/

/-- The real-world density of section 4.1: `rho = volume / (flow_scalar *
cell_length)`. -/
def section_4_1_rho (volume : Int) (flow_scalar cell_length : ℚ) : ℚ :=
  (volume : ℚ) / (flow_scalar * cell_length)

/-- The density `rho_c` of the cars of a cell. -/
def Ctm_Cell_Multiclass.rho_car (c : Ctm_Cell_Multiclass) : ℚ :=
  section_4_1_rho c.m_volume_car c.m_flow_scalar c.m_cell_length

/-- The density `rho_t` of the trucks of a cell. -/
def Ctm_Cell_Multiclass.rho_truck (c : Ctm_Cell_Multiclass) : ℚ :=
  section_4_1_rho c.m_volume_truck c.m_flow_scalar c.m_cell_length

/-- The defining condition of regime A of section 4.1 (free flow). -/
@[reducible] def regime_A (rho_c rho_t crit_c crit_t : ℚ) : Prop :=
  rho_c / crit_c + rho_t / crit_t ≤ 1

/-- The defining condition of regime B of section 4.1 (semi-congested). -/
@[reducible] def regime_B (rho_c rho_t crit_t rho_1_N : ℚ) : Prop :=
  rho_t / crit_t < 1 ∧ rho_c / (1 - rho_t / crit_t) ≤ rho_1_N

/-- The defining condition of regime C of section 4.1: "otherwise". -/
@[reducible] def regime_C (rho_c rho_t crit_c crit_t rho_1_N : ℚ) : Prop :=
  ¬ regime_A rho_c rho_t crit_c crit_t ∧ ¬ regime_B rho_c rho_t crit_t rho_1_N

/-- The perceived densities (car, truck) of section 4.1 for the densities
`rho_c` and `rho_t`, in the regime that the tests give in the order A, B, C. -/
def section_4_1_perceived (rho_c rho_t crit_c crit_t rho_1_N hold_cap_c hold_cap_t w_c w_t : ℚ)
    (volume_truck : Int) : ℚ × ℚ :=
  if regime_A rho_c rho_t crit_c crit_t then
    (rho_c + crit_c * (rho_t / crit_t), rho_t + crit_t * (rho_c / crit_c))
  else if regime_B rho_c rho_t crit_t rho_1_N then
    (rho_c / (1 - rho_t / crit_t), crit_t)
  else if volume_truck = 0 then
    (rho_c, hold_cap_t * w_t / ((hold_cap_c - rho_c) * w_c / rho_c + w_t))
  else
    (rho_c / ((rho_c ^ 2 * (w_c - w_t) + hold_cap_t * w_t * rho_c)
        / (hold_cap_c * w_c * rho_t + hold_cap_t * w_t * rho_c)),
      rho_t / ((rho_c ^ 2 * (w_t - w_c) + hold_cap_c * w_c * rho_t)
        / (hold_cap_c * w_c * rho_t + hold_cap_t * w_t * rho_c)))

/-- The perceived densities of section 4.1 for the state of a cell. -/
def Ctm_Cell_Multiclass.section_4_1_perceived (c : Ctm_Cell_Multiclass) : ℚ × ℚ :=
  MacPosts.section_4_1_perceived c.rho_car c.rho_truck c.m_critical_density_car
    c.m_critical_density_truck c.m_rho_1_N c.m_hold_cap_car c.m_hold_cap_truck
    c.m_wave_speed_car c.m_wave_speed_truck c.m_volume_truck

/-- The space fractions (car, truck) of section 4.1 for the state of a cell:
regime A, regime B, and regime C with trucks; the design names none for
regime C without trucks. -/
def Ctm_Cell_Multiclass.section_4_1_space_fraction (c : Ctm_Cell_Multiclass) : Option (ℚ × ℚ) :=
  if regime_A c.rho_car c.rho_truck c.m_critical_density_car c.m_critical_density_truck then
    some (c.rho_car / c.m_critical_density_car, c.rho_truck / c.m_critical_density_truck)
  else if regime_B c.rho_car c.rho_truck c.m_critical_density_truck c.m_rho_1_N then
    some (1 - c.rho_truck / c.m_critical_density_truck,
      c.rho_truck / c.m_critical_density_truck)
  else if c.m_volume_truck = 0 then none
  else
    some ((c.rho_car ^ 2 * (c.m_wave_speed_car - c.m_wave_speed_truck)
          + c.m_hold_cap_truck * c.m_wave_speed_truck * c.rho_car)
        / (c.m_hold_cap_car * c.m_wave_speed_car * c.rho_truck
          + c.m_hold_cap_truck * c.m_wave_speed_truck * c.rho_car),
      (c.rho_car ^ 2 * (c.m_wave_speed_truck - c.m_wave_speed_car)
          + c.m_hold_cap_car * c.m_wave_speed_car * c.rho_truck)
        / (c.m_hold_cap_car * c.m_wave_speed_car * c.rho_truck
          + c.m_hold_cap_truck * c.m_wave_speed_truck * c.rho_car))

/-- What a point-queue link takes from its budget for the vehicles `vs`, in
the words of section 4.5: 1 per car and `veh_convert_factor` per truck. -/
def absorbed_cost (veh_convert_factor : ℚ) (vs : List MNM_Veh_Multiclass) : ℚ :=
  (vs.map (fun _veh => if _veh.m_class = 0 then 1 else veh_convert_factor)).sum

/-- Modelled from the spec: the constructor `MNM_Veh_Factory::MNM_Veh_Factory`
of the base class of the factory, which is not part of the sources. A vehicle
is "created by the vehicle factory when an origin releases it": a new factory
has made no vehicle, its count is 0 and its map is empty. -/
def MNM_Veh_Factory_Multiclass.construct : MNM_Veh_Factory_Multiclass :=
  { m_num_veh := 0, m_veh_map := [] }

/-- The vehicles that a factory makes for a list of calls of
`make_veh_multiclass` (time stamp, type, class), in order, and the factory
after them. -/
def make_vehicles :
    List (Int × Vehicle_type × Int) → MNM_Veh_Factory_Multiclass →
      List MNM_Veh_Multiclass × MNM_Veh_Factory_Multiclass
  | [], f => ([], f)
  | call :: rest, f =>
    let made := f.make_veh_multiclass call.1 call.2.1 call.2.2
    let more := make_vehicles rest made.2
    (made.1 :: more.1, more.2)

/-- The point-queue link after `n` calls of `evolve`. -/
def Pq_evolves : Nat → MNM_Dlink_Pq_Multiclass → MNM_Dlink_Pq_Multiclass
  | 0, l => l
  | n + 1, l => (Pq_evolves n l).evolve

/-- One tick of a link that a node has given the vehicles `arrivals`: they
join `incoming_array`, then `clear_incoming_array` and `evolve` run. -/
def link_tick_arrivals (round : ℚ → Int) (fuel : Nat) (arrivals : List MNM_Veh_Multiclass)
    (l : MNM_Dlink_Ctm_Multiclass) (g : Rng) : Outcome (MNM_Dlink_Ctm_Multiclass × Rng) :=
  link_tick round fuel { l with m_incoming_array := l.m_incoming_array ++ arrivals } g

/-- The ticks of a link for the arrivals of each tick, in order. -/
def link_run (round : ℚ → Int) (fuel : Nat) :
    List (List MNM_Veh_Multiclass) → MNM_Dlink_Ctm_Multiclass → Rng →
      Outcome (MNM_Dlink_Ctm_Multiclass × Rng)
  | [], l, g => .returned (l, g)
  | arrivals :: rest, l, g =>
    match link_tick_arrivals round fuel arrivals l g with
    | .returned (l1, g1) => link_run round fuel rest l1 g1
    | .aborted s => .aborted s
    | .undefined => .undefined
    | .out_of_fuel => .out_of_fuel

/-- A cell of 100 m with `flow_scalar` 10, critical densities 1/20 and 1/50,
that holds 40 cars and 2 trucks: `rho_c / crit_c = 4/5` and
`rho_t / crit_t = 1/10`. Its other parameters are those the constructor
computes for one lane with jam densities 3/16 and 1/8, flow capacities 1/2
and 4/25 and speeds 10 and 8; its space fractions are the 0 of a new cell. -/
def cell_4_5_and_1_10 : Ctm_Cell_Multiclass :=
  { m_cell_length := 100, m_unit_time := 10, m_flow_scalar := 10,
    m_hold_cap_car := 3 / 16, m_hold_cap_truck := 1 / 8,
    m_critical_density_car := 1 / 20, m_critical_density_truck := 1 / 50,
    m_rho_1_N := 15 / 256, m_flow_cap_car := 1 / 2, m_flow_cap_truck := 4 / 25,
    m_ffs_car := 10, m_ffs_truck := 8, m_wave_speed_car := 40 / 11, m_wave_speed_truck := 32 / 21,
    m_volume_car := 40, m_volume_truck := 2, m_out_veh_car := 0, m_out_veh_truck := 0,
    m_veh_queue_car := [], m_veh_queue_truck := [],
    m_perceived_density_car := 0, m_perceived_density_truck := 0,
    m_space_fraction_car := 0, m_space_fraction_truck := 0 }

/-- A point-queue link of one lane with `max_stamp` 1 whose map holds the car
1 with stamp 0. -/
def pq_link_1_car : MNM_Dlink_Pq_Multiclass :=
  { m_link_ID := 1, m_number_of_lane := 1, m_length := 100, m_lane_hold_cap := 3 / 16,
    m_lane_flow_cap := 3 / 10, m_flow_scalar := 1, m_hold_cap := 75 / 4, m_ffs_car := 10,
    m_max_stamp := 1, m_veh_queue := [(car 1 (some 2), 0)], m_volume_car := 1,
    m_volume_truck := 0, m_unit_time := 10, m_veh_convert_factor := 2,
    m_incoming_array := [], m_finished_array := [] }

/-- An empty point-queue link of one lane with supply 3 (`flow_scalar` 1,
`veh_convert_factor` 2) whose `incoming_array` holds a car, a truck, a car
and a truck. -/
def pq_link_4_incoming : MNM_Dlink_Pq_Multiclass :=
  { pq_link_1_car with
    m_veh_queue := [], m_volume_car := 0,
    m_incoming_array := [car 1 (some 2), truck 2 (some 2), car 3 (some 2), truck 4 (some 2)] }


/-- The supply of a class as the design states it:
`max(0, min(flow_cap, wave_speed * (hold_cap - perceived_density))) *
unit_time`. -/
def section_4_2_supply (flow_cap wave_speed hold_cap perceived_density unit_time : ℚ) : ℚ :=
  max 0 (min flow_cap (wave_speed * (hold_cap - perceived_density))) * unit_time

/-- The demand of a class as the design states it:
`min(flow_cap, ffs * perceived_density) * unit_time`. -/
def section_4_2_demand (flow_cap ffs perceived_density unit_time : ℚ) : ℚ :=
  min flow_cap (ffs * perceived_density) * unit_time

/-- The out count of a class at the boundary of two cells as the design
states it: `round(space_fraction * min(demand, supply) * flow_scalar)`. -/
def section_4_3_out_veh (round : ℚ → Int) (space_fraction demand supply flow_scalar : ℚ) :
    Int :=
  round (space_fraction * min demand supply * flow_scalar)

/-- The cell `ci` with the out counts of section 4.3 for the next cell `cj`. -/
def Ctm_Cell_Multiclass.section_4_3_out (round : ℚ → Int) (flow_scalar : ℚ)
    (ci cj : Ctm_Cell_Multiclass) : Ctm_Cell_Multiclass :=
  { ci with
    m_out_veh_car :=
      section_4_3_out_veh round ci.m_space_fraction_car
        (section_4_2_demand ci.m_flow_cap_car ci.m_ffs_car ci.m_perceived_density_car
          ci.m_unit_time)
        (section_4_2_supply cj.m_flow_cap_car cj.m_wave_speed_car cj.m_hold_cap_car
          cj.m_perceived_density_car cj.m_unit_time)
        flow_scalar
    m_out_veh_truck :=
      section_4_3_out_veh round ci.m_space_fraction_truck
        (section_4_2_demand ci.m_flow_cap_truck ci.m_ffs_truck ci.m_perceived_density_truck
          ci.m_unit_time)
        (section_4_2_supply cj.m_flow_cap_truck cj.m_wave_speed_truck cj.m_hold_cap_truck
          cj.m_perceived_density_truck cj.m_unit_time)
        flow_scalar }

/-- The demand of section 4.6 of the in-link `in_link` for the out-link
`out_link`: the number of cars of `finished_array` whose next link is
`out_link`, plus `veh_convert_factor` of the in-link times the number of such
trucks, divided by the flow scalar. -/
def section_4_6_demand (flow_scalar : ℚ) (in_link out_link : MNM_Dlink_Ctm_Multiclass) : ℚ :=
  (((in_link.m_finished_array.countP
        (fun v => decide (v.m_next_link = some out_link.m_link_ID ∧ v.m_class = 0)) : Nat) : ℚ)
    + in_link.m_veh_convert_factor *
      ((in_link.m_finished_array.countP
        (fun v => decide (v.m_next_link = some out_link.m_link_ID ∧ ¬ v.m_class = 0)) : Nat) : ℚ))
    / flow_scalar

/-- The total demand of section 4.6 for the out-link `j`: the sum of
`demand[i,j]` over the in-links `i`. -/
def section_4_6_total_demand (num_in _offset j : Nat) (demand : Nat → ℚ) : ℚ :=
  ∑ i in Finset.range num_in, demand (i * _offset + j)

/-- The flow of section 4.6 for one pair: `share = demand / total_demand`,
"guarded against division by zero", and
`veh_flow = min(demand, share * supply)`. -/
def section_4_6_veh_flow (demand total_demand supply : ℚ) : ℚ :=
  min demand ((if total_demand = 0 then 0 else demand / total_demand) * supply)

/-- What the scan of section 4.6 leaves: the vehicles that stay in
`finished_array` and the vehicles moved, both in their order, the budget
left and the random source. -/
structure scan_outcome where
  kept : List MNM_Veh_Multiclass
  moved : List MNM_Veh_Multiclass
  to_move : ℚ
  rng : Rng

/-- The scan of section 4.6 for one pair (in-link, out-link) over the
finished vehicles, with the budget `to_move`: it stops once `to_move <= 0`;
a vehicle bound for the out-link, of cost `e` (1 for a car,
`veh_convert_factor` for a truck), is moved when `to_move >= e`, and when
`0 < to_move < e` it is moved exactly when the draw is at most `to_move / e`;
in both cases `e` is taken from `to_move`. A vehicle bound elsewhere stays. -/
def section_4_6_scan (out_id : Nat) (veh_convert_factor : ℚ) :
    List MNM_Veh_Multiclass → ℚ → Rng → scan_outcome
  | [], to_move, g => { kept := [], moved := [], to_move := to_move, rng := g }
  | v :: rest, to_move, g =>
    if to_move ≤ 0 then { kept := v :: rest, moved := [], to_move := to_move, rng := g }
    else if v.m_next_link = some out_id then
      let e : ℚ := if v.m_class = 0 then 1 else veh_convert_factor
      if e ≤ to_move then
        let r := section_4_6_scan out_id veh_convert_factor rest (to_move - e) g
        { r with moved := v :: r.moved }
      else
        let draw := MNM_Ults.rand_flt g
        let r := section_4_6_scan out_id veh_convert_factor rest (to_move - e) draw.2
        if draw.1 ≤ to_move / e then { r with moved := v :: r.moved }
        else { r with kept := v :: r.kept }
    else
      let r := section_4_6_scan out_id veh_convert_factor rest to_move g
      { r with kept := v :: r.kept }

/-- The counter `veh_moved[k]` after the vehicles `moved` that satisfy `p`
have each added 1 to it. -/
def add_moved (veh_moved : Nat → ℚ) (k : Nat) (p : MNM_Veh_Multiclass → Bool)
    (moved : List MNM_Veh_Multiclass) : Nat → ℚ :=
  if moved.countP p = 0 then veh_moved
  else Function.update veh_moved k (veh_moved k + ((moved.countP p : Nat) : ℚ))

/-- The car-equivalent cost of the vehicles of `vs` that are bound for the
link `out_id`: 1 per car and `veh_convert_factor` per truck. -/
def bound_cost (veh_convert_factor : ℚ) (out_id : Nat) (vs : List MNM_Veh_Multiclass) : ℚ :=
  (vs.map (fun v =>
    if v.m_next_link = some out_id then (if v.m_class = 0 then 1 else veh_convert_factor)
    else 0)).sum

/-- What a scan for the out-link `out_id` may do to an in-link: nothing but
`finished_array` changes, the vehicles that stay keep their order, and the
vehicles that left were bound for `out_id`. -/
def scanned_for (out_id : Nat) (a b : MNM_Dlink_Ctm_Multiclass) : Prop :=
  b = { a with m_finished_array := b.m_finished_array } ∧
    b.m_finished_array.Sublist a.m_finished_array ∧
    ∃ moved : List MNM_Veh_Multiclass, a.m_finished_array.Perm (b.m_finished_array ++ moved) ∧
      ∀ v ∈ moved, v.m_next_link = some out_id

/-- What `move_vehicle` may do to an in-link: nothing but `finished_array`
changes, and the vehicles that stay keep their order. -/
def finished_kept (a b : MNM_Dlink_Ctm_Multiclass) : Prop :=
  b = { a with m_finished_array := b.m_finished_array } ∧
    b.m_finished_array.Sublist a.m_finished_array

/-- What `move_vehicle` may do to an out-link: nothing but `incoming_array`
changes, which is a permutation of what it held and of vehicles that were
bound for the link and now have it as current link. -/
def incoming_grown (a b : MNM_Dlink_Ctm_Multiclass) : Prop :=
  b = { a with m_incoming_array := b.m_incoming_array } ∧
    ∃ moved : List MNM_Veh_Multiclass, b.m_incoming_array.Perm
        (a.m_incoming_array ++ moved.map (fun v => v.set_current_link (some a.m_link_ID))) ∧
      ∀ v ∈ moved, v.m_next_link = some a.m_link_ID

/-- The link `link_200m` whose cell 0 holds the cars 1 and 2, bound for link
2, with the perceived densities 1/50 and 1/48 and the space fractions 2/3 and
0 that section 4.1 gives for these volumes (regime A: the density of cars
1/50 is 2/3 of the critical density). -/
def link_200m_2_cars : MNM_Dlink_Ctm_Multiclass :=
  { link_200m with
    m_cell_array :=
      [{ cell_100m with
          m_veh_queue_car := [car 1 (some 2), car 2 (some 2)], m_volume_car := 2,
          m_perceived_density_car := 1 / 50, m_perceived_density_truck := 1 / 48,
          m_space_fraction_car := 2 / 3, m_space_fraction_truck := 0 },
        cell_100m] }

/-- A junction with `flow_scalar` 1 after `prepare_loading`: the in-link 1
holds the finished cars 1 and 2, the in-link 2 the finished car 3 and the
finished truck 4, all bound for the out-link 3, which is empty (supply 3
vehicles); `veh_convert_factor` is 2. -/
def junction_2_in_links : MNM_Dnode_Inout_Multiclass :=
  MNM_Dnode_Inout_Multiclass.prepare_loading
    { m_node_ID := 4, m_flow_scalar := 1,
      m_in_link_array :=
        [{ link_100m 1 with m_finished_array := [car 1 (some 3), car 2 (some 3)] },
          { link_100m 2 with m_finished_array := [car 3 (some 3), truck 4 (some 3)] }],
      m_out_link_array := [link_100m 3],
      m_demand := fun _ => 0, m_supply := fun _ => 0, m_veh_flow := fun _ => 0,
      m_veh_moved_car := fun _ => 0, m_veh_moved_truck := fun _ => 0 }

/-- The junction `junction_2_in_links` with the demands 2 and 3 and the
supply 3 that `prepare_supplyANDdemand` computes for it. -/
def junction_2_in_links_demand : MNM_Dnode_Inout_Multiclass :=
  { junction_2_in_links with
    m_demand := fun k => if k = 0 then 2 else if k = 1 then 3 else 0
    m_supply := fun k => if k = 0 then 3 else 0 }

/-- The junction `junction_1_car` with the flow 1 from its in-link to its
out-link. -/
def junction_1_car_flow_1 : MNM_Dnode_Inout_Multiclass :=
  { junction_1_car with m_veh_flow := fun _ => 1 }

/-! ## Theorems -/

/-- The derived parameters of `cell_100m` are the ones the constructor of the
link computes from its lane parameters: critical density `flow_cap / ffs`,
wave speed `flow_cap / (hold_cap - critical_density)` and
`rho_1_N = hold_cap_car * (wave_speed_car / (ffs_truck + wave_speed_car))`;
the jam densities exceed the critical densities. -/
theorem cell_100m_parameters :
    cell_100m.m_critical_density_car = cell_100m.m_flow_cap_car / cell_100m.m_ffs_car ∧
      cell_100m.m_critical_density_truck = cell_100m.m_flow_cap_truck / cell_100m.m_ffs_truck ∧
      cell_100m.m_critical_density_car < cell_100m.m_hold_cap_car ∧
      cell_100m.m_critical_density_truck < cell_100m.m_hold_cap_truck ∧
      cell_100m.m_wave_speed_car =
        cell_100m.m_flow_cap_car / (cell_100m.m_hold_cap_car - cell_100m.m_critical_density_car) ∧
      cell_100m.m_wave_speed_truck =
        cell_100m.m_flow_cap_truck /
          (cell_100m.m_hold_cap_truck - cell_100m.m_critical_density_truck) ∧
      cell_100m.m_rho_1_N =
        cell_100m.m_hold_cap_car *
          (cell_100m.m_wave_speed_car / (cell_100m.m_ffs_truck + cell_100m.m_wave_speed_car)) ∧
      cell_100m.m_cell_length = cell_100m.m_ffs_car * cell_100m.m_unit_time := by
  norm_num [cell_100m]

/-! ### The last cell of a CTM link -/

theorem move_last_cell_loop_not_returned (n_c n_t : Int) (p : ℚ) (h : n_c > 0 ∨ n_t > 0) :
    ∀ (fuel : Nat) (st : Ctm_Cell_Multiclass × List MNM_Veh_Multiclass × Rng)
      (s : Ctm_Cell_Multiclass × List MNM_Veh_Multiclass × Rng),
      move_last_cell_loop n_c n_t p fuel st ≠ .returned s := by
  intro fuel
  induction fuel with
  | zero => intro st s; simp [move_last_cell_loop]
  | succ k ih =>
    rintro ⟨c, fin, g⟩ s
    rw [move_last_cell_loop]
    simp only [h, if_true]
    split
    · exact ih _ s
    · simp
    · simp
    · simp

theorem move_last_cell_loop_undefined (n_c n_t : Int) (p : ℚ) (h : n_c > 0 ∨ n_t > 0) :
    ∀ (fuel : Nat) (c : Ctm_Cell_Multiclass) (fin : List MNM_Veh_Multiclass) (g : Rng),
      (∀ v ∈ c.m_veh_queue_car, v.has_next_link = true) →
      (∀ v ∈ c.m_veh_queue_truck, v.has_next_link = true) →
      c.m_veh_queue_car.length + c.m_veh_queue_truck.length < fuel →
      move_last_cell_loop n_c n_t p fuel (c, fin, g) = .undefined := by
  intro fuel
  induction fuel with
  | zero => intro c fin g _ _ hlen; omega
  | succ k ih =>
    intro c fin g hcar htruck hlen
    have key : ∀ m : Outcome (Ctm_Cell_Multiclass × List MNM_Veh_Multiclass),
        (m = move_last_cell_car c fin ∨ m = move_last_cell_truck c fin) →
        (match m with
          | .returned (c1, finished1) =>
            move_last_cell_loop n_c n_t p k (c1, finished1, (MNM_Ults.rand_flt g).2)
          | .aborted (c1, finished1) => .aborted (c1, finished1, (MNM_Ults.rand_flt g).2)
          | .undefined => .undefined
          | .out_of_fuel => .out_of_fuel) = .undefined := by
      intro m hm
      rcases hm with hm | hm
      · subst hm
        unfold move_last_cell_car
        cases hq : c.m_veh_queue_car with
        | nil => simp
        | cons v rest =>
          have hv : v.has_next_link = true := hcar v (by simp [hq])
          simp only [hv, if_true]
          apply ih
          · intro w hw; exact hcar w (by simp [hq, hw])
          · exact htruck
          · simp only [hq, List.length_cons] at hlen; simp only; omega
      · subst hm
        unfold move_last_cell_truck
        cases hq : c.m_veh_queue_truck with
        | nil => simp
        | cons v rest =>
          have hv : v.has_next_link = true := htruck v (by simp [hq])
          simp only [hv, if_true]
          apply ih
          · exact hcar
          · intro w hw; exact htruck w (by simp [hq, hw])
          · simp only [hq, List.length_cons] at hlen; simp only; omega
    rw [move_last_cell_loop]
    simp only [h, if_true]
    apply key
    split_ifs <;> simp


theorem update_out_veh_link_3_cars_2_trucks (round : ℚ → Int) :
    link_3_cars_2_trucks.update_out_veh round = some link_3_cars_2_trucks_ready := by
  rfl

/-- C1 (defect of the code): on the link whose last cell queues three cars and
two trucks, all with a next link, `update_out_veh` sets the candidates to 3
and 2, and then for every sequence of random draws `move_last_cell` does not
return with three cars and two trucks in `finished_array`: its loop never
lowers the two counters, goes on after the five vehicles are moved and calls
`front()` on an empty queue (from six iterations of fuel on the outcome is
`undefined`, with less fuel the loop is still running). -/
theorem move_last_cell_three_cars_two_trucks (round : ℚ → Int) (draws : Nat → ℚ) (fuel : Nat) :
    ∃ l, link_3_cars_2_trucks.update_out_veh round = some l ∧
      l.move_last_cell (fuel + 6) { stream := draws, pos := 0 } = .undefined ∧
      ¬ ∃ s, l.move_last_cell fuel { stream := draws, pos := 0 } = .returned s := by
  refine ⟨link_3_cars_2_trucks_ready, update_out_veh_link_3_cars_2_trucks round, ?_, ?_⟩
  · have hc : vec_at link_3_cars_2_trucks_ready.m_cell_array
        (link_3_cars_2_trucks_ready.m_num_cells - 1) = some cell_3_cars_2_trucks_ready := rfl
    unfold MNM_Dlink_Ctm_Multiclass.move_last_cell
    rw [hc]
    simp only
    rw [move_last_cell_loop_undefined]
    · rfl
    · left; decide
    · intro v hv
      simp [cell_3_cars_2_trucks_ready, cell_3_cars_2_trucks] at hv
      rcases hv with rfl | rfl | rfl <;> rfl
    · intro v hv
      simp [cell_3_cars_2_trucks_ready, cell_3_cars_2_trucks] at hv
      rcases hv with rfl | rfl <;> rfl
    · simp [cell_3_cars_2_trucks_ready, cell_3_cars_2_trucks]
  · have hc : vec_at link_3_cars_2_trucks_ready.m_cell_array
        (link_3_cars_2_trucks_ready.m_num_cells - 1) = some cell_3_cars_2_trucks_ready := rfl
    rintro ⟨s, hs⟩
    unfold MNM_Dlink_Ctm_Multiclass.move_last_cell at hs
    rw [hc] at hs
    simp only at hs
    cases hloop : move_last_cell_loop cell_3_cars_2_trucks_ready.m_out_veh_car
        cell_3_cars_2_trucks_ready.m_out_veh_truck
        ((cell_3_cars_2_trucks_ready.m_out_veh_car : ℚ) /
          ((cell_3_cars_2_trucks_ready.m_out_veh_car
            + cell_3_cars_2_trucks_ready.m_out_veh_truck : Int) : ℚ)) fuel
        (cell_3_cars_2_trucks_ready, link_3_cars_2_trucks_ready.m_finished_array,
          { stream := draws, pos := 0 }) with
    | returned st =>
      exact move_last_cell_loop_not_returned _ _ _ (Or.inl (by decide)) _ _ _ hloop
    | aborted st => rw [hloop] at hs; simp [Outcome.map] at hs
    | undefined => rw [hloop] at hs; simp [Outcome.map] at hs
    | out_of_fuel => rw [hloop] at hs; simp [Outcome.map] at hs

/-- C2 (defect of the code): whenever one of the two candidate counts of the
last cell is positive, `move_last_cell` does not return, whatever the random
draws and however many iterations it is given: the loop test reads two
counters that no statement of the loop changes, so the loop does not stop
after `n_c + n_t` iterations. -/
theorem move_last_cell_never_returns (l : MNM_Dlink_Ctm_Multiclass) (c : Ctm_Cell_Multiclass)
    (fuel : Nat) (g : Rng)
    (hc : vec_at l.m_cell_array (l.m_num_cells - 1) = some c)
    (h : c.m_out_veh_car > 0 ∨ c.m_out_veh_truck > 0) :
    ¬ ∃ s, l.move_last_cell fuel g = .returned s := by
  rintro ⟨s, hs⟩
  unfold MNM_Dlink_Ctm_Multiclass.move_last_cell at hs
  rw [hc] at hs
  simp only at hs
  cases hloop : move_last_cell_loop c.m_out_veh_car c.m_out_veh_truck
      ((c.m_out_veh_car : ℚ) / ((c.m_out_veh_car + c.m_out_veh_truck : Int) : ℚ)) fuel
      (c, l.m_finished_array, g) with
  | returned st => exact move_last_cell_loop_not_returned _ _ _ h _ _ _ hloop
  | aborted st => rw [hloop] at hs; simp [Outcome.map] at hs
  | undefined => rw [hloop] at hs; simp [Outcome.map] at hs
  | out_of_fuel => rw [hloop] at hs; simp [Outcome.map] at hs

/-- Witness of `move_last_cell_never_returns`: a last cell with one queued car
as only candidate. -/
theorem move_last_cell_never_returns_witness :
    vec_at link_1_car_ready.m_cell_array (link_1_car_ready.m_num_cells - 1)
        = some cell_1_car_ready ∧
      (cell_1_car_ready.m_out_veh_car > 0 ∨ cell_1_car_ready.m_out_veh_truck > 0) ∧
      ¬ ∃ s, link_1_car_ready.move_last_cell 2 { stream := fun _ => 0, pos := 0 }
          = .returned s :=
  ⟨rfl, Or.inl (by decide),
    move_last_cell_never_returns link_1_car_ready cell_1_car_ready 2
      { stream := fun _ => 0, pos := 0 } rfl (Or.inl (by decide))⟩


/-! ### `clear_incoming_array` and `get_link_supply` of a CTM link -/

theorem clear_incoming_array_loop_eq :
    ∀ (inc : List MNM_Veh_Multiclass) (i : Nat) (qc qt : List MNM_Veh_Multiclass),
      clear_incoming_array_loop i inc qc qt =
        (inc.drop ((inc.length - i + 1) / 2),
          qc ++ (inc.take ((inc.length - i + 1) / 2)).filter (fun v => decide (v.m_class = 0)),
          qt ++ (inc.take ((inc.length - i + 1) / 2)).filter
            (fun v => decide (¬ v.m_class = 0))) := by
  intro inc
  induction inc with
  | nil => intro i qc qt; simp [clear_incoming_array_loop]
  | cons v rest ih =>
    intro i qc qt
    rw [clear_incoming_array_loop]
    by_cases hi : i < (v :: rest).length
    · have hk : ((v :: rest).length - i + 1) / 2 = (rest.length - (i + 1) + 1) / 2 + 1 := by
        simp only [List.length_cons] at hi ⊢
        omega
      rw [if_pos hi, hk]
      by_cases hv : v.m_class = 0
      · rw [if_pos hv, ih]
        simp [hv]
      · rw [if_neg hv, ih]
        simp [hv]
    · have hk : ((v :: rest).length - i + 1) / 2 = 0 := by
        simp only [List.length_cons] at hi ⊢
        omega
      rw [if_neg hi, hk]
      simp

theorem get_link_supply_link_100m (id : Nat) (inc : List MNM_Veh_Multiclass) :
    ({ link_100m id with m_incoming_array := inc }).get_link_supply = some 3 := by
  norm_num [MNM_Dlink_Ctm_Multiclass.get_link_supply, link_100m, cell_100m]


/-- C3 (defect of the code): on a link with cell 0 whose `incoming_array` of
length `n` passes the supply check, `clear_incoming_array` returns after
moving only the first `(n + 1) / 2` vehicles to the queues of cell 0 (in
arrival order, cars to the car queue, trucks to the truck queue): its loop
test `i < m_incoming_array.size()` reads the size again after every
`pop_front`. The last `n / 2` vehicles stay in `incoming_array`, which is
therefore not empty once `n ≥ 2`; the volumes of cell 0 are set to the
lengths of its queues. -/
theorem clear_incoming_array_moves_half (l : MNM_Dlink_Ctm_Multiclass) (supply : ℚ)
    (c0 : Ctm_Cell_Multiclass) (cells : List Ctm_Cell_Multiclass)
    (hs : l.get_link_supply = some supply) (hc : l.m_cell_array = c0 :: cells)
    (hcheck : ¬ supply * l.m_flow_scalar < (l.m_incoming_array.length : ℚ)) :
    ∃ l1 c1, l.clear_incoming_array = .returned l1 ∧
      l1.m_incoming_array = l.m_incoming_array.drop ((l.m_incoming_array.length + 1) / 2) ∧
      l1.m_incoming_array.length = l.m_incoming_array.length / 2 ∧
      l1.m_cell_array = c1 :: cells ∧
      c1.m_veh_queue_car = c0.m_veh_queue_car ++
        (l.m_incoming_array.take ((l.m_incoming_array.length + 1) / 2)).filter
          (fun v => decide (v.m_class = 0)) ∧
      c1.m_veh_queue_truck = c0.m_veh_queue_truck ++
        (l.m_incoming_array.take ((l.m_incoming_array.length + 1) / 2)).filter
          (fun v => decide (¬ v.m_class = 0)) ∧
      c1.m_volume_car = (c1.m_veh_queue_car.length : Int) ∧
      c1.m_volume_truck = (c1.m_veh_queue_truck.length : Int) := by
  unfold MNM_Dlink_Ctm_Multiclass.clear_incoming_array
  rw [hs, hc]
  simp only [if_neg hcheck, clear_incoming_array_loop_eq, Nat.sub_zero]
  refine ⟨_, _, rfl, rfl, ?_, rfl, rfl, rfl, rfl, rfl⟩
  simp only [List.length_drop]
  omega

/-- Witness of `clear_incoming_array_moves_half`, and the failing input of C3:
with the cars 1 and 2 in `incoming_array` and a supply of 3 vehicles,
`clear_incoming_array` returns with car 2 still in `incoming_array`. -/
theorem clear_incoming_array_two_cars :
    link_2_incoming.get_link_supply = some 3 ∧
      ∃ l1, link_2_incoming.clear_incoming_array = .returned l1 ∧
        l1.m_incoming_array = [car 2 (some 2)] ∧
        l1.m_cell_array.map (fun c => c.m_veh_queue_car) = [[car 1 (some 2)]] := by
  have hs : link_2_incoming.get_link_supply = some 3 := get_link_supply_link_100m 1 _
  refine ⟨hs, ?_⟩
  obtain ⟨l1, c1, h1, h2, _, h4, h5, _⟩ :=
    clear_incoming_array_moves_half link_2_incoming 3 cell_100m [] hs rfl
      (by norm_num [link_2_incoming, link_100m])
  refine ⟨l1, h1, ?_, ?_⟩
  · rw [h2]; rfl
  · rw [h4]
    simp only [List.map_cons, List.map_nil, h5]
    rfl

/-- C4: on a link with cell 0 (so that `get_link_supply()` has a value),
`clear_incoming_array` ends with `exit(-1)` if and only if the number of
vehicles in `incoming_array` is strictly greater than
`get_link_supply() * flow_scalar`; when it does, the link is in the state it
was called in, so no vehicle has been moved into cell 0; when it does not, the
call returns. -/
theorem clear_incoming_array_aborts_iff (l : MNM_Dlink_Ctm_Multiclass) (supply : ℚ)
    (hs : l.get_link_supply = some supply) :
    ((∃ s, l.clear_incoming_array = .aborted s) ↔
        supply * l.m_flow_scalar < (l.m_incoming_array.length : ℚ)) ∧
      (∀ s, l.clear_incoming_array = .aborted s → s = l) ∧
      (¬ supply * l.m_flow_scalar < (l.m_incoming_array.length : ℚ) →
        ∃ l1, l.clear_incoming_array = .returned l1) := by
  unfold MNM_Dlink_Ctm_Multiclass.clear_incoming_array
  cases hc : l.m_cell_array with
  | nil => simp [MNM_Dlink_Ctm_Multiclass.get_link_supply, hc] at hs
  | cons c0 cells =>
    rw [hs]
    simp only
    by_cases hcheck : supply * l.m_flow_scalar < (l.m_incoming_array.length : ℚ)
    · simp only [if_pos hcheck]
      refine ⟨⟨fun _ => hcheck, fun _ => ⟨l, rfl⟩⟩, ?_, fun h => absurd hcheck h⟩
      intro s hs1
      injection hs1 with hs1
      exact hs1.symm
    · simp only [if_neg hcheck]
      refine ⟨⟨?_, fun h => absurd h hcheck⟩, ?_, fun _ => ⟨_, rfl⟩⟩
      · rintro ⟨s, hs1⟩; cases hs1
      · intro s hs1; cases hs1

/-- Witness of `clear_incoming_array_aborts_iff`: four cars in
`incoming_array` against a supply of 3 vehicles and `flow_scalar` 1; the call
aborts and leaves the link as it was. -/
theorem clear_incoming_array_aborts_iff_witness :
    link_4_incoming.get_link_supply = some 3 ∧
      link_4_incoming.clear_incoming_array = .aborted link_4_incoming := by
  have hs : link_4_incoming.get_link_supply = some 3 := get_link_supply_link_100m 1 _
  refine ⟨hs, ?_⟩
  obtain ⟨h1, h2, _⟩ := clear_incoming_array_aborts_iff link_4_incoming 3 hs
  obtain ⟨s, hs1⟩ := h1.mpr (by norm_num [link_4_incoming, link_100m])
  rw [hs1, h2 s hs1]

/-- C10: on a link with cell 0, `get_link_supply` is
`max(0, min(flow_cap_car, wave_speed_car * (hold_cap_car - density))) * unit_time`
with `density = (volume_truck * veh_convert_factor + volume_car) /
(flow_scalar * cell_length)`, where the volumes, the length, the capacities and
`unit_time` are those of cell 0; hence, `unit_time` and `flow_cap_car` of the
cell being non-negative (the constructor refuses `unit_time <= 0` and a
negative lane capacity), it is at least 0 and at most
`flow_cap_car * unit_time`. -/
theorem get_link_supply_formula (l : MNM_Dlink_Ctm_Multiclass) (c0 : Ctm_Cell_Multiclass)
    (cells : List Ctm_Cell_Multiclass) (hc : l.m_cell_array = c0 :: cells) :
    l.get_link_supply =
        some (max 0 (min c0.m_flow_cap_car
          (l.m_wave_speed_car * (c0.m_hold_cap_car -
            ((c0.m_volume_truck : ℚ) * l.m_veh_convert_factor + (c0.m_volume_car : ℚ)) /
              (l.m_flow_scalar * c0.m_cell_length)))) * c0.m_unit_time) ∧
      (0 ≤ c0.m_unit_time → 0 ≤ c0.m_flow_cap_car →
        ∃ s, l.get_link_supply = some s ∧ 0 ≤ s ∧ s ≤ c0.m_flow_cap_car * c0.m_unit_time) := by
  have heq : l.get_link_supply =
      some (max 0 (min c0.m_flow_cap_car
        (l.m_wave_speed_car * (c0.m_hold_cap_car -
          ((c0.m_volume_truck : ℚ) * l.m_veh_convert_factor + (c0.m_volume_car : ℚ)) /
            (l.m_flow_scalar * c0.m_cell_length)))) * c0.m_unit_time) := by
    unfold MNM_Dlink_Ctm_Multiclass.get_link_supply
    rw [hc]
    simp only [div_div]
  refine ⟨heq, fun hut hfc => ⟨_, heq, ?_, ?_⟩⟩
  · exact mul_nonneg (le_max_left _ _) hut
  · exact mul_le_mul_of_nonneg_right (max_le hfc (min_le_left _ _)) hut

/-- Witness of `get_link_supply_formula`: the empty link `link_100m 1`, whose
supply is `3/10 * 10 = 3` vehicles. -/
theorem get_link_supply_formula_witness :
    (link_100m 1).m_cell_array = [cell_100m] ∧ (0 : ℚ) ≤ cell_100m.m_unit_time ∧
      (0 : ℚ) ≤ cell_100m.m_flow_cap_car ∧ (link_100m 1).get_link_supply = some 3 ∧
      ∃ s, (link_100m 1).get_link_supply = some s ∧ 0 ≤ s ∧
        s ≤ cell_100m.m_flow_cap_car * cell_100m.m_unit_time := by
  have hut : (0 : ℚ) ≤ cell_100m.m_unit_time := by norm_num [cell_100m]
  have hfc : (0 : ℚ) ≤ cell_100m.m_flow_cap_car := by norm_num [cell_100m]
  refine ⟨rfl, hut, hfc, ?_, ?_⟩
  · rw [(get_link_supply_formula (link_100m 1) cell_100m [] rfl).1]
    norm_num [link_100m, cell_100m]
  · exact (get_link_supply_formula (link_100m 1) cell_100m [] rfl).2 hut hfc


/-! ### The destination node -/

theorem DMDND_drain_all :
    ∀ (fin q : List MNM_Veh_Multiclass) (mc mt : Int),
      (∀ v ∈ fin, v.m_next_link = none) →
      DMDND_drain fin.length
          { finished := fin, out_veh_queue := q, moved_car := mc, moved_truck := mt } =
        .returned
          { finished := [], out_veh_queue := q ++ fin.map (fun v => v.set_current_link none),
            moved_car := mc + (fin.countP (fun v => decide (v.m_class = 0)) : Nat),
            moved_truck := mt + (fin.countP (fun v => decide (¬ v.m_class = 0)) : Nat) } := by
  intro fin
  induction fin with
  | nil => intro q mc mt _; simp [DMDND_drain]
  | cons v rest ih =>
    intro q mc mt h
    have hv : v.m_next_link = none := h v (by simp)
    have hrest : ∀ w ∈ rest, w.m_next_link = none := fun w hw => h w (by simp [hw])
    simp only [List.length_cons, DMDND_drain, hv, ne_eq, not_true_eq_false, if_false]
    by_cases hcls : v.m_class = 0
    · simp only [if_pos hcls]
      rw [ih _ _ _ hrest]
      simp [hcls, add_assoc, add_comm]
    · simp only [if_neg hcls]
      rw [ih _ _ _ hrest]
      simp [hcls, add_assoc, add_comm]

theorem DMDND_drain_abort :
    ∀ (fin q : List MNM_Veh_Multiclass) (mc mt : Int),
      (∃ v ∈ fin, v.m_next_link ≠ none) →
      ∃ s, DMDND_drain fin.length
          { finished := fin, out_veh_queue := q, moved_car := mc, moved_truck := mt } =
        .aborted s := by
  intro fin
  induction fin with
  | nil => intro q mc mt h; simp at h
  | cons v rest ih =>
    intro q mc mt h
    by_cases hv : v.m_next_link = none
    · have hrest : ∃ w ∈ rest, w.m_next_link ≠ none := by
        obtain ⟨w, hw, hne⟩ := h
        rcases List.mem_cons.mp hw with rfl | hw
        · exact absurd hv hne
        · exact ⟨w, hw, hne⟩
      simp only [List.length_cons, DMDND_drain, hv, ne_eq, not_true_eq_false, if_false]
      by_cases hcls : v.m_class = 0
      · simp only [if_pos hcls]; exact ih _ _ _ hrest
      · simp only [if_neg hcls]; exact ih _ _ _ hrest
    · refine ⟨{ finished := v :: rest, out_veh_queue := q, moved_car := mc, moved_truck := mt },
        ?_⟩
      simp only [List.length_cons, DMDND_drain, ne_eq, hv, not_false_eq_true, if_true]


theorem DMDND_evolve_links_all (t : Int) (fs : ℚ) :
    ∀ (todo done : List MNM_Dlink_Ctm_Multiclass) (q : List MNM_Veh_Multiclass),
      (∀ l ∈ todo, ∀ v ∈ l.m_finished_array, v.m_next_link = none) →
      DMDND_evolve_links t fs done q todo =
        .returned
          (done ++ todo.map (fun l =>
              { l with
                m_finished_array := []
                m_N_out_car := add_increment_if_installed l.m_N_out_car
                  (((t + 1 : Int) : ℚ),
                    ((l.m_finished_array.countP (fun v => decide (v.m_class = 0)) : Nat) : ℚ)
                      / fs)
                m_N_out_truck := add_increment_if_installed l.m_N_out_truck
                  (((t + 1 : Int) : ℚ),
                    ((l.m_finished_array.countP (fun v => decide (¬ v.m_class = 0)) : Nat) : ℚ)
                      / fs) }),
            q ++ (todo.map (fun l =>
              l.m_finished_array.map (fun v => v.set_current_link none))).flatten) := by
  intro todo
  induction todo with
  | nil => intro done q _; simp [DMDND_evolve_links]
  | cons l rest ih =>
    intro done q h
    have hl : ∀ v ∈ l.m_finished_array, v.m_next_link = none := h l (by simp)
    have hrest : ∀ l1 ∈ rest, ∀ v ∈ l1.m_finished_array, v.m_next_link = none :=
      fun l1 hl1 => h l1 (by simp [hl1])
    rw [DMDND_evolve_links, DMDND_drain_all _ _ _ _ hl]
    simp only
    rw [ih _ _ hrest]
    simp

theorem DMDND_evolve_links_abort (t : Int) (fs : ℚ) :
    ∀ (todo done : List MNM_Dlink_Ctm_Multiclass) (q : List MNM_Veh_Multiclass),
      (∃ l ∈ todo, ∃ v ∈ l.m_finished_array, v.m_next_link ≠ none) →
      ∃ s, DMDND_evolve_links t fs done q todo = .aborted s := by
  intro todo
  induction todo with
  | nil => intro done q h; simp at h
  | cons l rest ih =>
    intro done q h
    by_cases hl : ∀ v ∈ l.m_finished_array, v.m_next_link = none
    · have hrest : ∃ l1 ∈ rest, ∃ v ∈ l1.m_finished_array, v.m_next_link ≠ none := by
        obtain ⟨l1, hl1, v, hv, hne⟩ := h
        rcases List.mem_cons.mp hl1 with rfl | hl1
        · exact absurd (hl v hv) hne
        · exact ⟨l1, hl1, v, hv, hne⟩
      rw [DMDND_evolve_links, DMDND_drain_all _ _ _ _ hl]
      simp only
      exact ih _ _ hrest
    · push_neg at hl
      obtain ⟨s, hs⟩ := DMDND_drain_abort l.m_finished_array q 0 0 hl
      rw [DMDND_evolve_links, hs]
      exact ⟨_, rfl⟩

/-- C8: when every finished vehicle of every in-link of a destination node has
a null next link, `evolve` returns; it has emptied the `finished_array` of
every in-link, appended those vehicles to `out_veh_queue` in order (in-link
after in-link, each in its order) with their current link set to null, and
given every in-link the increments `N_out_car += (#cars drained)/flow_scalar`
and `N_out_truck += (#trucks drained)/flow_scalar` at `t + 1` (on the curves
that are installed). When some finished vehicle has a non-null next link,
`evolve` ends with `exit(-1)`. -/
theorem DMDND_evolve_drains (n : MNM_DMDND_Multiclass) (t : Int) :
    ((∀ l ∈ n.m_in_link_array, ∀ v ∈ l.m_finished_array, v.m_next_link = none) →
        ∃ n1, n.evolve t = .returned n1 ∧
          n1.m_out_veh_queue =
            n.m_out_veh_queue ++ (n.m_in_link_array.map (fun l =>
              l.m_finished_array.map (fun v => v.set_current_link none))).flatten ∧
          n1.m_in_link_array = n.m_in_link_array.map (fun l =>
            { l with
              m_finished_array := []
              m_N_out_car := add_increment_if_installed l.m_N_out_car
                (((t + 1 : Int) : ℚ),
                  ((l.m_finished_array.countP (fun v => decide (v.m_class = 0)) : Nat) : ℚ)
                    / n.m_flow_scalar)
              m_N_out_truck := add_increment_if_installed l.m_N_out_truck
                (((t + 1 : Int) : ℚ),
                  ((l.m_finished_array.countP (fun v => decide (¬ v.m_class = 0)) : Nat) : ℚ)
                    / n.m_flow_scalar) })) ∧
      ((∃ l ∈ n.m_in_link_array, ∃ v ∈ l.m_finished_array, v.m_next_link ≠ none) →
        ∃ s, n.evolve t = .aborted s) := by
  constructor
  · intro h
    unfold MNM_DMDND_Multiclass.evolve
    rw [DMDND_evolve_links_all t n.m_flow_scalar _ _ _ h]
    exact ⟨_, rfl, rfl, by simp⟩
  · intro h
    unfold MNM_DMDND_Multiclass.evolve
    obtain ⟨s, hs⟩ := DMDND_evolve_links_abort t n.m_flow_scalar n.m_in_link_array []
      n.m_out_veh_queue h
    rw [hs]
    exact ⟨_, rfl⟩

/-- Witness of `DMDND_evolve_drains`: a destination node with `flow_scalar` 1
drains at tick 0 an in-link that holds an arrived car and an arrived truck,
and aborts on an in-link that holds a car bound for link 2. -/
theorem DMDND_evolve_drains_witness :
    (∃ n1, dest_node_2_arrived.evolve 0 = .returned n1 ∧
        n1.m_out_veh_queue = [car 1 none, truck 2 none] ∧
        n1.m_in_link_array.map (fun l => (l.m_finished_array, l.m_N_out_car, l.m_N_out_truck)) =
          [([], some { m_recorder := [(0, 0), (1, 1)] },
            some { m_recorder := [(0, 0), (1, 1)] })]) ∧
      ∃ s, dest_node_wrong_vehicle.evolve 0 = .aborted s := by
  constructor
  · obtain ⟨n1, h1, h2, h3⟩ := (DMDND_evolve_drains dest_node_2_arrived 0).1
      (by
        intro l hl v hv
        simp only [dest_node_2_arrived, List.mem_singleton] at hl
        subst hl
        simp only [link_2_arrived, List.mem_cons, List.mem_singleton, List.not_mem_nil,
          or_false] at hv
        rcases hv with rfl | rfl <;> rfl)
    refine ⟨n1, h1, ?_, ?_⟩
    · rw [h2]; rfl
    · rw [h3]
      simp only [dest_node_2_arrived, link_2_arrived, link_100m, List.map_cons, List.map_nil,
        add_increment_if_installed, MNM_Cumulative_Curve.installed,
        MNM_Cumulative_Curve.add_increment, MNM_Cumulative_Curve.add_record, car, truck]
      norm_num
  · exact (DMDND_evolve_drains dest_node_wrong_vehicle 0).2
      ⟨_, List.mem_singleton.mpr rfl, car 1 (some 2), List.mem_singleton.mpr rfl, by decide⟩


/-! ### The origin node -/

theorem DMOND_reset_out_volume_keep (key : Option Nat) :
    ∀ (links : List MNM_Dlink_Ctm_Multiclass) (vol : Option Nat → Int),
      vol key = 0 → DMOND_reset_out_volume links vol key = 0 := by
  intro links
  induction links with
  | nil => intro vol h; simpa [DMOND_reset_out_volume] using h
  | cons l rest ih =>
    intro vol h
    simp only [DMOND_reset_out_volume, List.foldl_cons]
    apply ih
    by_cases hk : key = some l.m_link_ID
    · rw [hk]; simp
    · rw [Function.update_noteq hk]; exact h

theorem DMOND_reset_out_volume_zero :
    ∀ (links : List MNM_Dlink_Ctm_Multiclass) (vol : Option Nat → Int),
      ∀ l ∈ links, DMOND_reset_out_volume links vol (some l.m_link_ID) = 0 := by
  intro links
  induction links with
  | nil => intro vol l hl; simp at hl
  | cons l0 rest ih =>
    intro vol l hl
    rcases List.mem_cons.mp hl with rfl | hl
    · simp only [DMOND_reset_out_volume, List.foldl_cons]
      exact DMOND_reset_out_volume_keep _ rest _ (by simp)
    · simp only [DMOND_reset_out_volume, List.foldl_cons]
      exact ih _ l hl

theorem DMOND_compute_out_volume_cars (links : List MNM_Dlink_Ctm_Multiclass) (id : Nat) :
    ∀ (queue : List MNM_Veh_Multiclass) (vol : Option Nat → Int),
      (∀ v ∈ queue, v.m_class = 0 ∧ v.m_next_link = some id) →
      DMOND_compute_out_volume links queue vol =
        some (Function.update vol (some id) (vol (some id) + (queue.length : Int))) := by
  intro queue
  induction queue with
  | nil => intro vol _; simp [DMOND_compute_out_volume]
  | cons v rest ih =>
    intro vol h
    obtain ⟨hc, hn⟩ := h v (by simp)
    have hrest : ∀ w ∈ rest, w.m_class = 0 ∧ w.m_next_link = some id :=
      fun w hw => h w (by simp [hw])
    rw [DMOND_compute_out_volume, if_pos hc, hn, ih _ hrest]
    simp only [Function.update_same, Function.update_idem, List.length_cons, Nat.cast_add,
      Nat.cast_one]
    rw [add_assoc, add_comm (1 : Int)]

theorem DMOND_cap_out_volume_append (fs : ℚ) :
    ∀ (a b : List MNM_Dlink_Ctm_Multiclass) (vol : Option Nat → Int),
      DMOND_cap_out_volume fs (a ++ b) vol =
        (DMOND_cap_out_volume fs a vol).bind (DMOND_cap_out_volume fs b) := by
  intro a
  induction a with
  | nil => intro b vol; simp [DMOND_cap_out_volume]
  | cons l rest ih =>
    intro b vol
    simp only [List.cons_append, DMOND_cap_out_volume]
    cases l.get_link_supply with
    | none => simp
    | some s =>
      simp only
      split_ifs <;> exact ih _ _

theorem TInt_of_TFlt_nonpos (x : ℚ) (h : x < 0) : TInt_of_TFlt x ≤ 0 := by
  unfold TInt_of_TFlt
  rw [if_neg (not_le.mpr h)]
  exact Int.ceil_le.mpr (by simpa using h.le)

/-- Capping the out-links `links`, none of which is the link `id`, leaves the
volume of `id` as it is and keeps the volumes of the links `others` at most 0. -/
theorem DMOND_cap_out_volume_others (fs : ℚ) (id : Nat)
    (others : List MNM_Dlink_Ctm_Multiclass) :
    ∀ (links : List MNM_Dlink_Ctm_Multiclass) (vol : Option Nat → Int),
      (∀ l ∈ links, l ∈ others ∧ l.m_link_ID ≠ id ∧ l.get_link_supply ≠ none) →
      (∀ l ∈ others, vol (some l.m_link_ID) ≤ 0) →
      ∃ vol1, DMOND_cap_out_volume fs links vol = some vol1 ∧
        (∀ l ∈ others, vol1 (some l.m_link_ID) ≤ 0) ∧ vol1 (some id) = vol (some id) := by
  intro links
  induction links with
  | nil => intro vol _ hP; exact ⟨vol, by simp [DMOND_cap_out_volume], hP, rfl⟩
  | cons l rest ih =>
    intro vol h hP
    obtain ⟨hmem, hne, hsup⟩ := h l (by simp)
    have hrest : ∀ l1 ∈ rest, l1 ∈ others ∧ l1.m_link_ID ≠ id ∧ l1.get_link_supply ≠ none :=
      fun l1 hl1 => h l1 (by simp [hl1])
    obtain ⟨s, hs⟩ := Option.ne_none_iff_exists'.mp hsup
    rw [DMOND_cap_out_volume, hs]
    simp only
    by_cases hlt : s * fs < ((vol (some l.m_link_ID) : Int) : ℚ)
    · rw [if_pos hlt]
      have hneg : s * fs < 0 := by
        have h0 : ((vol (some l.m_link_ID) : Int) : ℚ) ≤ 0 := by exact_mod_cast hP l hmem
        linarith
      obtain ⟨vol1, h1, h2, h3⟩ := ih
        (Function.update vol (some l.m_link_ID) (TInt_of_TFlt (s * fs))) hrest
        (by
          intro l1 hl1
          by_cases hk : l1.m_link_ID = l.m_link_ID
          · rw [hk, Function.update_same]; exact TInt_of_TFlt_nonpos _ hneg
          · rw [Function.update_noteq (by simpa using hk)]; exact hP l1 hl1)
      refine ⟨vol1, h1, h2, ?_⟩
      rw [h3, Function.update_noteq]
      simpa using hne.symm
    · rw [if_neg hlt]
      exact ih vol hrest hP


theorem DMOND_move_loop_blocked (L : MNM_Dlink_Ctm_Multiclass)
    (passed inc : List MNM_Veh_Multiclass) (v mc mt : Int) (hv : v ≤ 0)
    (queue : List MNM_Veh_Multiclass) :
    (DMOND_move_loop L passed v inc mc mt queue).passed ++
        (DMOND_move_loop L passed v inc mc mt queue).ahead = passed ++ queue ∧
      (DMOND_move_loop L passed v inc mc mt queue).out_volume = v ∧
      (DMOND_move_loop L passed v inc mc mt queue).incoming = inc ∧
      (DMOND_move_loop L passed v inc mc mt queue).moved_car = mc ∧
      (DMOND_move_loop L passed v inc mc mt queue).moved_truck = mt := by
  cases queue with
  | nil => simp [DMOND_move_loop]
  | cons w rest =>
    rw [DMOND_move_loop, if_neg (not_lt.mpr hv)]
    simp

theorem DMOND_move_loop_cars (L : MNM_Dlink_Ctm_Multiclass) (mt : Int) :
    ∀ (queue inc : List MNM_Veh_Multiclass) (v mc : Int),
      (∀ w ∈ queue, w.m_class = 0 ∧ w.m_next_link = some L.m_link_ID) →
      DMOND_move_loop L [] v inc mc mt queue =
        { passed := []
          ahead := queue.drop (min queue.length v.toNat)
          out_volume := v - (min queue.length v.toNat : Nat)
          incoming := inc ++ (queue.take (min queue.length v.toNat)).map
            (fun w => w.set_current_link (some L.m_link_ID))
          moved_car := mc + (min queue.length v.toNat : Nat)
          moved_truck := mt } := by
  intro queue
  induction queue with
  | nil => intro inc v mc _; simp [DMOND_move_loop]
  | cons w rest ih =>
    intro inc v mc h
    obtain ⟨hc, hn⟩ := h w (by simp)
    have hrest : ∀ u ∈ rest, u.m_class = 0 ∧ u.m_next_link = some L.m_link_ID :=
      fun u hu => h u (by simp [hu])
    rw [DMOND_move_loop]
    by_cases hv : v > 0
    · have hmin : min (w :: rest).length v.toNat = min rest.length (v - 1).toNat + 1 := by
        simp only [List.length_cons]
        omega
      rw [if_pos hv, if_pos hn, if_pos hc, ih _ _ _ hrest, hmin]
      simp only [List.drop_succ_cons, List.take_succ_cons, List.map_cons, List.append_assoc,
        List.singleton_append, Nat.cast_add, Nat.cast_one]
      congr 1 <;> omega
    · have hmin : min (w :: rest).length v.toNat = 0 := by
        simp only [List.length_cons]
        omega
      rw [if_neg hv, hmin]
      simp

theorem DMOND_move_links_append (t : Int) (fs : ℚ) :
    ∀ (a b done : List MNM_Dlink_Ctm_Multiclass) (queue : List MNM_Veh_Multiclass)
      (vol : Option Nat → Int),
      DMOND_move_links t fs done queue vol (a ++ b) =
        DMOND_move_links t fs (DMOND_move_links t fs done queue vol a).1
          (DMOND_move_links t fs done queue vol a).2.1
          (DMOND_move_links t fs done queue vol a).2.2 b := by
  intro a
  induction a with
  | nil => intro b done queue vol; simp [DMOND_move_links]
  | cons l rest ih =>
    intro b done queue vol
    simp only [List.cons_append, DMOND_move_links]
    exact ih _ _ _ _

/-- Out-links whose volume is at most 0 take no vehicle: the queue and the
volumes stay as they are. -/
theorem DMOND_move_links_blocked (t : Int) (fs : ℚ) :
    ∀ (links done : List MNM_Dlink_Ctm_Multiclass) (queue : List MNM_Veh_Multiclass)
      (vol : Option Nat → Int),
      (∀ l ∈ links, vol (some l.m_link_ID) ≤ 0) →
      ∃ links1, links1.length = links.length ∧
        DMOND_move_links t fs done queue vol links = (done ++ links1, queue, vol) := by
  intro links
  induction links with
  | nil => intro done queue vol _; exact ⟨[], rfl, by simp [DMOND_move_links]⟩
  | cons l rest ih =>
    intro done queue vol h
    have hl : vol (some l.m_link_ID) ≤ 0 := h l (by simp)
    have hrest : ∀ l1 ∈ rest, vol (some l1.m_link_ID) ≤ 0 := fun l1 hl1 => h l1 (by simp [hl1])
    obtain ⟨h1, h2, _, _, _⟩ :=
      DMOND_move_loop_blocked l [] l.m_incoming_array (vol (some l.m_link_ID)) 0 0 hl queue
    have key : ∀ X : MNM_Dlink_Ctm_Multiclass, ∃ links1,
        links1.length = (l :: rest).length ∧
          DMOND_move_links t fs (done ++ [X]) queue vol rest = (done ++ links1, queue, vol) := by
      intro X
      obtain ⟨links1, hlen, heq⟩ := ih (done ++ [X]) queue vol hrest
      exact ⟨X :: links1, by simp [hlen], by rw [heq]; simp⟩
    rw [DMOND_move_links]
    simp only [h1, h2, List.nil_append, Function.update_eq_self]
    exact key _


theorem min_toNat_cap (k : Nat) (x : ℚ) :
    min k (if x < (k : ℚ) then TInt_of_TFlt x else (k : Int)).toNat = min k ⌊x⌋.toNat := by
  by_cases hlt : x < (k : ℚ)
  · rw [if_pos hlt]
    unfold TInt_of_TFlt
    by_cases h0 : 0 ≤ x
    · rw [if_pos h0]
    · rw [if_neg h0]
      have h1 : ⌈x⌉ ≤ 0 := Int.ceil_le.mpr (by simpa using (not_le.mp h0).le)
      have h2 : ⌊x⌋ ≤ 0 := le_trans (Int.floor_le_ceil x) h1
      omega
  · rw [if_neg hlt]
    have h1 : (k : Int) ≤ ⌊x⌋ := Int.le_floor.mpr (by simpa using not_lt.mp hlt)
    omega

/-- C7: an origin node has the out-link `L` (at position `|pre|` of its
out-link array, the other out-links being other links), whose supply is
`sup`; its queue holds `k` cars, all bound for `L`, and no truck. With
`s = floor(sup * flow_scalar)`, one `evolve` at tick `t` returns, moves exactly
the first `min(k, s)` cars to the tail of the `incoming_array` of `L` in queue
order (their current link set to `L`), leaves the other cars in the origin
queue in order, and records on `L` the increment `min(k, s) / flow_scalar` of
`N_in_car` at `t + 1` (when that curve is installed). -/
theorem DMOND_evolve_supply_cap (n : MNM_DMOND_Multiclass) (t : Int)
    (L : MNM_Dlink_Ctm_Multiclass) (pre post : List MNM_Dlink_Ctm_Multiclass) (sup : ℚ)
    (hout : n.m_out_link_array = pre ++ L :: post)
    (hid : ∀ l ∈ pre ++ post, l.m_link_ID ≠ L.m_link_ID)
    (hsup : L.get_link_supply = some sup)
    (hothers : ∀ l ∈ pre ++ post, l.get_link_supply ≠ none)
    (hq : ∀ v ∈ n.m_in_veh_queue, v.m_class = 0 ∧ v.m_next_link = some L.m_link_ID) :
    ∃ n1 L1, n.evolve t = some n1 ∧
      n1.m_in_veh_queue = n.m_in_veh_queue.drop
        (min n.m_in_veh_queue.length ⌊sup * n.m_flow_scalar⌋.toNat) ∧
      n1.m_out_link_array[pre.length]? = some L1 ∧
      L1.m_incoming_array = L.m_incoming_array ++
        (n.m_in_veh_queue.take
          (min n.m_in_veh_queue.length ⌊sup * n.m_flow_scalar⌋.toNat)).map
          (fun v => v.set_current_link (some L.m_link_ID)) ∧
      L1.m_N_in_car = add_increment_if_installed L.m_N_in_car
        (((t + 1 : Int) : ℚ),
          ((min n.m_in_veh_queue.length ⌊sup * n.m_flow_scalar⌋.toNat : Nat) : ℚ)
            / n.m_flow_scalar) := by
  -- the volumes after the first two loops
  have h0 : ∀ l ∈ pre ++ L :: post,
      DMOND_reset_out_volume n.m_out_link_array n.m_out_volume (some l.m_link_ID) = 0 := by
    rw [← hout]; exact DMOND_reset_out_volume_zero _ _
  have h0L := h0 L (by simp)
  obtain ⟨vol1, hvol1, hvol1L, hvol1o⟩ : ∃ vol1,
      DMOND_compute_out_volume n.m_out_link_array n.m_in_veh_queue
          (DMOND_reset_out_volume n.m_out_link_array n.m_out_volume) = some vol1 ∧
        vol1 (some L.m_link_ID) = (n.m_in_veh_queue.length : Int) ∧
        ∀ l ∈ pre ++ post, vol1 (some l.m_link_ID) ≤ 0 := by
    refine ⟨_, DMOND_compute_out_volume_cars _ L.m_link_ID _ _ hq, ?_, ?_⟩
    · rw [Function.update_same, h0L, zero_add]
    · intro l hl
      rw [Function.update_noteq (by simpa using hid l hl)]
      exact (h0 l (by
        rcases List.mem_append.mp hl with h | h
        · exact List.mem_append_left _ h
        · exact List.mem_append_right _ (List.mem_cons_of_mem _ h))).le
  -- the volumes after the cap
  obtain ⟨vol2, hvol2, hvol2L, hvol2o⟩ : ∃ vol2,
      DMOND_cap_out_volume n.m_flow_scalar n.m_out_link_array vol1 = some vol2 ∧
        vol2 (some L.m_link_ID) =
          (if sup * n.m_flow_scalar < (n.m_in_veh_queue.length : ℚ)
            then TInt_of_TFlt (sup * n.m_flow_scalar) else (n.m_in_veh_queue.length : Int)) ∧
        ∀ l ∈ pre ++ post, vol2 (some l.m_link_ID) ≤ 0 := by
    obtain ⟨va, ha, hao, haL⟩ := DMOND_cap_out_volume_others n.m_flow_scalar L.m_link_ID
      (pre ++ post) pre vol1
      (fun l hl => ⟨List.mem_append_left _ hl, hid l (List.mem_append_left _ hl),
        hothers l (List.mem_append_left _ hl)⟩) hvol1o
    have hstep : ∃ vb, (∀ l ∈ pre ++ post, vb (some l.m_link_ID) ≤ 0) ∧
        vb (some L.m_link_ID) =
          (if sup * n.m_flow_scalar < (n.m_in_veh_queue.length : ℚ)
            then TInt_of_TFlt (sup * n.m_flow_scalar) else (n.m_in_veh_queue.length : Int)) ∧
        DMOND_cap_out_volume n.m_flow_scalar (L :: post) va =
          DMOND_cap_out_volume n.m_flow_scalar post vb := by
      rw [DMOND_cap_out_volume, hsup]
      simp only [haL, hvol1L, Int.cast_natCast]
      by_cases hlt : sup * n.m_flow_scalar < (n.m_in_veh_queue.length : ℚ)
      · simp only [if_pos hlt]
        refine ⟨_, ?_, Function.update_same _ _ _, rfl⟩
        intro l hl
        rw [Function.update_noteq (by simpa using hid l hl)]
        exact hao l hl
      · simp only [if_neg hlt]
        exact ⟨va, hao, by rw [haL, hvol1L], rfl⟩
    obtain ⟨vb, hbo, hbL, hb⟩ := hstep
    obtain ⟨vc, hc, hco, hcL⟩ := DMOND_cap_out_volume_others n.m_flow_scalar L.m_link_ID
      (pre ++ post) post vb
      (fun l hl => ⟨List.mem_append_right _ hl, hid l (List.mem_append_right _ hl),
        hothers l (List.mem_append_right _ hl)⟩) hbo
    refine ⟨vc, ?_, by rw [hcL, hbL], hco⟩
    rw [hout, DMOND_cap_out_volume_append, ha, Option.some_bind, hb, hc]
  -- the move loop
  obtain ⟨pre1, hpre1, hmove1⟩ := DMOND_move_links_blocked t n.m_flow_scalar pre []
    n.m_in_veh_queue vol2 (fun l hl => hvol2o l (List.mem_append_left _ hl))
  have hloop := DMOND_move_loop_cars L 0 n.m_in_veh_queue L.m_incoming_array
    (vol2 (some L.m_link_ID)) 0 hq
  have hmin : min n.m_in_veh_queue.length (vol2 (some L.m_link_ID)).toNat =
      min n.m_in_veh_queue.length ⌊sup * n.m_flow_scalar⌋.toNat := by
    rw [hvol2L]; exact min_toNat_cap _ _
  rw [hmin] at hloop
  have hmove2 : ∀ done, ∃ L1 post1 vol3,
      DMOND_move_links t n.m_flow_scalar done n.m_in_veh_queue vol2 (L :: post) =
        (done ++ L1 :: post1,
          n.m_in_veh_queue.drop (min n.m_in_veh_queue.length ⌊sup * n.m_flow_scalar⌋.toNat),
          vol3) ∧
      L1.m_incoming_array = L.m_incoming_array ++
        (n.m_in_veh_queue.take
          (min n.m_in_veh_queue.length ⌊sup * n.m_flow_scalar⌋.toNat)).map
          (fun v => v.set_current_link (some L.m_link_ID)) ∧
      L1.m_N_in_car = add_increment_if_installed L.m_N_in_car
        (((t + 1 : Int) : ℚ),
          ((min n.m_in_veh_queue.length ⌊sup * n.m_flow_scalar⌋.toNat : Nat) : ℚ)
            / n.m_flow_scalar) := by
    intro done
    rw [DMOND_move_links, hloop]
    simp only [List.nil_append]
    have hblocked : ∀ l ∈ post,
        Function.update vol2 (some L.m_link_ID)
          (vol2 (some L.m_link_ID) -
            (min n.m_in_veh_queue.length ⌊sup * n.m_flow_scalar⌋.toNat : Nat))
          (some l.m_link_ID) ≤ 0 := by
      intro l hl
      rw [Function.update_noteq (by simpa using hid l (List.mem_append_right _ hl))]
      exact hvol2o l (List.mem_append_right _ hl)
    have key : ∀ X : MNM_Dlink_Ctm_Multiclass, ∃ post1,
        DMOND_move_links t n.m_flow_scalar (done ++ [X])
          (n.m_in_veh_queue.drop (min n.m_in_veh_queue.length ⌊sup * n.m_flow_scalar⌋.toNat))
          (Function.update vol2 (some L.m_link_ID)
            (vol2 (some L.m_link_ID) -
              (min n.m_in_veh_queue.length ⌊sup * n.m_flow_scalar⌋.toNat : Nat))) post =
          (done ++ X :: post1,
            n.m_in_veh_queue.drop (min n.m_in_veh_queue.length ⌊sup * n.m_flow_scalar⌋.toNat),
            Function.update vol2 (some L.m_link_ID)
              (vol2 (some L.m_link_ID) -
                (min n.m_in_veh_queue.length ⌊sup * n.m_flow_scalar⌋.toNat : Nat))) := by
      intro X
      obtain ⟨post1, _, h⟩ := DMOND_move_links_blocked t n.m_flow_scalar post (done ++ [X])
        (n.m_in_veh_queue.drop (min n.m_in_veh_queue.length ⌊sup * n.m_flow_scalar⌋.toNat))
        _ hblocked
      exact ⟨post1, by rw [h]; simp⟩
    obtain ⟨post1, hpost1⟩ := key _
    refine ⟨_, post1, _, hpost1, rfl, ?_⟩
    simp only [zero_add, Int.cast_natCast]
  obtain ⟨L1, post1, vol3, hmove2, hinc, hcurve⟩ := hmove2 ([] ++ pre1)
  have hev : n.evolve t = some
      { n with
        m_out_link_array := [] ++ pre1 ++ L1 :: post1
        m_in_veh_queue := n.m_in_veh_queue.drop
          (min n.m_in_veh_queue.length ⌊sup * n.m_flow_scalar⌋.toNat)
        m_out_volume := vol3 } := by
    unfold MNM_DMOND_Multiclass.evolve
    simp only [hvol1, hvol2]
    rw [hout, DMOND_move_links_append, hmove1]
    simp only [hmove2]
  refine ⟨_, L1, hev, rfl, ?_, hinc, hcurve⟩
  simp only [List.nil_append]
  rw [List.getElem?_append_right (by omega)]
  simp [hpre1]


/-- Witness of `DMOND_evolve_supply_cap`, the supply clamp scenario of the
spec: `link_supply * flow_scalar = 3` and ten pending cars; one `evolve` at
tick 0 moves the cars 1, 2, 3, leaves the cars 4 to 10 in the origin queue and
records the increment 3 of `N_in_car` at time 1. -/
theorem DMOND_evolve_supply_cap_witness :
    (link_100m 5).get_link_supply = some 3 ∧
      ∃ n1 L1, origin_node_10_cars.evolve 0 = some n1 ∧
        n1.m_in_veh_queue =
          [car 4 (some 5), car 5 (some 5), car 6 (some 5), car 7 (some 5), car 8 (some 5),
            car 9 (some 5), car 10 (some 5)] ∧
        n1.m_out_link_array[0]? = some L1 ∧
        L1.m_incoming_array =
          [(car 1 (some 5)).set_current_link (some 5), (car 2 (some 5)).set_current_link (some 5),
            (car 3 (some 5)).set_current_link (some 5)] ∧
        L1.m_N_in_car = some { m_recorder := [(0, 0), (1, 3)] } := by
  have hs : (link_100m 5).get_link_supply = some 3 := get_link_supply_link_100m 5 []
  obtain ⟨n1, L1, h1, h2, h3, h4, h5⟩ :=
    DMOND_evolve_supply_cap origin_node_10_cars 0 (link_100m 5) [] [] 3 rfl (by simp) hs
      (by simp) (by decide)
  have hm : min origin_node_10_cars.m_in_veh_queue.length
      ⌊(3 : ℚ) * origin_node_10_cars.m_flow_scalar⌋.toNat = 3 := by
    norm_num [origin_node_10_cars]
    rfl
  rw [hm] at h2 h4 h5
  refine ⟨hs, n1, L1, h1, by rw [h2]; rfl, h3, by rw [h4]; rfl, ?_⟩
  rw [h5]
  simp only [link_100m, add_increment_if_installed, MNM_Cumulative_Curve.installed,
    MNM_Cumulative_Curve.add_increment, MNM_Cumulative_Curve.add_record, origin_node_10_cars]
  norm_num


/-! ### Origin release -/

theorem vec_at_eq_getD (v : List ℚ) (i : Int) (h0 : 0 ≤ i) (h1 : i.toNat < v.length) :
    vec_at v i = some (v.getD i.toNat 0) := by
  unfold vec_at
  rw [if_pos h0, List.getD_eq_getElem?_getD, List.getElem?_eq_getElem h1]
  rfl

theorem release_vehicles_spec (t cls : Int) (dest origin : Nat) :
    ∀ (k : Nat) (f : MNM_Veh_Factory_Multiclass) (queue : List MNM_Veh_Multiclass),
      ∃ new f1, release_vehicles t cls dest origin k f queue = (f1, queue ++ new) ∧
        new.map (fun v => (v.m_class, v.m_start_time, v.m_dest, v.m_origin)) =
          List.replicate k (cls, t, some dest, some origin) := by
  intro k
  induction k with
  | zero => intro f queue; exact ⟨[], f, by simp [release_vehicles], rfl⟩
  | succ k ih =>
    intro f queue
    rw [release_vehicles]
    obtain ⟨new, f1, h1, h2⟩ := ih (f.make_veh_multiclass t .MNM_TYPE_ADAPTIVE cls).2
      (queue ++ [{ (f.make_veh_multiclass t .MNM_TYPE_ADAPTIVE cls).1 with
        m_dest := some dest, m_origin := some origin }])
    refine ⟨{ (f.make_veh_multiclass t .MNM_TYPE_ADAPTIVE cls).1 with
      m_dest := some dest, m_origin := some origin } :: new, f1, by rw [h1]; simp, ?_⟩
    rw [List.map_cons, h2, List.replicate_succ]
    rfl

theorem release_class_spec (round : ℚ → Int) (t cls : Int) (origin : Nat) (cur : Int) (fs : ℚ) :
    ∀ (entries : List (Nat × List ℚ)) (f : MNM_Veh_Factory_Multiclass)
      (queue : List MNM_Veh_Multiclass),
      (∀ e ∈ entries, vec_at e.2 cur = some (e.2.getD cur.toNat 0)) →
      ∃ new f1, release_class round t cls origin cur fs entries f queue = some (f1, queue ++ new) ∧
        new.map (fun v => (v.m_class, v.m_start_time, v.m_dest, v.m_origin)) =
          (entries.map (fun e =>
            List.replicate (round (e.2.getD cur.toNat 0 * fs)).toNat
              (cls, t, some e.1, some origin))).flatten := by
  intro entries
  induction entries with
  | nil => intro f queue _; exact ⟨[], f, by simp [release_class], rfl⟩
  | cons e rest ih =>
    intro f queue h
    have he := h e (by simp)
    have hrest : ∀ e1 ∈ rest, vec_at e1.2 cur = some (e1.2.getD cur.toNat 0) :=
      fun e1 he1 => h e1 (by simp [he1])
    rw [release_class, he]
    simp only
    obtain ⟨new1, f1, h1, h2⟩ := release_vehicles_spec t cls e.1 origin
      (round (e.2.getD cur.toNat 0 * fs)).toNat f queue
    rw [h1]
    obtain ⟨new2, f2, h3, h4⟩ := ih f1 (queue ++ new1) hrest
    refine ⟨new1 ++ new2, f2, by rw [h3]; simp, ?_⟩
    rw [List.map_append, h2, h4]
    simp

/-- C9: an origin has a non-zero `frequency`, a non-negative
`current_assign_interval` and demand arrays of `max_assign_interval` entries.
If `current_assign_interval < max_assign_interval` and
`t % frequency == 0`, `release` at tick `t` returns after appending to the
queue of the origin node, for each destination `d` of the car demand map in
turn, `round(demand_car[d][current_assign_interval] * flow_scalar)` cars, then
for each destination of the truck demand map that many trucks, every one with
start tick `t`, that destination and this origin, and it adds exactly 1 to
`current_assign_interval`. Otherwise it returns with the origin and the
factory as they were. In both cases `current_assign_interval <=
max_assign_interval` is kept. -/
theorem release_schedule (round : ℚ → Int) (o : MNM_Origin_Multiclass)
    (f : MNM_Veh_Factory_Multiclass) (t : Int)
    (hfreq : o.m_frequency ≠ 0) (hcur : 0 ≤ o.m_current_assign_interval)
    (harr : ∀ e ∈ o.m_demand_car ++ o.m_demand_truck,
      e.2.length = o.m_max_assign_interval.toNat) :
    (o.m_current_assign_interval < o.m_max_assign_interval ∧ Int.tmod t o.m_frequency = 0 →
        ∃ o1 f1 new, o.release round f t = some (o1, f1) ∧
          o1.m_current_assign_interval = o.m_current_assign_interval + 1 ∧
          o1.m_origin_node.m_in_veh_queue = o.m_origin_node.m_in_veh_queue ++ new ∧
          new.map (fun v => (v.m_class, v.m_start_time, v.m_dest, v.m_origin)) =
            (o.m_demand_car.map (fun e =>
              List.replicate
                (round (e.2.getD o.m_current_assign_interval.toNat 0 * o.m_flow_scalar)).toNat
                ((0 : Int), t, some e.1, some o.m_Origin_ID))).flatten ++
            (o.m_demand_truck.map (fun e =>
              List.replicate
                (round (e.2.getD o.m_current_assign_interval.toNat 0 * o.m_flow_scalar)).toNat
                ((1 : Int), t, some e.1, some o.m_Origin_ID))).flatten) ∧
      (¬ (o.m_current_assign_interval < o.m_max_assign_interval ∧ Int.tmod t o.m_frequency = 0) →
        o.release round f t = some (o, f)) ∧
      (o.m_current_assign_interval ≤ o.m_max_assign_interval →
        ∃ o1 f1, o.release round f t = some (o1, f1) ∧
          o1.m_current_assign_interval ≤ o1.m_max_assign_interval) := by
  have hbound : o.m_current_assign_interval < o.m_max_assign_interval →
      ∀ e ∈ o.m_demand_car ++ o.m_demand_truck,
        vec_at e.2 o.m_current_assign_interval =
          some (e.2.getD o.m_current_assign_interval.toNat 0) := by
    intro hlt e he
    apply vec_at_eq_getD _ _ hcur
    rw [harr e he]
    omega
  have hyes : o.m_current_assign_interval < o.m_max_assign_interval ∧
      Int.tmod t o.m_frequency = 0 →
      ∃ o1 f1 new, o.release round f t = some (o1, f1) ∧
        o1.m_max_assign_interval = o.m_max_assign_interval ∧
        o1.m_current_assign_interval = o.m_current_assign_interval + 1 ∧
        o1.m_origin_node.m_in_veh_queue = o.m_origin_node.m_in_veh_queue ++ new ∧
        new.map (fun v => (v.m_class, v.m_start_time, v.m_dest, v.m_origin)) =
          (o.m_demand_car.map (fun e =>
            List.replicate
              (round (e.2.getD o.m_current_assign_interval.toNat 0 * o.m_flow_scalar)).toNat
              ((0 : Int), t, some e.1, some o.m_Origin_ID))).flatten ++
          (o.m_demand_truck.map (fun e =>
            List.replicate
              (round (e.2.getD o.m_current_assign_interval.toNat 0 * o.m_flow_scalar)).toNat
              ((1 : Int), t, some e.1, some o.m_Origin_ID))).flatten := by
    rintro ⟨hlt, hmod⟩
    obtain ⟨new1, f1, h1, h2⟩ := release_class_spec round t 0 o.m_Origin_ID
      o.m_current_assign_interval o.m_flow_scalar o.m_demand_car f
      o.m_origin_node.m_in_veh_queue
      (fun e he => hbound hlt e (List.mem_append_left _ he))
    obtain ⟨new2, f2, h3, h4⟩ := release_class_spec round t 1 o.m_Origin_ID
      o.m_current_assign_interval o.m_flow_scalar o.m_demand_truck f1
      (o.m_origin_node.m_in_veh_queue ++ new1)
      (fun e he => hbound hlt e (List.mem_append_right _ he))
    refine ⟨{ o with
        m_origin_node :=
          { o.m_origin_node with m_in_veh_queue := o.m_origin_node.m_in_veh_queue ++ new1 ++ new2 }
        m_current_assign_interval := o.m_current_assign_interval + 1 },
      f2, new1 ++ new2, ?_, rfl, rfl, ?_, by rw [List.map_append, h2, h4]⟩
    · unfold MNM_Origin_Multiclass.release
      rw [if_pos hlt, if_neg hfreq, if_pos hmod, h1]
      simp only [h3]
    · simp
  have hno : ¬ (o.m_current_assign_interval < o.m_max_assign_interval ∧
      Int.tmod t o.m_frequency = 0) → o.release round f t = some (o, f) := by
    intro hnot
    unfold MNM_Origin_Multiclass.release
    by_cases hlt : o.m_current_assign_interval < o.m_max_assign_interval
    · have hmod : ¬ Int.tmod t o.m_frequency = 0 := fun h => hnot ⟨hlt, h⟩
      rw [if_pos hlt, if_neg hfreq, if_neg hmod]
    · rw [if_neg hlt]
  refine ⟨?_, hno, ?_⟩
  · intro h
    obtain ⟨o1, f1, new, h1, _, h3, h4, h5⟩ := hyes h
    exact ⟨o1, f1, new, h1, h3, h4, h5⟩
  · intro hle
    by_cases h : o.m_current_assign_interval < o.m_max_assign_interval ∧
        Int.tmod t o.m_frequency = 0
    · obtain ⟨o1, f1, new, h1, h2, h3, _⟩ := hyes h
      exact ⟨o1, f1, h1, by rw [h2, h3]; omega⟩
    · exact ⟨o, f, hno h, hle⟩

/-- Witness of `release_schedule`: the origin `origin_4` at tick 10 (a
multiple of its frequency 5) releases `round(3/2 * 2) = 3` cars and
`round(1/2 * 2) = 1` truck for destination 7 and moves to interval 1; at tick
11 it releases nothing. -/
theorem release_schedule_witness :
    (∃ o1 f1, origin_4.release round_half_up empty_factory 10 = some (o1, f1) ∧
        o1.m_current_assign_interval = 1 ∧
        o1.m_origin_node.m_in_veh_queue.map
            (fun v => (v.m_class, v.m_start_time, v.m_dest, v.m_origin)) =
          [(0, 10, some 7, some 4), (0, 10, some 7, some 4), (0, 10, some 7, some 4),
            (1, 10, some 7, some 4)]) ∧
      origin_4.release round_half_up empty_factory 11 = some (origin_4, empty_factory) := by
  have hfreq : origin_4.m_frequency ≠ 0 := by decide
  have hcur : (0 : Int) ≤ origin_4.m_current_assign_interval := by decide
  have harr : ∀ e ∈ origin_4.m_demand_car ++ origin_4.m_demand_truck,
      e.2.length = origin_4.m_max_assign_interval.toNat := by decide
  constructor
  · obtain ⟨o1, f1, new, h1, h2, h3, h4⟩ :=
      (release_schedule round_half_up origin_4 empty_factory 10 hfreq hcur harr).1
        ⟨by decide, by decide⟩
    refine ⟨o1, f1, h1, by rw [h2]; rfl, ?_⟩
    rw [h3]
    simp only [origin_4, List.nil_append, h4, List.map_cons, List.map_nil, round_half_up]
    norm_num
    decide
  · exact (release_schedule round_half_up origin_4 empty_factory 11 hfreq hcur harr).2.1
      (by decide)


/-! ### The junction node -/

/-- The `while` loop of `move_vehicle` ends within the fuel that
`move_vehicle_in_links` gives it: an iteration either moves the iterator or
erases the vehicle under it, or else leaves `to_move` negative, so that the
next iteration leaves the loop. -/
theorem move_vehicle_scan_enough_fuel (out_id : Nat) (vcf : ℚ) (k : Nat) :
    ∀ (fuel : Nat) (s : move_scan),
      2 * s.ahead.length + (if s.to_move > 0 then 1 else 0) < fuel →
      ∃ s1, move_vehicle_scan out_id vcf k fuel s = some s1 := by
  intro fuel
  induction fuel with
  | zero => intro s h; omega
  | succ fuel ih =>
    intro s h
    rw [move_vehicle_scan]
    cases hq : s.ahead with
    | nil => exact ⟨s, rfl⟩
    | cons v rest =>
      simp only
      rw [hq, List.length_cons] at h
      by_cases hpos : s.to_move > 0
      · rw [if_pos hpos] at h ⊢
        by_cases hnext : v.m_next_link = some out_id
        · rw [if_pos hnext]
          by_cases hlt : s.to_move < (if v.m_class = 0 then 1 else vcf)
          · rw [if_pos hlt]
            by_cases hr : (MNM_Ults.rand_flt s.rng).1 ≤
                s.to_move / (if v.m_class = 0 then 1 else vcf)
            · rw [if_pos hr]
              apply ih
              simp only [move_scan.move_one]
              split_ifs <;> omega
            · rw [if_neg hr]
              apply ih
              have hneg : ¬ s.to_move - (if v.m_class = 0 then 1 else vcf) > 0 := by
                simp only [gt_iff_lt, sub_pos, not_lt]
                exact hlt.le
              simp only [hq, List.length_cons, if_neg hneg]
              omega
          · rw [if_neg hlt]
            apply ih
            simp only [move_scan.move_one]
            split_ifs <;> omega
        · rw [if_neg hnext]
          apply ih
          simp only [hpos, if_true]
          omega
      · rw [if_neg hpos]
        exact ⟨s, rfl⟩


/-- C5 (defect of the code): the junction `junction_1_car` runs `evolve` at
tick 0 (car 1 moves from in-link 1 to out-link 2, both curves record the
increment 1 at time 1), its in-link then brings car 2 to `finished_array`, and
`evolve` runs at tick 1. This second call moves one car (car 2, now behind car
1 in the `incoming_array` of the out-link), yet it adds 2, not
`1 / flow_scalar = 1`, to `N_in_car` of the out-link and to `N_out_car` of the
in-link (both go from 1 to 3): `m_veh_moved_car` is zeroed by
`prepare_loading` only, so it still counts the car of tick 0 (its entry is 2
after the call). -/
theorem junction_second_evolve_counts_earlier_moves :
    (MNM_Dnode_FWJ_Multiclass.evolve shuffle_keep junction_1_car rng_zero 0).returned?.map
        (fun s1 => junction_view s1.1) =
      some
        ([([], some { m_recorder := [(0, 0), (1, 1)] })],
          [([(car 1 (some 2)).set_current_link (some 2)],
            some { m_recorder := [(0, 0), (1, 1)] })]) ∧
    (MNM_Dnode_FWJ_Multiclass.evolve shuffle_keep junction_1_car rng_zero 0).returned?.bind
        (fun s1 =>
          (MNM_Dnode_FWJ_Multiclass.evolve shuffle_keep (junction_next_car s1.1) s1.2
              1).returned?.map
            (fun s2 => junction_view s2.1)) =
      some
        ([([], some { m_recorder := [(0, 0), (1, 1), (2, 3)] })],
          [([(car 1 (some 2)).set_current_link (some 2),
              (car 2 (some 2)).set_current_link (some 2)],
            some { m_recorder := [(0, 0), (1, 1), (2, 3)] })]) ∧
    (MNM_Dnode_FWJ_Multiclass.evolve shuffle_keep junction_1_car rng_zero 0).returned?.bind
        (fun s1 =>
          (MNM_Dnode_FWJ_Multiclass.evolve shuffle_keep (junction_next_car s1.1) s1.2
              1).returned?.map
            (fun s2 => s2.1.m_veh_moved_car 0)) = some 2 := by
  refine ⟨?_, ?_, ?_⟩ <;> decide!

/-- C6 (defect of the code): the junction `junction_1_car` runs `evolve` at
tick 0, which moves car 1 and leaves the `finished_array` of its only in-link
empty; `evolve` at tick 1 then moves no vehicle (the arrays are as they were),
yet it records the increment 1, not 0, on `N_in_car` of the out-link and on
`N_out_car` of the in-link (both go from 1 to 2): the counters
`m_veh_moved_car` of tick 0 are never set back to zero. -/
theorem junction_empty_evolve_records_increment :
    (MNM_Dnode_FWJ_Multiclass.evolve shuffle_keep junction_1_car rng_zero 0).returned?.map
        (fun s1 => junction_view s1.1) =
      some
        ([([], some { m_recorder := [(0, 0), (1, 1)] })],
          [([(car 1 (some 2)).set_current_link (some 2)],
            some { m_recorder := [(0, 0), (1, 1)] })]) ∧
    (MNM_Dnode_FWJ_Multiclass.evolve shuffle_keep junction_1_car rng_zero 0).returned?.bind
        (fun s1 =>
          (MNM_Dnode_FWJ_Multiclass.evolve shuffle_keep s1.1 s1.2 1).returned?.map
            (fun s2 => junction_view s2.1)) =
      some
        ([([], some { m_recorder := [(0, 0), (1, 1), (2, 2)] })],
          [([(car 1 (some 2)).set_current_link (some 2)],
            some { m_recorder := [(0, 0), (1, 1), (2, 2)] })]) := by
  refine ⟨?_, ?_⟩ <;> decide!

/-! ### The construction of the CTM link -/

theorem init_cell_array_loop_eq (l : MNM_Dlink_Ctm_Multiclass) (ut std : ℚ) :
    ∀ (k : Nat) (cells : List Ctm_Cell_Multiclass),
      init_cell_array_loop l ut std k cells = cells ++ List.replicate k (init_cell l ut std) := by
  intro k
  induction k with
  | zero => intro cells; simp [init_cell_array_loop]
  | succ k ih =>
    intro cells
    rw [init_cell_array_loop, ih, List.replicate_succ]
    simp

theorem clamp_above_eq_min (x limit : ℚ) : clamp_above x limit = min x limit := by
  unfold clamp_above
  rw [min_def]
  split_ifs <;> first | rfl | linarith

/-- What `construct_checked` has checked when it constructs a link, and the
link it gives, field by field. -/
theorem construct_checked_constructed (ID : Nat) (number_of_lane : Int)
    (length hc ht fc ft ffs_car ffs_truck unit_time vcf fs : ℚ) (l : MNM_Dlink_Ctm_Multiclass)
    (h : construct_checked ID number_of_lane length hc ht fc ft ffs_car ffs_truck unit_time
      vcf fs = .constructed l) :
    (ffs_car * unit_time ≠ 0 ∧ ffs_truck ≠ 0 ∧ fc / ffs_car < hc ∧ ft / ffs_truck < ht) ∧
      (l.m_link_ID = ID ∧ l.m_number_of_lane = number_of_lane ∧ l.m_length = length ∧
        l.m_lane_hold_cap_car = hc ∧ l.m_lane_hold_cap_truck = ht ∧
        l.m_lane_flow_cap_car = fc ∧ l.m_lane_flow_cap_truck = ft ∧
        l.m_ffs_car = ffs_car ∧ l.m_ffs_truck = ffs_truck ∧
        l.m_veh_convert_factor = vcf ∧ l.m_flow_scalar = fs) ∧
      (l.m_lane_critical_density_car = fc / ffs_car ∧
        l.m_lane_critical_density_truck = ft / ffs_truck ∧
        l.m_wave_speed_car = fc / (hc - fc / ffs_car) ∧
        l.m_wave_speed_truck = ft / (ht - ft / ffs_truck) ∧
        l.m_lane_rho_1_N = hc * (l.m_wave_speed_car / (ffs_truck + l.m_wave_speed_car))) ∧
      (l.m_num_cells =
          (if ⌊length / (ffs_car * unit_time)⌋ = 0 then 1
            else ⌊length / (ffs_car * unit_time)⌋) ∧
        l.m_cell_array =
          List.replicate (l.m_num_cells - 1).toNat (init_cell l unit_time (ffs_car * unit_time)) ++
            (if length > 0 then
              [init_cell l unit_time
                (length - ((l.m_num_cells - 1 : Int) : ℚ) * (ffs_car * unit_time))]
             else []) ∧
        l.m_incoming_array = [] ∧ l.m_finished_array = [] ∧
        l.m_N_in_car = none ∧ l.m_N_out_car = none ∧
        l.m_N_in_truck = none ∧ l.m_N_out_truck = none) := by
  unfold construct_checked at h
  by_cases h1 : ffs_car * unit_time = 0
  · simp only [h1, if_true] at h
    cases h
  by_cases h2 : hc ≤ fc / ffs_car
  · simp only [h1, h2, if_true, if_false] at h
    cases h
  by_cases h3 : ffs_truck = 0
  · simp only [h1, h2, h3, if_true, if_false] at h
    split_ifs at h
  by_cases h4 : ht ≤ ft / ffs_truck
  · simp only [h1, h2, h3, h4, if_true, if_false] at h
    cases h
  simp only [h1, h2, h3, h4, if_false] at h
  injection h with h
  subst h
  refine ⟨⟨h1, h3, not_le.mp h2, not_le.mp h4⟩, ?_, ?_, ?_⟩
  · unfold MNM_Dlink_Ctm_Multiclass.init_cell_array
    split_ifs <;> exact ⟨rfl, rfl, rfl, rfl, rfl, rfl, rfl, rfl, rfl, rfl, rfl⟩
  · unfold MNM_Dlink_Ctm_Multiclass.init_cell_array
    split_ifs <;> exact ⟨rfl, rfl, rfl, rfl, rfl⟩
  · unfold MNM_Dlink_Ctm_Multiclass.init_cell_array
    by_cases hlen : length > 0
    · rw [if_pos hlen, if_pos hlen]
      refine ⟨rfl, ?_, rfl, rfl, rfl, rfl, rfl, rfl⟩
      simp only [init_cell_array_loop_eq, List.nil_append]
      rfl
    · rw [if_neg hlen, if_neg hlen]
      refine ⟨rfl, ?_, rfl, rfl, rfl, rfl, rfl, rfl⟩
      simp only [init_cell_array_loop_eq, List.nil_append, List.append_nil]
      rfl


theorem constructed_of_constructed? {σ : Type} (c : Construction σ) (s : σ)
    (h : c.constructed? = some s) : c = .constructed s := by
  cases c with
  | constructed s1 => simp only [Construction.constructed?, Option.some.injEq] at h; rw [h]
  | exited e => simp [Construction.constructed?] at h
  | undefined => simp [Construction.constructed?] at h

/-- A successful construction has passed the checks of the arguments and is
the construction `construct_checked` makes from the clamped capacities. -/
theorem construct_constructed (ID : Nat) (number_of_lane : Int)
    (length hc ht fc ft ffs_car ffs_truck unit_time vcf fs : ℚ) (l : MNM_Dlink_Ctm_Multiclass)
    (h : MNM_Dlink_Ctm_Multiclass.construct ID number_of_lane length hc ht fc ft ffs_car
      ffs_truck unit_time vcf fs = .constructed l) :
    (0 ≤ hc ∧ 0 ≤ ht ∧ 0 ≤ fc ∧ 0 ≤ ft ∧ 0 ≤ ffs_car ∧ 0 ≤ ffs_truck ∧ 1 ≤ vcf ∧ 1 ≤ fs ∧
        0 < unit_time) ∧
      construct_checked ID number_of_lane length (min hc (300 / 1600)) (min ht (300 / 1600))
        (min fc (3500 / 3600)) (min ft (3500 / 3600)) ffs_car ffs_truck unit_time vcf fs =
        .constructed l := by
  unfold MNM_Dlink_Ctm_Multiclass.construct at h
  simp only [clamp_above_eq_min] at h
  split_ifs at h with h1 h2 h3 h4 h5 h6
  push_neg at h1 h2 h3
  exact ⟨⟨h1.1, h1.2, h2.1, h2.2, h3.1, h3.2, not_lt.mp h4, not_lt.mp h5, not_le.mp h6⟩, h⟩

/-- The construction succeeds when no check fires and the speeds are not 0. -/
theorem construct_succeeds (ID : Nat) (number_of_lane : Int)
    (length hc ht fc ft ffs_car ffs_truck unit_time vcf fs : ℚ)
    (h1 : 0 ≤ hc ∧ 0 ≤ ht) (h2 : 0 ≤ fc ∧ 0 ≤ ft) (h3 : 0 < ffs_car ∧ 0 < ffs_truck)
    (h4 : 1 ≤ vcf) (h5 : 1 ≤ fs) (h6 : 0 < unit_time)
    (h7 : min fc (3500 / 3600) / ffs_car < min hc (300 / 1600))
    (h8 : min ft (3500 / 3600) / ffs_truck < min ht (300 / 1600)) :
    ∃ l, MNM_Dlink_Ctm_Multiclass.construct ID number_of_lane length hc ht fc ft ffs_car
      ffs_truck unit_time vcf fs = .constructed l := by
  unfold MNM_Dlink_Ctm_Multiclass.construct
  simp only [clamp_above_eq_min]
  rw [if_neg (by push_neg; exact h1), if_neg (by push_neg; exact h2),
    if_neg (by push_neg; exact ⟨h3.1.le, h3.2.le⟩), if_neg (not_lt.mpr h4),
    if_neg (not_lt.mpr h5), if_neg (not_le.mpr h6)]
  unfold construct_checked
  simp only [if_neg (mul_pos h3.1 h6).ne', if_neg (not_le.mpr h7), if_neg h3.2.ne',
    if_neg (not_le.mpr h8)]
  exact ⟨_, rfl⟩

/-- The link that the constructor makes from one lane of 100 m, jam densities
3/16 and 1/8, flow capacities 3/10 and 1/4, speeds 10 and 8, `unit_time` 10,
`veh_convert_factor` 2 and `flow_scalar` 1 is, once its cumulative curves are
installed, the link `link_100m` (for the identifiers 1, 2 and 5 that the
concrete inputs use). -/
theorem construct_link_100m :
    (MNM_Dlink_Ctm_Multiclass.construct 1 1 100 (3 / 16) (1 / 8) (3 / 10) (1 / 4) 10 8 10 2
        1).constructed?.map MNM_Dlink_Ctm_Multiclass.install_cumulative_curve_multiclass =
      some (link_100m 1) ∧
    (MNM_Dlink_Ctm_Multiclass.construct 2 1 100 (3 / 16) (1 / 8) (3 / 10) (1 / 4) 10 8 10 2
        1).constructed?.map MNM_Dlink_Ctm_Multiclass.install_cumulative_curve_multiclass =
      some (link_100m 2) ∧
    (MNM_Dlink_Ctm_Multiclass.construct 5 1 100 (3 / 16) (1 / 8) (3 / 10) (1 / 4) 10 8 10 2
        1).constructed?.map MNM_Dlink_Ctm_Multiclass.install_cumulative_curve_multiclass =
      some (link_100m 5) := by
  refine ⟨?_, ?_, ?_⟩ <;> decide!

/-- C13: for every successfully constructed CTM link the stored lane hold
capacity of each class is `min(input, 300/1600)` and the stored lane flow
capacity of each class is `min(input, 3500/3600)`; an input within its limit
is stored unchanged. -/
theorem construct_clamps (ID : Nat) (number_of_lane : Int)
    (length hc ht fc ft ffs_car ffs_truck unit_time vcf fs : ℚ) (l : MNM_Dlink_Ctm_Multiclass)
    (h : MNM_Dlink_Ctm_Multiclass.construct ID number_of_lane length hc ht fc ft ffs_car
      ffs_truck unit_time vcf fs = .constructed l) :
    (l.m_lane_hold_cap_car = min hc (300 / 1600) ∧
        l.m_lane_hold_cap_truck = min ht (300 / 1600) ∧
        l.m_lane_flow_cap_car = min fc (3500 / 3600) ∧
        l.m_lane_flow_cap_truck = min ft (3500 / 3600)) ∧
      (hc ≤ 300 / 1600 → l.m_lane_hold_cap_car = hc) ∧
      (ht ≤ 300 / 1600 → l.m_lane_hold_cap_truck = ht) ∧
      (fc ≤ 3500 / 3600 → l.m_lane_flow_cap_car = fc) ∧
      (ft ≤ 3500 / 3600 → l.m_lane_flow_cap_truck = ft) := by
  obtain ⟨_, h2⟩ := construct_constructed _ _ _ _ _ _ _ _ _ _ _ _ _ h
  obtain ⟨_, ⟨_, _, _, a1, a2, a3, a4, _⟩, _, _⟩ :=
    construct_checked_constructed _ _ _ _ _ _ _ _ _ _ _ _ _ h2
  refine ⟨⟨a1, a2, a3, a4⟩, ?_, ?_, ?_, ?_⟩
  · intro hle; rw [a1, min_eq_left hle]
  · intro hle; rw [a2, min_eq_left hle]
  · intro hle; rw [a3, min_eq_left hle]
  · intro hle; rw [a4, min_eq_left hle]

/-- Witness of `construct_clamps`: a jam density of cars of 1 veh/m and a flow
capacity of cars of 2 veh/s are stored as 300/1600 and 3500/3600, the truck
values 1/8 and 1/4 are stored unchanged. -/
theorem construct_clamps_witness :
    ∃ l, MNM_Dlink_Ctm_Multiclass.construct 1 1 100 1 (1 / 8) 2 (1 / 4) 10 8 10 2 1 =
        .constructed l ∧
      l.m_lane_hold_cap_car = 300 / 1600 ∧ l.m_lane_hold_cap_truck = 1 / 8 ∧
      l.m_lane_flow_cap_car = 3500 / 3600 ∧ l.m_lane_flow_cap_truck = 1 / 4 := by
  obtain ⟨l, hl⟩ := construct_succeeds 1 1 100 1 (1 / 8) 2 (1 / 4) 10 8 10 2 1
    (by norm_num) (by norm_num) (by norm_num) (by norm_num) (by norm_num) (by norm_num)
    (by norm_num) (by norm_num)
  obtain ⟨⟨a1, _, a3, _⟩, _, a6, _, a8⟩ := construct_clamps _ _ _ _ _ _ _ _ _ _ _ _ l hl
  refine ⟨l, hl, ?_, a6 (by norm_num), ?_, a8 (by norm_num)⟩
  · rw [a1]; norm_num
  · rw [a3]; norm_num


theorem init_cell_length (l : MNM_Dlink_Ctm_Multiclass) (unit_time cell_length : ℚ) :
    (init_cell l unit_time cell_length).m_cell_length = cell_length := rfl

/-- C14: a successfully constructed CTM link whose length is at least the
standard cell length `s = ffs_car * unit_time` has `n = floor(length / s)`
cells (`n ≥ 1`); the cells 0 to `n - 2` have length `s`, the last cell has
length `length - (n - 1) * s`, which is at least `s` and less than `2 * s`,
and the cell lengths sum to the length of the link. -/
theorem construct_cells (ID : Nat) (number_of_lane : Int)
    (length hc ht fc ft ffs_car ffs_truck unit_time vcf fs : ℚ) (l : MNM_Dlink_Ctm_Multiclass)
    (h : MNM_Dlink_Ctm_Multiclass.construct ID number_of_lane length hc ht fc ft ffs_car
      ffs_truck unit_time vcf fs = .constructed l)
    (hlen : ffs_car * unit_time ≤ length) :
    l.m_num_cells = ⌊length / (ffs_car * unit_time)⌋ ∧
      1 ≤ ⌊length / (ffs_car * unit_time)⌋ ∧
      l.m_cell_array.length = ⌊length / (ffs_car * unit_time)⌋.toNat ∧
      (∀ i c, i + 1 < ⌊length / (ffs_car * unit_time)⌋.toNat →
        l.m_cell_array[i]? = some c → c.m_cell_length = ffs_car * unit_time) ∧
      (∃ c, l.m_cell_array[⌊length / (ffs_car * unit_time)⌋.toNat - 1]? = some c ∧
        c.m_cell_length =
          length - ((⌊length / (ffs_car * unit_time)⌋ - 1 : Int) : ℚ) * (ffs_car * unit_time) ∧
        ffs_car * unit_time ≤ c.m_cell_length ∧
        c.m_cell_length < 2 * (ffs_car * unit_time)) ∧
      (l.m_cell_array.map (fun c => c.m_cell_length)).sum = length := by
  obtain ⟨⟨_, _, _, _, _, _, _, _, hut⟩, h2⟩ := construct_constructed _ _ _ _ _ _ _ _ _ _ _ _ _ h
  obtain ⟨⟨hs0, _, _, _⟩, _, _, hnum, hcells, _⟩ :=
    construct_checked_constructed _ _ _ _ _ _ _ _ _ _ _ _ _ h2
  have hffs : 0 < ffs_car := by
    rcases lt_or_gt_of_ne (fun h0 : ffs_car = 0 => hs0 (by rw [h0, zero_mul])) with hneg | hpos
    · linarith
    · exact hpos
  have hs : 0 < ffs_car * unit_time := mul_pos hffs hut
  have hlpos : 0 < length := lt_of_lt_of_le hs hlen
  have hn1 : 1 ≤ ⌊length / (ffs_car * unit_time)⌋ := by
    apply Int.le_floor.mpr
    rw [Int.cast_one, le_div_iff₀ hs]
    linarith
  have hn0 : ¬ ⌊length / (ffs_car * unit_time)⌋ = 0 := by omega
  rw [if_neg hn0] at hnum
  rw [hnum, if_pos hlpos] at hcells
  have hfl : ((⌊length / (ffs_car * unit_time)⌋ : Int) : ℚ) * (ffs_car * unit_time) ≤ length := by
    have := Int.floor_le (length / (ffs_car * unit_time))
    rwa [le_div_iff₀ hs] at this
  have hfu : length < ((⌊length / (ffs_car * unit_time)⌋ : Int) + 1 : ℚ) * (ffs_car * unit_time) := by
    have := Int.lt_floor_add_one (length / (ffs_car * unit_time))
    rwa [div_lt_iff₀ hs] at this
  have hk : ((⌊length / (ffs_car * unit_time)⌋ - 1).toNat : ℚ) =
      (⌊length / (ffs_car * unit_time)⌋ : ℚ) - 1 := by
    have : (((⌊length / (ffs_car * unit_time)⌋ - 1).toNat : Int) : ℚ) =
        ((⌊length / (ffs_car * unit_time)⌋ - 1 : Int) : ℚ) := by
      rw [Int.toNat_of_nonneg (by omega)]
    rw [Int.cast_natCast] at this
    rw [this]
    push_cast
    ring
  refine ⟨hnum, hn1, ?_, ?_, ?_, ?_⟩
  · rw [hcells]
    simp only [List.length_append, List.length_replicate, List.length_singleton]
    omega
  · intro i c hi hc
    rw [hcells, List.getElem?_append_left (by simp only [List.length_replicate]; omega)] at hc
    rw [List.getElem?_replicate] at hc
    split_ifs at hc
    · injection hc with hc
      rw [← hc]
      rfl
  · refine ⟨init_cell l unit_time
      (length - ((⌊length / (ffs_car * unit_time)⌋ - 1 : Int) : ℚ) * (ffs_car * unit_time)),
      ?_, rfl, ?_, ?_⟩
    · rw [hcells]
      have hidx : ⌊length / (ffs_car * unit_time)⌋.toNat - 1 =
          (List.replicate (⌊length / (ffs_car * unit_time)⌋ - 1).toNat
            (init_cell l unit_time (ffs_car * unit_time))).length := by
        simp only [List.length_replicate]
        omega
      rw [hidx, List.getElem?_concat_length]
    · rw [init_cell_length]
      push_cast
      linarith
    · rw [init_cell_length]
      push_cast
      linarith
  · rw [hcells]
    simp only [List.map_append, List.map_replicate, List.sum_append, List.sum_replicate,
      List.map_cons, List.map_nil, List.sum_cons, List.sum_nil, init_cell_length, nsmul_eq_mul,
      hk]
    push_cast
    ring

/-- Witness of `construct_cells`: a link of 250 m with `ffs_car = 10` and
`unit_time = 10` has two cells, of 100 m and of 150 m. -/
theorem construct_cells_witness :
    ∃ l, MNM_Dlink_Ctm_Multiclass.construct 1 1 250 (3 / 16) (1 / 8) (3 / 10) (1 / 4) 10 8 10 2
        1 = .constructed l ∧
      l.m_num_cells = 2 ∧ l.m_cell_array.map (fun c => c.m_cell_length) = [100, 150] ∧
      (l.m_cell_array.map (fun c => c.m_cell_length)).sum = 250 := by
  have hl : (MNM_Dlink_Ctm_Multiclass.construct 1 1 250 (3 / 16) (1 / 8) (3 / 10) (1 / 4) 10 8
      10 2 1).constructed?.map
        (fun l => (l.m_num_cells, l.m_cell_array.map (fun c => c.m_cell_length))) =
      some (2, [100, 150]) := by decide!
  obtain ⟨l, hc⟩ := construct_succeeds 1 1 250 (3 / 16) (1 / 8) (3 / 10) (1 / 4) 10 8 10 2 1
    (by norm_num) (by norm_num) (by norm_num) (by norm_num) (by norm_num) (by norm_num)
    (by norm_num) (by norm_num)
  have hsum := (construct_cells _ _ _ _ _ _ _ _ _ _ _ _ l hc (by norm_num)).2.2.2.2.2
  rw [hc] at hl
  simp only [Construction.constructed?, Option.map_some', Option.some.injEq,
    Prod.mk.injEq] at hl
  exact ⟨l, hc, hl.1, hl.2, hsum⟩


/-- C15 as stated does not hold for a link of length 0 (shorter than the
standard cell length 100): such a link is constructed with
`m_num_cells = 1` but with no cell at all, because `init_cell_array` adds
the last cell only when the length of the link is positive. -/
theorem construct_length_zero_has_no_cell :
    (0 : ℚ) < 10 * 10 ∧
      (MNM_Dlink_Ctm_Multiclass.construct 1 1 0 (3 / 16) (1 / 8) (3 / 10) (1 / 4) 10 8 10 2
        1).constructed?.map (fun l => (l.m_num_cells, l.m_cell_array)) = some (1, []) := by
  decide!

/-- C15 (amended): a successfully constructed CTM link whose length is
positive and less than the standard cell length `ffs_car * unit_time` has
`m_num_cells = 1` and exactly one cell, whose length is the length of the
link. -/
theorem construct_short_link (ID : Nat) (number_of_lane : Int)
    (length hc ht fc ft ffs_car ffs_truck unit_time vcf fs : ℚ) (l : MNM_Dlink_Ctm_Multiclass)
    (h : MNM_Dlink_Ctm_Multiclass.construct ID number_of_lane length hc ht fc ft ffs_car
      ffs_truck unit_time vcf fs = .constructed l)
    (hpos : 0 < length) (hshort : length < ffs_car * unit_time) :
    l.m_num_cells = 1 ∧ ∃ c, l.m_cell_array = [c] ∧ c.m_cell_length = length := by
  obtain ⟨_, h2⟩ := construct_constructed _ _ _ _ _ _ _ _ _ _ _ _ _ h
  obtain ⟨_, _, _, hnum, hcells, _⟩ :=
    construct_checked_constructed _ _ _ _ _ _ _ _ _ _ _ _ _ h2
  have hs : 0 < ffs_car * unit_time := lt_trans hpos hshort
  have hn0 : ⌊length / (ffs_car * unit_time)⌋ = 0 := by
    rw [Int.floor_eq_zero_iff]
    exact ⟨div_nonneg hpos.le hs.le, (div_lt_one hs).mpr hshort⟩
  rw [if_pos hn0] at hnum
  rw [hnum, if_pos hpos] at hcells
  refine ⟨hnum, init_cell l unit_time (length - ((1 - 1 : Int) : ℚ) * (ffs_car * unit_time)),
    ?_, ?_⟩
  · rw [hcells]
    rfl
  · rw [init_cell_length]
    norm_num

/-- Witness of `construct_short_link`: a link of 60 m with standard cell
length 100 m has one cell of 60 m. -/
theorem construct_short_link_witness :
    ∃ l, MNM_Dlink_Ctm_Multiclass.construct 1 1 60 (3 / 16) (1 / 8) (3 / 10) (1 / 4) 10 8 10 2
        1 = .constructed l ∧
      l.m_num_cells = 1 ∧ ∃ c, l.m_cell_array = [c] ∧ c.m_cell_length = 60 := by
  obtain ⟨l, hc⟩ := construct_succeeds 1 1 60 (3 / 16) (1 / 8) (3 / 10) (1 / 4) 10 8 10 2 1
    (by norm_num) (by norm_num) (by norm_num) (by norm_num) (by norm_num) (by norm_num)
    (by norm_num) (by norm_num)
  exact ⟨l, hc, construct_short_link _ _ _ _ _ _ _ _ _ _ _ _ l hc (by norm_num) (by norm_num)⟩


/-- How `construct_checked` ends when neither free-flow speed is 0. -/
theorem construct_checked_cases (ID : Nat) (number_of_lane : Int)
    (length hc ht fc ft ffs_car ffs_truck unit_time vcf fs : ℚ)
    (hs : ffs_car * unit_time ≠ 0) (htruck : ffs_truck ≠ 0) :
    (hc ≤ fc / ffs_car ∧
        construct_checked ID number_of_lane length hc ht fc ft ffs_car ffs_truck unit_time vcf
          fs = .exited .wrong_car_parameters) ∨
      (fc / ffs_car < hc ∧ ht ≤ ft / ffs_truck ∧
        construct_checked ID number_of_lane length hc ht fc ft ffs_car ffs_truck unit_time vcf
          fs = .exited .wrong_truck_parameters) ∨
      (fc / ffs_car < hc ∧ ft / ffs_truck < ht ∧
        ∃ l, construct_checked ID number_of_lane length hc ht fc ft ffs_car ffs_truck unit_time
          vcf fs = .constructed l) := by
  unfold construct_checked
  by_cases h2 : hc ≤ fc / ffs_car
  · left
    simp only [hs, h2, if_true, if_false, and_self]
  by_cases h4 : ht ≤ ft / ffs_truck
  · right
    left
    simp only [hs, h2, htruck, h4, if_true, if_false, and_true]
    exact not_le.mp h2
  right
  right
  simp only [hs, h2, htruck, h4, if_false]
  exact ⟨not_le.mp h2, not_le.mp h4, _, rfl⟩

/-- C12 as stated does not hold for a lane flow capacity of cars of 0: none
of the listed conditions holds (the clamped hold capacity 3/16 exceeds the
critical density 0 / 10 = 0), the construction succeeds, and the wave speed
of cars is 0 / (3/16 - 0) = 0, which is not positive. -/
theorem construct_zero_flow_cap_wave_speed_zero :
    ¬ ((3 / 16 : ℚ) < 0 ∨ (1 / 8 : ℚ) < 0 ∨ (0 : ℚ) < 0 ∨ (1 / 4 : ℚ) < 0 ∨ (10 : ℚ) < 0 ∨
        (8 : ℚ) < 0 ∨ (2 : ℚ) < 1 ∨ (1 : ℚ) < 1 ∨ (10 : ℚ) ≤ 0 ∨
        min (3 / 16 : ℚ) (300 / 1600) ≤ min (0 : ℚ) (3500 / 3600) / 10 ∨
        min (1 / 8 : ℚ) (300 / 1600) ≤ min (1 / 4 : ℚ) (3500 / 3600) / 8) ∧
      (MNM_Dlink_Ctm_Multiclass.construct 1 1 100 (3 / 16) (1 / 8) 0 (1 / 4) 10 8 10 2
        1).constructed?.map (fun l => (l.m_wave_speed_car, decide (0 < l.m_wave_speed_car))) =
        some (0, false) := by
  constructor
  · norm_num
  · decide!

/-- C12 (amended): for free-flow speeds other than 0 the constructor of the
CTM link exits if and only if a lane hold capacity is negative, a lane flow
capacity is negative, a free-flow speed is negative, `veh_convert_factor < 1`,
`flow_scalar < 1`, `unit_time <= 0`, or for car or for truck the clamped lane
hold capacity is at most the critical density (clamped flow capacity over
free-flow speed); otherwise the construction succeeds with, for each class,
`wave_speed = flow_cap / (hold_cap - critical_density)`, which is at least 0
and is positive exactly when the lane flow capacity given is positive. -/
theorem construct_fails_iff (ID : Nat) (number_of_lane : Int)
    (length hc ht fc ft ffs_car ffs_truck unit_time vcf fs : ℚ)
    (hcar : ffs_car ≠ 0) (htruck : ffs_truck ≠ 0) :
    ((∃ e, MNM_Dlink_Ctm_Multiclass.construct ID number_of_lane length hc ht fc ft ffs_car
          ffs_truck unit_time vcf fs = .exited e) ↔
        (hc < 0 ∨ ht < 0 ∨ fc < 0 ∨ ft < 0 ∨ ffs_car < 0 ∨ ffs_truck < 0 ∨ vcf < 1 ∨ fs < 1 ∨
          unit_time ≤ 0 ∨ min hc (300 / 1600) ≤ min fc (3500 / 3600) / ffs_car ∨
          min ht (300 / 1600) ≤ min ft (3500 / 3600) / ffs_truck)) ∧
      (¬ (hc < 0 ∨ ht < 0 ∨ fc < 0 ∨ ft < 0 ∨ ffs_car < 0 ∨ ffs_truck < 0 ∨ vcf < 1 ∨ fs < 1 ∨
          unit_time ≤ 0 ∨ min hc (300 / 1600) ≤ min fc (3500 / 3600) / ffs_car ∨
          min ht (300 / 1600) ≤ min ft (3500 / 3600) / ffs_truck) →
        ∃ l, MNM_Dlink_Ctm_Multiclass.construct ID number_of_lane length hc ht fc ft ffs_car
            ffs_truck unit_time vcf fs = .constructed l ∧
          l.m_lane_critical_density_car = l.m_lane_flow_cap_car / l.m_ffs_car ∧
          l.m_lane_critical_density_truck = l.m_lane_flow_cap_truck / l.m_ffs_truck ∧
          l.m_wave_speed_car =
            l.m_lane_flow_cap_car / (l.m_lane_hold_cap_car - l.m_lane_critical_density_car) ∧
          l.m_wave_speed_truck =
            l.m_lane_flow_cap_truck /
              (l.m_lane_hold_cap_truck - l.m_lane_critical_density_truck) ∧
          0 ≤ l.m_wave_speed_car ∧ 0 ≤ l.m_wave_speed_truck ∧
          (0 < l.m_wave_speed_car ↔ 0 < fc) ∧ (0 < l.m_wave_speed_truck ↔ 0 < ft)) := by
  by_cases c1 : hc < 0 ∨ ht < 0
  · have e : MNM_Dlink_Ctm_Multiclass.construct ID number_of_lane length hc ht fc ft ffs_car
        ffs_truck unit_time vcf fs = .exited .lane_hold_cap_negative := by
      unfold MNM_Dlink_Ctm_Multiclass.construct
      rw [if_pos c1]
    have hl : hc < 0 ∨ ht < 0 ∨ fc < 0 ∨ ft < 0 ∨ ffs_car < 0 ∨ ffs_truck < 0 ∨ vcf < 1 ∨
        fs < 1 ∨ unit_time ≤ 0 ∨ min hc (300 / 1600) ≤ min fc (3500 / 3600) / ffs_car ∨
        min ht (300 / 1600) ≤ min ft (3500 / 3600) / ffs_truck := by tauto
    exact ⟨⟨fun _ => hl, fun _ => ⟨_, e⟩⟩, fun hn => (hn hl).elim⟩
  by_cases c2 : fc < 0 ∨ ft < 0
  · have e : MNM_Dlink_Ctm_Multiclass.construct ID number_of_lane length hc ht fc ft ffs_car
        ffs_truck unit_time vcf fs = .exited .lane_flow_cap_negative := by
      unfold MNM_Dlink_Ctm_Multiclass.construct
      rw [if_neg c1, if_pos c2]
    have hl : hc < 0 ∨ ht < 0 ∨ fc < 0 ∨ ft < 0 ∨ ffs_car < 0 ∨ ffs_truck < 0 ∨ vcf < 1 ∨
        fs < 1 ∨ unit_time ≤ 0 ∨ min hc (300 / 1600) ≤ min fc (3500 / 3600) / ffs_car ∨
        min ht (300 / 1600) ≤ min ft (3500 / 3600) / ffs_truck := by tauto
    exact ⟨⟨fun _ => hl, fun _ => ⟨_, e⟩⟩, fun hn => (hn hl).elim⟩
  by_cases c3 : ffs_car < 0 ∨ ffs_truck < 0
  · have e : MNM_Dlink_Ctm_Multiclass.construct ID number_of_lane length hc ht fc ft ffs_car
        ffs_truck unit_time vcf fs = .exited .ffs_negative := by
      unfold MNM_Dlink_Ctm_Multiclass.construct
      rw [if_neg c1, if_neg c2, if_pos c3]
    have hl : hc < 0 ∨ ht < 0 ∨ fc < 0 ∨ ft < 0 ∨ ffs_car < 0 ∨ ffs_truck < 0 ∨ vcf < 1 ∨
        fs < 1 ∨ unit_time ≤ 0 ∨ min hc (300 / 1600) ≤ min fc (3500 / 3600) / ffs_car ∨
        min ht (300 / 1600) ≤ min ft (3500 / 3600) / ffs_truck := by tauto
    exact ⟨⟨fun _ => hl, fun _ => ⟨_, e⟩⟩, fun hn => (hn hl).elim⟩
  by_cases c4 : vcf < 1
  · have e : MNM_Dlink_Ctm_Multiclass.construct ID number_of_lane length hc ht fc ft ffs_car
        ffs_truck unit_time vcf fs = .exited .veh_convert_factor_below_1 := by
      unfold MNM_Dlink_Ctm_Multiclass.construct
      rw [if_neg c1, if_neg c2, if_neg c3, if_pos c4]
    have hl : hc < 0 ∨ ht < 0 ∨ fc < 0 ∨ ft < 0 ∨ ffs_car < 0 ∨ ffs_truck < 0 ∨ vcf < 1 ∨
        fs < 1 ∨ unit_time ≤ 0 ∨ min hc (300 / 1600) ≤ min fc (3500 / 3600) / ffs_car ∨
        min ht (300 / 1600) ≤ min ft (3500 / 3600) / ffs_truck := by tauto
    exact ⟨⟨fun _ => hl, fun _ => ⟨_, e⟩⟩, fun hn => (hn hl).elim⟩
  by_cases c5 : fs < 1
  · have e : MNM_Dlink_Ctm_Multiclass.construct ID number_of_lane length hc ht fc ft ffs_car
        ffs_truck unit_time vcf fs = .exited .flow_scalar_below_1 := by
      unfold MNM_Dlink_Ctm_Multiclass.construct
      rw [if_neg c1, if_neg c2, if_neg c3, if_neg c4, if_pos c5]
    have hl : hc < 0 ∨ ht < 0 ∨ fc < 0 ∨ ft < 0 ∨ ffs_car < 0 ∨ ffs_truck < 0 ∨ vcf < 1 ∨
        fs < 1 ∨ unit_time ≤ 0 ∨ min hc (300 / 1600) ≤ min fc (3500 / 3600) / ffs_car ∨
        min ht (300 / 1600) ≤ min ft (3500 / 3600) / ffs_truck := by tauto
    exact ⟨⟨fun _ => hl, fun _ => ⟨_, e⟩⟩, fun hn => (hn hl).elim⟩
  by_cases c6 : unit_time ≤ 0
  · have e : MNM_Dlink_Ctm_Multiclass.construct ID number_of_lane length hc ht fc ft ffs_car
        ffs_truck unit_time vcf fs = .exited .unit_time_not_positive := by
      unfold MNM_Dlink_Ctm_Multiclass.construct
      rw [if_neg c1, if_neg c2, if_neg c3, if_neg c4, if_neg c5, if_pos c6]
    have hl : hc < 0 ∨ ht < 0 ∨ fc < 0 ∨ ft < 0 ∨ ffs_car < 0 ∨ ffs_truck < 0 ∨ vcf < 1 ∨
        fs < 1 ∨ unit_time ≤ 0 ∨ min hc (300 / 1600) ≤ min fc (3500 / 3600) / ffs_car ∨
        min ht (300 / 1600) ≤ min ft (3500 / 3600) / ffs_truck := by tauto
    exact ⟨⟨fun _ => hl, fun _ => ⟨_, e⟩⟩, fun hn => (hn hl).elim⟩
  have e : MNM_Dlink_Ctm_Multiclass.construct ID number_of_lane length hc ht fc ft ffs_car
      ffs_truck unit_time vcf fs =
      construct_checked ID number_of_lane length (min hc (300 / 1600)) (min ht (300 / 1600))
        (min fc (3500 / 3600)) (min ft (3500 / 3600)) ffs_car ffs_truck unit_time vcf fs := by
    unfold MNM_Dlink_Ctm_Multiclass.construct
    rw [if_neg c1, if_neg c2, if_neg c3, if_neg c4, if_neg c5, if_neg c6]
    simp only [clamp_above_eq_min]
  push_neg at c1 c2 c3 c4 c5 c6
  have hs : ffs_car * unit_time ≠ 0 := mul_ne_zero hcar c6.ne'
  rw [e]
  rcases construct_checked_cases ID number_of_lane length (min hc (300 / 1600))
      (min ht (300 / 1600)) (min fc (3500 / 3600)) (min ft (3500 / 3600)) ffs_car ffs_truck
      unit_time vcf fs hs htruck with ⟨k1, k2⟩ | ⟨k1, k2, k3⟩ | ⟨k1, k2, l, k3⟩
  · have hl : hc < 0 ∨ ht < 0 ∨ fc < 0 ∨ ft < 0 ∨ ffs_car < 0 ∨ ffs_truck < 0 ∨ vcf < 1 ∨
        fs < 1 ∨ unit_time ≤ 0 ∨ min hc (300 / 1600) ≤ min fc (3500 / 3600) / ffs_car ∨
        min ht (300 / 1600) ≤ min ft (3500 / 3600) / ffs_truck := by
      iterate 9 right
      left
      exact k1
    exact ⟨⟨fun _ => hl, fun _ => ⟨_, k2⟩⟩, fun hn => (hn hl).elim⟩
  · have hl : hc < 0 ∨ ht < 0 ∨ fc < 0 ∨ ft < 0 ∨ ffs_car < 0 ∨ ffs_truck < 0 ∨ vcf < 1 ∨
        fs < 1 ∨ unit_time ≤ 0 ∨ min hc (300 / 1600) ≤ min fc (3500 / 3600) / ffs_car ∨
        min ht (300 / 1600) ≤ min ft (3500 / 3600) / ffs_truck := by
      iterate 10 right
      exact k2
    exact ⟨⟨fun _ => hl, fun _ => ⟨_, k3⟩⟩, fun hn => (hn hl).elim⟩
  · have hn : ¬ (hc < 0 ∨ ht < 0 ∨ fc < 0 ∨ ft < 0 ∨ ffs_car < 0 ∨ ffs_truck < 0 ∨ vcf < 1 ∨
        fs < 1 ∨ unit_time ≤ 0 ∨ min hc (300 / 1600) ≤ min fc (3500 / 3600) / ffs_car ∨
        min ht (300 / 1600) ≤ min ft (3500 / 3600) / ffs_truck) := by
      push_neg
      exact ⟨c1.1, c1.2, c2.1, c2.2, c3.1, c3.2, c4, c5, c6, k1, k2⟩
    obtain ⟨_, ⟨_, _, _, a1, a2, a3, a4, a5, a6, _⟩, ⟨b1, b2, b3, b4, _⟩, _⟩ :=
      construct_checked_constructed _ _ _ _ _ _ _ _ _ _ _ _ _ k3
    have hfc : 0 ≤ min fc (3500 / 3600) := le_min c2.1 (by norm_num)
    have hft : 0 ≤ min ft (3500 / 3600) := le_min c2.2 (by norm_num)
    have hfc0 : 0 < min fc (3500 / 3600) ↔ 0 < fc := by
      rw [lt_min_iff]
      exact ⟨fun h => h.1, fun h => ⟨h, by norm_num⟩⟩
    have hft0 : 0 < min ft (3500 / 3600) ↔ 0 < ft := by
      rw [lt_min_iff]
      exact ⟨fun h => h.1, fun h => ⟨h, by norm_num⟩⟩
    have dcar : 0 < min hc (300 / 1600) - min fc (3500 / 3600) / ffs_car := sub_pos.mpr k1
    have dtruck : 0 < min ht (300 / 1600) - min ft (3500 / 3600) / ffs_truck := sub_pos.mpr k2
    refine ⟨⟨fun ⟨e1, he1⟩ => ?_, fun hl => (hn hl).elim⟩, fun _ => ⟨l, k3, ?_, ?_, ?_, ?_, ?_, ?_,
      ?_, ?_⟩⟩
    · rw [k3] at he1
      cases he1
    · rw [b1, a3, a5]
    · rw [b2, a4, a6]
    · rw [b3, b1, a3, a1]
    · rw [b4, b2, a4, a2]
    · rw [b3]
      exact div_nonneg hfc dcar.le
    · rw [b4]
      exact div_nonneg hft dtruck.le
    · rw [b3, div_pos_iff_of_pos_right dcar]
      exact hfc0
    · rw [b4, div_pos_iff_of_pos_right dtruck]
      exact hft0

/-- Witness of `construct_fails_iff`: a lane hold capacity of cars equal to
the critical density 3/10 / 10 = 3/100 makes the constructor exit. -/
theorem construct_fails_iff_witness :
    (10 : ℚ) ≠ 0 ∧ (8 : ℚ) ≠ 0 ∧
      ∃ e, MNM_Dlink_Ctm_Multiclass.construct 1 1 100 (3 / 100) (1 / 8) (3 / 10) (1 / 4) 10 8 10
        2 1 = .exited e :=
  ⟨by norm_num, by norm_num,
    (construct_fails_iff 1 1 100 (3 / 100) (1 / 8) (3 / 10) (1 / 4) 10 8 10 2 1 (by norm_num)
      (by norm_num)).1.mpr (by norm_num)⟩


/-! ### The arithmetic of IEEE 754 on numbers -/

theorem TFlt_ieee.add_def (a b : TFlt_ieee) : a + b = a.add b := rfl

theorem TFlt_ieee.sub_def (a b : TFlt_ieee) : a - b = a.add b.neg := rfl

theorem TFlt_ieee.mul_def (a b : TFlt_ieee) : a * b = a.mul b := rfl

theorem TFlt_ieee.div_def (a b : TFlt_ieee) : a / b = a.div b := rfl

/-- A value that is a number is `num` of it or, for 0, the zero -0. -/
theorem TFlt_ieee.rational_cases (x : TFlt_ieee) (a : ℚ) (h : x.rational? = some a) :
    x = .num a ∨ (x = .neg_zero ∧ a = 0) := by
  cases x with
  | num q =>
    simp only [TFlt_ieee.rational?, Option.some.injEq] at h
    exact Or.inl (by rw [h])
  | neg_zero =>
    simp only [TFlt_ieee.rational?, Option.some.injEq] at h
    exact Or.inr ⟨rfl, h.symm⟩
  | pos_inf => cases h
  | neg_inf => cases h
  | nan => cases h

/-- The sum of two numbers is their sum. -/
theorem TFlt_ieee.rational_add (x y : TFlt_ieee) (a b : ℚ) (hx : x.rational? = some a)
    (hy : y.rational? = some b) : (x + y).rational? = some (a + b) := by
  rw [TFlt_ieee.add_def]
  rcases TFlt_ieee.rational_cases x a hx with rfl | ⟨rfl, rfl⟩ <;>
    rcases TFlt_ieee.rational_cases y b hy with rfl | ⟨rfl, rfl⟩ <;>
    simp only [TFlt_ieee.add, TFlt_ieee.is_nan, TFlt_ieee.is_inf, TFlt_ieee.is_zero,
      TFlt_ieee.negative, TFlt_ieee.value, TFlt_ieee.zero] <;>
    split_ifs <;> simp_all [TFlt_ieee.rational?]

/-- The opposite of a number is its opposite. -/
theorem TFlt_ieee.rational_neg (x : TFlt_ieee) (a : ℚ) (hx : x.rational? = some a) :
    x.neg.rational? = some (-a) := by
  rcases TFlt_ieee.rational_cases x a hx with rfl | ⟨rfl, rfl⟩
  · simp only [TFlt_ieee.neg]
    split_ifs <;> simp_all [TFlt_ieee.rational?]
  · simp [TFlt_ieee.neg, TFlt_ieee.rational?]

/-- The difference of two numbers is their difference. -/
theorem TFlt_ieee.rational_sub (x y : TFlt_ieee) (a b : ℚ) (hx : x.rational? = some a)
    (hy : y.rational? = some b) : (x - y).rational? = some (a - b) := by
  rw [TFlt_ieee.sub_def, ← TFlt_ieee.add_def, sub_eq_add_neg]
  exact TFlt_ieee.rational_add x y.neg a (-b) hx (TFlt_ieee.rational_neg y b hy)

/-- The product of two numbers is their product. -/
theorem TFlt_ieee.rational_mul (x y : TFlt_ieee) (a b : ℚ) (hx : x.rational? = some a)
    (hy : y.rational? = some b) : (x * y).rational? = some (a * b) := by
  rw [TFlt_ieee.mul_def]
  rcases TFlt_ieee.rational_cases x a hx with rfl | ⟨rfl, rfl⟩ <;>
    rcases TFlt_ieee.rational_cases y b hy with rfl | ⟨rfl, rfl⟩ <;>
    simp only [TFlt_ieee.mul, TFlt_ieee.is_nan, TFlt_ieee.is_inf, TFlt_ieee.is_zero,
      TFlt_ieee.negative, TFlt_ieee.value, TFlt_ieee.zero] <;>
    split_ifs <;> simp_all [TFlt_ieee.rational?]

/-- The quotient of two numbers by a divisor other than 0 is their quotient. -/
theorem TFlt_ieee.rational_div (x y : TFlt_ieee) (a b : ℚ) (hx : x.rational? = some a)
    (hy : y.rational? = some b) (hb : b ≠ 0) : (x / y).rational? = some (a / b) := by
  rw [TFlt_ieee.div_def]
  rcases TFlt_ieee.rational_cases x a hx with rfl | ⟨rfl, rfl⟩ <;>
    rcases TFlt_ieee.rational_cases y b hy with rfl | ⟨rfl, rfl⟩ <;>
    simp only [TFlt_ieee.div, TFlt_ieee.is_nan, TFlt_ieee.is_inf, TFlt_ieee.is_zero,
      TFlt_ieee.negative, TFlt_ieee.value, TFlt_ieee.zero] <;>
    split_ifs <;> simp_all [TFlt_ieee.rational?]

/-- The comparison `<` of two numbers. -/
theorem TFlt_ieee.rational_lt (x y : TFlt_ieee) (a b : ℚ) (hx : x.rational? = some a)
    (hy : y.rational? = some b) : x.lt y = decide (a < b) := by
  rcases TFlt_ieee.rational_cases x a hx with rfl | ⟨rfl, rfl⟩ <;>
    rcases TFlt_ieee.rational_cases y b hy with rfl | ⟨rfl, rfl⟩ <;>
    simp [TFlt_ieee.lt, TFlt_ieee.is_nan, TFlt_ieee.value]

/-- The comparison `<=` of two numbers. -/
theorem TFlt_ieee.rational_le (x y : TFlt_ieee) (a b : ℚ) (hx : x.rational? = some a)
    (hy : y.rational? = some b) : x.le y = decide (a ≤ b) := by
  rcases TFlt_ieee.rational_cases x a hx with rfl | ⟨rfl, rfl⟩ <;>
    rcases TFlt_ieee.rational_cases y b hy with rfl | ⟨rfl, rfl⟩ <;>
    simp [TFlt_ieee.le, TFlt_ieee.is_nan, TFlt_ieee.value]

theorem TFlt_ieee.rational_num (a : ℚ) : (TFlt_ieee.num a).rational? = some a := rfl

/-- The call `std::min` on two numbers. -/
theorem rational_std_min (x y : TFlt_ieee) (a b : ℚ) (hx : x.rational? = some a)
    (hy : y.rational? = some b) : (std_min x y).rational? = some (min a b) := by
  unfold std_min
  rw [TFlt_ieee.rational_lt y x b a hy hx]
  by_cases h : b < a
  · simp only [h, decide_True, if_true, hy, min_eq_right h.le]
  · simp only [h, decide_False, Bool.false_eq_true, if_false, hx, min_eq_left (not_lt.mp h)]

/-- The call `std::max` on two numbers. -/
theorem rational_std_max (x y : TFlt_ieee) (a b : ℚ) (hx : x.rational? = some a)
    (hy : y.rational? = some b) : (std_max x y).rational? = some (max a b) := by
  unfold std_max
  rw [TFlt_ieee.rational_lt x y a b hx hy]
  by_cases h : a < b
  · simp only [h, decide_True, if_true, hy, max_eq_right h.le]
  · simp only [h, decide_False, Bool.false_eq_true, if_false, hx, max_eq_left (not_lt.mp h)]

/-- The function `MNM_Ults::min` on two numbers. -/
theorem rational_min_ieee (x y : TFlt_ieee) (a b : ℚ) (hx : x.rational? = some a)
    (hy : y.rational? = some b) :
    (MNM_Ults.min_ieee x y).rational? = some (MNM_Ults.min a b) := by
  unfold MNM_Ults.min_ieee MNM_Ults.min
  rw [TFlt_ieee.rational_lt y x b a hy hx]
  by_cases h : b < a
  · simp only [h, decide_True, if_true, hy]
  · simp only [h, decide_False, Bool.false_eq_true, if_false, hx]

/-- The demand of a cell whose perceived densities are numbers is the demand
`get_perceived_demand` of the cell that holds them. -/
theorem rational_get_perceived_demand (c : Ctm_Cell_Multiclass) (pd : TFlt_ieee × TFlt_ieee)
    (x : Int) (h1 : pd.1.rational? = some c.m_perceived_density_car)
    (h2 : pd.2.rational? = some c.m_perceived_density_truck) :
    (c.get_perceived_demand_ieee pd x).rational? = some (c.get_perceived_demand x) := by
  unfold Ctm_Cell_Multiclass.get_perceived_demand_ieee Ctm_Cell_Multiclass.get_perceived_demand
  split_ifs
  · exact TFlt_ieee.rational_mul _ _ _ _
      (rational_std_min _ _ _ _ rfl (TFlt_ieee.rational_mul _ _ _ _ rfl h1)) rfl
  · exact TFlt_ieee.rational_mul _ _ _ _
      (rational_std_min _ _ _ _ rfl (TFlt_ieee.rational_mul _ _ _ _ rfl h2)) rfl

/-- The supply of a cell whose perceived densities are numbers is the supply
`get_perceived_supply` of the cell that holds them. -/
theorem rational_get_perceived_supply (c : Ctm_Cell_Multiclass) (pd : TFlt_ieee × TFlt_ieee)
    (x : Int) (h1 : pd.1.rational? = some c.m_perceived_density_car)
    (h2 : pd.2.rational? = some c.m_perceived_density_truck) :
    (c.get_perceived_supply_ieee pd x).rational? = some (c.get_perceived_supply x) := by
  unfold Ctm_Cell_Multiclass.get_perceived_supply_ieee Ctm_Cell_Multiclass.get_perceived_supply
  dsimp only
  split_ifs
  · exact TFlt_ieee.rational_mul _ _ _ _
      (rational_std_max _ _ _ _ rfl (rational_std_min _ _ _ _ rfl
        (TFlt_ieee.rational_mul _ _ _ _ rfl (TFlt_ieee.rational_sub _ _ _ _ rfl h1)))) rfl
  · exact TFlt_ieee.rational_mul _ _ _ _
      (rational_std_max _ _ _ _ rfl (rational_std_min _ _ _ _ rfl
        (TFlt_ieee.rational_mul _ _ _ _ rfl (TFlt_ieee.rational_sub _ _ _ _ rfl h2)))) rfl

theorem TFlt_ieee.num_lt_num (a b : ℚ) :
    (TFlt_ieee.num a).lt (TFlt_ieee.num b) = decide (a < b) := by
  simp [TFlt_ieee.lt, TFlt_ieee.is_nan, TFlt_ieee.value]

/-! ### The two forms of `update_perceived_density` -/

/-- Where `update_perceived_density` has a value (no divisor is 0), the values
that the code computes by the rules of IEEE 754 are the numbers it holds. -/
theorem update_perceived_density_ieee_eq (c c1 : Ctm_Cell_Multiclass)
    (h : c.update_perceived_density = some c1) :
    (c.update_perceived_density_ieee).1.rational? = some c1.m_perceived_density_car ∧
      (c.update_perceived_density_ieee).2.rational? = some c1.m_perceived_density_truck := by
  unfold Ctm_Cell_Multiclass.update_perceived_density at h
  by_cases h0 : c.m_flow_scalar = 0 ∨ c.m_cell_length = 0 ∨ c.m_critical_density_car = 0 ∨
      c.m_critical_density_truck = 0
  · rw [if_pos h0] at h
    cases h
  rw [if_neg h0] at h
  push_neg at h0
  obtain ⟨hfs, hlen, hcc, hct⟩ := h0
  have hdc : (TFlt_ieee.num (c.m_volume_car : ℚ) / TFlt_ieee.num c.m_flow_scalar /
      TFlt_ieee.num c.m_cell_length).rational? =
      some ((c.m_volume_car : ℚ) / c.m_flow_scalar / c.m_cell_length) :=
    TFlt_ieee.rational_div _ _ _ _ (TFlt_ieee.rational_div _ _ _ _ rfl rfl hfs) rfl hlen
  have hdt : (TFlt_ieee.num (c.m_volume_truck : ℚ) / TFlt_ieee.num c.m_flow_scalar /
      TFlt_ieee.num c.m_cell_length).rational? =
      some ((c.m_volume_truck : ℚ) / c.m_flow_scalar / c.m_cell_length) :=
    TFlt_ieee.rational_div _ _ _ _ (TFlt_ieee.rational_div _ _ _ _ rfl rfl hfs) rfl hlen
  generalize hDc : TFlt_ieee.num (c.m_volume_car : ℚ) / TFlt_ieee.num c.m_flow_scalar /
      TFlt_ieee.num c.m_cell_length = Dc at hdc
  generalize hDt : TFlt_ieee.num (c.m_volume_truck : ℚ) / TFlt_ieee.num c.m_flow_scalar /
      TFlt_ieee.num c.m_cell_length = Dt at hdt
  unfold Ctm_Cell_Multiclass.update_perceived_density_ieee
  simp only [hDc, hDt]
  dsimp only at h
  generalize (c.m_volume_car : ℚ) / c.m_flow_scalar / c.m_cell_length = dc at h hdc
  generalize (c.m_volume_truck : ℚ) / c.m_flow_scalar / c.m_cell_length = dt at h hdt
  have hsc := TFlt_ieee.rational_div Dc (.num c.m_critical_density_car) _ _ hdc rfl hcc
  have hst := TFlt_ieee.rational_div Dt (.num c.m_critical_density_truck) _ _ hdt rfl hct
  rw [TFlt_ieee.rational_le _ (.num 1) _ 1 (TFlt_ieee.rational_add _ _ _ _ hsc hst) rfl,
    TFlt_ieee.rational_lt _ (.num 1) _ 1 hst rfl]
  have hC : (if c.m_volume_truck = 0 then
        if dc = 0 then none
        else
          if (c.m_hold_cap_car - dc) * c.m_wave_speed_car / dc + c.m_wave_speed_truck = 0 then
            none
          else
            some { c with
              m_perceived_density_car := dc
              m_perceived_density_truck :=
                (c.m_hold_cap_truck * c.m_wave_speed_truck) /
                  ((c.m_hold_cap_car - dc) * c.m_wave_speed_car / dc + c.m_wave_speed_truck) }
      else
        if c.m_hold_cap_truck * c.m_wave_speed_truck * dc +
            c.m_hold_cap_car * c.m_wave_speed_car * dt = 0 then none
        else
          if (dc * dc * (c.m_wave_speed_car - c.m_wave_speed_truck) +
                c.m_hold_cap_truck * c.m_wave_speed_truck * dc) /
              (c.m_hold_cap_truck * c.m_wave_speed_truck * dc +
                c.m_hold_cap_car * c.m_wave_speed_car * dt) = 0 ∨
              (dc * dc * (c.m_wave_speed_truck - c.m_wave_speed_car) +
                c.m_hold_cap_car * c.m_wave_speed_car * dt) /
              (c.m_hold_cap_truck * c.m_wave_speed_truck * dc +
                c.m_hold_cap_car * c.m_wave_speed_car * dt) = 0 then none
          else
            some { c with
              m_perceived_density_car := dc /
                ((dc * dc * (c.m_wave_speed_car - c.m_wave_speed_truck) +
                  c.m_hold_cap_truck * c.m_wave_speed_truck * dc) /
                (c.m_hold_cap_truck * c.m_wave_speed_truck * dc +
                  c.m_hold_cap_car * c.m_wave_speed_car * dt))
              m_perceived_density_truck := dt /
                ((dc * dc * (c.m_wave_speed_truck - c.m_wave_speed_car) +
                  c.m_hold_cap_car * c.m_wave_speed_car * dt) /
                (c.m_hold_cap_truck * c.m_wave_speed_truck * dc +
                  c.m_hold_cap_car * c.m_wave_speed_car * dt)) }) = some c1 →
      (if c.m_volume_truck = 0 then
          (Dc, TFlt_ieee.num c.m_hold_cap_truck * TFlt_ieee.num c.m_wave_speed_truck /
            ((TFlt_ieee.num c.m_hold_cap_car - Dc) * TFlt_ieee.num c.m_wave_speed_car / Dc +
              TFlt_ieee.num c.m_wave_speed_truck))
        else
          (Dc /
            ((Dc * Dc * (TFlt_ieee.num c.m_wave_speed_car - TFlt_ieee.num c.m_wave_speed_truck) +
                TFlt_ieee.num c.m_hold_cap_truck * TFlt_ieee.num c.m_wave_speed_truck * Dc) /
              (TFlt_ieee.num c.m_hold_cap_truck * TFlt_ieee.num c.m_wave_speed_truck * Dc +
                TFlt_ieee.num c.m_hold_cap_car * TFlt_ieee.num c.m_wave_speed_car * Dt)),
            Dt /
            ((Dc * Dc * (TFlt_ieee.num c.m_wave_speed_truck - TFlt_ieee.num c.m_wave_speed_car) +
                TFlt_ieee.num c.m_hold_cap_car * TFlt_ieee.num c.m_wave_speed_car * Dt) /
              (TFlt_ieee.num c.m_hold_cap_truck * TFlt_ieee.num c.m_wave_speed_truck * Dc +
                TFlt_ieee.num c.m_hold_cap_car * TFlt_ieee.num c.m_wave_speed_car * Dt)))).1.rational? =
          some c1.m_perceived_density_car ∧
      (if c.m_volume_truck = 0 then
          (Dc, TFlt_ieee.num c.m_hold_cap_truck * TFlt_ieee.num c.m_wave_speed_truck /
            ((TFlt_ieee.num c.m_hold_cap_car - Dc) * TFlt_ieee.num c.m_wave_speed_car / Dc +
              TFlt_ieee.num c.m_wave_speed_truck))
        else
          (Dc /
            ((Dc * Dc * (TFlt_ieee.num c.m_wave_speed_car - TFlt_ieee.num c.m_wave_speed_truck) +
                TFlt_ieee.num c.m_hold_cap_truck * TFlt_ieee.num c.m_wave_speed_truck * Dc) /
              (TFlt_ieee.num c.m_hold_cap_truck * TFlt_ieee.num c.m_wave_speed_truck * Dc +
                TFlt_ieee.num c.m_hold_cap_car * TFlt_ieee.num c.m_wave_speed_car * Dt)),
            Dt /
            ((Dc * Dc * (TFlt_ieee.num c.m_wave_speed_truck - TFlt_ieee.num c.m_wave_speed_car) +
                TFlt_ieee.num c.m_hold_cap_car * TFlt_ieee.num c.m_wave_speed_car * Dt) /
              (TFlt_ieee.num c.m_hold_cap_truck * TFlt_ieee.num c.m_wave_speed_truck * Dc +
                TFlt_ieee.num c.m_hold_cap_car * TFlt_ieee.num c.m_wave_speed_car * Dt)))).2.rational? =
          some c1.m_perceived_density_truck := by
    intro hc
    by_cases hvt : c.m_volume_truck = 0
    · rw [if_pos hvt] at hc
      simp only [if_pos hvt]
      by_cases hdc0 : dc = 0
      · rw [if_pos hdc0] at hc
        cases hc
      rw [if_neg hdc0] at hc
      by_cases hu0 : (c.m_hold_cap_car - dc) * c.m_wave_speed_car / dc + c.m_wave_speed_truck = 0
      · rw [if_pos hu0] at hc
        cases hc
      rw [if_neg hu0] at hc
      cases hc
      have hu := TFlt_ieee.rational_add _ (.num c.m_wave_speed_truck) _ _
        (TFlt_ieee.rational_div _ Dc _ _
          (TFlt_ieee.rational_mul _ (.num c.m_wave_speed_car) _ _
            (TFlt_ieee.rational_sub (.num c.m_hold_cap_car) Dc _ _ rfl hdc) rfl) hdc hdc0) rfl
      exact ⟨hdc, TFlt_ieee.rational_div _ _ _ _
        (TFlt_ieee.rational_mul (.num c.m_hold_cap_truck) (.num c.m_wave_speed_truck) _ _ rfl rfl)
        hu hu0⟩
    · rw [if_neg hvt] at hc
      simp only [if_neg hvt]
      by_cases hsum : c.m_hold_cap_truck * c.m_wave_speed_truck * dc +
          c.m_hold_cap_car * c.m_wave_speed_car * dt = 0
      · rw [if_pos hsum] at hc
        cases hc
      rw [if_neg hsum] at hc
      by_cases hsf : (dc * dc * (c.m_wave_speed_car - c.m_wave_speed_truck) +
                c.m_hold_cap_truck * c.m_wave_speed_truck * dc) /
              (c.m_hold_cap_truck * c.m_wave_speed_truck * dc +
                c.m_hold_cap_car * c.m_wave_speed_car * dt) = 0 ∨
              (dc * dc * (c.m_wave_speed_truck - c.m_wave_speed_car) +
                c.m_hold_cap_car * c.m_wave_speed_car * dt) /
              (c.m_hold_cap_truck * c.m_wave_speed_truck * dc +
                c.m_hold_cap_car * c.m_wave_speed_car * dt) = 0
      · rw [if_pos hsf] at hc
        cases hc
      rw [if_neg hsf] at hc
      push_neg at hsf
      cases hc
      have htc := TFlt_ieee.rational_mul _ Dt _ _
        (TFlt_ieee.rational_mul (.num c.m_hold_cap_car) (.num c.m_wave_speed_car) _ _ rfl rfl)
        hdt
      have htt := TFlt_ieee.rational_mul _ Dc _ _
        (TFlt_ieee.rational_mul (.num c.m_hold_cap_truck) (.num c.m_wave_speed_truck) _ _ rfl
          rfl) hdc
      have hden := TFlt_ieee.rational_add _ _ _ _ htt htc
      have hsfc := TFlt_ieee.rational_div _ _ _ _
        (TFlt_ieee.rational_add _ _ _ _
          (TFlt_ieee.rational_mul _ _ _ _ (TFlt_ieee.rational_mul _ _ _ _ hdc hdc)
            (TFlt_ieee.rational_sub (.num c.m_wave_speed_car) (.num c.m_wave_speed_truck) _ _
              rfl rfl)) htt) hden hsum
      have hsft := TFlt_ieee.rational_div _ _ _ _
        (TFlt_ieee.rational_add _ _ _ _
          (TFlt_ieee.rational_mul _ _ _ _ (TFlt_ieee.rational_mul _ _ _ _ hdc hdc)
            (TFlt_ieee.rational_sub (.num c.m_wave_speed_truck) (.num c.m_wave_speed_car) _ _
              rfl rfl)) htc) hden hsum
      exact ⟨TFlt_ieee.rational_div _ _ _ _ hdc hsfc hsf.1,
        TFlt_ieee.rational_div _ _ _ _ hdt hsft hsf.2⟩
  by_cases hA : dc / c.m_critical_density_car + dt / c.m_critical_density_truck ≤ 1
  · rw [if_pos hA] at h
    simp only [hA, decide_True, if_true]
    cases h
    exact ⟨TFlt_ieee.rational_add _ _ _ _ hdc
        (TFlt_ieee.rational_mul (.num c.m_critical_density_car) _ _ _ rfl hst),
      TFlt_ieee.rational_add _ _ _ _ hdt
        (TFlt_ieee.rational_mul (.num c.m_critical_density_truck) _ _ _ rfl hsc)⟩
  rw [if_neg hA] at h
  simp only [hA, decide_False, Bool.false_eq_true, if_false]
  by_cases hB1 : dt / c.m_critical_density_truck < 1
  · have hone := TFlt_ieee.rational_sub (.num 1) _ 1 _ rfl hst
    have hq := TFlt_ieee.rational_div Dc _ _ _ hdc hone (by linarith)
    rw [TFlt_ieee.rational_le _ (.num c.m_rho_1_N) _ _ hq rfl]
    by_cases hB2 : dc / (1 - dt / c.m_critical_density_truck) ≤ c.m_rho_1_N
    · rw [if_pos ⟨hB1, hB2⟩] at h
      simp only [hB1, hB2, decide_True, Bool.and_self, if_true]
      cases h
      exact ⟨hq, rfl⟩
    · rw [if_neg (fun hb => hB2 hb.2)] at h
      simp only [hB1, hB2, decide_True, decide_False, Bool.and_false, Bool.false_eq_true,
        if_false]
      exact hC h
  · rw [if_neg (fun hb => hB1 hb.1)] at h
    simp only [hB1, decide_False, Bool.false_and, Bool.false_eq_true, if_false]
    exact hC h

/-! ### The evolution of the CTM link -/

/-- The function `update_perceived_density` changes neither the volumes nor
the queues of the cell. -/
theorem update_perceived_density_keeps (c c1 : Ctm_Cell_Multiclass)
    (h : c.update_perceived_density = some c1) :
    c1.m_volume_car = c.m_volume_car ∧ c1.m_volume_truck = c.m_volume_truck ∧
      c1.m_veh_queue_car = c.m_veh_queue_car ∧ c1.m_veh_queue_truck = c.m_veh_queue_truck := by
  unfold Ctm_Cell_Multiclass.update_perceived_density at h
  dsimp only at h
  split_ifs at h <;> cases h <;> exact ⟨rfl, rfl, rfl, rfl⟩

/-- What the "update volume" loop leaves: the cells `i` to `i + n - 1` exist
and have volumes equal to the lengths of their queues, the other cells are
not changed. -/
theorem evolve_volume_loop_ieee_spec :
    ∀ (n i : Nat) (s s1 : List Ctm_Cell_Multiclass × (Nat → TFlt_ieee × TFlt_ieee)),
      evolve_volume_loop_ieee n i s = some s1 →
        s1.1.length = s.1.length ∧ (0 < n → i + n ≤ s.1.length) ∧
          ∀ j c, s1.1[j]? = some c →
            (i ≤ j → j < i + n →
              c.m_volume_car = (c.m_veh_queue_car.length : Int) ∧
                c.m_volume_truck = (c.m_veh_queue_truck.length : Int)) ∧
            (¬ (i ≤ j ∧ j < i + n) → s.1[j]? = some c) := by
  intro n
  induction n with
  | zero =>
    intro i s s1 h
    simp only [evolve_volume_loop_ieee, Option.some.injEq] at h
    subst h
    refine ⟨rfl, fun h0 => absurd h0 (lt_irrefl 0), fun j c hc => ⟨fun h1 h2 => ?_, fun _ => hc⟩⟩
    omega
  | succ n ih =>
    intro i s s1 h
    obtain ⟨cells, pd⟩ := s
    rw [evolve_volume_loop_ieee] at h
    cases hci : cells[i]? with
    | none => rw [hci] at h; cases h
    | some ci =>
      rw [hci] at h
      simp only at h
      obtain ⟨hlen, hbound, hcells⟩ := ih _ _ _ h
      simp only [List.length_set] at hlen hbound
      have hi : i < cells.length := (List.getElem?_eq_some.mp hci).1
      refine ⟨hlen, fun _ => ?_, fun j c hc => ⟨fun h1 h2 => ?_, fun hout => ?_⟩⟩
      · by_cases hn : 0 < n
        · have := hbound hn
          simp only at this ⊢
          omega
        · simp only
          omega
      · by_cases hj : j = i
        · subst hj
          have hprev := (hcells j c hc).2 (by omega)
          simp only [List.getElem?_set_self hi, Option.some.injEq] at hprev
          rw [← hprev]
          exact ⟨rfl, rfl⟩
        · exact (hcells j c hc).1 (by omega) (by omega)
      · have hprev := (hcells j c hc).2 (by omega)
        simp only at hprev ⊢
        rwa [List.getElem?_set_ne (by omega)] at hprev

/-- What the end of `evolve` leaves: every cell before the last exists and has
volumes equal to the lengths of its queues, the last cell exists and its
volumes add the vehicles of its class of `finished_array`. -/
theorem evolve_update_volume_ieee_spec (s s1 : MNM_Dlink_Ctm_Multiclass_ieee)
    (h : evolve_update_volume_ieee s = some s1) :
    s1.link.m_num_cells = s.link.m_num_cells ∧
      s1.link.m_finished_array = s.link.m_finished_array ∧
      (∀ i : Int, 0 ≤ i → i < s1.link.m_num_cells - 1 →
        ∃ c, vec_at s1.link.m_cell_array i = some c ∧
          c.m_volume_car = (c.m_veh_queue_car.length : Int) ∧
          c.m_volume_truck = (c.m_veh_queue_truck.length : Int)) ∧
      (∃ c, vec_at s1.link.m_cell_array (s1.link.m_num_cells - 1) = some c ∧
        c.m_volume_car = (c.m_veh_queue_car.length : Int) +
          (s1.link.m_finished_array.countP (fun _veh => decide (_veh.m_class = 0)) : Nat) ∧
        c.m_volume_truck = (c.m_veh_queue_truck.length : Int) +
          (s1.link.m_finished_array.countP (fun _veh => decide (_veh.m_class = 1)) : Nat)) := by
  unfold evolve_update_volume_ieee at h
  have hloop : ∃ t, (if s.link.m_num_cells > 1 then
        evolve_volume_loop_ieee (s.link.m_num_cells - 1).toNat 0
          (s.link.m_cell_array, s.m_perceived_density)
      else some (s.link.m_cell_array, s.m_perceived_density)) = some t := by
    cases hx : (if s.link.m_num_cells > 1 then
        evolve_volume_loop_ieee (s.link.m_num_cells - 1).toNat 0
          (s.link.m_cell_array, s.m_perceived_density)
      else some (s.link.m_cell_array, s.m_perceived_density)) with
    | none => simp only [hx] at h; cases h
    | some t => exact ⟨t, rfl⟩
  obtain ⟨⟨cells, pd⟩, hcells⟩ := hloop
  simp only [hcells] at h
  cases hlast : vec_at cells (s.link.m_num_cells - 1) with
  | none => simp only [hlast] at h; cases h
  | some c0 =>
    simp only [hlast, Option.some.injEq] at h
    subst h
    have hn : 0 ≤ s.link.m_num_cells - 1 := by
      by_contra hneg
      simp only [vec_at, if_neg hneg] at hlast
      cases hlast
    simp only [vec_at, if_pos hn] at hlast
    have hlt : (s.link.m_num_cells - 1).toNat < cells.length :=
      (List.getElem?_eq_some.mp hlast).1
    refine ⟨rfl, rfl, fun i hi0 hi1 => ?_, ?_⟩
    · simp only at hi1
      have hgt : s.link.m_num_cells > 1 := by omega
      rw [if_pos hgt] at hcells
      obtain ⟨hlen, hbound, hspec⟩ := evolve_volume_loop_ieee_spec _ _ _ _ hcells
      have hilt : i.toNat < (s.link.m_num_cells - 1).toNat := by omega
      have hne : (s.link.m_num_cells - 1).toNat ≠ i.toNat := by omega
      simp only [vec_at, vec_set, if_pos hn, if_pos hi0, List.getElem?_set_ne hne]
      obtain ⟨c, hex⟩ : ∃ c, cells[i.toNat]? = some c :=
        ⟨_, List.getElem?_eq_getElem (by omega)⟩
      exact ⟨c, hex, (hspec _ _ hex).1 (Nat.zero_le _) (by omega)⟩
    · simp only [vec_at, vec_set, if_pos hn, List.getElem?_set_self hlt]
      exact ⟨_, rfl, rfl, rfl⟩

/-- A link `evolve` that returns has run `evolve_update_volume_ieee` last. -/
theorem evolve_ieee_returned (round : ℚ → Int) (fuel : Nat)
    (s s1 : MNM_Dlink_Ctm_Multiclass_ieee) (g g1 : Rng)
    (h : s.evolve round fuel g = .returned (s1, g1)) :
    ∃ s3, evolve_update_volume_ieee s3 = some s1 := by
  unfold MNM_Dlink_Ctm_Multiclass_ieee.evolve at h
  cases h1 : s.update_out_veh round with
  | none => simp only [h1] at h; cases h
  | some s2 =>
    simp only [h1] at h
    cases h2 : (if s2.link.m_num_cells > 1 then
        evolve_move_loop (s2.link.m_num_cells - 1).toNat 0 s2.link.m_cell_array
      else some s2.link.m_cell_array) with
    | none => simp only [h2] at h; cases h
    | some cells =>
      simp only [h2] at h
      cases h3 : MNM_Dlink_Ctm_Multiclass.move_last_cell fuel
          { s2.link with m_cell_array := cells } g with
      | returned t =>
        obtain ⟨l3, g3⟩ := t
        simp only [h3] at h
        cases h4 : evolve_update_volume_ieee { s2 with link := l3 } with
        | none => simp only [h4] at h; cases h
        | some s4 =>
          simp only [h4, Outcome.returned.injEq, Prod.mk.injEq] at h
          rw [← h.1]
          exact ⟨_, h4⟩
      | aborted t => simp only [h3] at h; cases h
      | undefined => simp only [h3] at h; cases h
      | out_of_fuel => simp only [h3] at h; cases h

/-- The "update volume" loop succeeds whenever the cells it indexes exist,
whatever `update_perceived_density` computes. -/
theorem evolve_volume_loop_ieee_some :
    ∀ (n i : Nat) (cells : List Ctm_Cell_Multiclass) (pd : Nat → TFlt_ieee × TFlt_ieee),
      i + n ≤ cells.length →
        ∃ t, evolve_volume_loop_ieee n i (cells, pd) = some t ∧ t.1.length = cells.length := by
  intro n
  induction n with
  | zero => intro i cells pd _; exact ⟨_, rfl, rfl⟩
  | succ n ih =>
    intro i cells pd hi
    obtain ⟨ci, hci⟩ : ∃ c, cells[i]? = some c := ⟨_, List.getElem?_eq_getElem (by omega)⟩
    rw [evolve_volume_loop_ieee]
    simp only [hci]
    obtain ⟨t, ht, hlen⟩ := ih (i + 1)
      (cells.set i { ci with
        m_volume_car := (ci.m_veh_queue_car.length : Int)
        m_volume_truck := (ci.m_veh_queue_truck.length : Int) })
      (Function.update pd i
        ({ ci with
          m_volume_car := (ci.m_veh_queue_car.length : Int)
          m_volume_truck := (ci.m_veh_queue_truck.length : Int) } :
            Ctm_Cell_Multiclass).update_perceived_density_ieee)
      (by rw [List.length_set]; omega)
    exact ⟨t, ht, by rw [hlen, List.length_set]⟩

/-- The end of `evolve` succeeds on every link that has its `m_num_cells`
cells, at least one, whatever `update_perceived_density` computes: no value
of a perceived density keeps `evolve` from returning. -/
theorem evolve_update_volume_ieee_some (s : MNM_Dlink_Ctm_Multiclass_ieee)
    (h1 : 1 ≤ s.link.m_num_cells)
    (h2 : s.link.m_num_cells.toNat ≤ s.link.m_cell_array.length) :
    ∃ s1, evolve_update_volume_ieee s = some s1 := by
  have hloop : ∃ t, (if s.link.m_num_cells > 1 then
        evolve_volume_loop_ieee (s.link.m_num_cells - 1).toNat 0
          (s.link.m_cell_array, s.m_perceived_density)
      else some (s.link.m_cell_array, s.m_perceived_density)) = some t ∧
      t.1.length = s.link.m_cell_array.length := by
    split_ifs with hn
    · exact evolve_volume_loop_ieee_some _ _ _ _ (by omega)
    · exact ⟨_, rfl, rfl⟩
  obtain ⟨⟨cells, pd⟩, ht, hlen⟩ := hloop
  simp only at hlen
  obtain ⟨c, hc⟩ : ∃ c, vec_at cells (s.link.m_num_cells - 1) = some c := by
    unfold vec_at
    rw [if_pos (by omega)]
    exact ⟨_, List.getElem?_eq_getElem (by omega)⟩
  unfold evolve_update_volume_ieee
  simp only [ht, hc]
  exact ⟨_, rfl⟩

/-- C11: after every `evolve` of a CTM link, whatever its state and whatever
`update_perceived_density` stores in the perceived densities (a number, an
infinity or a NaN), every cell other than the last has, for each class, a
volume equal to the length of its queue of that class, and the last cell has
a volume equal to the length of its queue plus the number of vehicles of that
class in `finished_array`. -/
theorem evolve_volume_invariant (round : ℚ → Int) (fuel : Nat)
    (s s1 : MNM_Dlink_Ctm_Multiclass_ieee) (g g1 : Rng)
    (h : s.evolve round fuel g = .returned (s1, g1)) :
    (∀ i : Int, 0 ≤ i → i < s1.link.m_num_cells - 1 →
        ∃ c, vec_at s1.link.m_cell_array i = some c ∧
          c.m_volume_car = (c.m_veh_queue_car.length : Int) ∧
          c.m_volume_truck = (c.m_veh_queue_truck.length : Int)) ∧
      (∃ c, vec_at s1.link.m_cell_array (s1.link.m_num_cells - 1) = some c ∧
        c.m_volume_car = (c.m_veh_queue_car.length : Int) +
          (s1.link.m_finished_array.countP (fun _veh => decide (_veh.m_class = 0)) : Nat) ∧
        c.m_volume_truck = (c.m_veh_queue_truck.length : Int) +
          (s1.link.m_finished_array.countP (fun _veh => decide (_veh.m_class = 1)) : Nat)) := by
  obtain ⟨s3, h3⟩ := evolve_ieee_returned round fuel s s1 g g1 h
  exact (evolve_update_volume_ieee_spec s3 s1 h3).2.2

/-- Witness of `evolve_volume_invariant`: the two-cell link with four trucks
queued in cell 0 and a car and a truck in `finished_array` evolves. Cell 0 is
congested and holds no car: `update_perceived_density` stores a NaN in its
perceived density of cars and 1/25 in that of trucks. Cell 0 has the volumes
0 and 4 of its queues and the last cell the volumes 1 and 1 of the finished
vehicles. -/
theorem evolve_volume_invariant_witness :
    ∃ s1 g1, link_200m_4_trucks.to_ieee.evolve round_half_up 1 rng_zero = .returned (s1, g1) ∧
      ((∀ i : Int, 0 ≤ i → i < s1.link.m_num_cells - 1 →
        ∃ c, vec_at s1.link.m_cell_array i = some c ∧
          c.m_volume_car = (c.m_veh_queue_car.length : Int) ∧
          c.m_volume_truck = (c.m_veh_queue_truck.length : Int)) ∧
      (∃ c, vec_at s1.link.m_cell_array (s1.link.m_num_cells - 1) = some c ∧
        c.m_volume_car = (c.m_veh_queue_car.length : Int) +
          (s1.link.m_finished_array.countP (fun _veh => decide (_veh.m_class = 0)) : Nat) ∧
        c.m_volume_truck = (c.m_veh_queue_truck.length : Int) +
          (s1.link.m_finished_array.countP (fun _veh => decide (_veh.m_class = 1)) : Nat))) ∧
      s1.link.m_cell_array.map (fun c => (c.m_volume_car, c.m_volume_truck)) =
        [(0, 4), (1, 1)] ∧
      (List.range 2).map s1.m_perceived_density =
        [(.nan, .num (1 / 25)), (.num (49 / 2500), .num (49 / 2400))] := by
  have hv : (link_200m_4_trucks.to_ieee.evolve round_half_up 1 rng_zero).returned?.map
      (fun s => (s.1.link.m_cell_array.map (fun c => (c.m_volume_car, c.m_volume_truck)),
        (List.range 2).map s.1.m_perceived_density)) =
      some ([(0, 4), (1, 1)], [(.nan, .num (1 / 25)), (.num (49 / 2500), .num (49 / 2400))]) := by
    decide!
  cases h : link_200m_4_trucks.to_ieee.evolve round_half_up 1 rng_zero with
  | returned s =>
    obtain ⟨s1, g1⟩ := s
    rw [h] at hv
    simp only [Outcome.returned?, Option.map_some', Option.some.injEq, Prod.mk.injEq] at hv
    exact ⟨s1, g1, rfl,
      evolve_volume_invariant round_half_up 1 link_200m_4_trucks.to_ieee s1 rng_zero g1 h,
      hv.1, hv.2⟩
  | aborted s => rw [h] at hv; simp [Outcome.returned?] at hv
  | undefined => rw [h] at hv; simp [Outcome.returned?] at hv
  | out_of_fuel => rw [h] at hv; simp [Outcome.returned?] at hv

/-- C16 (defect of the code): on the two-cell link of 200 m that the
constructor makes (`ffs_car = 10`, `unit_time = 10`, two cells of 100 m), with
the car 1 bound for link 2 in `incoming_array`, the car is in the queue of
cell 0 after the first tick and is still there, cell 1 and `finished_array`
being empty, after the second and after the third tick: `update_out_veh`
multiplies the flux of cell 0 by `m_space_fraction_car`, which no function
assigns, so the out count of cell 0 is `round(0)`. -/
theorem two_cell_link_car_stays_in_cell_0 :
    (MNM_Dlink_Ctm_Multiclass.construct 1 1 200 (3 / 16) (1 / 8) (3 / 10) (1 / 4) 10 8 10 2
        1).constructed?.map MNM_Dlink_Ctm_Multiclass.install_cumulative_curve_multiclass =
        some link_200m ∧
      (link_ticks round_half_up 1 1 link_200m_1_car rng_zero).returned?.map
        (fun s => link_view s.1) = some ([([car 1 (some 2)], []), ([], [])], []) ∧
      (link_ticks round_half_up 1 2 link_200m_1_car rng_zero).returned?.map
        (fun s => link_view s.1) = some ([([car 1 (some 2)], []), ([], [])], []) ∧
      (link_ticks round_half_up 1 3 link_200m_1_car rng_zero).returned?.map
        (fun s => link_view s.1) = some ([([car 1 (some 2)], []), ([], [])], []) ∧
      (link_ticks round_half_up 1 2 link_200m_1_car rng_zero).returned?.map
        (fun s => s.1.m_cell_array.map
          (fun c => (c.m_space_fraction_car, c.m_perceived_density_car, c.m_out_veh_car))) =
        some [(0, 1 / 100, 0), (0, 0, 0)] := by
  refine ⟨?_, ?_, ?_, ?_, ?_⟩ <;> decide!

/-! ### A link without vehicles -/

theorem set_eq_self_of_getElem? {α : Type} (v : List α) (i : Nat) (a : α)
    (h : v[i]? = some a) : v.set i a = v := by
  apply List.ext_getElem?
  intro j
  rw [List.getElem?_set]
  by_cases hij : i = j
  · subst hij
    rw [if_pos rfl, if_pos (List.getElem?_eq_some.mp h).1, h]
  · rw [if_neg hij]

/-- The perceived densities in the members of the cells of a link are those
of the link as a link with perceived densities in `TFlt_ieee`. -/
theorem to_ieee_holds (l : MNM_Dlink_Ctm_Multiclass) :
    holds_perceived_density l.to_ieee.m_perceived_density l.m_cell_array := by
  intro j c hc
  unfold MNM_Dlink_Ctm_Multiclass.to_ieee
  simp only [hc]
  exact ⟨rfl, rfl⟩

/-- Cells with the same perceived densities in their members hold the same
perceived densities. -/
theorem holds_of_map_eq (pd : Nat → TFlt_ieee × TFlt_ieee)
    (cells cells1 : List Ctm_Cell_Multiclass)
    (h : cells1.map (fun c => (c.m_perceived_density_car, c.m_perceived_density_truck)) =
      cells.map (fun c => (c.m_perceived_density_car, c.m_perceived_density_truck)))
    (hpd : holds_perceived_density pd cells) : holds_perceived_density pd cells1 := by
  intro j c1 hc1
  have h1 : (cells1.map (fun c => (c.m_perceived_density_car,
      c.m_perceived_density_truck)))[j]? =
      some (c1.m_perceived_density_car, c1.m_perceived_density_truck) := by
    rw [List.getElem?_map, hc1]
    rfl
  rw [h, List.getElem?_map] at h1
  cases hc : cells[j]? with
  | none => rw [hc] at h1; cases h1
  | some c =>
    rw [hc] at h1
    simp only [Option.map_some', Option.some.injEq, Prod.mk.injEq] at h1
    obtain ⟨k1, k2⟩ := hpd j c hc
    rw [← h1.1, ← h1.2]
    exact ⟨k1, k2⟩

/-- Replacing a cell by one with the same perceived densities keeps the
perceived densities of the cells. -/
theorem map_perceived_density_set (cells : List Ctm_Cell_Multiclass) (i : Nat)
    (ci c : Ctm_Cell_Multiclass) (hci : cells[i]? = some ci)
    (h1 : c.m_perceived_density_car = ci.m_perceived_density_car)
    (h2 : c.m_perceived_density_truck = ci.m_perceived_density_truck) :
    (cells.set i c).map (fun c => (c.m_perceived_density_car, c.m_perceived_density_truck)) =
      cells.map (fun c => (c.m_perceived_density_car, c.m_perceived_density_truck)) := by
  rw [List.map_set]
  apply set_eq_self_of_getElem?
  rw [List.getElem?_map, hci, h1, h2]
  rfl

/-- The loop of `update_out_veh` assigns no perceived density. -/
theorem update_out_veh_loop_perceived_density (round : ℚ → Int) (fs : ℚ) :
    ∀ (n i : Nat) (cells cells1 : List Ctm_Cell_Multiclass),
      update_out_veh_loop round fs n i cells = some cells1 →
        cells1.map (fun c => (c.m_perceived_density_car, c.m_perceived_density_truck)) =
          cells.map (fun c => (c.m_perceived_density_car, c.m_perceived_density_truck)) := by
  intro n
  induction n with
  | zero =>
    intro i cells cells1 h
    simp only [update_out_veh_loop, Option.some.injEq] at h
    rw [h]
  | succ n ih =>
    intro i cells cells1 h
    rw [update_out_veh_loop] at h
    cases hci : cells[i]? with
    | none => simp only [hci] at h; cases h
    | some ci =>
      cases hcj : cells[i + 1]? with
      | none => simp only [hci, hcj] at h; cases h
      | some cj =>
        simp only [hci, hcj] at h
        rw [ih _ _ _ h]
        exact map_perceived_density_set cells i ci _ hci rfl rfl

/-- The loop of `update_out_veh` for perceived densities that the cells hold
in their members is the loop `update_out_veh_loop`. -/
theorem update_out_veh_loop_ieee_eq (round : ℚ → Int) (fs : ℚ)
    (pd : Nat → TFlt_ieee × TFlt_ieee) :
    ∀ (n i : Nat) (cells : List Ctm_Cell_Multiclass), holds_perceived_density pd cells →
      update_out_veh_loop_ieee round fs pd n i cells = update_out_veh_loop round fs n i cells := by
  intro n
  induction n with
  | zero => intro i cells _; rfl
  | succ n ih =>
    intro i cells hpd
    rw [update_out_veh_loop_ieee, update_out_veh_loop]
    cases hci : cells[i]? with
    | none => rfl
    | some ci =>
      cases hcj : cells[i + 1]? with
      | none => rfl
      | some cj =>
        obtain ⟨p1, p2⟩ := hpd i ci hci
        obtain ⟨q1, q2⟩ := hpd (i + 1) cj hcj
        have hcar := TFlt_ieee.rational_mul _ _ _ _
          (TFlt_ieee.rational_mul _ _ _ _ (TFlt_ieee.rational_num ci.m_space_fraction_car)
            (rational_min_ieee _ _ _ _ (rational_get_perceived_demand ci (pd i) 0 p1 p2)
              (rational_get_perceived_supply cj (pd (i + 1)) 0 q1 q2)))
          (TFlt_ieee.rational_num fs)
        have htruck := TFlt_ieee.rational_mul _ _ _ _
          (TFlt_ieee.rational_mul _ _ _ _ (TFlt_ieee.rational_num ci.m_space_fraction_truck)
            (rational_min_ieee _ _ _ _ (rational_get_perceived_demand ci (pd i) 1 p1 p2)
              (rational_get_perceived_supply cj (pd (i + 1)) 1 q1 q2)))
          (TFlt_ieee.rational_num fs)
        have hcell : update_out_veh_cell_ieee round fs ci cj (pd i) (pd (i + 1)) =
            some { ci with
              m_out_veh_car :=
                round (ci.m_space_fraction_car *
                  MNM_Ults.min (ci.get_perceived_demand 0) (cj.get_perceived_supply 0) * fs)
              m_out_veh_truck :=
                round (ci.m_space_fraction_truck *
                  MNM_Ults.min (ci.get_perceived_demand 1) (cj.get_perceived_supply 1) * fs) } := by
          unfold update_out_veh_cell_ieee
          simp only [hcar, htruck]
        simp only [hcell]
        apply ih
        apply holds_of_map_eq pd cells _ _ hpd
        exact map_perceived_density_set cells i ci _ hci rfl rfl

/-- Replacing the cell of index `i` by one with the same perceived densities
keeps the perceived densities of the cells. -/
theorem map_perceived_density_vec_set (cells : List Ctm_Cell_Multiclass) (i : Int)
    (ci c : Ctm_Cell_Multiclass) (hci : vec_at cells i = some ci)
    (h1 : c.m_perceived_density_car = ci.m_perceived_density_car)
    (h2 : c.m_perceived_density_truck = ci.m_perceived_density_truck) :
    (vec_set cells i c).map (fun c => (c.m_perceived_density_car, c.m_perceived_density_truck)) =
      cells.map (fun c => (c.m_perceived_density_car, c.m_perceived_density_truck)) := by
  unfold vec_at at hci
  unfold vec_set
  by_cases hi : 0 ≤ i
  · rw [if_pos hi] at hci
    rw [if_pos hi]
    exact map_perceived_density_set cells _ ci c hci h1 h2
  · rw [if_neg hi]

/-- The function `update_out_veh` assigns no perceived density. -/
theorem update_out_veh_perceived_density (round : ℚ → Int) (l l1 : MNM_Dlink_Ctm_Multiclass)
    (h : l.update_out_veh round = some l1) :
    l1.m_cell_array.map (fun c => (c.m_perceived_density_car, c.m_perceived_density_truck)) =
      l.m_cell_array.map (fun c => (c.m_perceived_density_car, c.m_perceived_density_truck)) := by
  unfold MNM_Dlink_Ctm_Multiclass.update_out_veh at h
  cases hloop : (if l.m_num_cells > 1 then
      update_out_veh_loop round l.m_flow_scalar (l.m_num_cells - 1).toNat 0 l.m_cell_array
    else some l.m_cell_array) with
  | none => simp only [hloop] at h; cases h
  | some cells =>
    simp only [hloop] at h
    have hcells : cells.map (fun c => (c.m_perceived_density_car,
        c.m_perceived_density_truck)) =
        l.m_cell_array.map (fun c => (c.m_perceived_density_car,
          c.m_perceived_density_truck)) := by
      split_ifs at hloop with hn
      · exact update_out_veh_loop_perceived_density _ _ _ _ _ _ hloop
      · simp only [Option.some.injEq] at hloop
        rw [hloop]
    cases hlast : vec_at cells (l.m_num_cells - 1) with
    | none => simp only [hlast] at h; cases h
    | some c =>
      simp only [hlast, Option.some.injEq] at h
      rw [← h, ← hcells]
      exact map_perceived_density_vec_set cells _ c _ hlast rfl rfl

/-- The function `update_out_veh` of a link whose cells hold its perceived
densities in their members is the function `update_out_veh` on these
members. -/
theorem update_out_veh_ieee_eq (round : ℚ → Int) (s : MNM_Dlink_Ctm_Multiclass_ieee)
    (hpd : holds_perceived_density s.m_perceived_density s.link.m_cell_array) :
    s.update_out_veh round = (s.link.update_out_veh round).map (fun l1 => { s with link := l1 }) := by
  unfold MNM_Dlink_Ctm_Multiclass_ieee.update_out_veh MNM_Dlink_Ctm_Multiclass.update_out_veh
  rw [update_out_veh_loop_ieee_eq round _ _ _ _ _ hpd]
  cases hloop : (if s.link.m_num_cells > 1 then
      update_out_veh_loop round s.link.m_flow_scalar (s.link.m_num_cells - 1).toNat 0
        s.link.m_cell_array
    else some s.link.m_cell_array) with
  | none => rfl
  | some cells =>
    simp only
    cases hlast : vec_at cells (s.link.m_num_cells - 1) with
    | none => rfl
    | some c => rfl

/-- The first loop of `evolve` assigns no perceived density. -/
theorem evolve_move_loop_perceived_density :
    ∀ (n i : Nat) (cells cells1 : List Ctm_Cell_Multiclass),
      evolve_move_loop n i cells = some cells1 →
        cells1.map (fun c => (c.m_perceived_density_car, c.m_perceived_density_truck)) =
          cells.map (fun c => (c.m_perceived_density_car, c.m_perceived_density_truck)) := by
  intro n
  induction n with
  | zero =>
    intro i cells cells1 h
    simp only [evolve_move_loop, Option.some.injEq] at h
    rw [h]
  | succ n ih =>
    intro i cells cells1 h
    rw [evolve_move_loop] at h
    cases hci : cells[i]? with
    | none => simp only [hci] at h; cases h
    | some ci =>
      cases hcj : cells[i + 1]? with
      | none => simp only [hci, hcj] at h; cases h
      | some cj =>
        simp only [hci, hcj] at h
        cases hcar : move_veh_queue ci.m_out_veh_car.toNat ci.m_veh_queue_car
            cj.m_veh_queue_car with
        | none => simp only [hcar] at h; cases h
        | some car =>
          simp only [hcar] at h
          cases htrk : move_veh_queue ci.m_out_veh_truck.toNat ci.m_veh_queue_truck
              cj.m_veh_queue_truck with
          | none => simp only [htrk] at h; cases h
          | some trk =>
            simp only [htrk] at h
            rw [ih _ _ _ h]
            have hcj1 : ∀ c : Ctm_Cell_Multiclass, (cells.set i c)[i + 1]? = some cj := by
              intro c
              rw [List.getElem?_set_ne (by omega)]
              exact hcj
            refine Eq.trans (map_perceived_density_set _ (i + 1) cj _ (hcj1 _) ?_ ?_)
              (map_perceived_density_set cells i ci _ hci ?_ ?_) <;> rfl

/-- The loop of `move_last_cell` assigns no perceived density. -/
theorem move_last_cell_loop_perceived_density (a b : Int) (p : ℚ) :
    ∀ (fuel : Nat) (c c1 : Ctm_Cell_Multiclass) (fin fin1 : List MNM_Veh_Multiclass)
      (g g1 : Rng),
      move_last_cell_loop a b p fuel (c, fin, g) = .returned (c1, fin1, g1) →
        c1.m_perceived_density_car = c.m_perceived_density_car ∧
          c1.m_perceived_density_truck = c.m_perceived_density_truck := by
  intro fuel
  induction fuel with
  | zero =>
    intro c c1 fin fin1 g g1 h
    simp only [move_last_cell_loop] at h
    cases h
  | succ fuel ih =>
    intro c c1 fin fin1 g g1 h
    rw [move_last_cell_loop] at h
    by_cases hab : a > 0 ∨ b > 0
    · rw [if_pos hab] at h
      simp only at h
      have hcar : ∀ c2 fin2, move_last_cell_car c fin = .returned (c2, fin2) →
          c2.m_perceived_density_car = c.m_perceived_density_car ∧
            c2.m_perceived_density_truck = c.m_perceived_density_truck := by
        intro c2 fin2 h2
        unfold move_last_cell_car at h2
        cases hq : c.m_veh_queue_car with
        | nil => simp only [hq] at h2; cases h2
        | cons v rest =>
          simp only [hq] at h2
          split_ifs at h2
          simp only [Outcome.returned.injEq, Prod.mk.injEq] at h2
          rw [← h2.1]
          exact ⟨rfl, rfl⟩
      have htruck : ∀ c2 fin2, move_last_cell_truck c fin = .returned (c2, fin2) →
          c2.m_perceived_density_car = c.m_perceived_density_car ∧
            c2.m_perceived_density_truck = c.m_perceived_density_truck := by
        intro c2 fin2 h2
        unfold move_last_cell_truck at h2
        cases hq : c.m_veh_queue_truck with
        | nil => simp only [hq] at h2; cases h2
        | cons v rest =>
          simp only [hq] at h2
          split_ifs at h2
          simp only [Outcome.returned.injEq, Prod.mk.injEq] at h2
          rw [← h2.1]
          exact ⟨rfl, rfl⟩
      have hmoved : ∀ c2 fin2,
          (if (MNM_Ults.rand_flt g).1 < p then
            if a > 0 then move_last_cell_car c fin else move_last_cell_truck c fin
          else
            if b > 0 then move_last_cell_truck c fin else move_last_cell_car c fin) =
            .returned (c2, fin2) →
          c2.m_perceived_density_car = c.m_perceived_density_car ∧
            c2.m_perceived_density_truck = c.m_perceived_density_truck := by
        intro c2 fin2 h2
        split_ifs at h2
        · exact hcar _ _ h2
        · exact htruck _ _ h2
        · exact htruck _ _ h2
        · exact hcar _ _ h2
      cases hm : (if (MNM_Ults.rand_flt g).1 < p then
            if a > 0 then move_last_cell_car c fin else move_last_cell_truck c fin
          else
            if b > 0 then move_last_cell_truck c fin else move_last_cell_car c fin) with
      | returned t =>
        obtain ⟨c2, fin2⟩ := t
        simp only [hm] at h
        obtain ⟨k1, k2⟩ := ih _ _ _ _ _ _ h
        obtain ⟨m1, m2⟩ := hmoved _ _ hm
        exact ⟨k1.trans m1, k2.trans m2⟩
      | aborted t => simp only [hm] at h; cases h
      | undefined => simp only [hm] at h; cases h
      | out_of_fuel => simp only [hm] at h; cases h
    · rw [if_neg hab] at h
      simp only [Outcome.returned.injEq, Prod.mk.injEq] at h
      rw [← h.1]
      exact ⟨rfl, rfl⟩

/-- The function `move_last_cell` assigns no perceived density. -/
theorem move_last_cell_perceived_density (fuel : Nat) (l l1 : MNM_Dlink_Ctm_Multiclass)
    (g g1 : Rng) (h : MNM_Dlink_Ctm_Multiclass.move_last_cell fuel l g = .returned (l1, g1)) :
    l1.m_cell_array.map (fun c => (c.m_perceived_density_car, c.m_perceived_density_truck)) =
      l.m_cell_array.map (fun c => (c.m_perceived_density_car, c.m_perceived_density_truck)) := by
  unfold MNM_Dlink_Ctm_Multiclass.move_last_cell at h
  cases hlast : vec_at l.m_cell_array (l.m_num_cells - 1) with
  | none => simp only [hlast] at h; cases h
  | some c =>
    simp only [hlast] at h
    cases hloop : move_last_cell_loop c.m_out_veh_car c.m_out_veh_truck
        ((c.m_out_veh_car : ℚ) / ((c.m_out_veh_car + c.m_out_veh_truck : Int) : ℚ)) fuel
        (c, l.m_finished_array, g) with
    | returned t =>
      obtain ⟨c1, fin1, g2⟩ := t
      simp only [hloop, Outcome.map, Outcome.returned.injEq, Prod.mk.injEq] at h
      obtain ⟨k1, k2⟩ := move_last_cell_loop_perceived_density _ _ _ _ _ _ _ _ _ _ hloop
      rw [← h.1]
      exact map_perceived_density_vec_set _ _ c c1 hlast k1 k2
    | aborted t => simp only [hloop, Outcome.map] at h; cases h
    | undefined => simp only [hloop, Outcome.map] at h; cases h
    | out_of_fuel => simp only [hloop, Outcome.map] at h; cases h

/-- The function `update_perceived_density` assigns the perceived densities
only. -/
theorem update_perceived_density_eq_with (c c1 : Ctm_Cell_Multiclass)
    (h : c.update_perceived_density = some c1) :
    c1 = { c with
      m_perceived_density_car := c1.m_perceived_density_car
      m_perceived_density_truck := c1.m_perceived_density_truck } := by
  unfold Ctm_Cell_Multiclass.update_perceived_density at h
  dsimp only at h
  split_ifs at h <;> cases h <;> rfl

/-- What `store_perceived_density` gives. -/
theorem store_perceived_density_eq (pd : Nat → TFlt_ieee × TFlt_ieee) :
    ∀ (cells cells1 : List Ctm_Cell_Multiclass) (k : Nat),
      cells1.length = cells.length →
      (∀ j c, cells[j]? = some c →
        ∃ x y, (pd (k + j)).1.rational? = some x ∧ (pd (k + j)).2.rational? = some y ∧
          cells1[j]? =
            some { c with m_perceived_density_car := x, m_perceived_density_truck := y }) →
      store_perceived_density pd k cells = some cells1 := by
  intro cells
  induction cells with
  | nil =>
    intro cells1 k hlen _
    rw [List.length_nil, List.length_eq_zero] at hlen
    rw [hlen]
    rfl
  | cons c rest ih =>
    intro cells1 k hlen h
    cases cells1 with
    | nil => simp at hlen
    | cons c1 rest1 =>
      obtain ⟨x, y, hx, hy, hc1⟩ := h 0 c (List.getElem?_cons_zero ..)
      simp only [add_zero] at hx hy
      simp only [List.getElem?_cons_zero, Option.some.injEq] at hc1
      have hrest := ih rest1 (k + 1) (by simpa using hlen) (by
        intro j cj hcj
        obtain ⟨x1, y1, k1, k2, k3⟩ := h (j + 1) cj (by simpa using hcj)
        refine ⟨x1, y1, ?_, ?_, by simpa using k3⟩
        · rw [show k + 1 + j = k + (j + 1) by omega]
          exact k1
        · rw [show k + 1 + j = k + (j + 1) by omega]
          exact k2)
      rw [store_perceived_density]
      simp only [hx, hy, hrest, hc1]

/-- Cells that hold the perceived densities in their members are these cells
with the perceived densities stored. -/
theorem perceived_density_stored_self (pd : Nat → TFlt_ieee × TFlt_ieee)
    (cells : List Ctm_Cell_Multiclass) (h : holds_perceived_density pd cells) :
    perceived_density_stored pd cells cells := by
  refine ⟨rfl, fun j c hc => ?_⟩
  obtain ⟨k1, k2⟩ := h j c hc
  exact ⟨_, _, k1, k2, hc⟩

/-- The "update volume" loop of `evolve` in the two forms: where the loop on
the rational members succeeds, the loop for every state stores the same
perceived densities. -/
theorem evolve_volume_loop_ieee_of_rational :
    ∀ (n i : Nat) (cellsI cellsR cellsR1 : List Ctm_Cell_Multiclass)
      (pd : Nat → TFlt_ieee × TFlt_ieee),
      perceived_density_stored pd cellsI cellsR →
      evolve_volume_loop n i cellsR = some cellsR1 →
        ∃ cellsI1 pd1, evolve_volume_loop_ieee n i (cellsI, pd) = some (cellsI1, pd1) ∧
          perceived_density_stored pd1 cellsI1 cellsR1 := by
  intro n
  induction n with
  | zero =>
    intro i cellsI cellsR cellsR1 pd hrel h
    simp only [evolve_volume_loop, Option.some.injEq] at h
    rw [← h]
    exact ⟨cellsI, pd, rfl, hrel⟩
  | succ n ih =>
    intro i cellsI cellsR cellsR1 pd hrel h
    rw [evolve_volume_loop] at h
    cases hciR : cellsR[i]? with
    | none => simp only [hciR] at h; cases h
    | some ciR =>
      simp only [hciR] at h
      cases hupd : Ctm_Cell_Multiclass.update_perceived_density
          { ciR with
            m_volume_car := (ciR.m_veh_queue_car.length : Int)
            m_volume_truck := (ciR.m_veh_queue_truck.length : Int) } with
      | none => simp only [hupd] at h; cases h
      | some c1R =>
        simp only [hupd] at h
        have hi : i < cellsI.length := by
          rw [← hrel.1]
          exact (List.getElem?_eq_some.mp hciR).1
        obtain ⟨ciI, hciI⟩ : ∃ c, cellsI[i]? = some c := ⟨_, List.getElem?_eq_getElem hi⟩
        obtain ⟨x, y, hx, hy, hR⟩ := hrel.2 i ciI hciI
        rw [hciR, Option.some.injEq] at hR
        subst hR
        obtain ⟨b1, b2⟩ := update_perceived_density_ieee_eq _ _ hupd
        have hwith := update_perceived_density_eq_with _ _ hupd
        rw [evolve_volume_loop_ieee]
        simp only [hciI]
        apply ih _ _ _ _ _ _ h
        refine ⟨by rw [List.length_set, List.length_set]; exact hrel.1, fun j c hc => ?_⟩
        by_cases hj : i = j
        · subst hj
          rw [List.getElem?_set_self hi, Option.some.injEq] at hc
          subst hc
          rw [Function.update_same, List.getElem?_set_self (by rw [hrel.1]; exact hi)]
          refine ⟨_, _, b1, b2, ?_⟩
          rw [hwith]
        · rw [List.getElem?_set_ne hj] at hc
          rw [Function.update_noteq (Ne.symm hj), List.getElem?_set_ne hj]
          exact hrel.2 j c hc

/-- The end of `evolve` in the two forms: where it succeeds on the rational
members, the function for every state stores the same perceived densities. -/
theorem evolve_update_volume_ieee_of_rational (l l1 : MNM_Dlink_Ctm_Multiclass)
    (pd : Nat → TFlt_ieee × TFlt_ieee) (hpd : holds_perceived_density pd l.m_cell_array)
    (h : evolve_update_volume l = some l1) :
    ∃ s1, evolve_update_volume_ieee { link := l, m_perceived_density := pd } = some s1 ∧
      s1.rational? = some l1 := by
  unfold evolve_update_volume at h
  cases hloop : (if l.m_num_cells > 1 then
      evolve_volume_loop (l.m_num_cells - 1).toNat 0 l.m_cell_array
    else some l.m_cell_array) with
  | none => simp only [hloop] at h; cases h
  | some cellsR =>
    simp only [hloop] at h
    have hsim : ∃ cellsI pd1, (if l.m_num_cells > 1 then
          evolve_volume_loop_ieee (l.m_num_cells - 1).toNat 0 (l.m_cell_array, pd)
        else some (l.m_cell_array, pd)) = some (cellsI, pd1) ∧
        perceived_density_stored pd1 cellsI cellsR := by
      by_cases hn : l.m_num_cells > 1
      · rw [if_pos hn] at hloop ⊢
        exact evolve_volume_loop_ieee_of_rational _ _ _ _ _ _
          (perceived_density_stored_self pd _ hpd) hloop
      · rw [if_neg hn] at hloop ⊢
        simp only [Option.some.injEq] at hloop
        rw [← hloop]
        exact ⟨_, _, rfl, perceived_density_stored_self pd _ hpd⟩
    obtain ⟨cellsI, pd1, hI, hrel⟩ := hsim
    cases hlastR : vec_at cellsR (l.m_num_cells - 1) with
    | none => simp only [hlastR] at h; cases h
    | some cR =>
      simp only [hlastR] at h
      cases hupd : Ctm_Cell_Multiclass.update_perceived_density
          { cR with
            m_volume_car := (cR.m_veh_queue_car.length : Int) +
              (l.m_finished_array.countP (fun _veh => decide (_veh.m_class = 0)) : Nat)
            m_volume_truck := (cR.m_veh_queue_truck.length : Int) +
              (l.m_finished_array.countP (fun _veh => decide (_veh.m_class = 1)) : Nat) } with
      | none => simp only [hupd] at h; cases h
      | some c1R =>
        simp only [hupd, Option.some.injEq] at h
        have hn : 0 ≤ l.m_num_cells - 1 := by
          by_contra hneg
          simp only [vec_at, if_neg hneg] at hlastR
          cases hlastR
        simp only [vec_at, if_pos hn] at hlastR
        have hi : (l.m_num_cells - 1).toNat < cellsI.length := by
          rw [← hrel.1]
          exact (List.getElem?_eq_some.mp hlastR).1
        obtain ⟨cI, hcI⟩ : ∃ c, cellsI[(l.m_num_cells - 1).toNat]? = some c :=
          ⟨_, List.getElem?_eq_getElem hi⟩
        obtain ⟨x, y, hx, hy, hR⟩ := hrel.2 _ cI hcI
        rw [hlastR, Option.some.injEq] at hR
        subst hR
        obtain ⟨b1, b2⟩ := update_perceived_density_ieee_eq _ _ hupd
        have hwith := update_perceived_density_eq_with _ _ hupd
        unfold evolve_update_volume_ieee
        simp only [hI, vec_at, if_pos hn, hcI]
        refine ⟨_, rfl, ?_⟩
        unfold MNM_Dlink_Ctm_Multiclass_ieee.rational?
        simp only
        rw [store_perceived_density_eq _ _
          (vec_set cellsR (l.m_num_cells - 1) c1R) 0 ?_ ?_]
        · rw [← h]
          rfl
        · simp only [vec_set, if_pos hn, List.length_set]
          exact hrel.1
        · intro j c hc
          simp only [vec_set, if_pos hn, zero_add] at hc ⊢
          by_cases hj : (l.m_num_cells - 1).toNat = j
          · subst hj
            rw [List.getElem?_set_self hi, Option.some.injEq] at hc
            subst hc
            rw [Nat.zero_add, Function.update_same,
              List.getElem?_set_self (by rw [hrel.1]; exact hi)]
            refine ⟨_, _, b1, b2, ?_⟩
            rw [hwith]
          · rw [List.getElem?_set_ne hj] at hc
            rw [Nat.zero_add, Function.update_noteq (Ne.symm hj), List.getElem?_set_ne hj]
            exact hrel.2 j c hc

/-- The two forms of `evolve` agree: where `evolve` on the rational members
returns, the function for every state returns from the same link, with the
same random source, the link whose perceived densities are the numbers that
`evolve` leaves in the members of the cells. -/
theorem evolve_ieee_of_evolve (round : ℚ → Int) (fuel : Nat)
    (l l1 : MNM_Dlink_Ctm_Multiclass) (g g1 : Rng)
    (h : l.evolve round fuel g = .returned (l1, g1)) :
    ∃ s1, l.to_ieee.evolve round fuel g = .returned (s1, g1) ∧ s1.rational? = some l1 := by
  unfold MNM_Dlink_Ctm_Multiclass.evolve at h
  cases h1 : l.update_out_veh round with
  | none => simp only [h1] at h; cases h
  | some l2 =>
    simp only [h1] at h
    have p2 := update_out_veh_perceived_density round l l2 h1
    cases h2 : (if l2.m_num_cells > 1 then
        evolve_move_loop (l2.m_num_cells - 1).toNat 0 l2.m_cell_array
      else some l2.m_cell_array) with
    | none => simp only [h2] at h; cases h
    | some cells =>
      simp only [h2] at h
      have p3 : cells.map (fun c => (c.m_perceived_density_car,
          c.m_perceived_density_truck)) =
          l2.m_cell_array.map (fun c => (c.m_perceived_density_car,
            c.m_perceived_density_truck)) := by
        split_ifs at h2 with hn
        · exact evolve_move_loop_perceived_density _ _ _ _ h2
        · simp only [Option.some.injEq] at h2
          rw [h2]
      cases h3 : MNM_Dlink_Ctm_Multiclass.move_last_cell fuel { l2 with m_cell_array := cells }
          g with
      | returned t =>
        obtain ⟨l3, g3⟩ := t
        simp only [h3] at h
        have p4 := move_last_cell_perceived_density fuel _ l3 g g3 h3
        cases h4 : evolve_update_volume l3 with
        | none => simp only [h4] at h; cases h
        | some l4 =>
          simp only [h4, Outcome.returned.injEq, Prod.mk.injEq] at h
          have hpd : holds_perceived_density l.to_ieee.m_perceived_density l3.m_cell_array :=
            holds_of_map_eq _ l.m_cell_array _ (p4.trans (p3.trans p2)) (to_ieee_holds l)
          obtain ⟨s1, e1, e2⟩ := evolve_update_volume_ieee_of_rational l3 l4 _ hpd h4
          refine ⟨s1, ?_, by rw [e2, h.1]⟩
          unfold MNM_Dlink_Ctm_Multiclass_ieee.evolve
          rw [update_out_veh_ieee_eq round l.to_ieee (to_ieee_holds l)]
          have hl : l.to_ieee.link = l := rfl
          simp only [hl, h1, Option.map_some', h2, h3]
          have hs : ({ l.to_ieee with link := l3 } : MNM_Dlink_Ctm_Multiclass_ieee) =
              { link := l3, m_perceived_density := l.to_ieee.m_perceived_density } := rfl
          rw [hs, e1, h.2]
      | aborted t => simp only [h3] at h; cases h
      | undefined => simp only [h3] at h; cases h
      | out_of_fuel => simp only [h3] at h; cases h

/-- On the runs that the theorems use as inputs the ticks in the two forms
give the same links: the three ticks of the two-cell link that receives the
car 1, the `evolve` of the link with a car queued in cell 0 and two vehicles
in `finished_array`, and the three ticks of the link of 200 m that receives a
car, a car and a truck (cell 0 ends in regime C with the perceived density of
trucks -7/260). -/
theorem link_ticks_ieee_agree_on_inputs :
    (link_ticks_ieee round_half_up 1 3 link_200m_1_car.to_ieee rng_zero).returned?.bind
        (fun s => s.1.rational?) =
        (link_ticks round_half_up 1 3 link_200m_1_car rng_zero).returned?.map (fun s => s.1) ∧
      (link_200m_3_vehicles.to_ieee.evolve round_half_up 1 rng_zero).returned?.bind
        (fun s => s.1.rational?) =
        (link_200m_3_vehicles.evolve round_half_up 1 rng_zero).returned?.map (fun s => s.1) ∧
      (MNM_Dlink_Ctm_Multiclass.construct 1 1 200 (9 / 400) (1 / 50) (1 / 5) (1 / 10)
          10 8 10 2 1).constructed?.bind
        (fun l => (link_run_ieee round_half_up 1
            [[car 1 (some 2)], [car 2 (some 2)], [truck 3 (some 2)]] l.to_ieee
              rng_zero).returned?.bind (fun s => s.1.rational?)) =
        (MNM_Dlink_Ctm_Multiclass.construct 1 1 200 (9 / 400) (1 / 50) (1 / 5) (1 / 10)
          10 8 10 2 1).constructed?.bind
        (fun l => (link_run round_half_up 1
            [[car 1 (some 2)], [car 2 (some 2)], [truck 3 (some 2)]] l
              rng_zero).returned?.map (fun s => s.1)) ∧
      (MNM_Dlink_Ctm_Multiclass.construct 1 1 200 (9 / 400) (1 / 50) (1 / 5) (1 / 10)
          10 8 10 2 1).constructed?.bind
        (fun l => (link_run_ieee round_half_up 1
            [[car 1 (some 2)], [car 2 (some 2)], [truck 3 (some 2)]] l.to_ieee
              rng_zero).returned?.map (fun s => (List.range 2).map s.1.m_perceived_density)) =
        some [(.num (7 / 480), .num (-7 / 260)), (.num 0, .num 0)] := by
  refine ⟨?_, ?_, ?_, ?_⟩ <;> decide!

/-! ### The increments of the cumulative curves -/

theorem curve_grows_refl (c : Option MNM_Cumulative_Curve) : curve_grows c c := Or.inl rfl

theorem curves_grow_refl
    (a : Option MNM_Cumulative_Curve × Option MNM_Cumulative_Curve ×
      Option MNM_Cumulative_Curve × Option MNM_Cumulative_Curve) : curves_grow a a :=
  ⟨Or.inl rfl, Or.inl rfl, Or.inl rfl, Or.inl rfl⟩

theorem curve_grows_add (c : Option MNM_Cumulative_Curve) (r : ℚ × ℚ) (h : 0 ≤ r.2) :
    curve_grows c (add_increment_if_installed c r) := Or.inr ⟨r, h, rfl⟩

/-- An increment that is not negative keeps the counts of a curve from
decreasing. -/
theorem add_increment_nondecreasing (c : MNM_Cumulative_Curve) (r : ℚ × ℚ) (h : 0 ≤ r.2)
    (hc : List.Chain' (fun a b : ℚ => a ≤ b) (c.m_recorder.map Prod.snd)) :
    List.Chain' (fun a b : ℚ => a ≤ b) ((c.add_increment r).m_recorder.map Prod.snd) := by
  unfold MNM_Cumulative_Curve.add_increment
  cases hlast : c.m_recorder.getLast? with
  | none =>
    simp only [MNM_Cumulative_Curve.add_record, List.map_append, List.map_cons, List.map_nil]
    rw [List.chain'_append]
    refine ⟨hc, List.chain'_singleton _, ?_⟩
    intro x hx
    rw [List.getLast?_map, hlast] at hx
    cases hx
  | some best =>
    simp only [MNM_Cumulative_Curve.add_record, List.map_append, List.map_cons, List.map_nil]
    rw [List.chain'_append]
    refine ⟨hc, List.chain'_singleton _, ?_⟩
    intro x hx y hy
    rw [List.getLast?_map, hlast] at hx
    simp only [Option.map_some', Option.mem_def, Option.some.injEq] at hx
    simp only [List.head?_cons, Option.mem_def, Option.some.injEq] at hy
    rw [← hx, ← hy]
    linarith

theorem curve_grows_nondecreasing (c c1 : Option MNM_Cumulative_Curve) (h : curve_grows c c1)
    (hc : curve_nondecreasing c) : curve_nondecreasing c1 := by
  rcases h with h | ⟨r, hr, h⟩
  · rw [h]
    exact hc
  · intro x hx
    rw [h] at hx
    cases c with
    | none => cases hx
    | some c0 =>
      simp only [add_increment_if_installed, Option.map_some', Option.some.injEq] at hx
      rw [← hx]
      exact add_increment_nondecreasing c0 r hr (hc c0 rfl)

/-- The inner loop of the origin node only adds to its two counters. -/
theorem DMOND_move_loop_moved (L : MNM_Dlink_Ctm_Multiclass) :
    ∀ (queue passed inc : List MNM_Veh_Multiclass) (v mc mt : Int),
      mc ≤ (DMOND_move_loop L passed v inc mc mt queue).moved_car ∧
        mt ≤ (DMOND_move_loop L passed v inc mc mt queue).moved_truck := by
  intro queue
  induction queue with
  | nil => intro passed inc v mc mt; exact ⟨le_refl _, le_refl _⟩
  | cons w rest ih =>
    intro passed inc v mc mt
    rw [DMOND_move_loop]
    split_ifs
    · obtain ⟨h1, h2⟩ := ih passed (inc ++ [w.set_current_link (some L.m_link_ID)]) (v - 1)
        (mc + 1) mt
      exact ⟨by omega, h2⟩
    · obtain ⟨h1, h2⟩ := ih passed (inc ++ [w.set_current_link (some L.m_link_ID)])
        (v - TInt_of_TFlt L.m_veh_convert_factor) mc (mt + 1)
      exact ⟨h1, by omega⟩
    · exact ih _ _ _ _ _
    · exact ⟨le_refl _, le_refl _⟩

/-- The curves of the out-links of an origin node grow in the "move vehicle"
loop. -/
theorem DMOND_move_links_grow (t : Int) (fs : ℚ) (hfs : 0 ≤ fs) :
    ∀ (links done : List MNM_Dlink_Ctm_Multiclass) (queue : List MNM_Veh_Multiclass)
      (vol : Option Nat → Int),
      ∃ links1, (DMOND_move_links t fs done queue vol links).1 = done ++ links1 ∧
        List.Forall₂ curves_grow (links.map link_curves) (links1.map link_curves) := by
  intro links
  induction links with
  | nil =>
    intro done queue vol
    exact ⟨[], by simp [DMOND_move_links], List.Forall₂.nil⟩
  | cons l rest ih =>
    intro done queue vol
    rw [DMOND_move_links]
    obtain ⟨links1, h1, h2⟩ := ih
      (done ++ [{ l with
        m_incoming_array :=
          (DMOND_move_loop l [] (vol (some l.m_link_ID)) l.m_incoming_array 0 0 queue).incoming
        m_N_in_car := add_increment_if_installed l.m_N_in_car
          (((t + 1 : Int) : ℚ),
            ((DMOND_move_loop l [] (vol (some l.m_link_ID)) l.m_incoming_array 0 0
              queue).moved_car : ℚ) / fs)
        m_N_in_truck := add_increment_if_installed l.m_N_in_truck
          (((t + 1 : Int) : ℚ),
            ((DMOND_move_loop l [] (vol (some l.m_link_ID)) l.m_incoming_array 0 0
              queue).moved_truck : ℚ) / fs) }])
      ((DMOND_move_loop l [] (vol (some l.m_link_ID)) l.m_incoming_array 0 0 queue).passed ++
        (DMOND_move_loop l [] (vol (some l.m_link_ID)) l.m_incoming_array 0 0 queue).ahead)
      (Function.update vol (some l.m_link_ID)
        (DMOND_move_loop l [] (vol (some l.m_link_ID)) l.m_incoming_array 0 0 queue).out_volume)
    obtain ⟨m1, m2⟩ := DMOND_move_loop_moved l queue [] l.m_incoming_array
      (vol (some l.m_link_ID)) 0 0
    rw [List.append_assoc, List.singleton_append] at h1
    refine ⟨_, h1, ?_⟩
    · rw [List.map_cons, List.map_cons]
      refine List.Forall₂.cons ⟨?_, curve_grows_refl _, ?_, curve_grows_refl _⟩ h2
      · exact curve_grows_add _ _ (div_nonneg (Int.cast_nonneg.mpr m1) hfs)
      · exact curve_grows_add _ _ (div_nonneg (Int.cast_nonneg.mpr m2) hfs)

/-- The inner loop of the destination node only adds to its two counters. -/
theorem DMDND_drain_moved :
    ∀ (k : Nat) (s s1 : DMDND_scan), DMDND_drain k s = .returned s1 →
      s.moved_car ≤ s1.moved_car ∧ s.moved_truck ≤ s1.moved_truck := by
  intro k
  induction k with
  | zero =>
    intro s s1 h
    simp only [DMDND_drain, Outcome.returned.injEq] at h
    rw [h]
    exact ⟨le_refl _, le_refl _⟩
  | succ k ih =>
    intro s s1 h
    rw [DMDND_drain] at h
    cases hf : s.finished with
    | nil => rw [hf] at h; cases h
    | cons v rest =>
      rw [hf] at h
      simp only at h
      split_ifs at h
      · obtain ⟨h1, h2⟩ := ih _ _ h
        simp only at h1 h2
        exact ⟨by omega, h2⟩
      · obtain ⟨h1, h2⟩ := ih _ _ h
        simp only at h1 h2
        exact ⟨h1, by omega⟩

/-- The curves of the in-links of a destination node grow. -/
theorem DMDND_evolve_links_grow (t : Int) (fs : ℚ) (hfs : 0 ≤ fs) :
    ∀ (links done : List MNM_Dlink_Ctm_Multiclass) (queue : List MNM_Veh_Multiclass)
      (r : List MNM_Dlink_Ctm_Multiclass × List MNM_Veh_Multiclass),
      DMDND_evolve_links t fs done queue links = .returned r →
      ∃ links1, r.1 = done ++ links1 ∧
        List.Forall₂ curves_grow (links.map link_curves) (links1.map link_curves) := by
  intro links
  induction links with
  | nil =>
    intro done queue r h
    simp only [DMDND_evolve_links, Outcome.returned.injEq] at h
    rw [← h]
    exact ⟨[], by simp, List.Forall₂.nil⟩
  | cons l rest ih =>
    intro done queue r h
    rw [DMDND_evolve_links] at h
    cases hd : DMDND_drain l.m_finished_array.length
        { finished := l.m_finished_array, out_veh_queue := queue,
          moved_car := 0, moved_truck := 0 } with
    | returned s =>
      rw [hd] at h
      simp only at h
      obtain ⟨links1, h1, h2⟩ := ih _ _ _ h
      obtain ⟨m1, m2⟩ := DMDND_drain_moved _ _ _ hd
      simp only at m1 m2
      rw [List.append_assoc, List.singleton_append] at h1
      refine ⟨_, h1, ?_⟩
      · rw [List.map_cons, List.map_cons]
        refine List.Forall₂.cons ⟨curve_grows_refl _, ?_, curve_grows_refl _, ?_⟩ h2
        · exact curve_grows_add _ _ (div_nonneg (Int.cast_nonneg.mpr m1) hfs)
        · exact curve_grows_add _ _ (div_nonneg (Int.cast_nonneg.mpr m2) hfs)
    | aborted s => rw [hd] at h; cases h
    | undefined => rw [hd] at h; cases h
    | out_of_fuel => rw [hd] at h; cases h

/-- The scan of `move_vehicle` keeps its two counters from being negative. -/
theorem move_vehicle_scan_counters (out_id : Nat) (vcf : ℚ) (k : Nat) :
    ∀ (fuel : Nat) (s s1 : move_scan), move_vehicle_scan out_id vcf k fuel s = some s1 →
      ((∀ i, 0 ≤ s.veh_moved_car i) ∧ (∀ i, 0 ≤ s.veh_moved_truck i)) →
      (∀ i, 0 ≤ s1.veh_moved_car i) ∧ (∀ i, 0 ≤ s1.veh_moved_truck i) := by
  intro fuel
  induction fuel with
  | zero => intro s s1 h; cases h
  | succ fuel ih =>
    intro s s1 h hs
    have hone : ∀ (v : MNM_Veh_Multiclass) (rest : List MNM_Veh_Multiclass) (g : Rng),
        (∀ i, 0 ≤ (s.move_one out_id k v rest g).veh_moved_car i) ∧
        (∀ i, 0 ≤ (s.move_one out_id k v rest g).veh_moved_truck i) := by
      intro v rest g
      simp only [move_scan.move_one]
      constructor
      · intro i
        split_ifs
        · by_cases hik : i = k
          · rw [hik, Function.update_same]
            linarith [hs.1 k]
          · rw [Function.update_noteq hik]
            exact hs.1 i
        · exact hs.1 i
      · intro i
        split_ifs
        · exact hs.2 i
        · by_cases hik : i = k
          · rw [hik, Function.update_same]
            linarith [hs.2 k]
          · rw [Function.update_noteq hik]
            exact hs.2 i
    rw [move_vehicle_scan] at h
    cases ha : s.ahead with
    | nil =>
      rw [ha] at h
      simp only [Option.some.injEq] at h
      rw [← h]
      exact hs
    | cons v rest =>
      rw [ha] at h
      simp only at h
      split_ifs at h
      all_goals first
        | exact ih _ _ h hs
        | exact ih _ _ h (hone v rest s.rng)
        | (simp only [Option.some.injEq] at h
           rw [← h]
           exact hs)

/-- The loop of `move_vehicle` over the in-links keeps the counters from
being negative and leaves the curves of the in-links as they are. -/
theorem move_vehicle_in_links_counters (fs : ℚ) (veh_flow : Nat → ℚ) (_offset j out_id : Nat) :
    ∀ (links seen : List MNM_Dlink_Ctm_Multiclass) (i : Nat) (incoming : List MNM_Veh_Multiclass)
      (car trk : Nat → ℚ) (g : Rng) (r : move_state × List MNM_Veh_Multiclass),
      move_vehicle_in_links fs veh_flow _offset j out_id i seen links incoming car trk g =
        .returned r →
      ((∀ i, 0 ≤ car i) ∧ (∀ i, 0 ≤ trk i)) →
      ((∀ i, 0 ≤ r.1.veh_moved_car i) ∧ (∀ i, 0 ≤ r.1.veh_moved_truck i)) ∧
        r.1.in_links.map link_curves = (seen ++ links).map link_curves := by
  intro links
  induction links with
  | nil =>
    intro seen i incoming car trk g r h hs
    simp only [move_vehicle_in_links, Outcome.returned.injEq] at h
    rw [← h]
    exact ⟨hs, by simp⟩
  | cons l rest ih =>
    intro seen i incoming car trk g r h hs
    rw [move_vehicle_in_links] at h
    cases hscan : move_vehicle_scan out_id l.m_veh_convert_factor (i * _offset + j)
        (2 * l.m_finished_array.length + 2)
        { passed := [], ahead := l.m_finished_array,
          to_move := veh_flow (i * _offset + j) * fs,
          incoming := incoming, veh_moved_car := car, veh_moved_truck := trk, rng := g } with
    | none => rw [hscan] at h; cases h
    | some s =>
      rw [hscan] at h
      simp only at h
      split_ifs at h
      obtain ⟨k1, k2⟩ := ih _ _ _ _ _ _ _ h (move_vehicle_scan_counters _ _ _ _ _ _ hscan hs)
      refine ⟨k1, ?_⟩
      rw [k2]
      simp only [List.map_append, List.map_cons, List.map_nil, List.append_assoc,
        List.singleton_append]
      rfl

/-- The loop of `move_vehicle` over the out-links keeps the counters from
being negative and leaves the curves of all links as they are. -/
theorem move_vehicle_out_links_counters
    (shuffle : Rng → List MNM_Veh_Multiclass → List MNM_Veh_Multiclass × Rng)
    (fs : ℚ) (veh_flow : Nat → ℚ) (_offset : Nat) :
    ∀ (links done : List MNM_Dlink_Ctm_Multiclass) (j : Nat) (st : move_state)
      (r : move_state × List MNM_Dlink_Ctm_Multiclass),
      move_vehicle_out_links shuffle fs veh_flow _offset j done links st = .returned r →
      ((∀ i, 0 ≤ st.veh_moved_car i) ∧ (∀ i, 0 ≤ st.veh_moved_truck i)) →
      ((∀ i, 0 ≤ r.1.veh_moved_car i) ∧ (∀ i, 0 ≤ r.1.veh_moved_truck i)) ∧
        r.1.in_links.map link_curves = st.in_links.map link_curves ∧
        r.2.map link_curves = (done ++ links).map link_curves := by
  intro links
  induction links with
  | nil =>
    intro done j st r h hs
    simp only [move_vehicle_out_links, Outcome.returned.injEq] at h
    rw [← h]
    exact ⟨hs, rfl, by simp⟩
  | cons l rest ih =>
    intro done j st r h hs
    rw [move_vehicle_out_links] at h
    cases hin : move_vehicle_in_links fs veh_flow _offset j l.m_link_ID 0 []
        st.in_links l.m_incoming_array st.veh_moved_car st.veh_moved_truck st.rng with
    | returned r1 =>
      obtain ⟨st1, incoming⟩ := r1
      rw [hin] at h
      simp only at h
      obtain ⟨c1, c2⟩ := move_vehicle_in_links_counters _ _ _ _ _ _ _ _ _ _ _ _ _ hin hs
      obtain ⟨k1, k2, k3⟩ := ih _ _ _ _ h c1
      refine ⟨k1, ?_, ?_⟩
      · rw [k2]
        simpa using c2
      · rw [k3]
        simp only [List.map_append, List.map_cons, List.map_nil, List.append_assoc,
          List.singleton_append]
        rfl
    | aborted s => rw [hin] at h; cases h
    | undefined => rw [hin] at h; cases h
    | out_of_fuel => rw [hin] at h; cases h

theorem TInt_of_TFlt_nonneg (x : ℚ) (h : 0 ≤ x) : 0 ≤ TInt_of_TFlt x := by
  unfold TInt_of_TFlt
  rw [if_pos h]
  exact Int.floor_nonneg.mpr h

/-- The sums of `record_cumulative_curve` are not negative when the counters
are not. -/
theorem temp_sum_nonneg (veh_moved : Nat → ℚ) (h : ∀ i, 0 ≤ veh_moved i) (ks : List Nat) :
    0 ≤ temp_sum veh_moved ks := by
  unfold temp_sum
  have key : ∀ (ks : List Nat) (acc : Int), 0 ≤ acc →
      0 ≤ ks.foldl (fun _temp_sum k => _temp_sum + TInt_of_TFlt (veh_moved k)) acc := by
    intro ks
    induction ks with
    | nil => intro acc hacc; exact hacc
    | cons k rest ih =>
      intro acc hacc
      rw [List.foldl_cons]
      exact ih _ (add_nonneg hacc (TInt_of_TFlt_nonneg _ (h k)))
  exact key ks 0 (le_refl 0)

theorem add_increment_guarded_grows (guard c c1 : Option MNM_Cumulative_Curve) (r : ℚ × ℚ)
    (hr : 0 ≤ r.2) (h : add_increment_guarded guard c r = some c1) : curve_grows c c1 := by
  unfold add_increment_guarded at h
  cases guard with
  | none =>
    simp only [Option.some.injEq] at h
    rw [← h]
    exact curve_grows_refl c
  | some g0 =>
    cases c with
    | none => cases h
    | some c0 =>
      simp only [Option.some.injEq] at h
      rw [← h]
      exact Or.inr ⟨r, hr, rfl⟩

/-- The curves of the out-links grow in `record_cumulative_curve`. -/
theorem record_out_links_grow (t : Int) (fs : ℚ) (hfs : 0 ≤ fs) (num_in _offset : Nat)
    (car trk : Nat → ℚ) (hcar : ∀ i, 0 ≤ car i) (htrk : ∀ i, 0 ≤ trk i) :
    ∀ (links : List MNM_Dlink_Ctm_Multiclass) (j : Nat) (outs : List MNM_Dlink_Ctm_Multiclass),
      record_out_links t fs num_in _offset car trk j links = some outs →
      List.Forall₂ curves_grow (links.map link_curves) (outs.map link_curves) := by
  intro links
  induction links with
  | nil =>
    intro j outs h
    simp only [record_out_links, Option.some.injEq] at h
    rw [← h]
    exact List.Forall₂.nil
  | cons l rest ih =>
    intro j outs h
    rw [record_out_links] at h
    cases h1 : add_increment_guarded l.m_N_out_car l.m_N_in_car
        (((t + 1 : Int) : ℚ),
          (temp_sum car ((List.range num_in).map (fun i => i * _offset + j)) : ℚ) / fs) with
    | none => rw [h1] at h; cases h
    | some n_in_car =>
      rw [h1] at h
      simp only at h
      cases h2 : add_increment_guarded l.m_N_out_truck l.m_N_in_truck
          (((t + 1 : Int) : ℚ),
            (temp_sum trk ((List.range num_in).map (fun i => i * _offset + j)) : ℚ) / fs) with
      | none => rw [h2] at h; cases h
      | some n_in_truck =>
        rw [h2] at h
        simp only at h
        cases h3 : record_out_links t fs num_in _offset car trk (j + 1) rest with
        | none => rw [h3] at h; cases h
        | some ls =>
          rw [h3] at h
          simp only [Option.map_some', Option.some.injEq] at h
          rw [← h, List.map_cons, List.map_cons]
          refine List.Forall₂.cons ⟨?_, curve_grows_refl _, ?_, curve_grows_refl _⟩ (ih _ _ h3)
          · exact add_increment_guarded_grows _ _ _ _
              (div_nonneg (Int.cast_nonneg.mpr (temp_sum_nonneg car hcar _)) hfs) h1
          · exact add_increment_guarded_grows _ _ _ _
              (div_nonneg (Int.cast_nonneg.mpr (temp_sum_nonneg trk htrk _)) hfs) h2

/-- The curves of the in-links grow in `record_cumulative_curve`. -/
theorem record_in_links_grow (t : Int) (fs : ℚ) (hfs : 0 ≤ fs) (_offset : Nat)
    (car trk : Nat → ℚ) (hcar : ∀ i, 0 ≤ car i) (htrk : ∀ i, 0 ≤ trk i) :
    ∀ (links : List MNM_Dlink_Ctm_Multiclass) (i : Nat) (ins : List MNM_Dlink_Ctm_Multiclass),
      record_in_links t fs _offset car trk i links = some ins →
      List.Forall₂ curves_grow (links.map link_curves) (ins.map link_curves) := by
  intro links
  induction links with
  | nil =>
    intro i ins h
    simp only [record_in_links, Option.some.injEq] at h
    rw [← h]
    exact List.Forall₂.nil
  | cons l rest ih =>
    intro i ins h
    rw [record_in_links] at h
    cases h1 : add_increment_guarded l.m_N_in_car l.m_N_out_car
        (((t + 1 : Int) : ℚ),
          (temp_sum car ((List.range _offset).map (fun j => i * _offset + j)) : ℚ) / fs) with
    | none => rw [h1] at h; cases h
    | some n_out_car =>
      rw [h1] at h
      simp only at h
      cases h2 : add_increment_guarded l.m_N_in_truck l.m_N_out_truck
          (((t + 1 : Int) : ℚ),
            (temp_sum trk ((List.range _offset).map (fun j => i * _offset + j)) : ℚ) / fs) with
      | none => rw [h2] at h; cases h
      | some n_out_truck =>
        rw [h2] at h
        simp only at h
        cases h3 : record_in_links t fs _offset car trk (i + 1) rest with
        | none => rw [h3] at h; cases h
        | some ls =>
          rw [h3] at h
          simp only [Option.map_some', Option.some.injEq] at h
          rw [← h, List.map_cons, List.map_cons]
          refine List.Forall₂.cons ⟨curve_grows_refl _, ?_, curve_grows_refl _, ?_⟩ (ih _ _ h3)
          · exact add_increment_guarded_grows _ _ _ _
              (div_nonneg (Int.cast_nonneg.mpr (temp_sum_nonneg car hcar _)) hfs) h1
          · exact add_increment_guarded_grows _ _ _ _
              (div_nonneg (Int.cast_nonneg.mpr (temp_sum_nonneg trk htrk _)) hfs) h2

/-- The curves of the out-links of an origin node grow in `evolve`. -/
theorem DMOND_evolve_grow (n n1 : MNM_DMOND_Multiclass) (t : Int) (hfs : 0 ≤ n.m_flow_scalar)
    (h : n.evolve t = some n1) :
    List.Forall₂ curves_grow (n.m_out_link_array.map link_curves)
      (n1.m_out_link_array.map link_curves) := by
  unfold MNM_DMOND_Multiclass.evolve at h
  simp only at h
  cases h1 : DMOND_compute_out_volume n.m_out_link_array n.m_in_veh_queue
      (DMOND_reset_out_volume n.m_out_link_array n.m_out_volume) with
  | none => rw [h1] at h; cases h
  | some vol1 =>
    rw [h1] at h
    simp only at h
    cases h2 : DMOND_cap_out_volume n.m_flow_scalar n.m_out_link_array vol1 with
    | none => rw [h2] at h; cases h
    | some vol2 =>
      rw [h2] at h
      simp only [Option.some.injEq] at h
      obtain ⟨links1, k1, k2⟩ := DMOND_move_links_grow t n.m_flow_scalar hfs n.m_out_link_array
        [] n.m_in_veh_queue vol2
      rw [← h]
      simp only
      rw [k1, List.nil_append]
      exact k2

/-- The curves of the in-links of a destination node grow in `evolve`. -/
theorem DMDND_evolve_grow (n n1 : MNM_DMDND_Multiclass) (t : Int) (hfs : 0 ≤ n.m_flow_scalar)
    (h : n.evolve t = .returned n1) :
    List.Forall₂ curves_grow (n.m_in_link_array.map link_curves)
      (n1.m_in_link_array.map link_curves) := by
  unfold MNM_DMDND_Multiclass.evolve at h
  cases h1 : DMDND_evolve_links t n.m_flow_scalar [] n.m_out_veh_queue n.m_in_link_array with
  | returned r =>
    rw [h1] at h
    simp only [Outcome.map, Outcome.returned.injEq] at h
    obtain ⟨links1, k1, k2⟩ := DMDND_evolve_links_grow t n.m_flow_scalar hfs _ _ _ _ h1
    rw [← h]
    simp only
    rw [k1, List.nil_append]
    exact k2
  | aborted s => rw [h1] at h; simp only [Outcome.map] at h; cases h
  | undefined => rw [h1] at h; simp only [Outcome.map] at h; cases h
  | out_of_fuel => rw [h1] at h; simp only [Outcome.map] at h; cases h

/-- What `prepare_supplyANDdemand` leaves as it is. -/
theorem prepare_supplyANDdemand_keeps (n n1 : MNM_Dnode_Inout_Multiclass)
    (h : n.prepare_supplyANDdemand = .returned n1) :
    n1.m_in_link_array = n.m_in_link_array ∧ n1.m_out_link_array = n.m_out_link_array ∧
      n1.m_flow_scalar = n.m_flow_scalar ∧ n1.m_veh_moved_car = n.m_veh_moved_car ∧
      n1.m_veh_moved_truck = n.m_veh_moved_truck := by
  unfold MNM_Dnode_Inout_Multiclass.prepare_supplyANDdemand at h
  cases h1 : prepare_demand n.m_flow_scalar n.m_out_link_array 0 n.m_in_link_array
      n.m_demand with
  | returned demand =>
    rw [h1] at h
    simp only at h
    cases h2 : prepare_supply 0 n.m_out_link_array n.m_supply with
    | none => rw [h2] at h; cases h
    | some supply =>
      rw [h2] at h
      simp only [Outcome.returned.injEq] at h
      rw [← h]
      exact ⟨rfl, rfl, rfl, rfl, rfl⟩
  | aborted s => rw [h1] at h; cases h
  | undefined => rw [h1] at h; cases h
  | out_of_fuel => rw [h1] at h; cases h

/-- What `move_vehicle` leaves as it is, and the sign of its counters. -/
theorem move_vehicle_keeps
    (shuffle : Rng → List MNM_Veh_Multiclass → List MNM_Veh_Multiclass × Rng)
    (n n1 : MNM_Dnode_Inout_Multiclass) (g g1 : Rng)
    (hs : (∀ i, 0 ≤ n.m_veh_moved_car i) ∧ (∀ i, 0 ≤ n.m_veh_moved_truck i))
    (h : n.move_vehicle shuffle g = .returned (n1, g1)) :
    ((∀ i, 0 ≤ n1.m_veh_moved_car i) ∧ (∀ i, 0 ≤ n1.m_veh_moved_truck i)) ∧
      n1.m_in_link_array.map link_curves = n.m_in_link_array.map link_curves ∧
      n1.m_out_link_array.map link_curves = n.m_out_link_array.map link_curves ∧
      n1.m_flow_scalar = n.m_flow_scalar := by
  unfold MNM_Dnode_Inout_Multiclass.move_vehicle at h
  cases h1 : move_vehicle_out_links shuffle n.m_flow_scalar n.m_veh_flow
      n.m_out_link_array.length 0 [] n.m_out_link_array
      { in_links := n.m_in_link_array, veh_moved_car := n.m_veh_moved_car,
        veh_moved_truck := n.m_veh_moved_truck, rng := g } with
  | returned r =>
    rw [h1] at h
    simp only [Outcome.map, Outcome.returned.injEq, Prod.mk.injEq] at h
    obtain ⟨k1, k2, k3⟩ := move_vehicle_out_links_counters shuffle _ _ _ _ _ _ _ _ h1 hs
    rw [← h.1]
    exact ⟨k1, k2, by simpa using k3, rfl⟩
  | aborted s => rw [h1] at h; simp only [Outcome.map] at h; cases h
  | undefined => rw [h1] at h; simp only [Outcome.map] at h; cases h
  | out_of_fuel => rw [h1] at h; simp only [Outcome.map] at h; cases h

/-- The curves of the links of a junction grow in `record_cumulative_curve`
when the counters are not negative; the counters stay as they are. -/
theorem record_cumulative_curve_grow (n n1 : MNM_Dnode_Inout_Multiclass) (t : Int)
    (hfs : 0 ≤ n.m_flow_scalar)
    (hs : (∀ i, 0 ≤ n.m_veh_moved_car i) ∧ (∀ i, 0 ≤ n.m_veh_moved_truck i))
    (h : n.record_cumulative_curve t = some n1) :
    List.Forall₂ curves_grow (n.m_in_link_array.map link_curves)
        (n1.m_in_link_array.map link_curves) ∧
      List.Forall₂ curves_grow (n.m_out_link_array.map link_curves)
        (n1.m_out_link_array.map link_curves) ∧
      n1.m_veh_moved_car = n.m_veh_moved_car ∧ n1.m_veh_moved_truck = n.m_veh_moved_truck := by
  unfold MNM_Dnode_Inout_Multiclass.record_cumulative_curve at h
  cases h1 : record_out_links t n.m_flow_scalar n.m_in_link_array.length
      n.m_out_link_array.length n.m_veh_moved_car n.m_veh_moved_truck 0 n.m_out_link_array with
  | none => rw [h1] at h; cases h
  | some outs =>
    rw [h1] at h
    simp only at h
    cases h2 : record_in_links t n.m_flow_scalar n.m_out_link_array.length
        n.m_veh_moved_car n.m_veh_moved_truck 0 n.m_in_link_array with
    | none => rw [h2] at h; cases h
    | some ins =>
      rw [h2] at h
      simp only [Option.some.injEq] at h
      rw [← h]
      exact ⟨record_in_links_grow t _ hfs _ _ _ hs.1 hs.2 _ _ _ h2,
        record_out_links_grow t _ hfs _ _ _ _ hs.1 hs.2 _ _ _ h1, rfl, rfl⟩

/-- The curves of the links of a junction grow in `evolve`, and the counters
stay non-negative, when `compute_flow` only assigns `m_veh_flow`. -/
theorem junction_evolve_grow
    (compute_flow : MNM_Dnode_Inout_Multiclass → MNM_Dnode_Inout_Multiclass)
    (hcf : ∀ m, compute_flow m = { m with m_veh_flow := (compute_flow m).m_veh_flow })
    (shuffle : Rng → List MNM_Veh_Multiclass → List MNM_Veh_Multiclass × Rng)
    (n n1 : MNM_Dnode_Inout_Multiclass) (g g1 : Rng) (t : Int) (hfs : 0 ≤ n.m_flow_scalar)
    (hs : (∀ i, 0 ≤ n.m_veh_moved_car i) ∧ (∀ i, 0 ≤ n.m_veh_moved_truck i))
    (h : MNM_Dnode_Inout_Multiclass.evolve compute_flow shuffle n g t = .returned (n1, g1)) :
    List.Forall₂ curves_grow (n.m_in_link_array.map link_curves)
        (n1.m_in_link_array.map link_curves) ∧
      List.Forall₂ curves_grow (n.m_out_link_array.map link_curves)
        (n1.m_out_link_array.map link_curves) ∧
      (∀ i, 0 ≤ n1.m_veh_moved_car i) ∧ (∀ i, 0 ≤ n1.m_veh_moved_truck i) := by
  unfold MNM_Dnode_Inout_Multiclass.evolve at h
  cases h1 : n.prepare_supplyANDdemand with
  | returned m1 =>
    rw [h1] at h
    simp only at h
    obtain ⟨a1, a2, a3, a4, a5⟩ := prepare_supplyANDdemand_keeps n m1 h1
    cases h2 : (compute_flow m1).move_vehicle shuffle g with
    | returned r =>
      obtain ⟨m2, g2⟩ := r
      rw [h2] at h
      simp only at h
      cases h3 : m2.record_cumulative_curve t with
      | none => rw [h3] at h; cases h
      | some m3 =>
        rw [h3] at h
        simp only [Outcome.returned.injEq, Prod.mk.injEq] at h
        have hc := hcf m1
        have hs1 : (∀ i, 0 ≤ (compute_flow m1).m_veh_moved_car i) ∧
            (∀ i, 0 ≤ (compute_flow m1).m_veh_moved_truck i) := by
          rw [hc]
          simp only
          rw [a4, a5]
          exact hs
        obtain ⟨b1, b2, b3, b4⟩ := move_vehicle_keeps shuffle _ _ _ _ hs1 h2
        have hfs2 : 0 ≤ m2.m_flow_scalar := by
          rw [b4, hc]
          simp only
          rw [a3]
          exact hfs
        obtain ⟨c1, c2, c3, c4⟩ := record_cumulative_curve_grow m2 m3 t hfs2 b1 h3
        rw [b2, hc] at c1
        rw [b3, hc] at c2
        simp only at c1 c2
        rw [a1] at c1
        rw [a2] at c2
        rw [← h.1]
        refine ⟨c1, c2, ?_, ?_⟩
        · rw [c3]
          exact b1.1
        · rw [c4]
          exact b1.2
    | aborted s => rw [h2] at h; cases h
    | undefined => rw [h2] at h; cases h
    | out_of_fuel => rw [h2] at h; cases h
  | aborted s => rw [h1] at h; cases h
  | undefined => rw [h1] at h; cases h
  | out_of_fuel => rw [h1] at h; cases h

/-- C18: with a flow scalar of at least 1, every increment that `evolve` of
the origin node, of the destination node and of the junction node (whose
counters of moved vehicles start at 0 in `prepare_loading`) adds to a
cumulative curve of a link is at least 0: each of the four curves of each
link is left as it is or gets one increment that is not negative. The
counters of the junction stay non-negative, and a curve whose counts do not
decrease keeps that property when it grows so. -/
theorem node_increments_nonneg :
    (∀ (n n1 : MNM_DMOND_Multiclass) (t : Int), 1 ≤ n.m_flow_scalar → n.evolve t = some n1 →
        List.Forall₂ curves_grow (n.m_out_link_array.map link_curves)
          (n1.m_out_link_array.map link_curves)) ∧
      (∀ (n n1 : MNM_DMDND_Multiclass) (t : Int), 1 ≤ n.m_flow_scalar →
        n.evolve t = .returned n1 →
        List.Forall₂ curves_grow (n.m_in_link_array.map link_curves)
          (n1.m_in_link_array.map link_curves)) ∧
      (∀ (shuffle : Rng → List MNM_Veh_Multiclass → List MNM_Veh_Multiclass × Rng)
          (n n1 : MNM_Dnode_Inout_Multiclass) (g g1 : Rng) (t : Int),
        1 ≤ n.m_flow_scalar →
        ((∀ i, 0 ≤ n.m_veh_moved_car i) ∧ (∀ i, 0 ≤ n.m_veh_moved_truck i)) →
        MNM_Dnode_FWJ_Multiclass.evolve shuffle n g t = .returned (n1, g1) →
        List.Forall₂ curves_grow (n.m_in_link_array.map link_curves)
            (n1.m_in_link_array.map link_curves) ∧
          List.Forall₂ curves_grow (n.m_out_link_array.map link_curves)
            (n1.m_out_link_array.map link_curves) ∧
          (∀ i, 0 ≤ n1.m_veh_moved_car i) ∧ (∀ i, 0 ≤ n1.m_veh_moved_truck i)) ∧
      (∀ n : MNM_Dnode_Inout_Multiclass,
        (∀ i, 0 ≤ n.prepare_loading.m_veh_moved_car i) ∧
          (∀ i, 0 ≤ n.prepare_loading.m_veh_moved_truck i)) ∧
      (∀ c c1 : Option MNM_Cumulative_Curve, curve_grows c c1 → curve_nondecreasing c →
        curve_nondecreasing c1) := by
  refine ⟨fun n n1 t hfs h => DMOND_evolve_grow n n1 t (by linarith) h,
    fun n n1 t hfs h => DMDND_evolve_grow n n1 t (by linarith) h,
    fun shuffle n n1 g g1 t hfs hs h =>
      junction_evolve_grow MNM_Dnode_FWJ_Multiclass.compute_flow (fun m => rfl) shuffle n n1 g g1
        t (by linarith) hs h,
    fun n => ⟨fun i => le_refl _, fun i => le_refl _⟩,
    fun c c1 h hc => curve_grows_nondecreasing c c1 h hc⟩

/-- Witness of `node_increments_nonneg`: the `evolve` of the junction
`junction_1_car` (flow scalar 1, counters 0) returns, and the curves of its
links have grown by increments that are not negative. -/
theorem node_increments_nonneg_witness :
    ∃ n1 g1, MNM_Dnode_FWJ_Multiclass.evolve shuffle_keep junction_1_car rng_zero 0 =
        .returned (n1, g1) ∧
      List.Forall₂ curves_grow (junction_1_car.m_in_link_array.map link_curves)
        (n1.m_in_link_array.map link_curves) ∧
      List.Forall₂ curves_grow (junction_1_car.m_out_link_array.map link_curves)
        (n1.m_out_link_array.map link_curves) ∧
      (∀ i, 0 ≤ n1.m_veh_moved_car i) ∧ (∀ i, 0 ≤ n1.m_veh_moved_truck i) := by
  have hv : (MNM_Dnode_FWJ_Multiclass.evolve shuffle_keep junction_1_car rng_zero
      0).returned?.isSome = true := by decide!
  cases h : MNM_Dnode_FWJ_Multiclass.evolve shuffle_keep junction_1_car rng_zero 0 with
  | returned s =>
    obtain ⟨n1, g1⟩ := s
    exact ⟨n1, g1, rfl,
      node_increments_nonneg.2.2.1 shuffle_keep junction_1_car n1 rng_zero g1 0
        (by norm_num [junction_1_car, MNM_Dnode_Inout_Multiclass.prepare_loading])
        ⟨fun i => le_refl _, fun i => le_refl _⟩ h⟩
  | aborted s => rw [h] at hv; simp [Outcome.returned?] at hv
  | undefined => rw [h] at hv; simp [Outcome.returned?] at hv
  | out_of_fuel => rw [h] at hv; simp [Outcome.returned?] at hv

/-! ### The routing error of the junction -/

/-- C19 (defect of the code): with a finished car whose next link is null
the error branch of `prepare_supplyANDdemand`
dereferences the null pointer for its message before `exit(-1)`, so the
behaviour of `evolve` is undefined. With a finished car bound for link 7,
which is not an out-link, `evolve` ends with `exit(-1)`; the finished car,
the arrays of the out-link, the curves and the counters are as before. -/
theorem junction_null_next_link_undefined :
    (MNM_Dnode_FWJ_Multiclass.evolve shuffle_keep (junction_car_bound_for none) rng_zero
        0).is_undefined = true ∧
      (MNM_Dnode_FWJ_Multiclass.evolve shuffle_keep (junction_car_bound_for (some 7)) rng_zero
        0).aborted?.map
          (fun s => (s.1.m_in_link_array, s.1.m_out_link_array, s.1.m_veh_moved_car 0,
            s.1.m_veh_moved_truck 0)) =
        some ((junction_car_bound_for (some 7)).m_in_link_array,
          (junction_car_bound_for (some 7)).m_out_link_array, 0, 0) := by
  constructor <;> decide!

/-! ### The query `get_link_tt` -/

/-- C20 as stated does not hold when no link is registered: the test of the
start intervals is inside the loop over the links, so the call returns (an
empty array) though the requested start interval 100 is greater than the
current loading interval 10. -/
theorem get_link_tt_without_link_returns :
    (100 : Int) > 10 ∧
      Dta_Api.get_link_tt travel_time_stub { m_link_vec := [], m_current_loading_interval := 10 }
        { ndim := 1, ptr := [100] } = .returned [] := by
  constructor
  · decide
  · rfl

/-- With one registered link the test reads the start interval at the index
of the link: the intervals 0 and 100, the second greater than the current
loading interval 10, give a result. -/
theorem get_link_tt_reads_link_index :
    Dta_Api.get_link_tt travel_time_stub
        { m_link_vec := [link_100m 1], m_current_loading_interval := 10 }
        { ndim := 1, ptr := [0, 100] } = .returned [0, 100] := by
  rfl

/-- C20 (amended): with at least one registered link and at least one
requested start interval, `get_link_tt` raises an error, without returning a
result, when all the requested start intervals are greater than the current
loading interval. -/
theorem get_link_tt_raises (get_travel_time : MNM_Dlink_Ctm_Multiclass → ℚ → ℚ) (a : Dta_Api)
    (start_intervals : py_array_int) (hlinks : a.m_link_vec ≠ [])
    (hne : start_intervals.ptr ≠ [])
    (hall : ∀ s ∈ start_intervals.ptr, s > a.get_cur_loading_interval) :
    a.get_link_tt get_travel_time start_intervals = .runtime_error := by
  unfold Dta_Api.get_link_tt
  by_cases hdim : start_intervals.ndim ≠ 1
  · rw [if_pos hdim]
  · rw [if_neg hdim]
    cases hp : start_intervals.ptr with
    | nil => exact absurd hp hne
    | cons s0 srest =>
      cases hl : a.m_link_vec with
      | nil => exact absurd hl hlinks
      | cons link lrest =>
        have hs0 : s0 > a.get_cur_loading_interval := hall s0 (by rw [hp]; exact List.mem_cons_self _ _)
        simp only [List.length_cons, get_link_tt_intervals, hl, get_link_tt_links,
          List.getElem?_cons_zero, hs0, if_true]

/-- Witness of `get_link_tt_raises`: one registered link, the current loading
interval 10 and the requested start intervals 100 and 200. -/
theorem get_link_tt_raises_witness :
    Dta_Api.get_link_tt travel_time_stub
        { m_link_vec := [link_100m 1], m_current_loading_interval := 10 }
        { ndim := 1, ptr := [100, 200] } = .runtime_error :=
  get_link_tt_raises travel_time_stub
    { m_link_vec := [link_100m 1], m_current_loading_interval := 10 }
    { ndim := 1, ptr := [100, 200] } (by simp) (by simp)
    (by
      intro s hs
      simp only [List.mem_cons, List.mem_singleton, List.not_mem_nil, or_false] at hs
      rcases hs with rfl | rfl <;> decide)

/-! ### The vehicle factory -/

/-- Within the bounds of an `int` the sum is the sum of the integers. -/
theorem TInt_wrap_eq (x : Int) (h0 : -2147483648 ≤ x) (h1 : x ≤ 2147483647) :
    TInt_wrap x = x := by
  unfold TInt_wrap
  omega

/-- Adding 1 to a wrapped sum gives the wrapped sum plus 1. -/
theorem TInt_wrap_succ (x : Int) : TInt_wrap (TInt_wrap x + 1) = TInt_wrap (x + 1) := by
  unfold TInt_wrap
  omega

/-- Two integers less than 2^32 apart have different values as `int`. -/
theorem TInt_wrap_injective (x y : Int) (h : TInt_wrap x = TInt_wrap y)
    (hxy : x - y < 4294967296) (hyx : y - x < 4294967296) : x = y := by
  unfold TInt_wrap at h
  omega

/-- The identifiers of the vehicles a factory makes continue its count, as
`int` values: the k-th vehicle (from 0) of a factory of count `n` gets the
value of `n + 1 + k`, and the count ends as the value of `n` plus the number
of vehicles made. -/
theorem make_vehicles_ids :
    ∀ (calls : List (Int × Vehicle_type × Int)) (f : MNM_Veh_Factory_Multiclass),
      (make_vehicles calls f).1.map (fun v => v.m_veh_ID) =
          (List.range calls.length).map
            (fun (k : Nat) => TInt_wrap (f.m_num_veh + 1 + (k : Int))) ∧
        (make_vehicles calls f).2.m_num_veh =
          if calls = [] then f.m_num_veh else TInt_wrap (f.m_num_veh + (calls.length : Int)) := by
  intro calls
  induction calls with
  | nil => intro f; simp [make_vehicles]
  | cons call rest ih =>
    intro f
    obtain ⟨h1, h2⟩ := ih (f.make_veh_multiclass call.1 call.2.1 call.2.2).2
    have hn : (f.make_veh_multiclass call.1 call.2.1 call.2.2).2.m_num_veh =
        TInt_wrap (f.m_num_veh + 1) := rfl
    have hid : (f.make_veh_multiclass call.1 call.2.1 call.2.2).1.m_veh_ID =
        TInt_wrap (f.m_num_veh + 1) := rfl
    rw [hn] at h1 h2
    constructor
    · simp only [make_vehicles, List.map_cons, List.length_cons, List.range_succ_eq_map,
        List.map_map, h1, hid]
      refine congrArg₂ _ (by simp) ?_
      apply List.map_congr_left
      intro k _
      simp only [Function.comp_apply, Nat.cast_succ]
      unfold TInt_wrap
      omega
    · simp only [make_vehicles, List.length_cons, Nat.cast_succ, h2, if_neg (List.cons_ne_nil _ _)]
      split_ifs with hrest
      · rw [hrest]
        simp
      · unfold TInt_wrap
        omega

/-- C21 as stated does not hold past the bounds of an `int`. The 2147483648-th
vehicle that a new factory makes gets the identifier -2147483648, and the
count of the factory is then -2147483648; a factory with the count 2147483647
gives the next vehicle the identifier -2147483648. The first and the
4294967297-th vehicle of a new factory both get the identifier 1. -/
theorem vehicle_2147483648_gets_negative_id :
    (((make_vehicles (List.replicate 2147483648 (0, Vehicle_type.MNM_TYPE_ADAPTIVE, 0))
        MNM_Veh_Factory_Multiclass.construct).1.map (fun v => v.m_veh_ID))[2147483647]? =
        some (-2147483648) ∧
      (make_vehicles (List.replicate 2147483648 (0, Vehicle_type.MNM_TYPE_ADAPTIVE, 0))
        MNM_Veh_Factory_Multiclass.construct).2.m_num_veh = -2147483648) ∧
      (({ m_num_veh := 2147483647, m_veh_map := [] } :
          MNM_Veh_Factory_Multiclass).make_veh_multiclass 0 .MNM_TYPE_ADAPTIVE 0).1.m_veh_ID =
        -2147483648 ∧
      (((make_vehicles (List.replicate 4294967297 (0, Vehicle_type.MNM_TYPE_ADAPTIVE, 0))
        MNM_Veh_Factory_Multiclass.construct).1.map (fun v => v.m_veh_ID))[0]? = some 1 ∧
      ((make_vehicles (List.replicate 4294967297 (0, Vehicle_type.MNM_TYPE_ADAPTIVE, 0))
        MNM_Veh_Factory_Multiclass.construct).1.map (fun v => v.m_veh_ID))[4294967296]? =
        some 1) := by
  have hne : ∀ n : Nat, 0 < n →
      List.replicate n ((0 : Int), Vehicle_type.MNM_TYPE_ADAPTIVE, (0 : Int)) ≠ [] := by
    intro n hn h
    have := congrArg List.length h
    rw [List.length_replicate, List.length_nil] at this
    omega
  refine ⟨⟨?_, ?_⟩, ?_, ?_, ?_⟩
  · rw [(make_vehicles_ids _ _).1, List.length_replicate, List.getElem?_map,
      List.getElem?_range (by norm_num)]
    simp only [Option.map_some', Option.some.injEq, MNM_Veh_Factory_Multiclass.construct,
      TInt_wrap]
    norm_num
  · rw [(make_vehicles_ids _ _).2, if_neg (hne _ (by norm_num)), List.length_replicate]
    simp only [MNM_Veh_Factory_Multiclass.construct, TInt_wrap]
    norm_num
  · simp only [MNM_Veh_Factory_Multiclass.make_veh_multiclass, TInt_wrap]
    norm_num
  · rw [(make_vehicles_ids _ _).1, List.length_replicate, List.getElem?_map,
      List.getElem?_range (by norm_num)]
    simp only [Option.map_some', Option.some.injEq, MNM_Veh_Factory_Multiclass.construct,
      TInt_wrap]
    norm_num
  · rw [(make_vehicles_ids _ _).1, List.length_replicate, List.getElem?_map,
      List.getElem?_range (by norm_num)]
    simp only [Option.map_some', Option.some.injEq, MNM_Veh_Factory_Multiclass.construct,
      TInt_wrap]
    norm_num

/-- C21 (amended): a factory makes one vehicle for every call. While a new
multiclass vehicle factory makes at most 2147483647 vehicles, the k-th vehicle
gets the identifier k (1, 2, 3, ...) and the count of the factory is the
number of vehicles made; and no two of up to 4294967296 vehicles that one
factory (new or not) makes share an identifier. -/
theorem vehicle_ids_unique (calls : List (Int × Vehicle_type × Int))
    (f : MNM_Veh_Factory_Multiclass) (h : calls.length ≤ 4294967296) :
    (make_vehicles calls f).1.length = calls.length ∧
      (calls.length ≤ 2147483647 →
        (∀ (k : Nat) (v : MNM_Veh_Multiclass),
          (make_vehicles calls MNM_Veh_Factory_Multiclass.construct).1[k]? = some v →
            v.m_veh_ID = (k : Int) + 1) ∧
        (make_vehicles calls MNM_Veh_Factory_Multiclass.construct).2.m_num_veh =
          (calls.length : Int)) ∧
      ((make_vehicles calls f).1.map (fun v => v.m_veh_ID)).Nodup := by
  have hlen : ∀ f1 : MNM_Veh_Factory_Multiclass,
      (make_vehicles calls f1).1.length = calls.length := by
    intro f1
    have := congrArg List.length (make_vehicles_ids calls f1).1
    simpa using this
  refine ⟨hlen f, fun hmax => ⟨?_, ?_⟩, ?_⟩
  · intro k v hv
    have hk : ((make_vehicles calls MNM_Veh_Factory_Multiclass.construct).1.map
        (fun v => v.m_veh_ID))[k]? = some v.m_veh_ID := by
      rw [List.getElem?_map, hv]
      rfl
    rw [(make_vehicles_ids calls MNM_Veh_Factory_Multiclass.construct).1,
      List.getElem?_map] at hk
    have hlt : k < calls.length := by
      rw [← hlen MNM_Veh_Factory_Multiclass.construct]
      exact (List.getElem?_eq_some.mp hv).1
    rw [List.getElem?_range hlt] at hk
    simp only [Option.map_some', Option.some.injEq, MNM_Veh_Factory_Multiclass.construct] at hk
    rw [← hk, TInt_wrap_eq _ (by omega) (by omega)]
    ring
  · rw [(make_vehicles_ids calls MNM_Veh_Factory_Multiclass.construct).2]
    split_ifs with hnil
    · rw [hnil]
      rfl
    · simp only [MNM_Veh_Factory_Multiclass.construct]
      rw [TInt_wrap_eq _ (by omega) (by omega)]
      ring
  · rw [(make_vehicles_ids calls f).1]
    apply List.Nodup.map_on _ (List.nodup_range _)
    intro a ha b hb hab
    rw [List.mem_range] at ha hb
    have := TInt_wrap_injective _ _ hab (by omega) (by omega)
    omega

/-- Witness of `vehicle_ids_unique`: a new factory that makes a car, a truck
and a car gives them the identifiers 1, 2 and 3 and has the count 3. -/
theorem vehicle_ids_unique_witness :
    (make_vehicles [(0, .MNM_TYPE_ADAPTIVE, 0), (0, .MNM_TYPE_ADAPTIVE, 1),
        (5, .MNM_TYPE_STATIC, 0)] MNM_Veh_Factory_Multiclass.construct).1.map
        (fun v => (v.m_veh_ID, v.m_class)) = [(1, 0), (2, 1), (3, 0)] ∧
      (make_vehicles [(0, .MNM_TYPE_ADAPTIVE, 0), (0, .MNM_TYPE_ADAPTIVE, 1),
        (5, .MNM_TYPE_STATIC, 0)] MNM_Veh_Factory_Multiclass.construct).2.m_num_veh = 3 ∧
      ((make_vehicles [(0, .MNM_TYPE_ADAPTIVE, 0), (0, .MNM_TYPE_ADAPTIVE, 1),
        (5, .MNM_TYPE_STATIC, 0)] MNM_Veh_Factory_Multiclass.construct).1.map
        (fun v => v.m_veh_ID)).Nodup :=
  ⟨by decide,
    ((vehicle_ids_unique [(0, .MNM_TYPE_ADAPTIVE, 0), (0, .MNM_TYPE_ADAPTIVE, 1),
      (5, .MNM_TYPE_STATIC, 0)] MNM_Veh_Factory_Multiclass.construct (by decide)).2.1
        (by decide)).2,
    (vehicle_ids_unique [(0, .MNM_TYPE_ADAPTIVE, 0), (0, .MNM_TYPE_ADAPTIVE, 1),
      (5, .MNM_TYPE_STATIC, 0)] MNM_Veh_Factory_Multiclass.construct (by decide)).2.2⟩

/-! ### The point-queue link -/

/-- The loop of `evolve` keeps, with one more on the stamp, the entries whose
stamp is less than `m_max_stamp` and pushes the vehicles of the others. -/
theorem Pq_evolve_loop_eq (m_max_stamp : Int) :
    ∀ m_veh_queue : List (MNM_Veh_Multiclass × Int),
      Pq_evolve_loop m_max_stamp m_veh_queue =
        ((m_veh_queue.filter (fun e => decide (e.2 < m_max_stamp))).map
            (fun e => (e.1, e.2 + 1)),
          (m_veh_queue.filter (fun e => decide (m_max_stamp ≤ e.2))).map Prod.fst) := by
  intro q
  induction q with
  | nil => rfl
  | cons e rest ih =>
    rw [Pq_evolve_loop, ih]
    by_cases h : e.2 ≥ m_max_stamp
    · have h1 : ¬ e.2 < m_max_stamp := not_lt.mpr h
      simp [h, h1, List.filter_cons]
    · have h1 : e.2 < m_max_stamp := not_le.mp h
      simp [h, h1, List.filter_cons]

/-- What one `evolve` does to an entry of the map whose key is the key of no
other entry: with a stamp below `m_max_stamp` it stays, with one more on its
stamp; otherwise its vehicle goes to `finished_array`. The keys stay
different. -/
theorem Pq_evolve_entry (l : MNM_Dlink_Pq_Multiclass) (v : MNM_Veh_Multiclass) (s : Int)
    (hkeys : (l.m_veh_queue.map Prod.fst).Nodup) (hv : (v, s) ∈ l.m_veh_queue) :
    (l.evolve.m_veh_queue.map Prod.fst).Nodup ∧ l.evolve.m_max_stamp = l.m_max_stamp ∧
      (s < l.m_max_stamp →
        (v, s + 1) ∈ l.evolve.m_veh_queue ∧
          (v ∉ l.m_finished_array → v ∉ l.evolve.m_finished_array)) ∧
      (l.m_max_stamp ≤ s →
        v ∈ l.evolve.m_finished_array ∧ v ∉ l.evolve.m_veh_queue.map Prod.fst) := by
  have hq : l.evolve.m_veh_queue =
      (l.m_veh_queue.filter (fun e => decide (e.2 < l.m_max_stamp))).map
        (fun e => (e.1, e.2 + 1)) := by
    simp only [MNM_Dlink_Pq_Multiclass.evolve, Pq_evolve_loop_eq]
  have hf : l.evolve.m_finished_array = l.m_finished_array ++
      (l.m_veh_queue.filter (fun e => decide (l.m_max_stamp ≤ e.2))).map Prod.fst := by
    simp only [MNM_Dlink_Pq_Multiclass.evolve, Pq_evolve_loop_eq]
  have hkeys1 : l.evolve.m_veh_queue.map Prod.fst =
      (l.m_veh_queue.filter (fun e => decide (e.2 < l.m_max_stamp))).map Prod.fst := by
    rw [hq, List.map_map]
    rfl
  have hsame : ∀ e ∈ l.m_veh_queue, e.1 = v → e.2 = s := by
    intro e he hev
    have := List.inj_on_of_nodup_map hkeys he hv hev
    rw [this]
  refine ⟨?_, rfl, ?_, ?_⟩
  · rw [hkeys1]
    exact (List.filter_sublist _).map Prod.fst |>.nodup hkeys
  · intro hs
    constructor
    · rw [hq, List.mem_map]
      exact ⟨(v, s), List.mem_filter.mpr ⟨hv, by simpa using hs⟩, rfl⟩
    · intro hfin hmem
      rw [hf, List.mem_append] at hmem
      rcases hmem with hmem | hmem
      · exact hfin hmem
      · rw [List.mem_map] at hmem
        obtain ⟨e, he, hev⟩ := hmem
        rw [List.mem_filter] at he
        have h2 := hsame e he.1 hev
        have h3 : l.m_max_stamp ≤ e.2 := by simpa using he.2
        omega
  · intro hs
    constructor
    · rw [hf, List.mem_append]
      right
      rw [List.mem_map]
      exact ⟨(v, s), List.mem_filter.mpr ⟨hv, by simpa using hs⟩, rfl⟩
    · rw [hkeys1, List.mem_map]
      rintro ⟨e, he, hev⟩
      rw [List.mem_filter] at he
      have h2 := hsame e he.1 hev
      have h3 : e.2 < l.m_max_stamp := by simpa using he.2
      omega

/-- The entry of a vehicle absorbed with stamp 0 after `k` calls of `evolve`,
for `k` up to `m_max_stamp`. -/
theorem Pq_evolves_entry (l : MNM_Dlink_Pq_Multiclass) (v : MNM_Veh_Multiclass)
    (hkeys : (l.m_veh_queue.map Prod.fst).Nodup) (hv : (v, 0) ∈ l.m_veh_queue)
    (hfin : v ∉ l.m_finished_array) :
    ∀ k : Nat, (k : Int) ≤ l.m_max_stamp →
      ((Pq_evolves k l).m_veh_queue.map Prod.fst).Nodup ∧
        (Pq_evolves k l).m_max_stamp = l.m_max_stamp ∧
        (v, (k : Int)) ∈ (Pq_evolves k l).m_veh_queue ∧
        v ∉ (Pq_evolves k l).m_finished_array := by
  intro k
  induction k with
  | zero => intro _; exact ⟨hkeys, rfl, hv, hfin⟩
  | succ k ih =>
    intro hk
    obtain ⟨i1, i2, i3, i4⟩ := ih (by push_cast at hk; omega)
    obtain ⟨j1, j2, j3, _⟩ := Pq_evolve_entry (Pq_evolves k l) v k i1 i3
    obtain ⟨j4, j5⟩ := j3 (by rw [i2]; push_cast at hk; omega)
    refine ⟨j1, j2.trans i2, ?_, j5 i4⟩
    push_cast
    exact j4

/-- C22 as stated does not hold: in a point-queue link with `max_stamp` 1 the
car absorbed with stamp 0 is still in the map, with stamp 1, after the first
`evolve`, and `finished_array` is empty; the second `evolve` moves it. -/
theorem Pq_first_evolve_keeps_car :
    pq_link_1_car.m_max_stamp = 1 ∧ pq_link_1_car.m_veh_queue = [(car 1 (some 2), 0)] ∧
      (Pq_evolves 1 pq_link_1_car).m_veh_queue = [(car 1 (some 2), 1)] ∧
      (Pq_evolves 1 pq_link_1_car).m_finished_array = [] ∧
      (Pq_evolves 2 pq_link_1_car).m_veh_queue = [] ∧
      (Pq_evolves 2 pq_link_1_car).m_finished_array = [car 1 (some 2)] := by
  decide

/-- C22 (amended): `evolve` of a point-queue link moves to `finished_array`
exactly the vehicles of the map whose stamp is at least `max_stamp` when it
is called, and gives every other vehicle of the map one more on its stamp;
consequently a vehicle absorbed with stamp 0 into a link with
`max_stamp = m >= 0` is in the map with stamp `k` after `k <= m` calls of
`evolve` and is moved to `finished_array` by the call number `m + 1`. -/
theorem Pq_evolve_releases (l : MNM_Dlink_Pq_Multiclass) (v : MNM_Veh_Multiclass) (m : Nat)
    (hm : l.m_max_stamp = (m : Int)) (hkeys : (l.m_veh_queue.map Prod.fst).Nodup)
    (hv : (v, 0) ∈ l.m_veh_queue) (hfin : v ∉ l.m_finished_array) :
    (l.evolve.m_veh_queue =
        (l.m_veh_queue.filter (fun e => decide (e.2 < l.m_max_stamp))).map
          (fun e => (e.1, e.2 + 1)) ∧
      l.evolve.m_finished_array = l.m_finished_array ++
        (l.m_veh_queue.filter (fun e => decide (l.m_max_stamp ≤ e.2))).map Prod.fst) ∧
      (∀ k : Nat, k ≤ m →
        (v, (k : Int)) ∈ (Pq_evolves k l).m_veh_queue ∧
          v ∉ (Pq_evolves k l).m_finished_array) ∧
      v ∈ (Pq_evolves (m + 1) l).m_finished_array ∧
      v ∉ (Pq_evolves (m + 1) l).m_veh_queue.map Prod.fst := by
  refine ⟨⟨?_, ?_⟩, ?_, ?_⟩
  · simp only [MNM_Dlink_Pq_Multiclass.evolve, Pq_evolve_loop_eq]
  · simp only [MNM_Dlink_Pq_Multiclass.evolve, Pq_evolve_loop_eq]
  · intro k hk
    obtain ⟨_, _, i3, i4⟩ := Pq_evolves_entry l v hkeys hv hfin k (by rw [hm]; exact_mod_cast hk)
    exact ⟨i3, i4⟩
  · obtain ⟨i1, i2, i3, _⟩ := Pq_evolves_entry l v hkeys hv hfin m (by rw [hm])
    obtain ⟨_, _, _, j4⟩ := Pq_evolve_entry (Pq_evolves m l) v m i1 i3
    exact j4 (by rw [i2, hm])

/-- Witness of `Pq_evolve_releases`: the link `pq_link_1_car` (`max_stamp` 1)
and its car. -/
theorem Pq_evolve_releases_witness :
    (car 1 (some 2), (1 : Int)) ∈ (Pq_evolves 1 pq_link_1_car).m_veh_queue ∧
      car 1 (some 2) ∉ (Pq_evolves 1 pq_link_1_car).m_finished_array ∧
      car 1 (some 2) ∈ (Pq_evolves 2 pq_link_1_car).m_finished_array :=
  have h := Pq_evolve_releases pq_link_1_car (car 1 (some 2)) 1 (by decide) (by decide)
    (by decide) (by decide)
  ⟨(h.2.1 1 (le_refl 1)).1, (h.2.1 1 (le_refl 1)).2, h.2.2.1⟩

/-- Inserting vehicles that are the keys of no entry, each once, puts their
entries after the entries of the map. -/
theorem veh_queue_insert_fresh :
    ∀ (vs : List MNM_Veh_Multiclass) (m_veh_queue : List (MNM_Veh_Multiclass × Int)),
      (m_veh_queue.map Prod.fst ++ vs).Nodup →
      vs.foldl (fun q v => veh_queue_insert q (v, 0)) m_veh_queue =
        m_veh_queue ++ vs.map (fun v => (v, (0 : Int))) := by
  intro vs
  induction vs with
  | nil => intro q _; simp
  | cons v rest ih =>
    intro q h
    have hv : ¬ (q.any (fun e => decide (e.1 = v))) = true := by
      intro hany
      rw [List.any_eq_true] at hany
      obtain ⟨e, he, hev⟩ := hany
      have hmem : v ∈ q.map Prod.fst := by
        rw [List.mem_map]
        exact ⟨e, he, by simpa using hev⟩
      rw [List.nodup_append] at h
      exact h.2.2 hmem (List.mem_cons_self _ _)
    have hq : veh_queue_insert q (v, 0) = q ++ [(v, 0)] := by
      unfold veh_queue_insert
      rw [if_neg hv]
    rw [List.foldl_cons, hq, ih]
    · simp
    · have h2 : ((q ++ [(v, (0 : Int))]).map Prod.fst ++ rest) = q.map Prod.fst ++ v :: rest := by
        simp
      rw [h2]
      exact h

/-- The loop of `clear_incoming_array` of a point-queue link absorbs the
first `k` vehicles, where `k` is the first point at which the budget left is
at most 0 or the array is empty. -/
theorem Pq_clear_incoming_array_loop_spec (vcf : ℚ) :
    ∀ (incoming : List MNM_Veh_Multiclass) (B : ℚ) (q : List (MNM_Veh_Multiclass × Int))
      (vc vt : Int),
      ∃ k : Nat, k ≤ incoming.length ∧
        (∀ j : Nat, j < k → 0 < B - absorbed_cost vcf (incoming.take j)) ∧
        (k < incoming.length → B - absorbed_cost vcf (incoming.take k) ≤ 0) ∧
        Pq_clear_incoming_array_loop vcf incoming B q vc vt =
          (incoming.drop k,
            (incoming.take k).foldl (fun q v => veh_queue_insert q (v, 0)) q,
            vc + ((incoming.take k).countP (fun v => decide (v.m_class = 0)) : Nat),
            vt + ((incoming.take k).countP (fun v => decide (¬ v.m_class = 0)) : Nat)) := by
  intro incoming
  induction incoming with
  | nil =>
    intro B q vc vt
    exact ⟨0, le_refl _, fun j hj => absurd hj (Nat.not_lt_zero j),
      fun h => absurd h (lt_irrefl _), by simp [Pq_clear_incoming_array_loop]⟩
  | cons v rest ih =>
    intro B q vc vt
    by_cases hB : B > 0
    · by_cases hc : v.m_class = 0
      · obtain ⟨k, k1, k2, k3, k4⟩ := ih (B - 1) (veh_queue_insert q (v, 0)) (vc + 1) vt
        refine ⟨k + 1, by simp only [List.length_cons]; omega, ?_, ?_, ?_⟩
        · intro j hj
          cases j with
          | zero => simpa [absorbed_cost] using hB
          | succ j =>
            have := k2 j (by omega)
            simp only [absorbed_cost, List.take_succ_cons, List.map_cons, List.sum_cons, hc,
              if_true] at this ⊢
            linarith
        · intro hlt
          have := k3 (by simp only [List.length_cons] at hlt; omega)
          simp only [absorbed_cost, List.take_succ_cons, List.map_cons, List.sum_cons, hc,
            if_true] at this ⊢
          linarith
        · rw [Pq_clear_incoming_array_loop, if_pos hB, if_pos hc, k4]
          simp only [List.drop_succ_cons, List.take_succ_cons, List.foldl_cons,
            List.countP_cons, hc, decide_True, decide_False, if_true, not_true_eq_false,
            Bool.false_eq_true, if_false, Nat.cast_add, Nat.cast_one, add_zero]
          refine Prod.ext rfl (Prod.ext rfl (Prod.ext ?_ rfl))
          simp only
          ring
      · obtain ⟨k, k1, k2, k3, k4⟩ := ih (B - vcf) (veh_queue_insert q (v, 0)) vc (vt + 1)
        refine ⟨k + 1, by simp only [List.length_cons]; omega, ?_, ?_, ?_⟩
        · intro j hj
          cases j with
          | zero => simpa [absorbed_cost] using hB
          | succ j =>
            have := k2 j (by omega)
            simp only [absorbed_cost, List.take_succ_cons, List.map_cons, List.sum_cons, hc,
              if_false] at this ⊢
            linarith
        · intro hlt
          have := k3 (by simp only [List.length_cons] at hlt; omega)
          simp only [absorbed_cost, List.take_succ_cons, List.map_cons, List.sum_cons, hc,
            if_false] at this ⊢
          linarith
        · rw [Pq_clear_incoming_array_loop, if_pos hB, if_neg hc, k4]
          simp only [List.drop_succ_cons, List.take_succ_cons, List.foldl_cons,
            List.countP_cons, hc, decide_True, decide_False, if_true, not_false_eq_true,
            Bool.false_eq_true, if_false, Nat.cast_add, Nat.cast_one, add_zero]
          refine Prod.ext rfl (Prod.ext rfl (Prod.ext rfl ?_))
          simp only
          ring
    · refine ⟨0, Nat.zero_le _, fun j hj => absurd hj (Nat.not_lt_zero j), ?_, ?_⟩
      · intro _
        simpa [absorbed_cost] using not_lt.mp hB
      · rw [Pq_clear_incoming_array_loop, if_neg hB]
        simp

/-- C23: `clear_incoming_array` of a point-queue link, with the budget
`B = flow_cap_car * num_lanes * unit_time * flow_scalar`, absorbs the first
`k` vehicles of `incoming_array` into the map with stamp 0, where a car takes
1 and a truck `veh_convert_factor` from the budget and `k` is the first point
at which the budget left is at most 0 or the array is empty; the other
vehicles stay in `incoming_array` in their order, and `volume_car` and
`volume_truck` grow by the numbers of cars and trucks absorbed. The vehicles
of `incoming_array` are in no other container: they are different and the key
of no entry of the map. -/
theorem Pq_clear_incoming_array_absorbs (l : MNM_Dlink_Pq_Multiclass)
    (hfresh : (l.m_veh_queue.map Prod.fst ++ l.m_incoming_array).Nodup) :
    ∃ k : Nat, k ≤ l.m_incoming_array.length ∧
      (∀ j : Nat, j < k →
        0 < l.m_lane_flow_cap * (l.m_number_of_lane : ℚ) * l.m_unit_time * l.m_flow_scalar -
          absorbed_cost l.m_veh_convert_factor (l.m_incoming_array.take j)) ∧
      (k < l.m_incoming_array.length →
        l.m_lane_flow_cap * (l.m_number_of_lane : ℚ) * l.m_unit_time * l.m_flow_scalar -
          absorbed_cost l.m_veh_convert_factor (l.m_incoming_array.take k) ≤ 0) ∧
      l.clear_incoming_array.m_incoming_array = l.m_incoming_array.drop k ∧
      l.clear_incoming_array.m_veh_queue =
        l.m_veh_queue ++ (l.m_incoming_array.take k).map (fun v => (v, (0 : Int))) ∧
      l.clear_incoming_array.m_volume_car = l.m_volume_car +
        ((l.m_incoming_array.take k).countP (fun v => decide (v.m_class = 0)) : Nat) ∧
      l.clear_incoming_array.m_volume_truck = l.m_volume_truck +
        ((l.m_incoming_array.take k).countP (fun v => decide (¬ v.m_class = 0)) : Nat) ∧
      l.clear_incoming_array.m_finished_array = l.m_finished_array := by
  obtain ⟨k, k1, k2, k3, k4⟩ := Pq_clear_incoming_array_loop_spec l.m_veh_convert_factor
    l.m_incoming_array (l.get_link_supply * l.m_flow_scalar) l.m_veh_queue l.m_volume_car
    l.m_volume_truck
  have hfold := veh_queue_insert_fresh (l.m_incoming_array.take k) l.m_veh_queue
    (by
      apply List.Nodup.sublist _ hfresh
      exact List.Sublist.append (List.Sublist.refl _) (List.take_sublist _ _))
  refine ⟨k, k1, k2, k3, ?_, ?_, ?_, ?_, rfl⟩
  · simp only [MNM_Dlink_Pq_Multiclass.clear_incoming_array, k4]
  · simp only [MNM_Dlink_Pq_Multiclass.clear_incoming_array, k4, hfold]
  · simp only [MNM_Dlink_Pq_Multiclass.clear_incoming_array, k4]
  · simp only [MNM_Dlink_Pq_Multiclass.clear_incoming_array, k4]

/-- Witness of `Pq_clear_incoming_array_absorbs`: with the budget 3 and
`veh_convert_factor` 2 the link absorbs the car 1 and the truck 2 and leaves
the car 3 and the truck 4. -/
theorem Pq_clear_incoming_array_absorbs_witness :
    (∃ k : Nat, k ≤ pq_link_4_incoming.m_incoming_array.length ∧
      (∀ j : Nat, j < k →
        0 < pq_link_4_incoming.m_lane_flow_cap * (pq_link_4_incoming.m_number_of_lane : ℚ) *
            pq_link_4_incoming.m_unit_time * pq_link_4_incoming.m_flow_scalar -
          absorbed_cost pq_link_4_incoming.m_veh_convert_factor
            (pq_link_4_incoming.m_incoming_array.take j)) ∧
      (k < pq_link_4_incoming.m_incoming_array.length →
        pq_link_4_incoming.m_lane_flow_cap * (pq_link_4_incoming.m_number_of_lane : ℚ) *
            pq_link_4_incoming.m_unit_time * pq_link_4_incoming.m_flow_scalar -
          absorbed_cost pq_link_4_incoming.m_veh_convert_factor
            (pq_link_4_incoming.m_incoming_array.take k) ≤ 0) ∧
      pq_link_4_incoming.clear_incoming_array.m_incoming_array =
        pq_link_4_incoming.m_incoming_array.drop k ∧
      pq_link_4_incoming.clear_incoming_array.m_veh_queue =
        pq_link_4_incoming.m_veh_queue ++
          (pq_link_4_incoming.m_incoming_array.take k).map (fun v => (v, (0 : Int))) ∧
      pq_link_4_incoming.clear_incoming_array.m_volume_car = pq_link_4_incoming.m_volume_car +
        ((pq_link_4_incoming.m_incoming_array.take k).countP
          (fun v => decide (v.m_class = 0)) : Nat) ∧
      pq_link_4_incoming.clear_incoming_array.m_volume_truck =
        pq_link_4_incoming.m_volume_truck +
          ((pq_link_4_incoming.m_incoming_array.take k).countP
            (fun v => decide (¬ v.m_class = 0)) : Nat) ∧
      pq_link_4_incoming.clear_incoming_array.m_finished_array =
        pq_link_4_incoming.m_finished_array) ∧
      pq_link_4_incoming.clear_incoming_array.m_incoming_array =
        [car 3 (some 2), truck 4 (some 2)] ∧
      pq_link_4_incoming.clear_incoming_array.m_veh_queue =
        [(car 1 (some 2), 0), (truck 2 (some 2), 0)] ∧
      pq_link_4_incoming.clear_incoming_array.m_volume_car = 1 ∧
      pq_link_4_incoming.clear_incoming_array.m_volume_truck = 1 :=
  ⟨Pq_clear_incoming_array_absorbs pq_link_4_incoming (by decide), by decide!, by decide!,
    by decide!, by decide!⟩

/-- C24 (defect of the code): the constructor of the point-queue link tests
none of its arguments, so for no argument does it end with `exit(-1)`; with
`flow_scalar = 1/2`, `veh_convert_factor = 1/2`, `unit_time = -10` or a lane
flow capacity of -1 it makes a link, where the constructor of the CTM link
ends with `exit(-1)`. -/
theorem Pq_construct_never_exits :
    (∀ (round : ℚ → Int) (m_ffs_car0 : ℚ) (ID : Nat) (number_of_lane : Int)
        (length hc ht fc ft ffs_car ffs_truck unit_time vcf fs : ℚ),
        ¬ ∃ e, MNM_Dlink_Pq_Multiclass.construct round m_ffs_car0 ID number_of_lane length hc
          ht fc ft ffs_car ffs_truck unit_time vcf fs = .exited e) ∧
      ((MNM_Dlink_Pq_Multiclass.construct round_half_up 10 1 1 100 (3 / 16) (1 / 8) (3 / 10)
          (1 / 4) 10 8 10 2 (1 / 2)).constructed?.map (fun l => l.m_flow_scalar) =
          some (1 / 2) ∧
        MNM_Dlink_Ctm_Multiclass.construct 1 1 100 (3 / 16) (1 / 8) (3 / 10) (1 / 4) 10 8 10 2
          (1 / 2) = .exited .flow_scalar_below_1) ∧
      ((MNM_Dlink_Pq_Multiclass.construct round_half_up 10 1 1 100 (3 / 16) (1 / 8) (3 / 10)
          (1 / 4) 10 8 10 (1 / 2) 1).constructed?.map (fun l => l.m_veh_convert_factor) =
          some (1 / 2) ∧
        MNM_Dlink_Ctm_Multiclass.construct 1 1 100 (3 / 16) (1 / 8) (3 / 10) (1 / 4) 10 8 10
          (1 / 2) 1 = .exited .veh_convert_factor_below_1) ∧
      ((MNM_Dlink_Pq_Multiclass.construct round_half_up 10 1 1 100 (3 / 16) (1 / 8) (3 / 10)
          (1 / 4) 10 8 (-10) 2 1).constructed?.map (fun l => (l.m_unit_time, l.m_max_stamp)) =
          some (-10, -1) ∧
        MNM_Dlink_Ctm_Multiclass.construct 1 1 100 (3 / 16) (1 / 8) (3 / 10) (1 / 4) 10 8 (-10)
          2 1 = .exited .unit_time_not_positive) ∧
      ((MNM_Dlink_Pq_Multiclass.construct round_half_up 10 1 1 100 (3 / 16) (1 / 8) (-1)
          (1 / 4) 10 8 10 2 1).constructed?.map (fun l => l.m_lane_flow_cap) = some (-1) ∧
        MNM_Dlink_Ctm_Multiclass.construct 1 1 100 (3 / 16) (1 / 8) (-1) (1 / 4) 10 8 10 2 1 =
          .exited .lane_flow_cap_negative) := by
  refine ⟨?_, ⟨by decide!, ?_⟩, ⟨by decide!, ?_⟩, ⟨by decide!, ?_⟩, ⟨by decide!, ?_⟩⟩
  · intro round m0 ID lanes length hc ht fc ft ffs_car ffs_truck ut vcf fs
    rintro ⟨e, he⟩
    unfold MNM_Dlink_Pq_Multiclass.construct at he
    split_ifs at he
  · unfold MNM_Dlink_Ctm_Multiclass.construct
    norm_num
  · unfold MNM_Dlink_Ctm_Multiclass.construct
    norm_num
  · unfold MNM_Dlink_Ctm_Multiclass.construct
    norm_num
  · unfold MNM_Dlink_Ctm_Multiclass.construct
    norm_num

/-! ### The perceived densities of a cell -/

theorem density_car_eq_rho (c : Ctm_Cell_Multiclass) :
    (c.m_volume_car : ℚ) / c.m_flow_scalar / c.m_cell_length = c.rho_car := by
  simp only [Ctm_Cell_Multiclass.rho_car, section_4_1_rho, div_div]

theorem density_truck_eq_rho (c : Ctm_Cell_Multiclass) :
    (c.m_volume_truck : ℚ) / c.m_flow_scalar / c.m_cell_length = c.rho_truck := by
  simp only [Ctm_Cell_Multiclass.rho_truck, section_4_1_rho, div_div]

/-- The function `update_perceived_density` in terms of the densities `rho_c`
and `rho_t` of section 4.1, branch by branch. -/
theorem update_perceived_density_branches (c : Ctm_Cell_Multiclass)
    (h0 : ¬ (c.m_flow_scalar = 0 ∨ c.m_cell_length = 0 ∨ c.m_critical_density_car = 0 ∨
      c.m_critical_density_truck = 0)) :
    (regime_A c.rho_car c.rho_truck c.m_critical_density_car c.m_critical_density_truck →
        c.update_perceived_density = some { c with
          m_perceived_density_car :=
            c.rho_car + c.m_critical_density_car * (c.rho_truck / c.m_critical_density_truck)
          m_perceived_density_truck :=
            c.rho_truck + c.m_critical_density_truck *
              (c.rho_car / c.m_critical_density_car) }) ∧
      (¬ regime_A c.rho_car c.rho_truck c.m_critical_density_car c.m_critical_density_truck →
        regime_B c.rho_car c.rho_truck c.m_critical_density_truck c.m_rho_1_N →
        c.update_perceived_density = some { c with
          m_perceived_density_car :=
            c.rho_car / (1 - c.rho_truck / c.m_critical_density_truck)
          m_perceived_density_truck := c.m_critical_density_truck }) ∧
      (regime_C c.rho_car c.rho_truck c.m_critical_density_car c.m_critical_density_truck
          c.m_rho_1_N →
        ∀ c1, c.update_perceived_density = some c1 →
          (c.m_volume_truck = 0 →
            c1 = { c with
              m_perceived_density_car := c.rho_car
              m_perceived_density_truck :=
                c.m_hold_cap_truck * c.m_wave_speed_truck /
                  ((c.m_hold_cap_car - c.rho_car) * c.m_wave_speed_car / c.rho_car +
                    c.m_wave_speed_truck) }) ∧
          (c.m_volume_truck ≠ 0 →
            c1 = { c with
              m_perceived_density_car :=
                c.rho_car /
                  ((c.rho_car ^ 2 * (c.m_wave_speed_car - c.m_wave_speed_truck)
                      + c.m_hold_cap_truck * c.m_wave_speed_truck * c.rho_car)
                    / (c.m_hold_cap_car * c.m_wave_speed_car * c.rho_truck
                      + c.m_hold_cap_truck * c.m_wave_speed_truck * c.rho_car))
              m_perceived_density_truck :=
                c.rho_truck /
                  ((c.rho_car ^ 2 * (c.m_wave_speed_truck - c.m_wave_speed_car)
                      + c.m_hold_cap_car * c.m_wave_speed_car * c.rho_truck)
                    / (c.m_hold_cap_car * c.m_wave_speed_car * c.rho_truck
                      + c.m_hold_cap_truck * c.m_wave_speed_truck * c.rho_car)) })) := by
  refine ⟨?_, ?_, ?_⟩
  · intro hA
    unfold Ctm_Cell_Multiclass.update_perceived_density
    dsimp only
    rw [if_neg h0]
    simp only [density_car_eq_rho, density_truck_eq_rho]
    rw [if_pos hA]
  · intro hA hB
    unfold Ctm_Cell_Multiclass.update_perceived_density
    dsimp only
    rw [if_neg h0]
    simp only [density_car_eq_rho, density_truck_eq_rho]
    rw [if_neg hA, if_pos hB]
  · intro hC c1 h
    unfold Ctm_Cell_Multiclass.update_perceived_density at h
    dsimp only at h
    rw [if_neg h0] at h
    simp only [density_car_eq_rho, density_truck_eq_rho] at h
    rw [if_neg hC.1, if_neg hC.2] at h
    constructor
    · intro hv
      rw [if_pos hv] at h
      split_ifs at h
      injection h with h
      rw [← h]
    · intro hv
      rw [if_neg hv] at h
      split_ifs at h
      injection h with h
      rw [← h]
      have e1 : c.rho_car * c.rho_car = c.rho_car ^ 2 := by ring
      have e2 : c.m_hold_cap_truck * c.m_wave_speed_truck * c.rho_car +
          c.m_hold_cap_car * c.m_wave_speed_car * c.rho_truck =
          c.m_hold_cap_car * c.m_wave_speed_car * c.rho_truck +
            c.m_hold_cap_truck * c.m_wave_speed_truck * c.rho_car := by ring
      rw [e1, e2]

/-- C25: whenever `update_perceived_density` has a value (no divisor of the
code is 0), it is the cell with the perceived densities of section 4.1 and
nothing else changed: with `rho_x = volume_x / (flow_scalar * cell_length)`,
in regime A `rho_c + crit_c * (rho_t / crit_t)` and
`rho_t + crit_t * (rho_c / crit_c)`, in regime B `rho_c / (1 - rho_t / crit_t)`
and `crit_t`, in regime C without trucks `rho_c` and
`hold_cap_t * w_t / (u + w_t)` with `u = (hold_cap_c - rho_c) * w_c / rho_c`,
in regime C with trucks `rho_x / space_fraction_x`. -/
theorem update_perceived_density_section_4_1 (c c1 : Ctm_Cell_Multiclass)
    (h : c.update_perceived_density = some c1) :
    c1 = { c with
      m_perceived_density_car := c.section_4_1_perceived.1
      m_perceived_density_truck := c.section_4_1_perceived.2 } := by
  have h0 : ¬ (c.m_flow_scalar = 0 ∨ c.m_cell_length = 0 ∨ c.m_critical_density_car = 0 ∨
      c.m_critical_density_truck = 0) := by
    intro h0
    unfold Ctm_Cell_Multiclass.update_perceived_density at h
    rw [if_pos h0] at h
    cases h
  obtain ⟨bA, bB, bC⟩ := update_perceived_density_branches c h0
  unfold Ctm_Cell_Multiclass.section_4_1_perceived MacPosts.section_4_1_perceived
  by_cases hA : regime_A c.rho_car c.rho_truck c.m_critical_density_car
      c.m_critical_density_truck
  · rw [bA hA] at h
    injection h with h
    rw [← h]
    simp only [if_pos hA]
  by_cases hB : regime_B c.rho_car c.rho_truck c.m_critical_density_truck c.m_rho_1_N
  · rw [bB hA hB] at h
    injection h with h
    rw [← h]
    simp only [if_neg hA, if_pos hB]
  by_cases hv : c.m_volume_truck = 0
  · rw [((bC ⟨hA, hB⟩) c1 h).1 hv]
    simp only [if_neg hA, if_neg hB, if_pos hv]
  · rw [((bC ⟨hA, hB⟩) c1 h).2 hv]
    simp only [if_neg hA, if_neg hB, if_neg hv]

/-- Witness of `update_perceived_density_section_4_1`: the cell with
`rho_c / crit_c = 4/5` and `rho_t / crit_t = 1/10` is in regime A, with
`perceived_c = rho_c + (1/10) * crit_c` and
`perceived_t = rho_t + (4/5) * crit_t`. -/
theorem update_perceived_density_section_4_1_witness :
    cell_4_5_and_1_10.rho_car / cell_4_5_and_1_10.m_critical_density_car = 4 / 5 ∧
      cell_4_5_and_1_10.rho_truck / cell_4_5_and_1_10.m_critical_density_truck = 1 / 10 ∧
      regime_A cell_4_5_and_1_10.rho_car cell_4_5_and_1_10.rho_truck
        cell_4_5_and_1_10.m_critical_density_car cell_4_5_and_1_10.m_critical_density_truck ∧
      cell_4_5_and_1_10.section_4_1_perceived =
        (cell_4_5_and_1_10.rho_car + 1 / 10 * cell_4_5_and_1_10.m_critical_density_car,
          cell_4_5_and_1_10.rho_truck + 4 / 5 * cell_4_5_and_1_10.m_critical_density_truck) ∧
      cell_4_5_and_1_10.update_perceived_density =
        some { cell_4_5_and_1_10 with
          m_perceived_density_car := cell_4_5_and_1_10.section_4_1_perceived.1
          m_perceived_density_truck := cell_4_5_and_1_10.section_4_1_perceived.2 } := by
  have hs : cell_4_5_and_1_10.update_perceived_density.isSome = true := by decide!
  refine ⟨by decide!, by decide!, by decide!, by decide!, ?_⟩
  cases hu : cell_4_5_and_1_10.update_perceived_density with
  | none => rw [hu] at hs; cases hs
  | some c1 => rw [update_perceived_density_section_4_1 cell_4_5_and_1_10 c1 hu]

/-- The cell that the constructor makes for one lane of 100 m with jam
densities 3/16 and 1/8, flow capacities 1/2 and 4/25, speeds 10 and 8,
`unit_time` 10 and `flow_scalar` 10 is, with 40 cars and 2 trucks, the cell
`cell_4_5_and_1_10`. -/
theorem construct_cell_4_5_and_1_10 :
    (MNM_Dlink_Ctm_Multiclass.construct 1 1 100 (3 / 16) (1 / 8) (1 / 2) (4 / 25) 10 8 10 2
        10).constructed?.map
      (fun l => l.m_cell_array.map
        (fun c => { c with m_volume_car := 40, m_volume_truck := 2 })) =
      some [cell_4_5_and_1_10] := by
  decide!

/-- C26 (defect of the code): `update_perceived_density` leaves the members
`m_space_fraction_car` and `m_space_fraction_truck` as they are, whatever the
regime: it assigns the space fractions it computes to local variables. For
the cell with `rho_c / crit_c = 4/5` and `rho_t / crit_t = 1/10` (regime A)
the stored space fractions are 0 and 0 after the call, where section 4.1
gives 4/5 and 1/10. -/
theorem update_perceived_density_keeps_space_fractions :
    (∀ c c1 : Ctm_Cell_Multiclass, c.update_perceived_density = some c1 →
        c1.m_space_fraction_car = c.m_space_fraction_car ∧
          c1.m_space_fraction_truck = c.m_space_fraction_truck) ∧
      cell_4_5_and_1_10.update_perceived_density.map
          (fun c => (c.m_space_fraction_car, c.m_space_fraction_truck)) = some (0, 0) ∧
      cell_4_5_and_1_10.section_4_1_space_fraction = some (4 / 5, 1 / 10) := by
  refine ⟨?_, by decide!, by decide!⟩
  intro c c1 h
  unfold Ctm_Cell_Multiclass.update_perceived_density at h
  dsimp only at h
  split_ifs at h <;> cases h <;> exact ⟨rfl, rfl⟩

/-- C27 (defect of the code): `clear_incoming_array` of a CTM link sets the
volumes of cell 0 and leaves its perceived densities as they are; it does
not call `update_perceived_density`, which `evolve` calls after it has set
the volumes. On the empty link `link_200m` with one car in `incoming_array`
cell 0 has `volume_car = 1` after the call and the perceived densities 0 and
0 of the empty cell, where section 4.1 gives 1/100 and 1/96; the
`update_out_veh` that follows reads a demand of cars of 0. -/
theorem clear_incoming_array_keeps_perceived_density :
    (∀ l l1 : MNM_Dlink_Ctm_Multiclass, l.clear_incoming_array = .returned l1 →
        ∃ c0 c1 cells, l.m_cell_array = c0 :: cells ∧ l1.m_cell_array = c1 :: cells ∧
          c1.m_perceived_density_car = c0.m_perceived_density_car ∧
          c1.m_perceived_density_truck = c0.m_perceived_density_truck ∧
          c1.m_volume_car = (c1.m_veh_queue_car.length : Int) ∧
          c1.m_volume_truck = (c1.m_veh_queue_truck.length : Int)) ∧
      link_200m_1_car.clear_incoming_array.returned?.map
          (fun l => l.m_cell_array.map
            (fun c => (c.m_volume_car, c.m_volume_truck, c.m_perceived_density_car,
              c.m_perceived_density_truck))) =
        some [(1, 0, 0, 0), (0, 0, 0, 0)] ∧
      link_200m_1_car.clear_incoming_array.returned?.map
          (fun l => l.m_cell_array.map (fun c => c.section_4_1_perceived)) =
        some [(1 / 100, 1 / 96), (0, 0)] ∧
      link_200m_1_car.clear_incoming_array.returned?.map
          (fun l => l.m_cell_array.map (fun c => c.get_perceived_demand 0)) =
        some [0, 0] := by
  refine ⟨?_, by decide!, by decide!, by decide!⟩
  intro l l1 h
  unfold MNM_Dlink_Ctm_Multiclass.clear_incoming_array at h
  cases hs : l.get_link_supply with
  | none => rw [hs] at h; cases hc : l.m_cell_array <;> rw [hc] at h <;> cases h
  | some supply =>
    cases hc : l.m_cell_array with
    | nil => rw [hs, hc] at h; cases h
    | cons c0 cells =>
      rw [hs, hc] at h
      simp only at h
      split_ifs at h
      injection h with h
      rw [← h]
      exact ⟨c0, _, cells, rfl, rfl, rfl, rfl, rfl, rfl⟩

/-! ### The regimes of section 4.1 -/

/-- C28 as stated does not hold: the densities of the cell with
`rho_c / crit_c = 4/5` and `rho_t / crit_t = 1/10` (critical densities 1/20
and 1/50, `rho_1_N = 15/256`) satisfy the defining condition of regime A and
the defining condition of regime B. -/
theorem regimes_A_and_B_overlap :
    0 < cell_4_5_and_1_10.m_critical_density_car ∧
      0 < cell_4_5_and_1_10.m_critical_density_truck ∧
      0 ≤ cell_4_5_and_1_10.rho_car ∧ 0 ≤ cell_4_5_and_1_10.rho_truck ∧
      regime_A cell_4_5_and_1_10.rho_car cell_4_5_and_1_10.rho_truck
        cell_4_5_and_1_10.m_critical_density_car cell_4_5_and_1_10.m_critical_density_truck ∧
      regime_B cell_4_5_and_1_10.rho_car cell_4_5_and_1_10.rho_truck
        cell_4_5_and_1_10.m_critical_density_truck cell_4_5_and_1_10.m_rho_1_N := by
  decide!

/-- C28 (amended): for critical densities > 0, every pair of densities
satisfies exactly one of: the condition of regime A; the condition of regime
B and not that of A; neither (regime C). `update_perceived_density` tests A
first, then B, and takes the branch of that regime: the perceived densities
`rho_c + crit_c * (rho_t / crit_t)` and `rho_t + crit_t * (rho_c / crit_c)`
in regime A, `rho_c / (1 - rho_t / crit_t)` and `crit_t` in regime B not A,
and those of regime C otherwise (where it has a value). -/
theorem regimes_first_match (c : Ctm_Cell_Multiclass)
    (hfs : c.m_flow_scalar ≠ 0) (hlen : c.m_cell_length ≠ 0)
    (hcar : 0 < c.m_critical_density_car) (htruck : 0 < c.m_critical_density_truck) :
    (∀ rho_c rho_t rho_1_N : ℚ,
        (regime_A rho_c rho_t c.m_critical_density_car c.m_critical_density_truck ∨
          (regime_B rho_c rho_t c.m_critical_density_truck rho_1_N ∧
            ¬ regime_A rho_c rho_t c.m_critical_density_car c.m_critical_density_truck) ∨
          regime_C rho_c rho_t c.m_critical_density_car c.m_critical_density_truck rho_1_N) ∧
        ¬ (regime_A rho_c rho_t c.m_critical_density_car c.m_critical_density_truck ∧
          (regime_B rho_c rho_t c.m_critical_density_truck rho_1_N ∧
            ¬ regime_A rho_c rho_t c.m_critical_density_car c.m_critical_density_truck)) ∧
        ¬ (regime_A rho_c rho_t c.m_critical_density_car c.m_critical_density_truck ∧
          regime_C rho_c rho_t c.m_critical_density_car c.m_critical_density_truck rho_1_N) ∧
        ¬ ((regime_B rho_c rho_t c.m_critical_density_truck rho_1_N ∧
            ¬ regime_A rho_c rho_t c.m_critical_density_car c.m_critical_density_truck) ∧
          regime_C rho_c rho_t c.m_critical_density_car c.m_critical_density_truck rho_1_N)) ∧
      (regime_A c.rho_car c.rho_truck c.m_critical_density_car c.m_critical_density_truck →
        c.update_perceived_density = some { c with
          m_perceived_density_car :=
            c.rho_car + c.m_critical_density_car * (c.rho_truck / c.m_critical_density_truck)
          m_perceived_density_truck :=
            c.rho_truck + c.m_critical_density_truck *
              (c.rho_car / c.m_critical_density_car) }) ∧
      (regime_B c.rho_car c.rho_truck c.m_critical_density_truck c.m_rho_1_N ∧
          ¬ regime_A c.rho_car c.rho_truck c.m_critical_density_car
            c.m_critical_density_truck →
        c.update_perceived_density = some { c with
          m_perceived_density_car :=
            c.rho_car / (1 - c.rho_truck / c.m_critical_density_truck)
          m_perceived_density_truck := c.m_critical_density_truck }) ∧
      (regime_C c.rho_car c.rho_truck c.m_critical_density_car c.m_critical_density_truck
          c.m_rho_1_N →
        ∀ c1, c.update_perceived_density = some c1 →
          (c.m_volume_truck = 0 →
            c1.m_perceived_density_car = c.rho_car ∧
              c1.m_perceived_density_truck =
                c.m_hold_cap_truck * c.m_wave_speed_truck /
                  ((c.m_hold_cap_car - c.rho_car) * c.m_wave_speed_car / c.rho_car +
                    c.m_wave_speed_truck)) ∧
          (c.m_volume_truck ≠ 0 →
            c1.m_perceived_density_car =
                c.rho_car /
                  ((c.rho_car ^ 2 * (c.m_wave_speed_car - c.m_wave_speed_truck)
                      + c.m_hold_cap_truck * c.m_wave_speed_truck * c.rho_car)
                    / (c.m_hold_cap_car * c.m_wave_speed_car * c.rho_truck
                      + c.m_hold_cap_truck * c.m_wave_speed_truck * c.rho_car)) ∧
              c1.m_perceived_density_truck =
                c.rho_truck /
                  ((c.rho_car ^ 2 * (c.m_wave_speed_truck - c.m_wave_speed_car)
                      + c.m_hold_cap_car * c.m_wave_speed_car * c.rho_truck)
                    / (c.m_hold_cap_car * c.m_wave_speed_car * c.rho_truck
                      + c.m_hold_cap_truck * c.m_wave_speed_truck * c.rho_car)))) := by
  have h0 : ¬ (c.m_flow_scalar = 0 ∨ c.m_cell_length = 0 ∨ c.m_critical_density_car = 0 ∨
      c.m_critical_density_truck = 0) := by
    push_neg
    exact ⟨hfs, hlen, hcar.ne', htruck.ne'⟩
  obtain ⟨bA, bB, bC⟩ := update_perceived_density_branches c h0
  refine ⟨?_, bA, fun h => bB h.2 h.1, ?_⟩
  · intro rho_c rho_t rho_1_N
    by_cases hA : regime_A rho_c rho_t c.m_critical_density_car c.m_critical_density_truck
    · exact ⟨Or.inl hA, fun h => h.2.2 hA, fun h => h.2.1 hA, fun h => h.1.2 hA⟩
    · by_cases hB : regime_B rho_c rho_t c.m_critical_density_truck rho_1_N
      · exact ⟨Or.inr (Or.inl ⟨hB, hA⟩), fun h => hA h.1, fun h => hA h.1,
          fun h => h.2.2 hB⟩
      · exact ⟨Or.inr (Or.inr ⟨hA, hB⟩), fun h => hA h.1, fun h => hA h.1,
          fun h => hB h.1.1⟩
  · intro hC c1 h
    constructor
    · intro hv
      rw [((bC hC) c1 h).1 hv]
      exact ⟨rfl, rfl⟩
    · intro hv
      rw [((bC hC) c1 h).2 hv]
      exact ⟨rfl, rfl⟩

/-- Witness of `regimes_first_match`: the cell with `rho_c / crit_c = 4/5`
and `rho_t / crit_t = 1/10` satisfies the conditions of A and of B, and
`update_perceived_density` gives it the perceived densities of regime A,
9/200 and 9/500 (regime B would give 2/45 and 1/50). -/
theorem regimes_first_match_witness :
    cell_4_5_and_1_10.update_perceived_density.map
        (fun c => (c.m_perceived_density_car, c.m_perceived_density_truck)) =
        some (9 / 200, 9 / 500) ∧
      cell_4_5_and_1_10.rho_car /
          (1 - cell_4_5_and_1_10.rho_truck / cell_4_5_and_1_10.m_critical_density_truck) =
        2 / 45 := by
  have h := (regimes_first_match cell_4_5_and_1_10 (by decide!) (by decide!) (by decide!)
    (by decide!)).2.1 (by decide!)
  constructor
  · rw [h]
    decide!
  · decide!

/-! ### Demand and supply of a cell -/

/-- C29 (defect of the code): the link of 200 m with one lane built by the
constructor for jam densities 9/400 and 1/50, flow capacities 1/5 and 1/10,
speeds 10 and 8, `unit_time` 10 and `flow_scalar` 1 receives a car, a car and
a truck in three ticks (`clear_incoming_array`, then `evolve`); every call
returns. Cell 0 then holds 2 cars and 1 truck in regime C, its perceived
density of trucks is -7/260, below the critical density that the comment of
the regime C branch of `update_perceived_density` says it exceeds, and its
demand of trucks is -28/13 < 0: `get_perceived_demand` has no `max(0, .)`,
which `get_perceived_supply` has. -/
theorem demand_of_trucks_negative_after_3_ticks :
    ((MNM_Dlink_Ctm_Multiclass.construct 1 1 200 (9 / 400) (1 / 50) (1 / 5) (1 / 10)
        10 8 10 2 1).constructed?.bind
      (fun l => (link_run round_half_up 1
          [[car 1 (some 2)], [car 2 (some 2)], [truck 3 (some 2)]] l rng_zero).returned?.map
        (fun s => s.1.m_cell_array.map
          (fun c => (c.m_volume_car, c.m_volume_truck, c.m_perceived_density_truck,
            c.get_perceived_demand 1))))) =
        some [(2, 1, -7 / 260, -28 / 13), (0, 0, 0, 0)] ∧
      (-28 / 13 : ℚ) < 0 := by
  decide!

/-- Where the demand is not negative: for a cell with flow capacities,
free-flow speeds and `unit_time` >= 0, the demand `get_perceived_demand(x)` is
>= 0 whenever the perceived density of class x is >= 0; and for volumes >= 0
and flow scalar, cell length and critical densities > 0,
`update_perceived_density` in regime A or B stores perceived densities >= 0,
so that the demand of each class is >= 0 after it. -/
theorem demand_nonneg_in_regimes_A_and_B (c : Ctm_Cell_Multiclass) (x : Int)
    (hfc_car : 0 ≤ c.m_flow_cap_car) (hfc_truck : 0 ≤ c.m_flow_cap_truck)
    (hffs_car : 0 ≤ c.m_ffs_car) (hffs_truck : 0 ≤ c.m_ffs_truck)
    (hut : 0 ≤ c.m_unit_time) :
    (x = 0 → 0 ≤ c.m_perceived_density_car → 0 ≤ c.get_perceived_demand x) ∧
      (x ≠ 0 → 0 ≤ c.m_perceived_density_truck → 0 ≤ c.get_perceived_demand x) ∧
      (0 < c.m_flow_scalar → 0 < c.m_cell_length → 0 < c.m_critical_density_car →
        0 < c.m_critical_density_truck → 0 ≤ c.m_volume_car → 0 ≤ c.m_volume_truck →
        regime_A c.rho_car c.rho_truck c.m_critical_density_car c.m_critical_density_truck ∨
          regime_B c.rho_car c.rho_truck c.m_critical_density_truck c.m_rho_1_N →
        ∃ c1, c.update_perceived_density = some c1 ∧ 0 ≤ c1.m_perceived_density_car ∧
          0 ≤ c1.m_perceived_density_truck ∧ 0 ≤ c1.get_perceived_demand x) := by
  have hdemand : ∀ c1 : Ctm_Cell_Multiclass, 0 ≤ c1.m_flow_cap_car → 0 ≤ c1.m_flow_cap_truck →
      0 ≤ c1.m_ffs_car → 0 ≤ c1.m_ffs_truck → 0 ≤ c1.m_unit_time →
      0 ≤ c1.m_perceived_density_car → 0 ≤ c1.m_perceived_density_truck →
      0 ≤ c1.get_perceived_demand x := by
    intro c1 k1 k2 k3 k4 k5 k6 k7
    unfold Ctm_Cell_Multiclass.get_perceived_demand
    split_ifs
    · exact mul_nonneg (le_min k1 (mul_nonneg k3 k6)) k5
    · exact mul_nonneg (le_min k2 (mul_nonneg k4 k7)) k5
  refine ⟨?_, ?_, ?_⟩
  · intro hx hpd
    unfold Ctm_Cell_Multiclass.get_perceived_demand
    rw [if_pos hx]
    exact mul_nonneg (le_min hfc_car (mul_nonneg hffs_car hpd)) hut
  · intro hx hpd
    unfold Ctm_Cell_Multiclass.get_perceived_demand
    rw [if_neg hx]
    exact mul_nonneg (le_min hfc_truck (mul_nonneg hffs_truck hpd)) hut
  · intro hfs hlen hcar htruck hvc hvt hAB
    have h0 : ¬ (c.m_flow_scalar = 0 ∨ c.m_cell_length = 0 ∨ c.m_critical_density_car = 0 ∨
        c.m_critical_density_truck = 0) := by
      push_neg
      exact ⟨hfs.ne', hlen.ne', hcar.ne', htruck.ne'⟩
    obtain ⟨bA, bB, _⟩ := update_perceived_density_branches c h0
    have hrc : 0 ≤ c.rho_car := by
      unfold Ctm_Cell_Multiclass.rho_car section_4_1_rho
      exact div_nonneg (by exact_mod_cast hvc) (mul_nonneg hfs.le hlen.le)
    have hrt : 0 ≤ c.rho_truck := by
      unfold Ctm_Cell_Multiclass.rho_truck section_4_1_rho
      exact div_nonneg (by exact_mod_cast hvt) (mul_nonneg hfs.le hlen.le)
    by_cases hA : regime_A c.rho_car c.rho_truck c.m_critical_density_car
        c.m_critical_density_truck
    · have k6 : 0 ≤ c.rho_car + c.m_critical_density_car *
          (c.rho_truck / c.m_critical_density_truck) :=
        add_nonneg hrc (mul_nonneg hcar.le (div_nonneg hrt htruck.le))
      have k7 : 0 ≤ c.rho_truck + c.m_critical_density_truck *
          (c.rho_car / c.m_critical_density_car) :=
        add_nonneg hrt (mul_nonneg htruck.le (div_nonneg hrc hcar.le))
      exact ⟨_, bA hA, k6, k7, hdemand _ hfc_car hfc_truck hffs_car hffs_truck hut k6 k7⟩
    · have hB : regime_B c.rho_car c.rho_truck c.m_critical_density_truck c.m_rho_1_N :=
        hAB.resolve_left hA
      have k6 : 0 ≤ c.rho_car / (1 - c.rho_truck / c.m_critical_density_truck) :=
        div_nonneg hrc (by linarith [hB.1])
      exact ⟨_, bB hA hB, k6, htruck.le,
        hdemand _ hfc_car hfc_truck hffs_car hffs_truck hut k6 htruck.le⟩

/-- The cell with 40 cars and 2 trucks is in regime A; after
`update_perceived_density` its perceived densities are >= 0 and so is its
demand of trucks. -/
theorem demand_nonneg_in_regimes_A_and_B_witness :
    ∃ c1, cell_4_5_and_1_10.update_perceived_density = some c1 ∧
      0 ≤ c1.m_perceived_density_car ∧ 0 ≤ c1.m_perceived_density_truck ∧
      0 ≤ c1.get_perceived_demand 1 :=
  (demand_nonneg_in_regimes_A_and_B cell_4_5_and_1_10 1 (by decide!) (by decide!) (by decide!)
    (by decide!) (by decide!)).2.2 (by decide!) (by decide!) (by decide!) (by decide!)
    (by decide!) (by decide!) (Or.inl (by decide!))

/-- C30: for every cell and each class x (0 the cars, any other value the
trucks) with `unit_time > 0` and `flow_cap_x >= 0`, `get_perceived_supply(x)`
equals `max(0, min(flow_cap_x, wave_speed_x * (hold_cap_x -
perceived_density_x))) * unit_time`, is >= 0 and is <= `flow_cap_x *
unit_time`. -/
theorem get_perceived_supply_bounds (c : Ctm_Cell_Multiclass) (x : Int)
    (hut : 0 < c.m_unit_time)
    (hfc : 0 ≤ (if x = 0 then c.m_flow_cap_car else c.m_flow_cap_truck)) :
    c.get_perceived_supply x =
        section_4_2_supply (if x = 0 then c.m_flow_cap_car else c.m_flow_cap_truck)
          (if x = 0 then c.m_wave_speed_car else c.m_wave_speed_truck)
          (if x = 0 then c.m_hold_cap_car else c.m_hold_cap_truck)
          (if x = 0 then c.m_perceived_density_car else c.m_perceived_density_truck)
          c.m_unit_time ∧
      0 ≤ c.get_perceived_supply x ∧
      c.get_perceived_supply x ≤
        (if x = 0 then c.m_flow_cap_car else c.m_flow_cap_truck) * c.m_unit_time := by
  unfold Ctm_Cell_Multiclass.get_perceived_supply section_4_2_supply
  by_cases hx : x = 0
  · simp only [hx, if_true] at hfc ⊢
    refine ⟨trivial, mul_nonneg (le_max_left _ _) hut.le, ?_⟩
    exact mul_le_mul_of_nonneg_right (max_le hfc (min_le_left _ _)) hut.le
  · simp only [hx, if_false] at hfc ⊢
    refine ⟨trivial, mul_nonneg (le_max_left _ _) hut.le, ?_⟩
    exact mul_le_mul_of_nonneg_right (max_le hfc (min_le_left _ _)) hut.le

/-- Witness of `get_perceived_supply_bounds`: the supply of cars of the cell
with 40 cars and 2 trucks, whose perceived densities are 0, is
`min(1/2, 40/11 * 3/16) * 10 = 5`, the whole flow capacity of one tick. -/
theorem get_perceived_supply_bounds_witness :
    cell_4_5_and_1_10.get_perceived_supply 0 =
        section_4_2_supply (1 / 2) (40 / 11) (3 / 16) 0 10 ∧
      0 ≤ cell_4_5_and_1_10.get_perceived_supply 0 ∧
      cell_4_5_and_1_10.get_perceived_supply 0 ≤ 1 / 2 * 10 ∧
      cell_4_5_and_1_10.get_perceived_supply 0 = 5 := by
  have h := get_perceived_supply_bounds cell_4_5_and_1_10 0 (by decide!) (by decide!)
  exact ⟨h.1, h.2.1, h.2.2, by decide!⟩

/-! ### The out counts of the cells -/

/-- The helper `MNM_Ults::min` is the smaller of its arguments. -/
theorem MNM_Ults_min_eq (a b : ℚ) : MNM_Ults.min a b = min a b := by
  unfold MNM_Ults.min
  split_ifs with h
  · exact (min_eq_right h.le).symm
  · exact (min_eq_left (not_lt.mp h)).symm

/-- The body of the loop of `update_out_veh` gives cell `i` the out counts of
section 4.3. -/
theorem update_out_veh_loop_step (round : ℚ → Int) (fs : ℚ) (ci cj : Ctm_Cell_Multiclass) :
    ({ ci with
        m_out_veh_car :=
          round (ci.m_space_fraction_car *
            MNM_Ults.min (ci.get_perceived_demand 0) (cj.get_perceived_supply 0) * fs)
        m_out_veh_truck :=
          round (ci.m_space_fraction_truck *
            MNM_Ults.min (ci.get_perceived_demand 1) (cj.get_perceived_supply 1) * fs) } :
      Ctm_Cell_Multiclass) = ci.section_4_3_out round fs cj := by
  simp [Ctm_Cell_Multiclass.section_4_3_out, section_4_3_out_veh, section_4_2_demand,
    section_4_2_supply, Ctm_Cell_Multiclass.get_perceived_demand,
    Ctm_Cell_Multiclass.get_perceived_supply, MNM_Ults_min_eq]

/-- The loop of `update_out_veh` over the cells `i, ..., i + n - 1`: each of
them gets the out counts of section 4.3 from its own state and the state of
the next cell; the other cells stay as they are. -/
theorem update_out_veh_loop_spec (round : ℚ → Int) (fs : ℚ) :
    ∀ (n i : Nat) (cells : List Ctm_Cell_Multiclass), i + n + 1 ≤ cells.length →
      ∃ cells1, update_out_veh_loop round fs n i cells = some cells1 ∧
        cells1.length = cells.length ∧
        (∀ k, (k < i ∨ i + n ≤ k) → cells1[k]? = cells[k]?) ∧
        (∀ k ci cj, i ≤ k → k < i + n → cells[k]? = some ci → cells[k + 1]? = some cj →
          cells1[k]? = some (ci.section_4_3_out round fs cj)) := by
  intro n
  induction n with
  | zero =>
    intro i cells _
    exact ⟨cells, rfl, rfl, fun _ _ => rfl, fun k _ _ h1 h2 => by omega⟩
  | succ n ih =>
    intro i cells hlen
    obtain ⟨ci, hci⟩ : ∃ c, cells[i]? = some c := ⟨_, List.getElem?_eq_getElem (by omega)⟩
    obtain ⟨cj, hcj⟩ : ∃ c, cells[i + 1]? = some c := ⟨_, List.getElem?_eq_getElem (by omega)⟩
    rw [update_out_veh_loop, hci, hcj]
    simp only
    rw [update_out_veh_loop_step]
    obtain ⟨cells1, h1, h2, h3, h4⟩ :=
      ih (i + 1) (cells.set i (ci.section_4_3_out round fs cj))
        (by rw [List.length_set]; omega)
    rw [List.length_set] at h2
    refine ⟨cells1, h1, h2, ?_, ?_⟩
    · intro k hk
      rw [h3 k (by omega), List.getElem?_set_ne (by omega)]
    · intro k ck cl hk1 hk2 hck hcl
      by_cases hki : k = i
      · subst hki
        rw [h3 k (by omega), List.getElem?_set_self (by omega)]
        rw [hci] at hck
        rw [hcj] at hcl
        cases hck
        cases hcl
        rfl
      · apply h4 k ck cl (by omega) (by omega)
        · rw [List.getElem?_set_ne (by omega)]
          exact hck
        · rw [List.getElem?_set_ne (by omega)]
          exact hcl

/-- What `update_out_veh` gives a link that has its `m_num_cells >= 1` cells:
the out counts of section 4.3 for every cell but the last, and the lengths of
its queues for the last cell. -/
theorem update_out_veh_spec (round : ℚ → Int) (l : MNM_Dlink_Ctm_Multiclass)
    (hcells : (l.m_cell_array.length : Int) = l.m_num_cells) (hpos : 0 < l.m_num_cells) :
    ∃ l1, l.update_out_veh round = some l1 ∧
      l1 = { l with m_cell_array := l1.m_cell_array } ∧
      l1.m_cell_array.length = l.m_cell_array.length ∧
      (∀ i ci cj, i + 1 < l.m_cell_array.length → l.m_cell_array[i]? = some ci →
        l.m_cell_array[i + 1]? = some cj →
        l1.m_cell_array[i]? = some (ci.section_4_3_out round l.m_flow_scalar cj)) ∧
      (∀ c, l.m_cell_array[l.m_cell_array.length - 1]? = some c →
        l1.m_cell_array[l.m_cell_array.length - 1]? =
          some { c with
            m_out_veh_car := (c.m_veh_queue_car.length : Int)
            m_out_veh_truck := (c.m_veh_queue_truck.length : Int) }) := by
  have hn : (l.m_num_cells - 1).toNat = l.m_cell_array.length - 1 := by omega
  obtain ⟨cells1, h1, h2, h3, h4⟩ : ∃ cells1,
      (if l.m_num_cells > 1 then
        update_out_veh_loop round l.m_flow_scalar (l.m_num_cells - 1).toNat 0 l.m_cell_array
      else some l.m_cell_array) = some cells1 ∧
      cells1.length = l.m_cell_array.length ∧
      (∀ k, l.m_cell_array.length - 1 ≤ k → cells1[k]? = l.m_cell_array[k]?) ∧
      (∀ k ci cj, k + 1 < l.m_cell_array.length → l.m_cell_array[k]? = some ci →
        l.m_cell_array[k + 1]? = some cj →
        cells1[k]? = some (ci.section_4_3_out round l.m_flow_scalar cj)) := by
    split_ifs with hgt
    · obtain ⟨cells1, k1, k2, k3, k4⟩ := update_out_veh_loop_spec round l.m_flow_scalar
        (l.m_num_cells - 1).toNat 0 l.m_cell_array (by omega)
      refine ⟨cells1, k1, k2, fun k hk => k3 k (Or.inr (by omega)), ?_⟩
      intro k ci cj hk hci hcj
      exact k4 k ci cj (by omega) (by omega) hci hcj
    · refine ⟨l.m_cell_array, rfl, rfl, fun _ _ => rfl, ?_⟩
      intro k ci cj hk
      omega
  obtain ⟨c, hc⟩ : ∃ c, l.m_cell_array[l.m_cell_array.length - 1]? = some c :=
    ⟨_, List.getElem?_eq_getElem (by omega)⟩
  have hvec : vec_at cells1 (l.m_num_cells - 1) = some c := by
    unfold vec_at
    rw [if_pos (by omega), hn, h3 _ le_rfl, hc]
  unfold MNM_Dlink_Ctm_Multiclass.update_out_veh
  simp only [h1, hvec]
  refine ⟨_, rfl, rfl, ?_, ?_, ?_⟩
  · simp only [vec_set]
    rw [if_pos (by omega), List.length_set, h2]
  · intro i ci cj hi hci hcj
    simp only [vec_set]
    rw [if_pos (by omega), hn, List.getElem?_set_ne (by omega)]
    exact h4 i ci cj hi hci hcj
  · intro c1 hc1
    rw [hc] at hc1
    cases hc1
    simp only [vec_set]
    rw [if_pos (by omega), hn, List.getElem?_set_self (by omega)]

/-- C31: `update_out_veh` of a link with its `m_num_cells >= 1` cells gives
every cell `i` other than the last, for each class x, the out count
`round(space_fraction_x[i] * min(demand_x[i], supply_x[i+1]) * flow_scalar)`
with the demand and the supply of section 4.2, and gives the last cell the
lengths of its car and truck queues as out counts; nothing else changes. -/
theorem update_out_veh_section_4_3 (round : ℚ → Int) (l : MNM_Dlink_Ctm_Multiclass)
    (hcells : (l.m_cell_array.length : Int) = l.m_num_cells) (hpos : 0 < l.m_num_cells) :
    ∃ l1, l.update_out_veh round = some l1 ∧
      l1 = { l with m_cell_array := l1.m_cell_array } ∧
      l1.m_cell_array.length = l.m_cell_array.length ∧
      (∀ i ci cj, i + 1 < l.m_cell_array.length → l.m_cell_array[i]? = some ci →
        l.m_cell_array[i + 1]? = some cj →
        l1.m_cell_array[i]? = some (ci.section_4_3_out round l.m_flow_scalar cj)) ∧
      (∀ c, l.m_cell_array[l.m_cell_array.length - 1]? = some c →
        l1.m_cell_array[l.m_cell_array.length - 1]? =
          some { c with
            m_out_veh_car := (c.m_veh_queue_car.length : Int)
            m_out_veh_truck := (c.m_veh_queue_truck.length : Int) }) :=
  update_out_veh_spec round l hcells hpos

/-- Witness of `update_out_veh_section_4_3`: on `link_200m_2_cars` the car
demand of cell 0 is 2 and the car supply of cell 1 is 3, so that cell 0 gets
the out counts `round(2/3 * 2 * 1) = 1` and 0; the last cell, whose queues
are empty, gets 0 and 0. -/
theorem update_out_veh_section_4_3_witness :
    ∃ l1, link_200m_2_cars.update_out_veh round_half_up = some l1 ∧
      l1.m_cell_array.length = 2 ∧
      (link_200m_2_cars.update_out_veh round_half_up).map
          (fun l => l.m_cell_array.map (fun c => (c.m_out_veh_car, c.m_out_veh_truck))) =
        some [(1, 0), (0, 0)] := by
  obtain ⟨l1, h1, _, h3, _⟩ :=
    update_out_veh_section_4_3 round_half_up link_200m_2_cars (by decide) (by decide)
  exact ⟨l1, h1, h3, by decide!⟩

/-! ### Demand and supply at the junction -/

/-- The car-equivalent count of `prepare_supplyANDdemand` is the number of
cars bound for the out-link plus the convert factor times the number of such
trucks. -/
theorem equiv_count_eq (_in_link _out_link : MNM_Dlink_Ctm_Multiclass) :
    equiv_count _in_link _out_link =
      ((_in_link.m_finished_array.countP
          (fun v => decide (v.m_next_link = some _out_link.m_link_ID ∧ v.m_class = 0)) : Nat) : ℚ)
        + _in_link.m_veh_convert_factor *
          ((_in_link.m_finished_array.countP
            (fun v => decide (v.m_next_link = some _out_link.m_link_ID ∧ ¬ v.m_class = 0)) :
              Nat) : ℚ) := by
  unfold equiv_count
  have hfold : ∀ (vs : List MNM_Veh_Multiclass) (acc : ℚ),
      vs.foldl
        (fun _equiv_count _veh =>
          if _veh.m_next_link = some _out_link.m_link_ID then
            if _veh.m_class = 0 then _equiv_count + 1
            else _equiv_count + _in_link.m_veh_convert_factor
          else _equiv_count)
        acc =
      acc + (((vs.countP
          (fun v => decide (v.m_next_link = some _out_link.m_link_ID ∧ v.m_class = 0)) : Nat) : ℚ)
        + _in_link.m_veh_convert_factor *
          ((vs.countP
            (fun v => decide (v.m_next_link = some _out_link.m_link_ID ∧ ¬ v.m_class = 0)) :
              Nat) : ℚ)) := by
    intro vs
    induction vs with
    | nil => intro acc; simp
    | cons v rest ih =>
      intro acc
      rw [List.foldl_cons, ih, List.countP_cons, List.countP_cons]
      by_cases hnext : v.m_next_link = some _out_link.m_link_ID
      · by_cases hclass : v.m_class = 0
        · simp only [hnext, hclass, if_true, and_self, decide_True, not_true_eq_false,
            and_false, decide_False, Bool.false_eq_true, if_false, add_zero, Nat.cast_add,
            Nat.cast_one]
          ring
        · simp only [hnext, hclass, if_true, if_false, and_false, decide_False,
            Bool.false_eq_true, add_zero, not_false_eq_true, and_self, decide_True,
            Nat.cast_add, Nat.cast_one]
          ring
      · simp only [hnext, if_false, false_and, decide_False, Bool.false_eq_true, add_zero]
  rw [hfold, zero_add]

/-- The demand row of an in-link: the entries `_offset * i + j`, ... of the
out-links left get their demand, the other entries stay. -/
theorem prepare_demand_row_spec (fs : ℚ) (_offset i : Nat) (_in_link : MNM_Dlink_Ctm_Multiclass) :
    ∀ (outs : List MNM_Dlink_Ctm_Multiclass) (j : Nat) (demand : Nat → ℚ),
      (∀ m o, outs[m]? = some o →
        prepare_demand_row fs _offset i _in_link j outs demand (_offset * i + (j + m)) =
          equiv_count _in_link o / fs) ∧
      (∀ k, (k < _offset * i + j ∨ _offset * i + (j + outs.length) ≤ k) →
        prepare_demand_row fs _offset i _in_link j outs demand k = demand k) := by
  intro outs
  induction outs with
  | nil =>
    intro j demand
    exact ⟨fun m o h => by simp at h, fun k _ => rfl⟩
  | cons o rest ih =>
    intro j demand
    obtain ⟨h1, h2⟩ := ih (j + 1)
      (Function.update demand (_offset * i + j) (equiv_count _in_link o / fs))
    rw [prepare_demand_row]
    constructor
    · intro m o1 hm
      cases m with
      | zero =>
        simp only [List.getElem?_cons_zero, Option.some.injEq] at hm
        rw [h2 _ (Or.inl (by omega)), add_zero, Function.update_same, hm]
      | succ m =>
        simp only [List.getElem?_cons_succ] at hm
        have := h1 m o1 hm
        rw [show j + 1 + m = j + (m + 1) by omega] at this
        exact this
    · intro k hk
      rw [List.length_cons] at hk
      rw [h2 k (by omega), Function.update_noteq (by omega)]

/-- The vehicles checked by `prepare_supplyANDdemand` all have their next
link among the out-links: the check returns. -/
theorem check_next_links_returned (out_links : List MNM_Dlink_Ctm_Multiclass) :
    ∀ vs : List MNM_Veh_Multiclass,
      (∀ v ∈ vs, ∃ o ∈ out_links, v.m_next_link = some o.m_link_ID) →
      check_next_links out_links vs = .returned () := by
  intro vs
  induction vs with
  | nil => intro _; rfl
  | cons v rest ih =>
    intro h
    obtain ⟨o, ho, hnext⟩ := h v (List.mem_cons_self _ _)
    rw [check_next_links, hnext]
    simp only
    rw [if_pos (List.any_eq_true.mpr ⟨o, ho, by simp⟩)]
    exact ih (fun w hw => h w (List.mem_cons_of_mem _ hw))

/-- The demand loop over the in-links: every pair (in-link, out-link) gets
its demand, the entries of the rows before stay. -/
theorem prepare_demand_spec (fs : ℚ) (out_links : List MNM_Dlink_Ctm_Multiclass) :
    ∀ (ins : List MNM_Dlink_Ctm_Multiclass) (i : Nat) (demand : Nat → ℚ),
      (∀ l ∈ ins, ∀ v ∈ l.m_finished_array, ∃ o ∈ out_links, v.m_next_link = some o.m_link_ID) →
      ∃ demand1, prepare_demand fs out_links i ins demand = .returned demand1 ∧
        (∀ m j l o, ins[m]? = some l → out_links[j]? = some o →
          demand1 (out_links.length * (i + m) + j) = equiv_count l o / fs) ∧
        (∀ k, k < out_links.length * i → demand1 k = demand k) := by
  intro ins
  induction ins with
  | nil =>
    intro i demand _
    exact ⟨demand, rfl, fun m j l o h => by simp at h, fun k _ => rfl⟩
  | cons l rest ih =>
    intro i demand h
    rw [prepare_demand,
      check_next_links_returned out_links l.m_finished_array (h l (List.mem_cons_self _ _))]
    simp only
    obtain ⟨r1, r2⟩ := prepare_demand_row_spec fs out_links.length i l out_links 0 demand
    obtain ⟨demand1, k1, k2, k3⟩ := ih (i + 1)
      (prepare_demand_row fs out_links.length i l 0 out_links demand)
      (fun l1 hl1 => h l1 (List.mem_cons_of_mem _ hl1))
    refine ⟨demand1, k1, ?_, ?_⟩
    · intro m j l1 o hm hj
      have hjlt : j < out_links.length := (List.getElem?_eq_some.mp hj).1
      cases m with
      | zero =>
        simp only [List.getElem?_cons_zero, Option.some.injEq] at hm
        rw [add_zero, k3 _ (by rw [Nat.mul_succ]; omega)]
        have := r1 j o hj
        rw [zero_add] at this
        rw [this, hm]
      | succ m =>
        simp only [List.getElem?_cons_succ] at hm
        have := k2 m j l1 o hm hj
        rw [show i + 1 + m = i + (m + 1) by omega] at this
        exact this
    · intro k hk
      rw [k3 k (by rw [Nat.mul_succ]; omega), r2 k (Or.inl (by omega))]

/-- The supply loop: every out-link with a cell 0 gets its supply, the
entries before stay. -/
theorem prepare_supply_spec :
    ∀ (outs : List MNM_Dlink_Ctm_Multiclass) (j : Nat) (supply : Nat → ℚ),
      (∀ o ∈ outs, o.m_cell_array ≠ []) →
      ∃ supply1, prepare_supply j outs supply = some supply1 ∧
        (∀ m o, outs[m]? = some o → some (supply1 (j + m)) = o.get_link_supply) ∧
        (∀ k, k < j → supply1 k = supply k) := by
  intro outs
  induction outs with
  | nil =>
    intro j supply _
    exact ⟨supply, rfl, fun m o h => by simp at h, fun k _ => rfl⟩
  | cons o rest ih =>
    intro j supply h
    obtain ⟨s, hs⟩ : ∃ s, o.get_link_supply = some s := by
      have hne := h o (List.mem_cons_self _ _)
      unfold MNM_Dlink_Ctm_Multiclass.get_link_supply
      cases hc : o.m_cell_array with
      | nil => exact absurd hc hne
      | cons c0 cells => exact ⟨_, rfl⟩
    rw [prepare_supply, hs]
    simp only
    obtain ⟨supply1, k1, k2, k3⟩ := ih (j + 1) (Function.update supply j s)
      (fun o1 ho1 => h o1 (List.mem_cons_of_mem _ ho1))
    refine ⟨supply1, k1, ?_, ?_⟩
    · intro m o1 hm
      cases m with
      | zero =>
        simp only [List.getElem?_cons_zero, Option.some.injEq] at hm
        rw [add_zero, k3 j (by omega), Function.update_same, ← hm, hs]
      | succ m =>
        simp only [List.getElem?_cons_succ] at hm
        have := k2 m o1 hm
        rw [show j + 1 + m = j + (m + 1) by omega] at this
        exact this
    · intro k hk
      rw [k3 k (by omega), Function.update_noteq (by omega)]

/-- What `prepare_supplyANDdemand` computes when every finished vehicle of
the in-links is bound for an out-link and every out-link has a cell 0. -/
theorem prepare_supplyANDdemand_returned (n : MNM_Dnode_Inout_Multiclass)
    (hnext : ∀ l ∈ n.m_in_link_array, ∀ v ∈ l.m_finished_array,
      ∃ o ∈ n.m_out_link_array, v.m_next_link = some o.m_link_ID)
    (hcell : ∀ o ∈ n.m_out_link_array, o.m_cell_array ≠ []) :
    ∃ demand supply,
      n.prepare_supplyANDdemand = .returned { n with m_demand := demand, m_supply := supply } ∧
      (∀ i j l o, n.m_in_link_array[i]? = some l → n.m_out_link_array[j]? = some o →
        demand (n.m_out_link_array.length * i + j) = equiv_count l o / n.m_flow_scalar) ∧
      (∀ j o, n.m_out_link_array[j]? = some o → some (supply j) = o.get_link_supply) := by
  obtain ⟨demand, d1, d2, _⟩ :=
    prepare_demand_spec n.m_flow_scalar n.m_out_link_array n.m_in_link_array 0 n.m_demand hnext
  obtain ⟨supply, s1, s2, _⟩ := prepare_supply_spec n.m_out_link_array 0 n.m_supply hcell
  refine ⟨demand, supply, ?_, ?_, ?_⟩
  · unfold MNM_Dnode_Inout_Multiclass.prepare_supplyANDdemand
    rw [d1]
    simp only
    rw [s1]
  · intro i j l o hi hj
    have := d2 i j l o hi hj
    rw [zero_add] at this
    exact this
  · intro j o hj
    have := s2 j o hj
    rw [zero_add] at this
    exact this

/-- C32: when every finished vehicle of the in-links is bound for an out-link
of the node (no routing error) and every out-link has a cell 0,
`prepare_supplyANDdemand` returns and changes only `m_demand` and `m_supply`:
for every in-link i and out-link j, `demand[i,j]` is the number of cars of
`in_link[i].finished_array` whose next link is `out_link[j]` plus
`in_link[i].veh_convert_factor` times the number of such trucks, divided by
the flow scalar, and `supply[j]` is `out_link[j].get_link_supply()`. -/
theorem prepare_supplyANDdemand_section_4_6 (n : MNM_Dnode_Inout_Multiclass)
    (_hfs : n.m_flow_scalar ≠ 0)
    (hnext : ∀ l ∈ n.m_in_link_array, ∀ v ∈ l.m_finished_array,
      ∃ o ∈ n.m_out_link_array, v.m_next_link = some o.m_link_ID)
    (hcell : ∀ o ∈ n.m_out_link_array, o.m_cell_array ≠ []) :
    ∃ n1, n.prepare_supplyANDdemand = .returned n1 ∧
      n1 = { n with m_demand := n1.m_demand, m_supply := n1.m_supply } ∧
      (∀ i j l o, n.m_in_link_array[i]? = some l → n.m_out_link_array[j]? = some o →
        n1.m_demand (n.m_out_link_array.length * i + j) =
          section_4_6_demand n.m_flow_scalar l o) ∧
      (∀ j o, n.m_out_link_array[j]? = some o → some (n1.m_supply j) = o.get_link_supply) := by
  obtain ⟨demand, supply, h1, h2, h3⟩ := prepare_supplyANDdemand_returned n hnext hcell
  refine ⟨_, h1, rfl, ?_, h3⟩
  intro i j l o hi hj
  show demand (n.m_out_link_array.length * i + j) = section_4_6_demand n.m_flow_scalar l o
  rw [h2 i j l o hi hj, equiv_count_eq]
  rfl

/-- Witness of `prepare_supplyANDdemand_section_4_6`: for `junction_2_in_links`
the demands are 2 (two cars) and 3 (a car and a truck of factor 2) and the
supply of the out-link is 3. -/
theorem prepare_supplyANDdemand_section_4_6_witness :
    ∃ n1, junction_2_in_links.prepare_supplyANDdemand = .returned n1 ∧
      n1.m_demand 0 = 2 ∧ n1.m_demand 1 = 3 ∧ n1.m_supply 0 = 3 := by
  obtain ⟨n1, h1, _, h3, h4⟩ := prepare_supplyANDdemand_section_4_6 junction_2_in_links
    (by decide!) (by decide) (by decide)
  refine ⟨n1, h1, ?_, ?_, ?_⟩
  · exact (h3 0 0 _ _ rfl rfl).trans (by decide!)
  · exact (h3 1 0 _ _ rfl rfl).trans (by decide!)
  · exact Option.some.inj ((h4 0 _ rfl).trans (by decide!))

/-! ### The flows of the FWJ node -/

/-- Writing, for `i = 0, ..., m - 1`, the value `val (idx i)` at the index
`idx i` of an array. -/
theorem foldl_update_range (idx : Nat → Nat) (val : Nat → ℚ) (f0 : Nat → ℚ) :
    ∀ (m k : Nat),
      (List.range m).foldl (fun f i => Function.update f (idx i) (val (idx i))) f0 k =
        if ∃ i, i < m ∧ idx i = k then val k else f0 k := by
  intro m
  induction m with
  | zero => intro k; simp
  | succ m ih =>
    intro k
    rw [List.range_succ, List.foldl_append, List.foldl_cons, List.foldl_nil]
    by_cases hk : idx m = k
    · rw [← hk, Function.update_same, if_pos ⟨m, Nat.lt_succ_self m, rfl⟩]
    · rw [Function.update_noteq (Ne.symm hk), ih k]
      by_cases hex : ∃ i, i < m ∧ idx i = k
      · obtain ⟨i, hi, hik⟩ := hex
        rw [if_pos ⟨i, hi, hik⟩, if_pos ⟨i, Nat.lt_succ_of_lt hi, hik⟩]
      · rw [if_neg hex, if_neg]
        rintro ⟨i, hi, hik⟩
        rcases Nat.lt_succ_iff_lt_or_eq.mp hi with h | h
        · exact hex ⟨i, h, hik⟩
        · exact hk (h ▸ hik)

/-- The sum `_sum_in_flow` of `compute_flow` is the total demand of the
out-link. -/
theorem sum_in_flow_eq (num_in _offset j : Nat) (demand : Nat → ℚ) :
    (List.range num_in).foldl (fun acc i => acc + demand (i * _offset + j)) 0 =
      section_4_6_total_demand num_in _offset j demand := by
  unfold section_4_6_total_demand
  induction num_in with
  | zero => simp
  | succ m ih =>
    rw [List.range_succ, List.foldl_append, List.foldl_cons, List.foldl_nil, ih,
      Finset.sum_range_succ]

/-- The flow that `compute_flow` writes is the flow of section 4.6. -/
theorem compute_flow_value (d T s : ℚ) :
    MNM_Ults.min d (MNM_Ults.divide d T * s) = section_4_6_veh_flow d T s := by
  unfold section_4_6_veh_flow MNM_Ults.divide
  rw [MNM_Ults_min_eq]

/-- One column of `compute_flow`: the entries `i * _offset + j` of the
in-links get the flow of section 4.6, the other entries stay. -/
theorem compute_flow_column_spec (num_in _offset j : Nat) (demand supply veh_flow : Nat → ℚ)
    (k : Nat) :
    compute_flow_column num_in _offset j demand supply veh_flow k =
      if ∃ i, i < num_in ∧ i * _offset + j = k then
        section_4_6_veh_flow (demand k)
          (section_4_6_total_demand num_in _offset j demand) (supply j)
      else veh_flow k := by
  unfold compute_flow_column
  simp only [sum_in_flow_eq, compute_flow_value]
  exact foldl_update_range (fun i => i * _offset + j)
    (fun k => section_4_6_veh_flow (demand k)
      (section_4_6_total_demand num_in _offset j demand) (supply j)) veh_flow num_in k

/-- The columns `0, ..., m - 1` of `compute_flow`. -/
theorem compute_flow_columns_spec (num_in _offset : Nat) (demand supply veh_flow : Nat → ℚ) :
    ∀ (m i j : Nat), m ≤ _offset → i < num_in → j < _offset →
      (List.range m).foldl
          (fun flow j => compute_flow_column num_in _offset j demand supply flow) veh_flow
          (i * _offset + j) =
        if j < m then
          section_4_6_veh_flow (demand (i * _offset + j))
            (section_4_6_total_demand num_in _offset j demand) (supply j)
        else veh_flow (i * _offset + j) := by
  intro m
  induction m with
  | zero => intro i j _ _ _; simp
  | succ m ih =>
    intro i j hm hi hj
    rw [List.range_succ, List.foldl_append, List.foldl_cons, List.foldl_nil,
      compute_flow_column_spec]
    by_cases hjm : j = m
    · subst hjm
      rw [if_pos ⟨i, hi, rfl⟩, if_pos (Nat.lt_succ_self j)]
    · have hno : ¬ ∃ i1, i1 < num_in ∧ i1 * _offset + m = i * _offset + j := by
        rintro ⟨i1, _, h⟩
        have hmlt : m < _offset := by omega
        have h1 : (i1 * _offset + m) % _offset = (i * _offset + j) % _offset := by rw [h]
        rw [Nat.mul_add_mod_of_lt hmlt, Nat.mul_add_mod_of_lt hj] at h1
        exact hjm h1.symm
      rw [if_neg hno, ih i j (by omega) hi hj]
      by_cases hlt : j < m
      · rw [if_pos hlt, if_pos (by omega)]
      · rw [if_neg hlt, if_neg (by omega)]

/-- The entry of `m_veh_flow` that `compute_flow` leaves for the in-link `i`
and the out-link `j`. -/
theorem compute_flow_entry (n : MNM_Dnode_Inout_Multiclass) (i j : Nat)
    (hi : i < n.m_in_link_array.length) (hj : j < n.m_out_link_array.length) :
    (MNM_Dnode_FWJ_Multiclass.compute_flow n).m_veh_flow (i * n.m_out_link_array.length + j) =
      section_4_6_veh_flow (n.m_demand (i * n.m_out_link_array.length + j))
        (section_4_6_total_demand n.m_in_link_array.length n.m_out_link_array.length j
          n.m_demand)
        (n.m_supply j) := by
  unfold MNM_Dnode_FWJ_Multiclass.compute_flow
  simp only
  rw [compute_flow_columns_spec _ _ _ _ _ _ i j le_rfl hi hj, if_pos hj]

/-- C33: FWJ `compute_flow` changes only `m_veh_flow` and sets, for every
in-link i and out-link j, `veh_flow[i,j] = min(demand[i,j], share *
supply[j])` with `share = demand[i,j] / total_demand_j`, `total_demand_j` the
sum of `demand[i,j]` over i, and `share = 0` when `total_demand_j = 0` (the
guarded division); so when `total_demand_j = 0` the flow of a demand that is
not negative is 0. -/
theorem compute_flow_section_4_6 (n : MNM_Dnode_Inout_Multiclass) (i j : Nat)
    (hi : i < n.m_in_link_array.length) (hj : j < n.m_out_link_array.length) :
    MNM_Dnode_FWJ_Multiclass.compute_flow n =
        { n with m_veh_flow := (MNM_Dnode_FWJ_Multiclass.compute_flow n).m_veh_flow } ∧
      (MNM_Dnode_FWJ_Multiclass.compute_flow n).m_veh_flow (i * n.m_out_link_array.length + j) =
        section_4_6_veh_flow (n.m_demand (i * n.m_out_link_array.length + j))
          (section_4_6_total_demand n.m_in_link_array.length n.m_out_link_array.length j
            n.m_demand)
          (n.m_supply j) ∧
      (section_4_6_total_demand n.m_in_link_array.length n.m_out_link_array.length j
          n.m_demand ≠ 0 →
        (MNM_Dnode_FWJ_Multiclass.compute_flow n).m_veh_flow
            (i * n.m_out_link_array.length + j) =
          min (n.m_demand (i * n.m_out_link_array.length + j))
            (n.m_demand (i * n.m_out_link_array.length + j) /
              section_4_6_total_demand n.m_in_link_array.length n.m_out_link_array.length j
                n.m_demand * n.m_supply j)) ∧
      (section_4_6_total_demand n.m_in_link_array.length n.m_out_link_array.length j
          n.m_demand = 0 →
        0 ≤ n.m_demand (i * n.m_out_link_array.length + j) →
        (MNM_Dnode_FWJ_Multiclass.compute_flow n).m_veh_flow
            (i * n.m_out_link_array.length + j) = 0) := by
  refine ⟨rfl, compute_flow_entry n i j hi hj, ?_, ?_⟩
  · intro hT
    rw [compute_flow_entry n i j hi hj, section_4_6_veh_flow, if_neg hT]
  · intro hT hd
    rw [compute_flow_entry n i j hi hj, section_4_6_veh_flow, if_pos hT, zero_mul]
    exact min_eq_right hd

/-- Witness of `compute_flow_section_4_6`: with the demands 2 and 3 and the
supply 3 the flow of the second in-link is `min(3, 3/5 * 3) = 9/5`. -/
theorem compute_flow_section_4_6_witness :
    (MNM_Dnode_FWJ_Multiclass.compute_flow junction_2_in_links_demand).m_veh_flow
        (1 * junction_2_in_links_demand.m_out_link_array.length + 0) = 9 / 5 := by
  rw [(compute_flow_section_4_6 junction_2_in_links_demand 1 0 (by decide) (by decide)).2.1]
  decide!

/-- C38: FWJ `compute_flow` never over-assigns: for every out-link j with
`supply[j] >= 0` and demands `demand[i,j] >= 0`, the sum over the in-links i
of `veh_flow[i,j]` is `min(total_demand_j, supply[j])`, and
`0 <= veh_flow[i,j] <= demand[i,j]` for every i. -/
theorem compute_flow_never_over_assigns (n : MNM_Dnode_Inout_Multiclass) (j : Nat)
    (hj : j < n.m_out_link_array.length) (hs : 0 ≤ n.m_supply j)
    (hd : ∀ i, i < n.m_in_link_array.length →
      0 ≤ n.m_demand (i * n.m_out_link_array.length + j)) :
    ∑ i in Finset.range n.m_in_link_array.length,
          (MNM_Dnode_FWJ_Multiclass.compute_flow n).m_veh_flow
            (i * n.m_out_link_array.length + j) =
        min (section_4_6_total_demand n.m_in_link_array.length n.m_out_link_array.length j
          n.m_demand) (n.m_supply j) ∧
      ∀ i, i < n.m_in_link_array.length →
        0 ≤ (MNM_Dnode_FWJ_Multiclass.compute_flow n).m_veh_flow
            (i * n.m_out_link_array.length + j) ∧
          (MNM_Dnode_FWJ_Multiclass.compute_flow n).m_veh_flow
              (i * n.m_out_link_array.length + j) ≤
            n.m_demand (i * n.m_out_link_array.length + j) := by
  have hT0 : 0 ≤ section_4_6_total_demand n.m_in_link_array.length n.m_out_link_array.length j
      n.m_demand :=
    Finset.sum_nonneg (fun i hi => hd i (Finset.mem_range.mp hi))
  have hsum : ∑ i in Finset.range n.m_in_link_array.length,
        (MNM_Dnode_FWJ_Multiclass.compute_flow n).m_veh_flow
          (i * n.m_out_link_array.length + j) =
      ∑ i in Finset.range n.m_in_link_array.length,
        section_4_6_veh_flow (n.m_demand (i * n.m_out_link_array.length + j))
          (section_4_6_total_demand n.m_in_link_array.length n.m_out_link_array.length j
            n.m_demand)
          (n.m_supply j) :=
    Finset.sum_congr rfl (fun i hi => compute_flow_entry n i j (Finset.mem_range.mp hi) hj)
  constructor
  · rw [hsum]
    by_cases hT : section_4_6_total_demand n.m_in_link_array.length n.m_out_link_array.length j
        n.m_demand = 0
    · have hzero : ∀ i ∈ Finset.range n.m_in_link_array.length,
          n.m_demand (i * n.m_out_link_array.length + j) = 0 :=
        (Finset.sum_eq_zero_iff_of_nonneg
          (fun i hi => hd i (Finset.mem_range.mp hi))).mp hT
      rw [hT, min_eq_left hs]
      apply Finset.sum_eq_zero
      intro i hi
      rw [section_4_6_veh_flow, if_pos rfl, zero_mul, hzero i hi, min_self]
    · have hTpos : 0 < section_4_6_total_demand n.m_in_link_array.length
          n.m_out_link_array.length j n.m_demand := lt_of_le_of_ne hT0 (Ne.symm hT)
      by_cases hle : section_4_6_total_demand n.m_in_link_array.length
          n.m_out_link_array.length j n.m_demand ≤ n.m_supply j
      · rw [min_eq_left hle]
        apply Finset.sum_congr rfl
        intro i hi
        rw [section_4_6_veh_flow, if_neg hT]
        apply min_eq_left
        have hdi := hd i (Finset.mem_range.mp hi)
        rw [div_mul_eq_mul_div, le_div_iff₀ hTpos]
        exact mul_le_mul_of_nonneg_left hle hdi
      · have hlt := not_le.mp hle
        rw [min_eq_right hlt.le]
        have hterm : ∀ i ∈ Finset.range n.m_in_link_array.length,
            section_4_6_veh_flow (n.m_demand (i * n.m_out_link_array.length + j))
              (section_4_6_total_demand n.m_in_link_array.length n.m_out_link_array.length j
                n.m_demand) (n.m_supply j) =
            n.m_demand (i * n.m_out_link_array.length + j) *
              (n.m_supply j / section_4_6_total_demand n.m_in_link_array.length
                n.m_out_link_array.length j n.m_demand) := by
          intro i hi
          rw [section_4_6_veh_flow, if_neg hT, div_mul_eq_mul_div, mul_div_assoc]
          apply min_eq_right
          have hdi := hd i (Finset.mem_range.mp hi)
          have hq : n.m_supply j / section_4_6_total_demand n.m_in_link_array.length
              n.m_out_link_array.length j n.m_demand ≤ 1 := by
            rw [div_le_one hTpos]
            exact hlt.le
          calc n.m_demand (i * n.m_out_link_array.length + j) *
                (n.m_supply j / section_4_6_total_demand n.m_in_link_array.length
                  n.m_out_link_array.length j n.m_demand)
              ≤ n.m_demand (i * n.m_out_link_array.length + j) * 1 :=
                mul_le_mul_of_nonneg_left hq hdi
            _ = n.m_demand (i * n.m_out_link_array.length + j) := mul_one _
        rw [Finset.sum_congr rfl hterm, ← Finset.sum_mul]
        have hdef : ∑ i in Finset.range n.m_in_link_array.length,
            n.m_demand (i * n.m_out_link_array.length + j) =
            section_4_6_total_demand n.m_in_link_array.length n.m_out_link_array.length j
              n.m_demand := rfl
        rw [hdef, mul_div_cancel₀ _ hT]
  · intro i hi
    rw [compute_flow_entry n i j hi hj, section_4_6_veh_flow]
    have hdi := hd i hi
    refine ⟨le_min hdi (mul_nonneg ?_ hs), min_le_left _ _⟩
    split_ifs
    · exact le_rfl
    · exact div_nonneg hdi hT0

/-- Witness of `compute_flow_never_over_assigns`: with the demands 2 and 3
and the supply 3 the flows 6/5 and 9/5 add up to `min(5, 3) = 3`. -/
theorem compute_flow_never_over_assigns_witness :
    ∑ i in Finset.range junction_2_in_links_demand.m_in_link_array.length,
        (MNM_Dnode_FWJ_Multiclass.compute_flow junction_2_in_links_demand).m_veh_flow
          (i * junction_2_in_links_demand.m_out_link_array.length + 0) = 3 := by
  rw [(compute_flow_never_over_assigns junction_2_in_links_demand 0 (by decide) (by decide!)
    (by decide!)).1]
  decide!

/-! ### The movement of the vehicles at the junction -/

/-- Once the budget is used up the scan of section 4.6 leaves the vehicles
where they are. -/
theorem section_4_6_scan_stop (out_id : Nat) (vcf : ℚ) (vs : List MNM_Veh_Multiclass)
    (to_move : ℚ) (g : Rng) (h : to_move ≤ 0) :
    section_4_6_scan out_id vcf vs to_move g =
      { kept := vs, moved := [], to_move := to_move, rng := g } := by
  cases vs with
  | nil => rfl
  | cons v rest => rw [section_4_6_scan, if_pos h]

/-- Adding the counts of one more moved vehicle. -/
theorem add_moved_cons (veh_moved : Nat → ℚ) (k : Nat) (p : MNM_Veh_Multiclass → Bool)
    (v : MNM_Veh_Multiclass) (moved : List MNM_Veh_Multiclass) :
    add_moved (if p v = true then Function.update veh_moved k (veh_moved k + 1) else veh_moved)
        k p moved =
      add_moved veh_moved k p (v :: moved) := by
  unfold add_moved
  rw [List.countP_cons]
  by_cases hp : p v = true
  · simp only [hp, if_true, Function.update_same, Function.update_idem]
    by_cases h0 : moved.countP p = 0
    · simp [h0]
    · rw [if_neg h0, if_neg (by omega)]
      push_cast
      ring_nf
  · simp only [hp, if_false, Bool.false_eq_true, add_zero]

/-- The `while` loop of `move_vehicle` refines the scan of section 4.6: with
the fuel that `move_vehicle_in_links` gives it, it ends, and it leaves the
vehicles, the budget, the counters and the random source that the scan of
section 4.6 gives from the iterator on. -/
theorem move_vehicle_scan_refines (out_id : Nat) (vcf : ℚ) (k : Nat) :
    ∀ (fuel : Nat) (s : move_scan),
      2 * s.ahead.length + (if s.to_move > 0 then 1 else 0) < fuel →
      ∃ s1, move_vehicle_scan out_id vcf k fuel s = some s1 ∧
        s1.passed ++ s1.ahead =
          s.passed ++ (section_4_6_scan out_id vcf s.ahead s.to_move s.rng).kept ∧
        s1.incoming = s.incoming ++
          (section_4_6_scan out_id vcf s.ahead s.to_move s.rng).moved.map
            (fun v => v.set_current_link (some out_id)) ∧
        s1.to_move = (section_4_6_scan out_id vcf s.ahead s.to_move s.rng).to_move ∧
        s1.rng = (section_4_6_scan out_id vcf s.ahead s.to_move s.rng).rng ∧
        s1.veh_moved_car = add_moved s.veh_moved_car k (fun v => decide (v.m_class = 0))
          (section_4_6_scan out_id vcf s.ahead s.to_move s.rng).moved ∧
        s1.veh_moved_truck = add_moved s.veh_moved_truck k (fun v => decide (¬ v.m_class = 0))
          (section_4_6_scan out_id vcf s.ahead s.to_move s.rng).moved := by
  intro fuel
  induction fuel with
  | zero => intro s h; omega
  | succ fuel ih =>
    intro s h
    rw [move_vehicle_scan]
    cases hq : s.ahead with
    | nil =>
      refine ⟨s, rfl, ?_, ?_, rfl, rfl, ?_, ?_⟩ <;>
        simp [hq, section_4_6_scan, add_moved]
    | cons v rest =>
      simp only
      rw [hq, List.length_cons] at h
      by_cases hpos : s.to_move > 0
      · rw [if_pos hpos] at h ⊢
        have hnonpos : ¬ s.to_move ≤ 0 := not_le.mpr hpos
        by_cases hnext : v.m_next_link = some out_id
        · rw [if_pos hnext]
          by_cases hlt : s.to_move < (if v.m_class = 0 then 1 else vcf)
          · rw [if_pos hlt]
            have hle : ¬ (if v.m_class = 0 then 1 else vcf) ≤ s.to_move := not_le.mpr hlt
            have hneg : s.to_move - (if v.m_class = 0 then 1 else vcf) ≤ 0 := by linarith
            by_cases hr : (MNM_Ults.rand_flt s.rng).1 ≤
                s.to_move / (if v.m_class = 0 then 1 else vcf)
            · rw [if_pos hr]
              obtain ⟨s1, h1, h2, h3, h4, h5, h6, h7⟩ := ih
                { s.move_one out_id k v rest (MNM_Ults.rand_flt s.rng).2 with
                  to_move := s.to_move - (if v.m_class = 0 then 1 else vcf) }
                (by simp only [move_scan.move_one]; split_ifs <;> omega)
              refine ⟨s1, h1, ?_, ?_, ?_, ?_, ?_, ?_⟩
              · rw [h2]
                simp only [move_scan.move_one, section_4_6_scan, if_neg hnonpos, if_pos hnext,
                  if_neg hle, if_pos hr]
              · rw [h3]
                simp only [move_scan.move_one, section_4_6_scan, if_neg hnonpos, if_pos hnext,
                  if_neg hle, if_pos hr, List.map_cons, List.append_assoc, List.singleton_append]
              · rw [h4]
                simp only [move_scan.move_one, section_4_6_scan, if_neg hnonpos, if_pos hnext,
                  if_neg hle, if_pos hr]
              · rw [h5]
                simp only [move_scan.move_one, section_4_6_scan, if_neg hnonpos, if_pos hnext,
                  if_neg hle, if_pos hr]
              · rw [h6]
                simp only [move_scan.move_one, section_4_6_scan, if_neg hnonpos, if_pos hnext,
                  if_neg hle, if_pos hr]
                rw [← add_moved_cons]
                simp only [decide_eq_true_eq]
              · rw [h7]
                simp only [move_scan.move_one, section_4_6_scan, if_neg hnonpos, if_pos hnext,
                  if_neg hle, if_pos hr]
                rw [← add_moved_cons]
                simp only [decide_eq_true_eq, ite_not]
            · rw [if_neg hr]
              obtain ⟨s1, h1, h2, h3, h4, h5, h6, h7⟩ := ih
                { s with ahead := v :: rest,
                         to_move := s.to_move - (if v.m_class = 0 then 1 else vcf),
                         rng := (MNM_Ults.rand_flt s.rng).2 }
                (by
                  have hneg1 : ¬ s.to_move - (if v.m_class = 0 then 1 else vcf) > 0 :=
                    not_lt.mpr hneg
                  simp only [List.length_cons, if_neg hneg1]
                  omega)
              simp only [section_4_6_scan_stop _ _ _ _ _ hneg] at h2 h3 h4 h5 h6 h7
              refine ⟨s1, h1, ?_, ?_, ?_, ?_, ?_, ?_⟩
              · rw [h2]
                simp only [section_4_6_scan, if_neg hnonpos, if_pos hnext, if_neg hle,
                  if_neg hr, section_4_6_scan_stop _ _ _ _ _ hneg]
              · rw [h3]
                simp only [section_4_6_scan, if_neg hnonpos, if_pos hnext, if_neg hle,
                  if_neg hr, section_4_6_scan_stop _ _ _ _ _ hneg]
              · rw [h4]
                simp only [section_4_6_scan, if_neg hnonpos, if_pos hnext, if_neg hle,
                  if_neg hr, section_4_6_scan_stop _ _ _ _ _ hneg]
              · rw [h5]
                simp only [section_4_6_scan, if_neg hnonpos, if_pos hnext, if_neg hle,
                  if_neg hr, section_4_6_scan_stop _ _ _ _ _ hneg]
              · rw [h6]
                simp only [section_4_6_scan, if_neg hnonpos, if_pos hnext, if_neg hle,
                  if_neg hr, section_4_6_scan_stop _ _ _ _ _ hneg]
              · rw [h7]
                simp only [section_4_6_scan, if_neg hnonpos, if_pos hnext, if_neg hle,
                  if_neg hr, section_4_6_scan_stop _ _ _ _ _ hneg]
          · rw [if_neg hlt]
            have hle : (if v.m_class = 0 then 1 else vcf) ≤ s.to_move := not_lt.mp hlt
            obtain ⟨s1, h1, h2, h3, h4, h5, h6, h7⟩ := ih
              { s.move_one out_id k v rest s.rng with
                to_move := s.to_move - (if v.m_class = 0 then 1 else vcf) }
              (by simp only [move_scan.move_one]; split_ifs <;> omega)
            refine ⟨s1, h1, ?_, ?_, ?_, ?_, ?_, ?_⟩
            · rw [h2]
              simp only [move_scan.move_one, section_4_6_scan, if_neg hnonpos, if_pos hnext,
                if_pos hle]
            · rw [h3]
              simp only [move_scan.move_one, section_4_6_scan, if_neg hnonpos, if_pos hnext,
                if_pos hle, List.map_cons, List.append_assoc, List.singleton_append]
            · rw [h4]
              simp only [move_scan.move_one, section_4_6_scan, if_neg hnonpos, if_pos hnext,
                if_pos hle]
            · rw [h5]
              simp only [move_scan.move_one, section_4_6_scan, if_neg hnonpos, if_pos hnext,
                if_pos hle]
            · rw [h6]
              simp only [move_scan.move_one, section_4_6_scan, if_neg hnonpos, if_pos hnext,
                if_pos hle]
              rw [← add_moved_cons]
              simp only [decide_eq_true_eq]
            · rw [h7]
              simp only [move_scan.move_one, section_4_6_scan, if_neg hnonpos, if_pos hnext,
                if_pos hle]
              rw [← add_moved_cons]
              simp only [decide_eq_true_eq, ite_not]
        · rw [if_neg hnext]
          obtain ⟨s1, h1, h2, h3, h4, h5, h6, h7⟩ := ih
            { s with passed := s.passed ++ [v], ahead := rest }
            (by simp only [hpos, if_true]; omega)
          refine ⟨s1, h1, ?_, ?_, ?_, ?_, ?_, ?_⟩
          · rw [h2]
            simp only [section_4_6_scan, if_neg hnonpos, if_neg hnext, List.append_assoc,
              List.singleton_append]
          · rw [h3]
            simp only [section_4_6_scan, if_neg hnonpos, if_neg hnext]
          · rw [h4]
            simp only [section_4_6_scan, if_neg hnonpos, if_neg hnext]
          · rw [h5]
            simp only [section_4_6_scan, if_neg hnonpos, if_neg hnext]
          · rw [h6]
            simp only [section_4_6_scan, if_neg hnonpos, if_neg hnext]
          · rw [h7]
            simp only [section_4_6_scan, if_neg hnonpos, if_neg hnext]
      · rw [if_neg hpos]
        have hle : s.to_move ≤ 0 := not_lt.mp hpos
        refine ⟨s, rfl, ?_, ?_, ?_, ?_, ?_, ?_⟩ <;>
          simp [hq, section_4_6_scan_stop _ _ _ _ _ hle, add_moved]

/-- What the scan of section 4.6 does to the vehicles: those that stay keep
their order, every vehicle either stays or is moved, the moved ones were
bound for the out-link, and a budget that is left over has paid for every
vehicle bound for the out-link. -/
theorem section_4_6_scan_spec (out_id : Nat) (vcf : ℚ) :
    ∀ (vs : List MNM_Veh_Multiclass) (to_move : ℚ) (g : Rng),
      (section_4_6_scan out_id vcf vs to_move g).kept.Sublist vs ∧
        vs.Perm ((section_4_6_scan out_id vcf vs to_move g).kept ++
          (section_4_6_scan out_id vcf vs to_move g).moved) ∧
        (∀ v ∈ (section_4_6_scan out_id vcf vs to_move g).moved, v.m_next_link = some out_id) ∧
        (0 < (section_4_6_scan out_id vcf vs to_move g).to_move →
          (section_4_6_scan out_id vcf vs to_move g).to_move =
            to_move - bound_cost vcf out_id vs) := by
  intro vs
  induction vs with
  | nil =>
    intro to_move g
    simp [section_4_6_scan, bound_cost]
  | cons v rest ih =>
    intro to_move g
    rw [section_4_6_scan]
    by_cases hstop : to_move ≤ 0
    · rw [if_pos hstop]
      refine ⟨List.Sublist.refl _, by simp, by simp, fun h => ?_⟩
      exact absurd h (not_lt.mpr hstop)
    · rw [if_neg hstop]
      by_cases hnext : v.m_next_link = some out_id
      · rw [if_pos hnext]
        have hcost : bound_cost vcf out_id (v :: rest) =
            (if v.m_class = 0 then 1 else vcf) + bound_cost vcf out_id rest := by
          simp only [bound_cost, List.map_cons, List.sum_cons, if_pos hnext]
        by_cases hle : (if v.m_class = 0 then 1 else vcf) ≤ to_move
        · simp only [if_pos hle]
          obtain ⟨k1, k2, k3, k4⟩ := ih (to_move - (if v.m_class = 0 then 1 else vcf)) g
          refine ⟨List.Sublist.cons _ k1, ?_, ?_, ?_⟩
          · exact (List.Perm.cons v k2).trans List.perm_middle.symm
          · intro w hw
            rcases List.mem_cons.mp hw with h | h
            · rw [h]; exact hnext
            · exact k3 w h
          · intro hpos
            rw [k4 hpos, hcost]
            ring
        · simp only [if_neg hle]
          have hneg : to_move - (if v.m_class = 0 then 1 else vcf) ≤ 0 := by
            linarith [not_le.mp hle]
          rw [section_4_6_scan_stop _ _ _ _ _ hneg]
          by_cases hr : (MNM_Ults.rand_flt g).1 ≤ to_move / (if v.m_class = 0 then 1 else vcf)
          · simp only [if_pos hr]
            refine ⟨List.Sublist.cons _ (List.Sublist.refl _), ?_, ?_, fun h => ?_⟩
            · exact (List.perm_append_singleton v rest).symm
            · intro w hw
              rw [List.mem_singleton.mp hw]
              exact hnext
            · exact absurd h (not_lt.mpr hneg)
          · simp only [if_neg hr]
            refine ⟨List.Sublist.refl _, by simp, by simp, fun h => ?_⟩
            exact absurd h (not_lt.mpr hneg)
      · rw [if_neg hnext]
        have hcost : bound_cost vcf out_id (v :: rest) = bound_cost vcf out_id rest := by
          simp only [bound_cost, List.map_cons, List.sum_cons, if_neg hnext, zero_add]
        obtain ⟨k1, k2, k3, k4⟩ := ih to_move g
        refine ⟨List.Sublist.cons₂ _ k1, ?_, k3, ?_⟩
        · exact List.Perm.cons v k2
        · intro hpos
          rw [k4 hpos, hcost]

/-- The cost of the vehicles bound for a link does not depend on their
order, and vehicles bound elsewhere add nothing to it. -/
theorem bound_cost_perm (vcf : ℚ) (id1 out_id : Nat) (hne : id1 ≠ out_id)
    (vs kept moved : List MNM_Veh_Multiclass) (hperm : vs.Perm (kept ++ moved))
    (hmoved : ∀ v ∈ moved, v.m_next_link = some out_id) :
    bound_cost vcf id1 kept = bound_cost vcf id1 vs := by
  have hzero : bound_cost vcf id1 moved = 0 := by
    unfold bound_cost
    apply List.sum_eq_zero
    intro x hx
    obtain ⟨v, hv, hvx⟩ := List.mem_map.mp hx
    rw [← hvx, hmoved v hv, if_neg]
    intro h
    exact hne (Option.some.inj h).symm
  have hsum : bound_cost vcf id1 vs = bound_cost vcf id1 (kept ++ moved) := by
    unfold bound_cost
    exact (hperm.map _).sum_eq
  rw [hsum]
  unfold bound_cost at hzero ⊢
  rw [List.map_append, List.sum_append, hzero, add_zero]

/-- The car-equivalent count of `prepare_supplyANDdemand` is the cost of the
finished vehicles bound for the out-link. -/
theorem equiv_count_eq_bound_cost (_in_link _out_link : MNM_Dlink_Ctm_Multiclass) :
    equiv_count _in_link _out_link =
      bound_cost _in_link.m_veh_convert_factor _out_link.m_link_ID _in_link.m_finished_array := by
  unfold equiv_count bound_cost
  have hfold : ∀ (vs : List MNM_Veh_Multiclass) (acc : ℚ),
      vs.foldl
        (fun _equiv_count _veh =>
          if _veh.m_next_link = some _out_link.m_link_ID then
            if _veh.m_class = 0 then _equiv_count + 1
            else _equiv_count + _in_link.m_veh_convert_factor
          else _equiv_count)
        acc =
      acc + (vs.map (fun v =>
        if v.m_next_link = some _out_link.m_link_ID then
          (if v.m_class = 0 then 1 else _in_link.m_veh_convert_factor)
        else 0)).sum := by
    intro vs
    induction vs with
    | nil => intro acc; simp
    | cons v rest ih =>
      intro acc
      rw [List.foldl_cons, ih, List.map_cons, List.sum_cons]
      split_ifs <;> ring
  rw [hfold, zero_add]

/-- One iteration of the loop over the in-links of `move_vehicle`: the
in-link of index `i` is scanned as section 4.6 says, with the budget
`veh_flow[i,j] * flow_scalar`; a budget left over ends the run. -/
theorem move_vehicle_in_links_cons (fs : ℚ) (veh_flow : Nat → ℚ) (_offset j out_id i : Nat)
    (seen : List MNM_Dlink_Ctm_Multiclass) (l : MNM_Dlink_Ctm_Multiclass)
    (rest : List MNM_Dlink_Ctm_Multiclass) (incoming : List MNM_Veh_Multiclass)
    (car trk : Nat → ℚ) (g : Rng) :
    move_vehicle_in_links fs veh_flow _offset j out_id i seen (l :: rest) incoming car trk g =
      if (section_4_6_scan out_id l.m_veh_convert_factor l.m_finished_array
          (veh_flow (i * _offset + j) * fs) g).to_move > 0 then
        .aborted
          ({ in_links := seen ++
                { l with m_finished_array :=
                    (section_4_6_scan out_id l.m_veh_convert_factor l.m_finished_array
                      (veh_flow (i * _offset + j) * fs) g).kept } :: rest,
             veh_moved_car := add_moved car (i * _offset + j) (fun v => decide (v.m_class = 0))
               (section_4_6_scan out_id l.m_veh_convert_factor l.m_finished_array
                 (veh_flow (i * _offset + j) * fs) g).moved,
             veh_moved_truck :=
               add_moved trk (i * _offset + j) (fun v => decide (¬ v.m_class = 0))
                 (section_4_6_scan out_id l.m_veh_convert_factor l.m_finished_array
                   (veh_flow (i * _offset + j) * fs) g).moved,
             rng := (section_4_6_scan out_id l.m_veh_convert_factor l.m_finished_array
               (veh_flow (i * _offset + j) * fs) g).rng },
            incoming ++
              (section_4_6_scan out_id l.m_veh_convert_factor l.m_finished_array
                (veh_flow (i * _offset + j) * fs) g).moved.map
                (fun v => v.set_current_link (some out_id)))
      else
        move_vehicle_in_links fs veh_flow _offset j out_id (i + 1)
          (seen ++
            [{ l with m_finished_array :=
                (section_4_6_scan out_id l.m_veh_convert_factor l.m_finished_array
                  (veh_flow (i * _offset + j) * fs) g).kept }])
          rest
          (incoming ++
            (section_4_6_scan out_id l.m_veh_convert_factor l.m_finished_array
              (veh_flow (i * _offset + j) * fs) g).moved.map
              (fun v => v.set_current_link (some out_id)))
          (add_moved car (i * _offset + j) (fun v => decide (v.m_class = 0))
            (section_4_6_scan out_id l.m_veh_convert_factor l.m_finished_array
              (veh_flow (i * _offset + j) * fs) g).moved)
          (add_moved trk (i * _offset + j) (fun v => decide (¬ v.m_class = 0))
            (section_4_6_scan out_id l.m_veh_convert_factor l.m_finished_array
              (veh_flow (i * _offset + j) * fs) g).moved)
          (section_4_6_scan out_id l.m_veh_convert_factor l.m_finished_array
            (veh_flow (i * _offset + j) * fs) g).rng := by
  obtain ⟨s1, h1, h2, h3, h4, h5, h6, h7⟩ :=
    move_vehicle_scan_refines out_id l.m_veh_convert_factor (i * _offset + j)
      (2 * l.m_finished_array.length + 2)
      { passed := [], ahead := l.m_finished_array,
        to_move := veh_flow (i * _offset + j) * fs,
        incoming := incoming, veh_moved_car := car, veh_moved_truck := trk, rng := g }
      (by simp only; split_ifs <;> omega)
  rw [move_vehicle_in_links, h1]
  simp only [List.nil_append] at h2 h3 h4 h5 h6 h7 ⊢
  rw [h2, h3, h4, h5, h6, h7]

/-- The loop over the in-links of `move_vehicle` for one out-link, when it
returns: every in-link left was scanned for the out-link, the vehicles taken
from them, with the out-link as current link, are appended to the incoming
array in the order taken, and no other vehicle comes or goes. -/
theorem move_vehicle_in_links_conserves (fs : ℚ) (veh_flow : Nat → ℚ)
    (_offset j out_id : Nat) :
    ∀ (links seen : List MNM_Dlink_Ctm_Multiclass) (i : Nat)
      (incoming : List MNM_Veh_Multiclass) (car trk : Nat → ℚ) (g : Rng)
      (r : move_state × List MNM_Veh_Multiclass),
      move_vehicle_in_links fs veh_flow _offset j out_id i seen links incoming car trk g =
        .returned r →
      ∃ (links1 : List MNM_Dlink_Ctm_Multiclass) (moved : List MNM_Veh_Multiclass),
        r.1.in_links = seen ++ links1 ∧
        List.Forall₂ (scanned_for out_id) links links1 ∧
        r.2 = incoming ++ moved.map (fun v => v.set_current_link (some out_id)) ∧
        (links.flatMap (fun l => l.m_finished_array)).Perm
          (links1.flatMap (fun l => l.m_finished_array) ++ moved) ∧
        ∀ v ∈ moved, v.m_next_link = some out_id := by
  intro links
  induction links with
  | nil =>
    intro seen i incoming car trk g r h
    simp only [move_vehicle_in_links, Outcome.returned.injEq] at h
    rw [← h]
    exact ⟨[], [], by simp, List.Forall₂.nil, by simp, by simp, by simp⟩
  | cons l rest ih =>
    intro seen i incoming car trk g r h
    rw [move_vehicle_in_links_cons] at h
    have hspec := section_4_6_scan_spec out_id l.m_veh_convert_factor
      l.m_finished_array (veh_flow (i * _offset + j) * fs) g
    generalize section_4_6_scan out_id l.m_veh_convert_factor l.m_finished_array
      (veh_flow (i * _offset + j) * fs) g = sc at h hspec
    obtain ⟨k1, k2, k3, _⟩ := hspec
    split_ifs at h with hpos
    obtain ⟨links1, moved, h1, h2, h3, h4, h5⟩ := ih _ _ _ _ _ _ r h
    refine ⟨{ l with m_finished_array := sc.kept } :: links1, sc.moved ++ moved,
      ?_, ?_, ?_, ?_, ?_⟩
    · rw [h1, List.append_assoc, List.singleton_append]
    · exact List.Forall₂.cons ⟨rfl, k1, _, k2, k3⟩ h2
    · rw [h3, List.map_append, List.append_assoc]
    · rw [List.flatMap_cons, List.flatMap_cons]
      simp only
      refine ((k2.append h4).trans ?_)
      simp only [List.append_assoc]
      apply List.Perm.append_left
      rw [← List.append_assoc, ← List.append_assoc]
      exact List.Perm.append_right _ List.perm_append_comm
    · intro v hv
      rcases List.mem_append.mp hv with hm | hm
      · exact k3 v hm
      · exact h5 v hm

/-- C34: for each pair (i, j) `move_vehicle` scans `in_link[i].finished_array`
in order with the budget `to_move = veh_flow[i,j] * flow_scalar`, as the scan
of section 4.6 says: it stops once `to_move <= 0`; a vehicle bound for
`out_link[j]`, of cost `e` (1 for a car, `veh_convert_factor` for a truck),
is moved when `to_move >= e` and, when `0 < to_move < e`, exactly when the
draw `r` satisfies `r <= to_move / e`; in both cases `e` is taken from
`to_move`. The loop ends within its fuel, and a budget left over after the
scan ends the run. With `to_move = 3/5` and one truck of factor 2 the truck
is moved exactly when `r <= 3/10`. -/
theorem move_vehicle_scan_section_4_6 (fs : ℚ) (veh_flow : Nat → ℚ) (_offset j out_id i : Nat)
    (seen : List MNM_Dlink_Ctm_Multiclass) (l : MNM_Dlink_Ctm_Multiclass)
    (rest : List MNM_Dlink_Ctm_Multiclass) (incoming : List MNM_Veh_Multiclass)
    (car trk : Nat → ℚ) (g : Rng) :
    (∃ s1, move_vehicle_scan out_id l.m_veh_convert_factor (i * _offset + j)
          (2 * l.m_finished_array.length + 2)
          { passed := [], ahead := l.m_finished_array,
            to_move := veh_flow (i * _offset + j) * fs,
            incoming := incoming, veh_moved_car := car, veh_moved_truck := trk, rng := g } =
          some s1 ∧
        s1.passed ++ s1.ahead =
          (section_4_6_scan out_id l.m_veh_convert_factor l.m_finished_array
            (veh_flow (i * _offset + j) * fs) g).kept ∧
        s1.incoming = incoming ++
          (section_4_6_scan out_id l.m_veh_convert_factor l.m_finished_array
            (veh_flow (i * _offset + j) * fs) g).moved.map
            (fun v => v.set_current_link (some out_id)) ∧
        s1.to_move =
          (section_4_6_scan out_id l.m_veh_convert_factor l.m_finished_array
            (veh_flow (i * _offset + j) * fs) g).to_move ∧
        s1.rng =
          (section_4_6_scan out_id l.m_veh_convert_factor l.m_finished_array
            (veh_flow (i * _offset + j) * fs) g).rng ∧
        s1.veh_moved_car = add_moved car (i * _offset + j) (fun v => decide (v.m_class = 0))
          (section_4_6_scan out_id l.m_veh_convert_factor l.m_finished_array
            (veh_flow (i * _offset + j) * fs) g).moved ∧
        s1.veh_moved_truck =
          add_moved trk (i * _offset + j) (fun v => decide (¬ v.m_class = 0))
            (section_4_6_scan out_id l.m_veh_convert_factor l.m_finished_array
              (veh_flow (i * _offset + j) * fs) g).moved) ∧
      ((section_4_6_scan out_id l.m_veh_convert_factor l.m_finished_array
            (veh_flow (i * _offset + j) * fs) g).to_move > 0 →
        ∃ s, move_vehicle_in_links fs veh_flow _offset j out_id i seen (l :: rest) incoming
          car trk g = .aborted s) ∧
      (¬ (section_4_6_scan out_id l.m_veh_convert_factor l.m_finished_array
            (veh_flow (i * _offset + j) * fs) g).to_move > 0 →
        move_vehicle_in_links fs veh_flow _offset j out_id i seen (l :: rest) incoming
            car trk g =
          move_vehicle_in_links fs veh_flow _offset j out_id (i + 1)
            (seen ++
              [{ l with m_finished_array :=
                  (section_4_6_scan out_id l.m_veh_convert_factor l.m_finished_array
                    (veh_flow (i * _offset + j) * fs) g).kept }])
            rest
            (incoming ++
              (section_4_6_scan out_id l.m_veh_convert_factor l.m_finished_array
                (veh_flow (i * _offset + j) * fs) g).moved.map
                (fun v => v.set_current_link (some out_id)))
            (add_moved car (i * _offset + j) (fun v => decide (v.m_class = 0))
              (section_4_6_scan out_id l.m_veh_convert_factor l.m_finished_array
                (veh_flow (i * _offset + j) * fs) g).moved)
            (add_moved trk (i * _offset + j) (fun v => decide (¬ v.m_class = 0))
              (section_4_6_scan out_id l.m_veh_convert_factor l.m_finished_array
                (veh_flow (i * _offset + j) * fs) g).moved)
            (section_4_6_scan out_id l.m_veh_convert_factor l.m_finished_array
              (veh_flow (i * _offset + j) * fs) g).rng) ∧
      (∀ g0 : Rng, ∃ s1,
        move_vehicle_scan 2 2 0 4
            { passed := [], ahead := [truck 1 (some 2)], to_move := 3 / 5, incoming := [],
              veh_moved_car := fun _ => 0, veh_moved_truck := fun _ => 0, rng := g0 } =
          some s1 ∧
        s1.to_move = -7 / 5 ∧
        (g0.stream g0.pos ≤ 3 / 10 →
          s1.incoming = [(truck 1 (some 2)).set_current_link (some 2)] ∧
            s1.passed ++ s1.ahead = [] ∧ s1.veh_moved_truck 0 = 1) ∧
        (¬ g0.stream g0.pos ≤ 3 / 10 →
          s1.incoming = [] ∧ s1.passed ++ s1.ahead = [truck 1 (some 2)] ∧
            s1.veh_moved_truck 0 = 0)) := by
  refine ⟨?_, ?_, ?_, ?_⟩
  · obtain ⟨s1, h1, h2, h3, h4, h5, h6, h7⟩ :=
      move_vehicle_scan_refines out_id l.m_veh_convert_factor (i * _offset + j)
        (2 * l.m_finished_array.length + 2)
        { passed := [], ahead := l.m_finished_array,
          to_move := veh_flow (i * _offset + j) * fs,
          incoming := incoming, veh_moved_car := car, veh_moved_truck := trk, rng := g }
        (by simp only; split_ifs <;> omega)
    simp only [List.nil_append] at h2
    exact ⟨s1, h1, h2, h3, h4, h5, h6, h7⟩
  · intro hpos
    rw [move_vehicle_in_links_cons, if_pos hpos]
    exact ⟨_, rfl⟩
  · intro hpos
    rw [move_vehicle_in_links_cons, if_neg hpos]
  · intro g0
    obtain ⟨s1, h1, h2, h3, h4, _, _, h7⟩ :=
      move_vehicle_scan_refines 2 2 0 4
        { passed := [], ahead := [truck 1 (some 2)], to_move := 3 / 5, incoming := [],
          veh_moved_car := fun _ => 0, veh_moved_truck := fun _ => 0, rng := g0 }
        (by simp only [List.length_singleton]; split_ifs <;> omega)
    have hdraw : (MNM_Ults.rand_flt g0).1 = g0.stream g0.pos := rfl
    have hsc : section_4_6_scan 2 2 [truck 1 (some 2)] (3 / 5) g0 =
        if g0.stream g0.pos ≤ 3 / 10 then
          { kept := [], moved := [truck 1 (some 2)], to_move := -7 / 5,
            rng := (MNM_Ults.rand_flt g0).2 }
        else
          { kept := [truck 1 (some 2)], moved := [], to_move := -7 / 5,
            rng := (MNM_Ults.rand_flt g0).2 } := by
      have e1 : ¬ ((3 : ℚ) / 5 ≤ 0) := by norm_num
      have e2 : (truck 1 (some 2)).m_next_link = some 2 := rfl
      have e3 : ¬ (truck 1 (some 2)).m_class = 0 := by decide
      have e4 : ¬ ((2 : ℚ) ≤ 3 / 5) := by norm_num
      have e5 : ((3 : ℚ) / 5) / 2 = 3 / 10 := by norm_num
      have e6 : ((3 : ℚ) / 5) - 2 = -7 / 5 := by norm_num
      simp only [section_4_6_scan, if_neg e1, if_pos e2, if_neg e3, if_neg e4, e5, e6, hdraw]
    simp only [List.nil_append] at h2 h3
    rw [hsc] at h2 h3 h4 h7
    refine ⟨s1, h1, ?_, ?_, ?_⟩
    · rw [h4]
      split_ifs <;> rfl
    · intro hr
      rw [if_pos hr] at h2 h3 h7
      refine ⟨h3, h2, ?_⟩
      rw [h7]
      simp [add_moved, truck]
    · intro hr
      rw [if_neg hr] at h2 h3 h7
      refine ⟨h3, h2, ?_⟩
      rw [h7]
      simp [add_moved]

/-- Relations that hold entry by entry compose. -/
theorem forall2_comp {α : Type} (R S T : α → α → Prop)
    (hcomp : ∀ x y z, R x y → S y z → T x z) :
    ∀ (a b c : List α), List.Forall₂ R a b → List.Forall₂ S b c → List.Forall₂ T a c := by
  intro a
  induction a with
  | nil =>
    intro b c hab hbc
    cases hab
    cases hbc
    exact List.Forall₂.nil
  | cons x a ih =>
    intro b c hab hbc
    cases hab with
    | cons hxy hab1 =>
      cases hbc with
      | cons hyz hbc1 => exact List.Forall₂.cons (hcomp _ _ _ hxy hyz) (ih _ _ hab1 hbc1)

/-- An in-link scanned for an out-link and then changed by `move_vehicle`
was changed as `move_vehicle` may. -/
theorem finished_kept_of_scanned (out_id : Nat) (a b c : MNM_Dlink_Ctm_Multiclass)
    (hab : scanned_for out_id a b) (hbc : finished_kept b c) : finished_kept a c := by
  obtain ⟨h1, h2, _⟩ := hab
  obtain ⟨h3, h4⟩ := hbc
  refine ⟨?_, h4.trans h2⟩
  rw [h3, h1]

/-- The loop over the out-links of `move_vehicle`, when it returns, with a
shuffle that permutes: the in-links keep their other vehicles in order, every
out-link left gets vehicles that were bound for it, and the vehicles that left
the finished arrays are the vehicles that came into the incoming arrays, each
with its next link as current link. -/
theorem move_vehicle_out_links_conserves
    (shuffle : Rng → List MNM_Veh_Multiclass → List MNM_Veh_Multiclass × Rng)
    (hshuffle : ∀ g vs, (shuffle g vs).1.Perm vs)
    (fs : ℚ) (veh_flow : Nat → ℚ) (_offset : Nat) :
    ∀ (links done : List MNM_Dlink_Ctm_Multiclass) (j : Nat) (st : move_state)
      (r : move_state × List MNM_Dlink_Ctm_Multiclass),
      move_vehicle_out_links shuffle fs veh_flow _offset j done links st = .returned r →
      ∃ (links1 : List MNM_Dlink_Ctm_Multiclass) (moved : List MNM_Veh_Multiclass),
        r.2 = done ++ links1 ∧
        List.Forall₂ incoming_grown links links1 ∧
        List.Forall₂ finished_kept st.in_links r.1.in_links ∧
        (st.in_links.flatMap (fun l => l.m_finished_array)).Perm
          (r.1.in_links.flatMap (fun l => l.m_finished_array) ++ moved) ∧
        (links1.flatMap (fun l => l.m_incoming_array)).Perm
          (links.flatMap (fun l => l.m_incoming_array) ++
            moved.map (fun v => v.set_current_link v.m_next_link)) := by
  intro links
  induction links with
  | nil =>
    intro done j st r h
    simp only [move_vehicle_out_links, Outcome.returned.injEq] at h
    rw [← h]
    refine ⟨[], [], by simp, List.Forall₂.nil, ?_, by simp, by simp⟩
    have hrefl : ∀ ls : List MNM_Dlink_Ctm_Multiclass, List.Forall₂ finished_kept ls ls := by
      intro ls
      induction ls with
      | nil => exact List.Forall₂.nil
      | cons l ls ihl => exact List.Forall₂.cons ⟨rfl, List.Sublist.refl _⟩ ihl
    exact hrefl _
  | cons o rest ih =>
    intro done j st r h
    rw [move_vehicle_out_links] at h
    cases hin : move_vehicle_in_links fs veh_flow _offset j o.m_link_ID 0 []
        st.in_links o.m_incoming_array st.veh_moved_car st.veh_moved_truck st.rng with
    | returned r1 =>
      rw [hin] at h
      simp only at h
      obtain ⟨ins1, moved1, a1, a2, a3, a4, a5⟩ :=
        move_vehicle_in_links_conserves fs veh_flow _offset j o.m_link_ID _ _ _ _ _ _ _ _ hin
      rw [List.nil_append] at a1
      obtain ⟨links1, moved, b1, b2, b3, b4, b5⟩ := ih _ _ _ _ h
      simp only at b3 b4
      rw [a1] at b3 b4
      refine ⟨{ o with m_incoming_array := (shuffle r1.1.rng r1.2).1 } :: links1,
        moved1 ++ moved, ?_, ?_, ?_, ?_, ?_⟩
      · rw [b1, List.append_assoc, List.singleton_append]
      · refine List.Forall₂.cons ⟨rfl, moved1, ?_, a5⟩ b2
        simp only
        rw [← a3]
        exact hshuffle _ _
      · exact forall2_comp _ _ _ (finished_kept_of_scanned o.m_link_ID) _ _ _ a2 b3
      · refine (a4.trans ((b4.append_right moved1).trans ?_))
        rw [List.append_assoc]
        exact List.Perm.append_left _ List.perm_append_comm
      · rw [List.flatMap_cons, List.flatMap_cons, List.map_append]
        simp only
        have hmap : moved1.map (fun v => v.set_current_link v.m_next_link) =
            moved1.map (fun v => v.set_current_link (some o.m_link_ID)) := by
          apply List.map_congr_left
          intro v hv
          rw [a5 v hv]
        rw [hmap]
        refine (((hshuffle r1.1.rng r1.2).append b5).trans ?_)
        rw [a3]
        simp only [List.append_assoc]
        apply List.Perm.append_left
        rw [← List.append_assoc, ← List.append_assoc]
        exact List.Perm.append_right _ List.perm_append_comm
    | aborted s => rw [hin] at h; cases h
    | undefined => rw [hin] at h; cases h
    | out_of_fuel => rw [hin] at h; cases h

/-- C35: with a shuffle that permutes, a `move_vehicle` that returns conserves
the vehicles: of every in-link only `finished_array` changes and the vehicles
that stay keep their relative order; of every out-link only `incoming_array`
changes, into a permutation of what it held and of vehicles that were bound
for this link, with the link as current link; and the vehicles that left the
finished arrays are exactly the vehicles that came into the incoming arrays,
each once, with its next link as current link. -/
theorem move_vehicle_conserves
    (shuffle : Rng → List MNM_Veh_Multiclass → List MNM_Veh_Multiclass × Rng)
    (hshuffle : ∀ g vs, (shuffle g vs).1.Perm vs)
    (n n1 : MNM_Dnode_Inout_Multiclass) (g g1 : Rng)
    (h : n.move_vehicle shuffle g = .returned (n1, g1)) :
    List.Forall₂ finished_kept n.m_in_link_array n1.m_in_link_array ∧
      List.Forall₂ incoming_grown n.m_out_link_array n1.m_out_link_array ∧
      ∃ moved : List MNM_Veh_Multiclass,
        (n.m_in_link_array.flatMap (fun l => l.m_finished_array)).Perm
          (n1.m_in_link_array.flatMap (fun l => l.m_finished_array) ++ moved) ∧
        (n1.m_out_link_array.flatMap (fun l => l.m_incoming_array)).Perm
          (n.m_out_link_array.flatMap (fun l => l.m_incoming_array) ++
            moved.map (fun v => v.set_current_link v.m_next_link)) := by
  unfold MNM_Dnode_Inout_Multiclass.move_vehicle at h
  cases h1 : move_vehicle_out_links shuffle n.m_flow_scalar n.m_veh_flow
      n.m_out_link_array.length 0 [] n.m_out_link_array
      { in_links := n.m_in_link_array, veh_moved_car := n.m_veh_moved_car,
        veh_moved_truck := n.m_veh_moved_truck, rng := g } with
  | returned r =>
    rw [h1] at h
    simp only [Outcome.map, Outcome.returned.injEq, Prod.mk.injEq] at h
    obtain ⟨links1, moved, b1, b2, b3, b4, b5⟩ :=
      move_vehicle_out_links_conserves shuffle hshuffle _ _ _ _ _ _ _ _ h1
    rw [List.nil_append] at b1
    rw [← b1] at b2 b5
    rw [← h.1]
    exact ⟨b3, b2, moved, b4, b5⟩
  | aborted s => rw [h1] at h; simp only [Outcome.map] at h; cases h
  | undefined => rw [h1] at h; simp only [Outcome.map] at h; cases h
  | out_of_fuel => rw [h1] at h; simp only [Outcome.map] at h; cases h

/-- Witness of `move_vehicle_conserves`: `junction_1_car_flow_1` moves its
car from the finished array of the in-link to the incoming array of the
out-link 2, which becomes the current link of the car. -/
theorem move_vehicle_conserves_witness :
    ∃ n1 g1, junction_1_car_flow_1.move_vehicle shuffle_keep rng_zero = .returned (n1, g1) ∧
      List.Forall₂ finished_kept junction_1_car_flow_1.m_in_link_array n1.m_in_link_array ∧
      List.Forall₂ incoming_grown junction_1_car_flow_1.m_out_link_array
        n1.m_out_link_array ∧
      (junction_1_car_flow_1.move_vehicle shuffle_keep rng_zero).returned?.map
          (fun r => (r.1.m_in_link_array.map (fun l => l.m_finished_array),
            r.1.m_out_link_array.map (fun l => l.m_incoming_array))) =
        some ([[]], [[(car 1 (some 2)).set_current_link (some 2)]]) := by
  have hv : (junction_1_car_flow_1.move_vehicle shuffle_keep rng_zero).returned?.map
      (fun r => (r.1.m_in_link_array.map (fun l => l.m_finished_array),
        r.1.m_out_link_array.map (fun l => l.m_incoming_array))) =
      some ([[]], [[(car 1 (some 2)).set_current_link (some 2)]]) := by decide!
  cases h : junction_1_car_flow_1.move_vehicle shuffle_keep rng_zero with
  | returned r =>
    obtain ⟨k1, k2, _⟩ := move_vehicle_conserves shuffle_keep (fun _ _ => List.Perm.refl _)
      junction_1_car_flow_1 r.1 rng_zero r.2 h
    rw [h] at hv
    exact ⟨r.1, r.2, rfl, k1, k2, hv⟩
  | aborted s => rw [h] at hv; simp [Outcome.returned?] at hv
  | undefined => rw [h] at hv; simp [Outcome.returned?] at hv
  | out_of_fuel => rw [h] at hv; simp [Outcome.returned?] at hv

/-! ### The residual check of `move_vehicle` -/

/-- The entry of the second list that faces an entry of the first in an
entry-by-entry relation. -/
theorem forall2_getElem?_right {α : Type} (R : α → α → Prop) :
    ∀ (a b : List α), List.Forall₂ R a b →
      ∀ (i : Nat) (y : α), b[i]? = some y → ∃ x, a[i]? = some x ∧ R x y := by
  intro a b hab
  induction hab with
  | nil => intro i y h; simp at h
  | cons hxy _ ih =>
    intro i y h
    cases i with
    | zero =>
      simp only [List.getElem?_cons_zero, Option.some.injEq] at h ⊢
      exact ⟨_, rfl, h ▸ hxy⟩
    | succ i =>
      simp only [List.getElem?_cons_succ] at h ⊢
      exact ih i y h

/-- The loop over the in-links of `move_vehicle` for one out-link returns
when no budget exceeds the cost of the finished vehicles bound for the
out-link: every scan then ends with `to_move <= 0`. -/
theorem move_vehicle_in_links_returns (fs : ℚ) (veh_flow : Nat → ℚ) (_offset j out_id : Nat) :
    ∀ (links seen : List MNM_Dlink_Ctm_Multiclass) (i : Nat)
      (incoming : List MNM_Veh_Multiclass) (car trk : Nat → ℚ) (g : Rng),
      (∀ m l, links[m]? = some l →
        veh_flow ((i + m) * _offset + j) * fs ≤
          bound_cost l.m_veh_convert_factor out_id l.m_finished_array) →
      ∃ r, move_vehicle_in_links fs veh_flow _offset j out_id i seen links incoming car trk g =
        .returned r := by
  intro links
  induction links with
  | nil =>
    intro seen i incoming car trk g _
    exact ⟨_, rfl⟩
  | cons l rest ih =>
    intro seen i incoming car trk g hb
    rw [move_vehicle_in_links_cons]
    obtain ⟨_, _, _, k4⟩ := section_4_6_scan_spec out_id l.m_veh_convert_factor
      l.m_finished_array (veh_flow (i * _offset + j) * fs) g
    have h0 := hb 0 l (List.getElem?_cons_zero ..)
    rw [add_zero] at h0
    have hnot : ¬ (section_4_6_scan out_id l.m_veh_convert_factor l.m_finished_array
        (veh_flow (i * _offset + j) * fs) g).to_move > 0 := by
      intro hpos
      have := k4 hpos
      linarith
    rw [if_neg hnot]
    apply ih
    intro m l1 hm
    have := hb (m + 1) l1 (by simpa using hm)
    rw [show i + (m + 1) = i + 1 + m by omega] at this
    exact this

/-- The loop over the out-links of `move_vehicle` returns when the out-links
left are different links and, for each of them and every in-link, the budget
does not exceed the cost of the finished vehicles bound for it: a scan for
one out-link leaves the vehicles bound for the others. -/
theorem move_vehicle_out_links_returns
    (shuffle : Rng → List MNM_Veh_Multiclass → List MNM_Veh_Multiclass × Rng)
    (fs : ℚ) (veh_flow : Nat → ℚ) (_offset : Nat) :
    ∀ (links done : List MNM_Dlink_Ctm_Multiclass) (j : Nat) (st : move_state),
      (links.map (fun o => o.m_link_ID)).Nodup →
      (∀ m o i l, links[m]? = some o → st.in_links[i]? = some l →
        veh_flow (i * _offset + (j + m)) * fs ≤
          bound_cost l.m_veh_convert_factor o.m_link_ID l.m_finished_array) →
      ∃ r, move_vehicle_out_links shuffle fs veh_flow _offset j done links st = .returned r := by
  intro links
  induction links with
  | nil =>
    intro done j st _ _
    exact ⟨_, rfl⟩
  | cons o rest ih =>
    intro done j st hids hb
    rw [List.map_cons, List.nodup_cons] at hids
    obtain ⟨r1, hin⟩ := move_vehicle_in_links_returns fs veh_flow _offset j o.m_link_ID
      st.in_links [] 0 o.m_incoming_array st.veh_moved_car st.veh_moved_truck st.rng
      (by
        intro m l hm
        have := hb 0 o m l (List.getElem?_cons_zero ..) hm
        rw [add_zero] at this
        rw [zero_add]
        exact this)
    obtain ⟨ins1, moved1, a1, a2, _⟩ :=
      move_vehicle_in_links_conserves fs veh_flow _offset j o.m_link_ID _ _ _ _ _ _ _ _ hin
    rw [List.nil_append] at a1
    rw [move_vehicle_out_links, hin]
    simp only
    apply ih _ _ _ hids.2
    intro m o1 i l1 hm hi
    simp only at hi
    rw [a1] at hi
    obtain ⟨l, hl, hscan, _, mv, hperm, hmv⟩ := forall2_getElem?_right _ _ _ a2 i l1 hi
    have hne : o1.m_link_ID ≠ o.m_link_ID := by
      intro heq
      apply hids.1
      rw [← heq]
      exact List.mem_map.mpr ⟨o1, List.getElem?_mem hm, rfl⟩
    have hvcf : l1.m_veh_convert_factor = l.m_veh_convert_factor := by rw [hscan]
    rw [hvcf, bound_cost_perm _ _ _ hne _ _ _ hperm hmv]
    have := hb (m + 1) o1 i l (by simpa using hm) hl
    rw [show j + (m + 1) = j + 1 + m by omega] at this
    exact this

/-- The cost of vehicles is not negative when the convert factor is not. -/
theorem bound_cost_nonneg (vcf : ℚ) (hvcf : 0 ≤ vcf) (out_id : Nat)
    (vs : List MNM_Veh_Multiclass) : 0 ≤ bound_cost vcf out_id vs := by
  unfold bound_cost
  apply List.sum_nonneg
  intro x hx
  obtain ⟨v, _, hvx⟩ := List.mem_map.mp hx
  rw [← hvx]
  split_ifs
  · exact zero_le_one
  · exact hvcf
  · exact le_rfl

/-- The budget `veh_flow * flow_scalar` of a pair does not exceed the
car-equivalent count `E i` its demand `E i / flow_scalar` was computed from,
for a supply that is not negative. -/
theorem veh_flow_budget (fs S : ℚ) (num_in _offset j : Nat) (demand E : Nat → ℚ)
    (hfs : fs ≠ 0) (hS : 0 ≤ S)
    (hE : ∀ i, i < num_in → 0 ≤ E i ∧ demand (i * _offset + j) = E i / fs)
    (i : Nat) (hi : i < num_in) :
    section_4_6_veh_flow (demand (i * _offset + j))
        (section_4_6_total_demand num_in _offset j demand) S * fs ≤ E i := by
  obtain ⟨hEi, hdi⟩ := hE i hi
  rcases lt_or_gt_of_ne hfs with hneg | hpos
  · have hd : ∀ k, k < num_in → demand (k * _offset + j) ≤ 0 := by
      intro k hk
      rw [(hE k hk).2]
      exact div_nonpos_of_nonneg_of_nonpos (hE k hk).1 hneg.le
    have hT : section_4_6_total_demand num_in _offset j demand ≤ 0 :=
      Finset.sum_nonpos (fun k hk => hd k (Finset.mem_range.mp hk))
    have hshare : 0 ≤ (if section_4_6_total_demand num_in _offset j demand = 0 then 0
        else demand (i * _offset + j) / section_4_6_total_demand num_in _offset j demand) := by
      split_ifs
      · exact le_rfl
      · exact div_nonneg_of_nonpos (hd i hi) hT
    have hflow : section_4_6_veh_flow (demand (i * _offset + j))
        (section_4_6_total_demand num_in _offset j demand) S = demand (i * _offset + j) := by
      unfold section_4_6_veh_flow
      exact min_eq_left (le_trans (hd i hi) (mul_nonneg hshare hS))
    rw [hflow, hdi, div_mul_cancel₀ _ hfs]
  · have hle : section_4_6_veh_flow (demand (i * _offset + j))
        (section_4_6_total_demand num_in _offset j demand) S ≤ demand (i * _offset + j) :=
      min_le_left _ _
    calc section_4_6_veh_flow (demand (i * _offset + j))
          (section_4_6_total_demand num_in _offset j demand) S * fs
        ≤ demand (i * _offset + j) * fs := mul_le_mul_of_nonneg_right hle hpos.le
      _ = E i := by rw [hdi, div_mul_cancel₀ _ hfs]

/-- C39: when every finished vehicle of the in-links is bound for an out-link
of the node, the out-links are different links with a cell 0 and a supply
that is not negative, the convert factors are at least 1 and the flow scalar
is not 0, then `prepare_supplyANDdemand` returns and, with the flows that FWJ
`compute_flow` computes from its demand and supply, `move_vehicle` returns
for every random source and every shuffle: after each scan `to_move <= 0`, so
that no run reaches the `exit(-1)` of the residual check. -/
theorem move_vehicle_residual_check_never_fires
    (shuffle : Rng → List MNM_Veh_Multiclass → List MNM_Veh_Multiclass × Rng)
    (n : MNM_Dnode_Inout_Multiclass) (g : Rng)
    (hfs : n.m_flow_scalar ≠ 0)
    (hvcf : ∀ l ∈ n.m_in_link_array, 1 ≤ l.m_veh_convert_factor)
    (hsupply : ∀ o ∈ n.m_out_link_array, ∀ s, o.get_link_supply = some s → 0 ≤ s)
    (hids : (n.m_out_link_array.map (fun o => o.m_link_ID)).Nodup)
    (hnext : ∀ l ∈ n.m_in_link_array, ∀ v ∈ l.m_finished_array,
      ∃ o ∈ n.m_out_link_array, v.m_next_link = some o.m_link_ID)
    (hcell : ∀ o ∈ n.m_out_link_array, o.m_cell_array ≠ []) :
    ∃ n1 r, n.prepare_supplyANDdemand = .returned n1 ∧
      (MNM_Dnode_FWJ_Multiclass.compute_flow n1).move_vehicle shuffle g = .returned r ∧
      (∀ s, (MNM_Dnode_FWJ_Multiclass.compute_flow n1).move_vehicle shuffle g ≠ .aborted s) := by
  obtain ⟨demand, supply, h1, h2, h3⟩ := prepare_supplyANDdemand_returned n hnext hcell
  have hret : ∃ r, move_vehicle_out_links shuffle n.m_flow_scalar
      (MNM_Dnode_FWJ_Multiclass.compute_flow
        { n with m_demand := demand, m_supply := supply }).m_veh_flow
      n.m_out_link_array.length 0 [] n.m_out_link_array
      { in_links := n.m_in_link_array, veh_moved_car := n.m_veh_moved_car,
        veh_moved_truck := n.m_veh_moved_truck, rng := g } = .returned r := by
    apply move_vehicle_out_links_returns _ _ _ _ _ _ _ _ hids
    intro m o i l hm hi
    have hilt : i < n.m_in_link_array.length := (List.getElem?_eq_some.mp hi).1
    have hmlt : m < n.m_out_link_array.length := (List.getElem?_eq_some.mp hm).1
    have hflow := compute_flow_entry { n with m_demand := demand, m_supply := supply } i m
      hilt hmlt
    simp only at hflow hi
    rw [zero_add, hflow, ← equiv_count_eq_bound_cost]
    have hs : 0 ≤ supply m := by
      have := h3 m o hm
      exact hsupply o (List.getElem?_mem hm) _ this.symm
    have hbudget := veh_flow_budget n.m_flow_scalar (supply m) n.m_in_link_array.length
      n.m_out_link_array.length m demand
      (fun k => match n.m_in_link_array[k]? with
        | some l1 => equiv_count l1 o
        | none => 0) hfs hs
      (by
        intro k hk
        obtain ⟨l1, hl1⟩ : ∃ l1, n.m_in_link_array[k]? = some l1 :=
          ⟨_, List.getElem?_eq_getElem hk⟩
        simp only [hl1]
        constructor
        · rw [equiv_count_eq_bound_cost]
          exact bound_cost_nonneg _
            (le_trans zero_le_one (hvcf l1 (List.getElem?_mem hl1))) _ _
        · rw [Nat.mul_comm]
          exact h2 k m l1 o hl1 hm)
      i hilt
    simp only [hi] at hbudget
    exact hbudget
  obtain ⟨r, hr⟩ := hret
  have hmove : (MNM_Dnode_FWJ_Multiclass.compute_flow
      { n with m_demand := demand, m_supply := supply }).move_vehicle shuffle g =
      .returned
        ({ MNM_Dnode_FWJ_Multiclass.compute_flow
              { n with m_demand := demand, m_supply := supply } with
            m_in_link_array := r.1.in_links
            m_out_link_array := r.2
            m_veh_moved_car := r.1.veh_moved_car
            m_veh_moved_truck := r.1.veh_moved_truck }, r.1.rng) := by
    unfold MNM_Dnode_Inout_Multiclass.move_vehicle
    have hcf : ∀ n0 : MNM_Dnode_Inout_Multiclass,
        (MNM_Dnode_FWJ_Multiclass.compute_flow n0).m_flow_scalar = n0.m_flow_scalar ∧
        (MNM_Dnode_FWJ_Multiclass.compute_flow n0).m_out_link_array = n0.m_out_link_array ∧
        (MNM_Dnode_FWJ_Multiclass.compute_flow n0).m_in_link_array = n0.m_in_link_array ∧
        (MNM_Dnode_FWJ_Multiclass.compute_flow n0).m_veh_moved_car = n0.m_veh_moved_car ∧
        (MNM_Dnode_FWJ_Multiclass.compute_flow n0).m_veh_moved_truck = n0.m_veh_moved_truck :=
      fun _ => ⟨rfl, rfl, rfl, rfl, rfl⟩
    obtain ⟨c1, c2, c3, c4, c5⟩ := hcf { n with m_demand := demand, m_supply := supply }
    rw [c1, c2, c3, c4, c5]
    simp only
    rw [hr]
    rfl
  refine ⟨_, _, h1, hmove, ?_⟩
  intro s hs
  rw [hmove] at hs
  cases hs

/-- Witness of `move_vehicle_residual_check_never_fires`: for
`junction_2_in_links` the budgets are 6/5 and 9/5 for vehicles of cost 2 and
3, and `move_vehicle` returns. -/
theorem move_vehicle_residual_check_never_fires_witness :
    ∃ n1 r, junction_2_in_links.prepare_supplyANDdemand = .returned n1 ∧
      (MNM_Dnode_FWJ_Multiclass.compute_flow n1).move_vehicle shuffle_keep rng_zero =
        .returned r := by
  obtain ⟨n1, r, h1, h2, _⟩ := move_vehicle_residual_check_never_fires shuffle_keep
    junction_2_in_links rng_zero (by decide!) (by decide!)
    (by
      intro o ho s hs
      simp only [junction_2_in_links, MNM_Dnode_Inout_Multiclass.prepare_loading,
        List.mem_singleton] at ho
      have h3 : (link_100m 3).get_link_supply = some 3 := by decide!
      rw [ho, h3] at hs
      rw [← Option.some.inj hs]
      norm_num)
    (by decide) (by decide) (by decide)
  exact ⟨n1, r, h1, h2⟩

/-! ### The threshold `rho_1_N` -/

/-- C36 (defect of the code): the constructor of the CTM link computes
`rho_1_N = hold_cap_car * wave_speed_car / (ffs_truck + wave_speed_car)` and
notes that it exceeds both critical densities, but no check of the
constructor makes it so. With `ffs_truck = ffs_car = 10` the link is
constructed with `rho_1_N = 3/100`, the critical density of cars; with the
lane flow capacities 3/10 and 29/100 (speeds 10 and 8) it is constructed with
`rho_1_N = 15/416`, less than the critical density of trucks 29/800. For
every constructed link `rho_1_N` exceeds the critical density of cars exactly
when the lane flow capacity of cars is positive and `ffs_truck < ffs_car`,
and the critical density of trucks exactly when `flow_cap_truck * (ffs_truck
+ wave_speed_car) < hold_cap_car * wave_speed_car * ffs_truck`. -/
theorem construct_rho_1_N_not_above_critical_density :
    (MNM_Dlink_Ctm_Multiclass.construct 1 1 100 (3 / 16) (1 / 8) (3 / 10) (1 / 4) 10 10 10 2
          1).constructed?.map
        (fun l => (l.m_lane_rho_1_N, l.m_lane_critical_density_car,
          l.m_lane_critical_density_truck)) = some (3 / 100, 3 / 100, 1 / 40) ∧
      (MNM_Dlink_Ctm_Multiclass.construct 1 1 100 (3 / 16) (1 / 8) (3 / 10) (29 / 100) 10 8 10 2
          1).constructed?.map
        (fun l => (l.m_lane_rho_1_N, l.m_lane_critical_density_car,
          l.m_lane_critical_density_truck)) = some (15 / 416, 3 / 100, 29 / 800) ∧
      (15 / 416 : ℚ) < 29 / 800 ∧
      (∀ (ID : Nat) (number_of_lane : Int)
          (length hc ht fc ft ffs_car ffs_truck unit_time vcf fs : ℚ)
          (l : MNM_Dlink_Ctm_Multiclass),
        MNM_Dlink_Ctm_Multiclass.construct ID number_of_lane length hc ht fc ft ffs_car
            ffs_truck unit_time vcf fs = .constructed l →
          (l.m_lane_critical_density_car < l.m_lane_rho_1_N ↔
              0 < l.m_lane_flow_cap_car ∧ l.m_ffs_truck < l.m_ffs_car) ∧
            (l.m_lane_critical_density_truck < l.m_lane_rho_1_N ↔
              l.m_lane_flow_cap_truck * (l.m_ffs_truck + l.m_wave_speed_car) <
                l.m_lane_hold_cap_car * l.m_wave_speed_car * l.m_ffs_truck)) := by
  refine ⟨by decide!, by decide!, by norm_num, ?_⟩
  intro ID number_of_lane length hc ht fc ft ffs_car ffs_truck unit_time vcf fs l h
  obtain ⟨⟨_, _, b3, _, b5, b6, _, _, b9⟩, h2⟩ :=
    construct_constructed _ _ _ _ _ _ _ _ _ _ _ _ _ h
  obtain ⟨⟨c1, c2, c3, _⟩, ⟨_, _, _, a1, _, a3, a4, a5, a6, _⟩, ⟨d1, d2, d3, _, d5⟩, _⟩ :=
    construct_checked_constructed _ _ _ _ _ _ _ _ _ _ _ _ _ h2
  have hffs_c : 0 < ffs_car := lt_of_le_of_ne b5 (fun e => c1 (by rw [← e, zero_mul]))
  have hffs_t : 0 < ffs_truck := lt_of_le_of_ne b6 (Ne.symm c2)
  have hfc : 0 ≤ min fc (3500 / 3600) := le_min b3 (by norm_num)
  have hD : 0 < min hc (300 / 1600) - min fc (3500 / 3600) / ffs_car := sub_pos.mpr c3
  have hw : 0 ≤ l.m_wave_speed_car := by
    rw [d3]
    exact div_nonneg hfc hD.le
  have hsum : 0 < ffs_truck + l.m_wave_speed_car := by linarith
  have hwD : l.m_wave_speed_car * (min hc (300 / 1600) - min fc (3500 / 3600) / ffs_car) =
      min fc (3500 / 3600) := by
    rw [d3, div_mul_cancel₀ _ hD.ne']
  have hdiff : l.m_lane_rho_1_N - l.m_lane_critical_density_car =
      min fc (3500 / 3600) * (ffs_car - ffs_truck) /
        (ffs_car * (ffs_truck + l.m_wave_speed_car)) := by
    rw [d5, d1, eq_div_iff (mul_pos hffs_c hsum).ne']
    have e1 : min hc (300 / 1600) * (l.m_wave_speed_car / (ffs_truck + l.m_wave_speed_car)) *
        (ffs_truck + l.m_wave_speed_car) = min hc (300 / 1600) * l.m_wave_speed_car := by
      rw [mul_assoc, div_mul_cancel₀ _ hsum.ne']
    have e2 : min fc (3500 / 3600) / ffs_car * ffs_car = min fc (3500 / 3600) :=
      div_mul_cancel₀ _ hffs_c.ne'
    have e3 : l.m_wave_speed_car * (min fc (3500 / 3600) / ffs_car) =
        l.m_wave_speed_car * min hc (300 / 1600) - min fc (3500 / 3600) := by
      linarith [hwD]
    calc (min hc (300 / 1600) * (l.m_wave_speed_car / (ffs_truck + l.m_wave_speed_car)) -
            min fc (3500 / 3600) / ffs_car) * (ffs_car * (ffs_truck + l.m_wave_speed_car))
        = ffs_car * (min hc (300 / 1600) *
              (l.m_wave_speed_car / (ffs_truck + l.m_wave_speed_car)) *
              (ffs_truck + l.m_wave_speed_car)) -
            (min fc (3500 / 3600) / ffs_car * ffs_car) * ffs_truck -
            ffs_car * (l.m_wave_speed_car * (min fc (3500 / 3600) / ffs_car)) := by ring
      _ = min fc (3500 / 3600) * (ffs_car - ffs_truck) := by
        rw [e1, e2, e3]
        ring
  refine ⟨?_, ?_⟩
  swap
  · rw [d2, d5, a1, a4, a6, ← mul_div_assoc, div_lt_div_iff₀ hffs_t hsum]
  rw [a3, a5, a6, ← sub_pos, hdiff, div_pos_iff_of_pos_right (mul_pos hffs_c hsum)]
  constructor
  · intro hpos
    have hfc_pos : 0 < min fc (3500 / 3600) := by
      rcases hfc.lt_or_eq with hlt | heq
      · exact hlt
      · rw [← heq, zero_mul] at hpos
        exact absurd hpos (lt_irrefl 0)
    exact ⟨hfc_pos, by
      have := (mul_pos_iff_of_pos_left hfc_pos).mp hpos
      linarith⟩
  · rintro ⟨k1, k2⟩
    exact mul_pos k1 (by linarith)

/-! ### The fully congested regime -/

/-- C37 (defect of the code): the fully congested branch of
`update_perceived_density` notes that its perceived densities exceed
`rho_1_N` and the critical density of trucks, but the values it computes need
not. The link of 200 m built for jam densities 9/400 and 1/50, flow
capacities 1/5 and 1/10, speeds 10 and 8, `unit_time` 10 and `flow_scalar` 1
receives a car, a car and a truck in three ticks; its cell 0 (densities 1/50
and 1/100, below the jam densities) is then in regime C with the perceived
density of cars 7/480 < `rho_1_N` = 9/440 and the perceived density of trucks
-7/260 < 1/80, the critical density of trucks. In regime C without trucks the
perceived density of cars does exceed `rho_1_N`. -/
theorem regime_C_perceived_density_below_thresholds :
    ((MNM_Dlink_Ctm_Multiclass.construct 1 1 200 (9 / 400) (1 / 50) (1 / 5) (1 / 10)
          10 8 10 2 1).constructed?.bind
        (fun l => (link_run round_half_up 1
            [[car 1 (some 2)], [car 2 (some 2)], [truck 3 (some 2)]] l rng_zero).returned?.map
          (fun s => s.1.m_cell_array.head?.map
            (fun c => (c.m_perceived_density_car, c.m_rho_1_N, c.m_perceived_density_truck,
              c.m_critical_density_truck))))) =
        some (some (7 / 480, 9 / 440, -7 / 260, 1 / 80)) ∧
      ((MNM_Dlink_Ctm_Multiclass.construct 1 1 200 (9 / 400) (1 / 50) (1 / 5) (1 / 10)
          10 8 10 2 1).constructed?.bind
        (fun l => (link_run round_half_up 1
            [[car 1 (some 2)], [car 2 (some 2)], [truck 3 (some 2)]] l rng_zero).returned?.map
          (fun s => s.1.m_cell_array.head?.map
            (fun c => (decide (regime_C c.rho_car c.rho_truck c.m_critical_density_car
                c.m_critical_density_truck c.m_rho_1_N),
              c.rho_car, c.m_hold_cap_car, c.rho_truck, c.m_hold_cap_truck))))) =
        some (some (true, 1 / 50, 9 / 400, 1 / 100, 1 / 50)) ∧
      ((7 / 480 : ℚ) < 9 / 440 ∧ (-7 / 260 : ℚ) < 1 / 80) ∧
      (∀ c c1 : Ctm_Cell_Multiclass,
        ¬ (c.m_flow_scalar = 0 ∨ c.m_cell_length = 0 ∨ c.m_critical_density_car = 0 ∨
          c.m_critical_density_truck = 0) →
        regime_C c.rho_car c.rho_truck c.m_critical_density_car c.m_critical_density_truck
          c.m_rho_1_N →
        c.m_volume_truck = 0 → c.update_perceived_density = some c1 →
        c.m_rho_1_N < c1.m_perceived_density_car) := by
  refine ⟨by decide!, by decide!, by norm_num, ?_⟩
  intro c c1 h0 hC hvt hupd
  obtain ⟨_, _, bC⟩ := update_perceived_density_branches c h0
  rw [((bC hC) c1 hupd).1 hvt]
  show c.m_rho_1_N < c.rho_car
  have hrt : c.rho_truck = 0 := by
    simp [Ctm_Cell_Multiclass.rho_truck, section_4_1_rho, hvt]
  have hB := hC.2
  rw [regime_B, hrt] at hB
  simp only [zero_div, zero_lt_one, sub_zero, div_one, true_and, not_le] at hB
  exact hB

/-! ### The out counts and the volumes of a cell -/

/-- The flux `space_fraction * min(demand, supply)` of a class is at least 0
and at most `ffs * rho * unit_time` when the product of the space fraction
and the perceived density lies between 0 and the density `rho` and a space
fraction that is not negative goes with a perceived density that is not
negative. -/
theorem out_flux_bounds (s p rho fc ffs ut sup : ℚ) (hfc : 0 ≤ fc) (hffs : 0 ≤ ffs)
    (hut : 0 ≤ ut) (hsup : 0 ≤ sup) (hsp0 : 0 ≤ s * p) (hsp : s * p ≤ rho)
    (hsign : 0 ≤ s → 0 ≤ p) :
    0 ≤ s * min (section_4_2_demand fc ffs p ut) sup ∧
      s * min (section_4_2_demand fc ffs p ut) sup ≤ ffs * rho * ut := by
  unfold section_4_2_demand
  have hup : ffs * (s * p) * ut ≤ ffs * rho * ut :=
    mul_le_mul_of_nonneg_right (mul_le_mul_of_nonneg_left hsp hffs) hut
  have hlow : 0 ≤ ffs * (s * p) * ut := mul_nonneg (mul_nonneg hffs hsp0) hut
  rcases le_or_lt 0 s with hs | hs
  · have hp := hsign hs
    have hdem : 0 ≤ min fc (ffs * p) * ut := mul_nonneg (le_min hfc (mul_nonneg hffs hp)) hut
    refine ⟨mul_nonneg hs (le_min hdem hsup), ?_⟩
    calc s * min (min fc (ffs * p) * ut) sup
        ≤ s * (min fc (ffs * p) * ut) := mul_le_mul_of_nonneg_left (min_le_left _ _) hs
      _ ≤ s * (ffs * p * ut) :=
        mul_le_mul_of_nonneg_left (mul_le_mul_of_nonneg_right (min_le_right _ _) hut) hs
      _ = ffs * (s * p) * ut := by ring
      _ ≤ ffs * rho * ut := hup
  · have hp : p ≤ 0 := by
      by_contra hcon
      have := mul_neg_of_neg_of_pos hs (not_le.mp hcon)
      linarith
    have hmin : min fc (ffs * p) = ffs * p :=
      min_eq_right (le_trans (mul_nonpos_of_nonneg_of_nonpos hffs hp) hfc)
    have hdem : ffs * p * ut ≤ 0 :=
      mul_nonpos_of_nonpos_of_nonneg (mul_nonpos_of_nonneg_of_nonpos hffs hp) hut
    rw [hmin, min_eq_left (le_trans hdem hsup)]
    have e : s * (ffs * p * ut) = ffs * (s * p) * ut := by ring
    rw [e]
    exact ⟨hlow, hup⟩

/-- The space fractions and perceived densities of section 4.1 of a cell with
volumes that are not negative: for each class their product lies between 0
and the density of the class, and a space fraction that is not negative goes
with a perceived density that is not negative. -/
theorem section_4_1_products (c : Ctm_Cell_Multiclass) (sf_c sf_t : ℚ)
    (hfs : 0 < c.m_flow_scalar) (hlen : 0 < c.m_cell_length)
    (hcar : 0 < c.m_critical_density_car) (htruck : 0 < c.m_critical_density_truck)
    (hvc : 0 ≤ c.m_volume_car) (hvt : 0 ≤ c.m_volume_truck)
    (hsf : c.section_4_1_space_fraction = some (sf_c, sf_t)) :
    (0 ≤ sf_c * c.section_4_1_perceived.1 ∧ sf_c * c.section_4_1_perceived.1 ≤ c.rho_car ∧
        (0 ≤ sf_c → 0 ≤ c.section_4_1_perceived.1)) ∧
      (0 ≤ sf_t * c.section_4_1_perceived.2 ∧ sf_t * c.section_4_1_perceived.2 ≤ c.rho_truck ∧
        (0 ≤ sf_t → 0 ≤ c.section_4_1_perceived.2)) := by
  have hrc : 0 ≤ c.rho_car := by
    unfold Ctm_Cell_Multiclass.rho_car section_4_1_rho
    exact div_nonneg (by exact_mod_cast hvc) (mul_nonneg hfs.le hlen.le)
  have hrt : 0 ≤ c.rho_truck := by
    unfold Ctm_Cell_Multiclass.rho_truck section_4_1_rho
    exact div_nonneg (by exact_mod_cast hvt) (mul_nonneg hfs.le hlen.le)
  have hquot : ∀ rho s : ℚ, 0 ≤ rho →
      0 ≤ s * (rho / s) ∧ s * (rho / s) ≤ rho ∧ (0 ≤ s → 0 ≤ rho / s) := by
    intro rho s hrho
    refine ⟨?_, ?_, fun hs => div_nonneg hrho hs⟩
    · by_cases h0 : s = 0
      · rw [h0, zero_mul]
      · rw [mul_div_cancel₀ _ h0]
        exact hrho
    · by_cases h0 : s = 0
      · rw [h0, zero_mul]
        exact hrho
      · rw [mul_div_cancel₀ _ h0]
  unfold Ctm_Cell_Multiclass.section_4_1_space_fraction at hsf
  unfold Ctm_Cell_Multiclass.section_4_1_perceived MacPosts.section_4_1_perceived
  by_cases hA : regime_A c.rho_car c.rho_truck c.m_critical_density_car
      c.m_critical_density_truck
  · rw [if_pos hA] at hsf ⊢
    simp only [Option.some.injEq, Prod.mk.injEq] at hsf
    obtain ⟨e1, e2⟩ := hsf
    rw [← e1, ← e2]
    have hqc : 0 ≤ c.rho_car / c.m_critical_density_car := div_nonneg hrc hcar.le
    have hqt : 0 ≤ c.rho_truck / c.m_critical_density_truck := div_nonneg hrt htruck.le
    have hpc : c.rho_car / c.m_critical_density_car *
        (c.rho_car + c.m_critical_density_car * (c.rho_truck / c.m_critical_density_truck)) =
        c.rho_car * (c.rho_car / c.m_critical_density_car +
          c.rho_truck / c.m_critical_density_truck) := by
      have e : c.rho_car / c.m_critical_density_car * c.m_critical_density_car = c.rho_car :=
        div_mul_cancel₀ _ hcar.ne'
      calc c.rho_car / c.m_critical_density_car *
            (c.rho_car + c.m_critical_density_car * (c.rho_truck / c.m_critical_density_truck))
          = c.rho_car / c.m_critical_density_car * c.rho_car +
              (c.rho_car / c.m_critical_density_car * c.m_critical_density_car) *
                (c.rho_truck / c.m_critical_density_truck) := by ring
        _ = c.rho_car * (c.rho_car / c.m_critical_density_car +
              c.rho_truck / c.m_critical_density_truck) := by rw [e]; ring
    have hpt : c.rho_truck / c.m_critical_density_truck *
        (c.rho_truck + c.m_critical_density_truck * (c.rho_car / c.m_critical_density_car)) =
        c.rho_truck * (c.rho_car / c.m_critical_density_car +
          c.rho_truck / c.m_critical_density_truck) := by
      have e : c.rho_truck / c.m_critical_density_truck * c.m_critical_density_truck =
          c.rho_truck := div_mul_cancel₀ _ htruck.ne'
      calc c.rho_truck / c.m_critical_density_truck *
            (c.rho_truck + c.m_critical_density_truck * (c.rho_car / c.m_critical_density_car))
          = c.rho_truck / c.m_critical_density_truck * c.rho_truck +
              (c.rho_truck / c.m_critical_density_truck * c.m_critical_density_truck) *
                (c.rho_car / c.m_critical_density_car) := by ring
        _ = c.rho_truck * (c.rho_car / c.m_critical_density_car +
              c.rho_truck / c.m_critical_density_truck) := by rw [e]; ring
    have hsum0 : 0 ≤ c.rho_car / c.m_critical_density_car +
        c.rho_truck / c.m_critical_density_truck := add_nonneg hqc hqt
    refine ⟨⟨?_, ?_, fun _ => ?_⟩, ⟨?_, ?_, fun _ => ?_⟩⟩
    · rw [hpc]
      exact mul_nonneg hrc hsum0
    · rw [hpc]
      calc c.rho_car * (c.rho_car / c.m_critical_density_car +
            c.rho_truck / c.m_critical_density_truck) ≤ c.rho_car * 1 :=
            mul_le_mul_of_nonneg_left hA hrc
        _ = c.rho_car := mul_one _
    · exact add_nonneg hrc (mul_nonneg hcar.le hqt)
    · rw [hpt]
      exact mul_nonneg hrt hsum0
    · rw [hpt]
      calc c.rho_truck * (c.rho_car / c.m_critical_density_car +
            c.rho_truck / c.m_critical_density_truck) ≤ c.rho_truck * 1 :=
            mul_le_mul_of_nonneg_left hA hrt
        _ = c.rho_truck := mul_one _
    · exact add_nonneg hrt (mul_nonneg htruck.le hqc)
  · rw [if_neg hA] at hsf ⊢
    by_cases hB : regime_B c.rho_car c.rho_truck c.m_critical_density_truck c.m_rho_1_N
    · rw [if_pos hB] at hsf ⊢
      simp only [Option.some.injEq, Prod.mk.injEq] at hsf
      obtain ⟨e1, e2⟩ := hsf
      rw [← e1, ← e2]
      refine ⟨hquot _ _ hrc, ?_, ?_, fun _ => htruck.le⟩
      · exact mul_nonneg (div_nonneg hrt htruck.le) htruck.le
      · rw [div_mul_cancel₀ _ htruck.ne']
    · rw [if_neg hB] at hsf ⊢
      by_cases hv : c.m_volume_truck = 0
      · rw [if_pos hv] at hsf
        cases hsf
      · rw [if_neg hv] at hsf ⊢
        simp only [Option.some.injEq, Prod.mk.injEq] at hsf
        obtain ⟨e1, e2⟩ := hsf
        rw [← e1, ← e2]
        exact ⟨hquot _ _ hrc, hquot _ _ hrt⟩

/-- The density of a class times the flow scalar and the length of the cell
is the volume of the class. -/
theorem section_4_1_rho_mul (volume : Int) (fs len : ℚ) (hfs : 0 < fs) (hlen : 0 < len) :
    section_4_1_rho volume fs len * len * fs = (volume : ℚ) := by
  unfold section_4_1_rho
  field_simp
  ring

/-- A pop of at most as many vehicles as the queue holds succeeds. -/
theorem move_veh_queue_some :
    ∀ (k : Nat) (from_queue to_queue : List MNM_Veh_Multiclass), k ≤ from_queue.length →
      ∃ r, move_veh_queue k from_queue to_queue = some r := by
  intro k
  induction k with
  | zero => intro f t _; exact ⟨_, rfl⟩
  | succ k ih =>
    intro f t h
    cases f with
    | nil => simp at h
    | cons v rest =>
      rw [move_veh_queue]
      exact ih rest _ (by simpa using h)

/-- C40: for a link with its `m_num_cells` cells and a cell i other than the
last of standard length (`cell_length = ffs_car * unit_time`,
`ffs_truck <= ffs_car`) whose perceived densities and space fractions are the
values of section 4.1 for its volumes (flow scalar, unit time, speed of cars
and critical densities positive, flow capacities and volumes not negative),
with a `round` that is monotone and keeps integers, the out counts that
`update_out_veh` computes for the cell satisfy
`0 <= out_veh_x[i] <= volume_x[i]` for each class; so, the volumes being the
lengths of the queues, `evolve` pops no more vehicles from a queue of the
cell than it holds. -/
theorem update_out_veh_within_volume (round : ℚ → Int) (l : MNM_Dlink_Ctm_Multiclass)
    (i : Nat) (ci cj : Ctm_Cell_Multiclass)
    (hmono : ∀ x y : ℚ, x ≤ y → round x ≤ round y) (hint : ∀ k : Int, round (k : ℚ) = k)
    (hcells : (l.m_cell_array.length : Int) = l.m_num_cells)
    (hi : i + 1 < l.m_cell_array.length)
    (hci : l.m_cell_array[i]? = some ci) (hcj : l.m_cell_array[i + 1]? = some cj)
    (hfs : 0 < ci.m_flow_scalar) (hlfs : l.m_flow_scalar = ci.m_flow_scalar)
    (hut : 0 < ci.m_unit_time) (hffs : 0 < ci.m_ffs_car)
    (hstd : ci.m_cell_length = ci.m_ffs_car * ci.m_unit_time)
    (hffs_t : 0 ≤ ci.m_ffs_truck ∧ ci.m_ffs_truck ≤ ci.m_ffs_car)
    (hfc : 0 ≤ ci.m_flow_cap_car ∧ 0 ≤ ci.m_flow_cap_truck)
    (hcrit : 0 < ci.m_critical_density_car ∧ 0 < ci.m_critical_density_truck)
    (hvol : 0 ≤ ci.m_volume_car ∧ 0 ≤ ci.m_volume_truck)
    (hutj : 0 ≤ cj.m_unit_time)
    (hpd : ci.section_4_1_perceived =
      (ci.m_perceived_density_car, ci.m_perceived_density_truck))
    (hsf : ci.section_4_1_space_fraction =
      some (ci.m_space_fraction_car, ci.m_space_fraction_truck)) :
    ∃ l1 c1, l.update_out_veh round = some l1 ∧ l1.m_cell_array[i]? = some c1 ∧
      c1.m_veh_queue_car = ci.m_veh_queue_car ∧ c1.m_veh_queue_truck = ci.m_veh_queue_truck ∧
      (0 ≤ c1.m_out_veh_car ∧ c1.m_out_veh_car ≤ ci.m_volume_car) ∧
      (0 ≤ c1.m_out_veh_truck ∧ c1.m_out_veh_truck ≤ ci.m_volume_truck) ∧
      (ci.m_volume_car = (ci.m_veh_queue_car.length : Int) →
        ∃ r, move_veh_queue c1.m_out_veh_car.toNat c1.m_veh_queue_car cj.m_veh_queue_car =
          some r) ∧
      (ci.m_volume_truck = (ci.m_veh_queue_truck.length : Int) →
        ∃ r, move_veh_queue c1.m_out_veh_truck.toNat c1.m_veh_queue_truck
          cj.m_veh_queue_truck = some r) := by
  have hlen : 0 < ci.m_cell_length := by
    rw [hstd]
    exact mul_pos hffs hut
  obtain ⟨l1, h1, _, _, h4, _⟩ := update_out_veh_spec round l hcells (by omega)
  have hc1 := h4 i ci cj hi hci hcj
  obtain ⟨⟨pc0, pc1, pc2⟩, ⟨pt0, pt1, pt2⟩⟩ :=
    section_4_1_products ci _ _ hfs hlen hcrit.1 hcrit.2 hvol.1 hvol.2 hsf
  rw [hpd] at pc0 pc1 pc2 pt0 pt1 pt2
  simp only at pc0 pc1 pc2 pt0 pt1 pt2
  have hsup : ∀ fc w hold pd : ℚ, 0 ≤ section_4_2_supply fc w hold pd cj.m_unit_time := by
    intro fc w hold pd
    unfold section_4_2_supply
    exact mul_nonneg (le_max_left _ _) hutj
  obtain ⟨fc0, fc1⟩ := out_flux_bounds ci.m_space_fraction_car ci.m_perceived_density_car
    ci.rho_car ci.m_flow_cap_car ci.m_ffs_car ci.m_unit_time
    (section_4_2_supply cj.m_flow_cap_car cj.m_wave_speed_car cj.m_hold_cap_car
      cj.m_perceived_density_car cj.m_unit_time)
    hfc.1 hffs.le hut.le (hsup _ _ _ _) pc0 pc1 pc2
  obtain ⟨ft0, ft1⟩ := out_flux_bounds ci.m_space_fraction_truck ci.m_perceived_density_truck
    ci.rho_truck ci.m_flow_cap_truck ci.m_ffs_truck ci.m_unit_time
    (section_4_2_supply cj.m_flow_cap_truck cj.m_wave_speed_truck cj.m_hold_cap_truck
      cj.m_perceived_density_truck cj.m_unit_time)
    hfc.2 hffs_t.1 hut.le (hsup _ _ _ _) pt0 pt1 pt2
  have hrt : 0 ≤ ci.rho_truck := by
    unfold Ctm_Cell_Multiclass.rho_truck section_4_1_rho
    exact div_nonneg (by exact_mod_cast hvol.2) (mul_nonneg hfs.le hlen.le)
  have hcar_up : ci.m_ffs_car * ci.rho_car * ci.m_unit_time * ci.m_flow_scalar =
      (ci.m_volume_car : ℚ) := by
    have := section_4_1_rho_mul ci.m_volume_car ci.m_flow_scalar ci.m_cell_length hfs hlen
    rw [hstd] at this
    rw [← this]
    unfold Ctm_Cell_Multiclass.rho_car
    rw [hstd]
    ring
  have htruck_up : ci.m_ffs_truck * ci.rho_truck * ci.m_unit_time * ci.m_flow_scalar ≤
      (ci.m_volume_truck : ℚ) := by
    have := section_4_1_rho_mul ci.m_volume_truck ci.m_flow_scalar ci.m_cell_length hfs hlen
    rw [hstd] at this
    rw [← this]
    unfold Ctm_Cell_Multiclass.rho_truck
    rw [hstd]
    have e : section_4_1_rho ci.m_volume_truck ci.m_flow_scalar
          (ci.m_ffs_car * ci.m_unit_time) * (ci.m_ffs_car * ci.m_unit_time) *
          ci.m_flow_scalar =
        ci.m_ffs_car * section_4_1_rho ci.m_volume_truck ci.m_flow_scalar
          (ci.m_ffs_car * ci.m_unit_time) * ci.m_unit_time * ci.m_flow_scalar := by ring
    rw [e]
    have hr : 0 ≤ section_4_1_rho ci.m_volume_truck ci.m_flow_scalar
        (ci.m_ffs_car * ci.m_unit_time) := by
      rw [← hstd]
      exact hrt
    exact mul_le_mul_of_nonneg_right
      (mul_le_mul_of_nonneg_right (mul_le_mul_of_nonneg_right hffs_t.2 hr) hut.le) hfs.le
  have hround : ∀ (x : ℚ) (v : Int), 0 ≤ x → x ≤ (v : ℚ) → 0 ≤ round x ∧ round x ≤ v := by
    intro x v hx0 hxv
    constructor
    · have := hmono 0 x hx0
      rw [show (0 : ℚ) = ((0 : Int) : ℚ) by norm_num, hint] at this
      exact this
    · have := hmono x v hxv
      rw [hint] at this
      exact this
  have hcar : 0 ≤ (ci.section_4_3_out round l.m_flow_scalar cj).m_out_veh_car ∧
      (ci.section_4_3_out round l.m_flow_scalar cj).m_out_veh_car ≤ ci.m_volume_car := by
    simp only [Ctm_Cell_Multiclass.section_4_3_out, section_4_3_out_veh, hlfs]
    apply hround
    · exact mul_nonneg fc0 hfs.le
    · rw [← hcar_up]
      exact mul_le_mul_of_nonneg_right fc1 hfs.le
  have htruck : 0 ≤ (ci.section_4_3_out round l.m_flow_scalar cj).m_out_veh_truck ∧
      (ci.section_4_3_out round l.m_flow_scalar cj).m_out_veh_truck ≤ ci.m_volume_truck := by
    simp only [Ctm_Cell_Multiclass.section_4_3_out, section_4_3_out_veh, hlfs]
    apply hround
    · exact mul_nonneg ft0 hfs.le
    · exact le_trans (mul_le_mul_of_nonneg_right ft1 hfs.le) htruck_up
  refine ⟨l1, _, h1, hc1, rfl, rfl, hcar, htruck, ?_, ?_⟩
  · intro hq
    apply move_veh_queue_some
    have h2 := hcar.2
    rw [hq] at h2
    show (ci.section_4_3_out round l.m_flow_scalar cj).m_out_veh_car.toNat ≤
      ci.m_veh_queue_car.length
    omega
  · intro hq
    apply move_veh_queue_some
    have h2 := htruck.2
    rw [hq] at h2
    show (ci.section_4_3_out round l.m_flow_scalar cj).m_out_veh_truck.toNat ≤
      ci.m_veh_queue_truck.length
    omega

/-- The rounding to the nearest integer, halves up, is monotone and keeps
the integers. -/
theorem round_half_up_spec :
    (∀ x y : ℚ, x ≤ y → round_half_up x ≤ round_half_up y) ∧
      ∀ k : Int, round_half_up (k : ℚ) = k := by
  constructor
  · intro x y h
    show ⌊x + 1 / 2⌋ ≤ ⌊y + 1 / 2⌋
    exact Int.floor_le_floor (by linarith)
  · intro k
    unfold round_half_up
    rw [Int.floor_int_add]
    norm_num

/-- Witness of `update_out_veh_within_volume`: cell 0 of `link_200m_2_cars`
holds 2 cars in regime A; its out counts are 1 and 0. -/
theorem update_out_veh_within_volume_witness :
    ∃ l1 c1, link_200m_2_cars.update_out_veh round_half_up = some l1 ∧
      l1.m_cell_array[0]? = some c1 ∧
      (0 ≤ c1.m_out_veh_car ∧ c1.m_out_veh_car ≤ 2) ∧
      (0 ≤ c1.m_out_veh_truck ∧ c1.m_out_veh_truck ≤ 0) ∧
      (link_200m_2_cars.update_out_veh round_half_up).map
          (fun l => l.m_cell_array.map
            (fun c => (c.m_out_veh_car, c.m_volume_car, c.m_out_veh_truck, c.m_volume_truck))) =
        some [(1, 2, 0, 0), (0, 0, 0, 0)] := by
  obtain ⟨l1, c1, h1, h2, _, _, h5, h6, _⟩ :=
    update_out_veh_within_volume round_half_up link_200m_2_cars 0 _ _
      round_half_up_spec.1 round_half_up_spec.2 (by decide) (by decide) rfl rfl
      (by decide!) (by decide!) (by decide!) (by decide!) (by decide!) (by decide!)
      (by decide!) (by decide!) (by decide!) (by decide!) (by decide!) (by decide!)
  exact ⟨l1, c1, h1, h2, h5, h6, by decide!⟩

end MacPosts
